import Mathlib

/-!
# DEQNA / DELQA Ethernet controller: register and descriptor protocol engine

A shallow embedding of the protocol engine of `src/PDP11/pdp11_xq.cpp` together with the
Read Queue of `src/sim_ether.cpp`, in the multiprocessor (`VM_VAX_MP`), non-PDP-11 build.

Conventions of the embedding.

* `uint16` and `uint32` objects are natural numbers; every operation that can leave the
  range is followed by an explicit reduction (`u16`, `u32`).  Statistics counters and the
  length fields of a packet (`int` in the source) are natural numbers.
* A C array is a list; reading index `i` is `getD i 0`.
* The locks of the source protect the shared interrupt counter against other threads; a
  function of the embedding is one critical section, so lock operations have no counterpart.
* Loops without a bound in the source (`while (1)`) take a fuel argument; running out of
  fuel is `none`, and is never confused with a return of the function.
* `sim_debug` tracing has no effect on the state and is omitted.
-/

namespace XQ

/-! ## Machine words -/

/-- Conversion of an integer value to `uint16`. -/
def u16 (x : Nat) : Nat := x % 65536

/-- Conversion of an integer value to `uint32`. -/
def u32 (x : Nat) : Nat := x % 4294967296

/-- The word `~x` for a `uint16` operand `x`, as a 16-bit value. -/
def not16 (x : Nat) : Nat := 65535 - x % 65536

/-- Status `SCPE_OK` of the simulator control package. -/
def SCPE_OK : Nat := 0

/-! ## Constants of `pdp11_xq.h` and `sim_ether.h` -/

/-- Modelled from the spec: macro `XQ_CSR_RE` of `pdp11_xq.h`, which is not among the
sources; receiver enable, bit 0, the position of `RE` in `xq_csr_bits` (pdp11_xq.cpp:547). -/
def XQ_CSR_RE : Nat := 0x0001
/-- Modelled from the spec: macro `XQ_CSR_SR` of `pdp11_xq.h`; software reset, bit 1 of
`xq_csr_bits`. -/
def XQ_CSR_SR : Nat := 0x0002
/-- Modelled from the spec: macro `XQ_CSR_NI` of `pdp11_xq.h`; non-existent memory, bit 2 of
`xq_csr_bits`. -/
def XQ_CSR_NI : Nat := 0x0004
/-- Modelled from the spec: macro `XQ_CSR_BD` of `pdp11_xq.h`; boot/diagnostic ROM, bit 3 of
`xq_csr_bits`. -/
def XQ_CSR_BD : Nat := 0x0008
/-- Modelled from the spec: macro `XQ_CSR_XL` of `pdp11_xq.h`; transmit list invalid, bit 4
of `xq_csr_bits`. -/
def XQ_CSR_XL : Nat := 0x0010
/-- Modelled from the spec: macro `XQ_CSR_RL` of `pdp11_xq.h`; receive list invalid, bit 5 of
`xq_csr_bits`. -/
def XQ_CSR_RL : Nat := 0x0020
/-- Modelled from the spec: macro `XQ_CSR_IE` of `pdp11_xq.h`; interrupt enable, bit 6 of
`xq_csr_bits`. -/
def XQ_CSR_IE : Nat := 0x0040
/-- Modelled from the spec: macro `XQ_CSR_XI` of `pdp11_xq.h`; transmit interrupt request,
bit 7 of `xq_csr_bits`. -/
def XQ_CSR_XI : Nat := 0x0080
/-- Modelled from the spec: macro `XQ_CSR_IL` of `pdp11_xq.h`; internal loopback, bit 8 of
`xq_csr_bits`. -/
def XQ_CSR_IL : Nat := 0x0100
/-- Modelled from the spec: macro `XQ_CSR_EL` of `pdp11_xq.h`; external loopback, bit 9 of
`xq_csr_bits`. -/
def XQ_CSR_EL : Nat := 0x0200
/-- Modelled from the spec: macro `XQ_CSR_SE` of `pdp11_xq.h`; sanity timer enable, bit 10 of
`xq_csr_bits`. -/
def XQ_CSR_SE : Nat := 0x0400
/-- Modelled from the spec: macro `XQ_CSR_RR` of `pdp11_xq.h`; reserved, bit 11 of
`xq_csr_bits`. -/
def XQ_CSR_RR : Nat := 0x0800
/-- Modelled from the spec: macro `XQ_CSR_OK` of `pdp11_xq.h`; transceiver power, bit 12 of
`xq_csr_bits`. -/
def XQ_CSR_OK : Nat := 0x1000
/-- Modelled from the spec: macro `XQ_CSR_CA` of `pdp11_xq.h`; carrier, bit 13 of
`xq_csr_bits`. -/
def XQ_CSR_CA : Nat := 0x2000
/-- Modelled from the spec: macro `XQ_CSR_PE` of `pdp11_xq.h`; parity error, bit 14 of
`xq_csr_bits`. -/
def XQ_CSR_PE : Nat := 0x4000
/-- Modelled from the spec: macro `XQ_CSR_RI` of `pdp11_xq.h`; receive interrupt request,
bit 15 of `xq_csr_bits`. -/
def XQ_CSR_RI : Nat := 0x8000

/-- Modelled from the spec: macro `XQ_CSR_RW` of `pdp11_xq.h`, the read/write bits of the
CSR ("set-if-writable"): RE, SR, BD, IE, IL, EL, SE. -/
def XQ_CSR_RW : Nat := 0x074B
/-- Modelled from the spec: macro `XQ_CSR_W1` of `pdp11_xq.h`, the write-one-to-clear bits
of the CSR: RI and XI. -/
def XQ_CSR_W1 : Nat := 0x8080
/-- Modelled from the spec: macro `XQ_CSR_XIRI` of `pdp11_xq.h`, the transmit and receive
interrupt request bits XI and RI. -/
def XQ_CSR_XIRI : Nat := 0x8080

/-- Modelled from the spec: macro `XQ_SRR_FES` of `pdp11_xq.h`; fatal error summary, bit 15,
the position of `FES` in `xq_srr_bits` (pdp11_xq.cpp:557). -/
def XQ_SRR_FES : Nat := 0x8000
/-- Modelled from the spec: macro `XQ_SRR_NXM` of `pdp11_xq.h`; non-existent memory, bit 12,
the position of `NXM` in `xq_srr_bits`. -/
def XQ_SRR_NXM : Nat := 0x1000

/-- Modelled from the spec: macro `XQ_DSC_V` of `pdp11_xq.h`; valid bit of the flag word of
a classic buffer descriptor. -/
def XQ_DSC_V : Nat := 0x8000
/-- Modelled from the spec: macro `XQ_DSC_C` of `pdp11_xq.h`; chain bit of the flag word. -/
def XQ_DSC_C : Nat := 0x4000
/-- Modelled from the spec: macro `XQ_DSC_E` of `pdp11_xq.h`; end-of-message bit of the flag
word. -/
def XQ_DSC_E : Nat := 0x2000
/-- Modelled from the spec: macro `XQ_DSC_S` of `pdp11_xq.h`; setup bit of the flag word. -/
def XQ_DSC_S : Nat := 0x1000
/-- Modelled from the spec: macro `XQ_DSC_L` of `pdp11_xq.h`; odd-trim bit "low byte only"
(the buffer ends on a low byte). -/
def XQ_DSC_L : Nat := 0x0080
/-- Modelled from the spec: macro `XQ_DSC_H` of `pdp11_xq.h`; odd-trim bit "high byte only"
(the buffer starts on a high byte). -/
def XQ_DSC_H : Nat := 0x0040

/-- Minimum ethernet packet size (sim_ether.h:137). -/
def ETH_MIN_PACKET : Nat := 60
/-- Maximum ethernet packet size (sim_ether.h:138). -/
def ETH_MAX_PACKET : Nat := 1514
/-- Ethernet CRC size (sim_ether.h:141). -/
def ETH_CRC_SIZE : Nat := 4
/-- Ethernet maximum frame size (sim_ether.h:142), the size of `eth_packet.msg`. -/
def ETH_FRAME_SIZE : Nat := ETH_MAX_PACKET + ETH_CRC_SIZE

/-- Modelled from the spec: the enumeration of controller types and modes of `pdp11_xq.h`
(legacy / compatible / turbo-capable). -/
inductive xq_type where
  | XQ_T_DEQNA
  | XQ_T_DELQA
  | XQ_T_DELQA_PLUS
  deriving DecidableEq

open xq_type

/-! ## Data model -/

/-- A descriptor buffer `uint16 rbdl_buf[6]` or `xbdl_buf[6]`: the six words of a classic
buffer descriptor. -/
structure bdl_buf where
  w0 : Nat := 0
  w1 : Nat := 0
  w2 : Nat := 0
  w3 : Nat := 0
  w4 : Nat := 0
  w5 : Nat := 0
  deriving DecidableEq

/-- The word `buf[k]`. -/
def bdl_buf.get (b : bdl_buf) : Nat → Nat
  | 0 => b.w0
  | 1 => b.w1
  | 2 => b.w2
  | 3 => b.w3
  | 4 => b.w4
  | 5 => b.w5
  | _ => 0

/-- The buffer after `buf[k] = x`. -/
def bdl_buf.set (b : bdl_buf) (k x : Nat) : bdl_buf :=
  match k with
  | 0 => { b with w0 := x }
  | 1 => { b with w1 := x }
  | 2 => { b with w2 := x }
  | 3 => { b with w3 := x }
  | 4 => { b with w4 := x }
  | 5 => { b with w5 := x }
  | _ => b

/-- The structure `eth_packet` (sim_ether.h:171). -/
structure eth_packet where
  msg : List Nat := []
  len : Nat := 0
  used : Nat := 0
  status : Nat := 0
  crc_len : Nat := 0
  deriving DecidableEq

/-- The structure `eth_item` (sim_ether.h:179); `type` is 0 = setup, 1 = loopback,
2 = normal. -/
structure eth_item where
  type : Nat := 0
  packet : eth_packet := {}
  deriving DecidableEq

/-- The structure `eth_queue` (sim_ether.h:184).  `tail` is an integer because
`ethq_insert_data` sets it to -1. -/
structure eth_queue where
  max : Nat := 0
  count : Nat := 0
  head : Nat := 0
  tail : Int := 0
  loss : Nat := 0
  high : Nat := 0
  item : List eth_item := []
  deriving DecidableEq

/-- Modelled from the spec: the statistics counters `struct xq_stats` of `pdp11_xq.h`. -/
structure xq_stats where
  recv : Nat := 0
  dropped : Nat := 0
  xmit : Nat := 0
  fail : Nat := 0
  runt : Nat := 0
  reset : Nat := 0
  giant : Nat := 0
  setup : Nat := 0
  loop : Nat := 0
  deriving DecidableEq

/-- Modelled from the spec: the setup state `struct xq_setup` of `pdp11_xq.h`. -/
structure xq_setup where
  valid : Nat := 0
  promiscuous : Nat := 0
  multicast : Nat := 0
  l1 : Nat := 0
  l2 : Nat := 0
  l3 : Nat := 0
  sanity_timer : Nat := 0
  macs : List (List Nat) := []
  deriving DecidableEq

/-- Modelled from the spec: the sanity timer state `struct xq_sanity` of `pdp11_xq.h`. -/
structure xq_sanity where
  enabled : Nat := 0
  quarter_secs : Int := 0
  timer : Int := 0
  deriving DecidableEq

/-- Modelled from the spec: the initialization block of turbo mode, `struct
xq_turbo_init_block` of `pdp11_xq.h` ("mode flags, physical address, 8-byte multicast hash,
option flags, interrupt vector, host-inactivity timeout (seconds), boot password,
receive-ring and transmit-ring base addresses"); the addresses and the hash are byte
arrays, the other members are `uint16`. -/
structure xq_turbo_init_block where
  mode : Nat := 0
  phys : List Nat := [0, 0, 0, 0, 0, 0]
  hash_filter : List Nat := [0, 0, 0, 0, 0, 0, 0, 0]
  options : Nat := 0
  vector : Nat := 0
  hit_timeout : Nat := 0
  bootpassword : List Nat := [0, 0, 0, 0, 0, 0]
  rdra_l : Nat := 0
  rdra_h : Nat := 0
  tdra_l : Nat := 0
  tdra_h : Nat := 0
  deriving DecidableEq

/-- Modelled from the spec: an entry of the receive ring of turbo mode, `struct
receive_buffer_descriptor` of `pdp11_xq.h` ("address split (low/high), length/flags word,
status word, and an ownership+end-of-ring word"): eight `uint16` members, of which the
source writes the first four back to the guest (pdp11_xq.cpp:1786). -/
structure receive_buffer_descriptor where
  rmd0 : Nat := 0
  rmd1 : Nat := 0
  rmd2 : Nat := 0
  rmd3 : Nat := 0
  ladr : Nat := 0
  hadr : Nat := 0
  hostuse1 : Nat := 0
  hostuse2 : Nat := 0
  deriving DecidableEq

/-- Modelled from the spec: an entry of the transmit ring of turbo mode, `struct
transmit_buffer_descriptor` of `pdp11_xq.h`: eight `uint16` members, of which the source
writes the first four back to the guest (pdp11_xq.cpp:1892). -/
structure transmit_buffer_descriptor where
  tmd0 : Nat := 0
  tmd1 : Nat := 0
  tmd2 : Nat := 0
  tmd3 : Nat := 0
  ladr : Nat := 0
  hadr : Nat := 0
  hostuse1 : Nat := 0
  hostuse2 : Nat := 0
  deriving DecidableEq

/-- Modelled from the spec: macro `XQ_TURBO_RC_BCNT` of `pdp11_xq.h`, the number of entries
of the receive ring ("entry counts are fixed"). -/
def XQ_TURBO_RC_BCNT : Nat := 32

/-- Modelled from the spec: macro `XQ_TURBO_XM_BCNT` of `pdp11_xq.h`, the number of entries
of the transmit ring. -/
def XQ_TURBO_XM_BCNT : Nat := 12

/-- Modelled from the spec: the per-controller state `struct xq_device` of `pdp11_xq.h`
(the object `xq->var`), restricted to the members read or written by the embedded
functions.  `etherface` is `true` when a transport is attached (non-null pointer). -/
structure xq_device where
  type : xq_type := XQ_T_DELQA
  mode : xq_type := XQ_T_DELQA
  poll : Nat := 0
  must_poll : Nat := 0
  coalesce_latency : Nat := 0
  etherface : Bool := false
  csr : Nat := 0
  var : Nat := 0
  srr : Nat := 0
  iba : Nat := 0
  icr : Nat := 0
  pending_interrupt : Nat := 0
  irq : Nat := 0
  rbdl_ba : Nat := 0
  xbdl_ba : Nat := 0
  rbdl_buf : bdl_buf := {}
  xbdl_buf : bdl_buf := {}
  ReadQ : eth_queue := {}
  write_buffer : eth_packet := {}
  stats : xq_stats := {}
  setup : xq_setup := {}
  sanity : xq_sanity := {}
  idtmr : Int := 0
  rbdl : List Nat := [0, 0]
  xbdl : List Nat := [0, 0]
  mac : List Nat := [0, 0, 0, 0, 0, 0]
  init : xq_turbo_init_block := {}
  rring : List receive_buffer_descriptor := List.replicate XQ_TURBO_RC_BCNT {}
  xring : List transmit_buffer_descriptor := List.replicate XQ_TURBO_XM_BCNT {}
  rbindx : Nat := 0
  tbindx : Nat := 0
  read_buffer : eth_packet := {}
  deriving DecidableEq

/-- One entry of `xq_ctrl[]` (pdp11_xq.cpp:526): the device state `var`, the `DEV_DIS` flag
of `dev->flags`, the interrupt vector `dib->vec`, whether the receive service unit
`unit[0]` is scheduled and the transport is in asynchronous mode, and whether the timer
service unit `unit[1]` has been scheduled by `xq_activate`. -/
structure CTLR where
  var : xq_device := {}
  dev_dis : Bool := false
  vec : Nat := 0
  unit0_active : Bool := false
  async : Bool := false
  unit1_active : Bool := false
  deriving DecidableEq

/-- Index into `xq_ctrl[]`: `xqa` is `xq_ctrl[0]`, `xqb` is `xq_ctrl[1]`. -/
inductive CtlrId where
  | xqa
  | xqb
  deriving DecidableEq

/-- Modelled from the spec: guest (Qbus) memory, which belongs to the simulator core and is
not among the sources.  A cell is `none` when the address is non-existent memory and
`some b` when it holds the byte `b`. -/
def Mem : Type := Nat → Option Nat

/-- The state the engine works on: the two controllers, the shared interrupt counter
`xq_pending_intrs` (pdp11_xq.cpp:524), the shared interrupt request line of `SET_INT (XQ)` /
`CLR_INT (XQ)`, and guest memory. -/
structure Sys where
  xqa : CTLR := {}
  xqb : CTLR := {}
  xq_pending_intrs : Nat := 0
  int_XQ : Bool := false
  mem : Mem := fun _ => none

/-- The entry `xq_ctrl[i]`. -/
def Sys.ctlr (s : Sys) : CtlrId → CTLR
  | .xqa => s.xqa
  | .xqb => s.xqb

/-- The device state `xq_ctrl[i].var`. -/
def Sys.dev (s : Sys) (i : CtlrId) : xq_device := (s.ctlr i).var

/-- Assignment to `xq_ctrl[i]`. -/
def Sys.setCtlr (s : Sys) (i : CtlrId) (c : CTLR) : Sys :=
  match i with
  | .xqa => { s with xqa := c }
  | .xqb => { s with xqb := c }

/-- Assignment to the device state `*xq_ctrl[i].var`. -/
def Sys.setDev (s : Sys) (i : CtlrId) (v : xq_device) : Sys :=
  s.setCtlr i { s.ctlr i with var := v }

/-! ## Arrays and guest memory -/

/-- The `n` bytes of the array `a` that start at index `off` (the object `&a[off]` read over
`n` bytes). -/
def bytes_at (a : List Nat) (off n : Nat) : List Nat :=
  (List.range n).map fun k => a.getD (off + k) 0

/-- The array `dst` after `memcpy (&dst[off], src, n)`. -/
def memcpy (dst : List Nat) (off : Nat) (src : List Nat) (n : Nat) : List Nat :=
  (List.range dst.length).map fun k =>
    if off ≤ k ∧ k < off + n then src.getD (k - off) 0 else dst.getD k 0

/-- The array `dst` after `memset (&dst[off], c, n)`. -/
def memset (dst : List Nat) (off c n : Nat) : List Nat :=
  (List.range dst.length).map fun k =>
    if off ≤ k ∧ k < off + n then c else dst.getD k 0

/-- The array `buf` after the words `ws` are stored from index `idx` on. -/
def store_words (buf : bdl_buf) (idx : Nat) : List Nat → bdl_buf
  | [] => buf
  | w :: ws => store_words (buf.set idx w) (idx + 1) ws

/-- The two bytes of a 16-bit word, low byte first. -/
def word_bytes (w : Nat) : List Nat := [w % 256, w / 256 % 256]

/-- The 16-bit words held by a list of bytes, low byte first. -/
def words_of_bytes : List Nat → List Nat
  | a :: b :: r => (a + 256 * b) :: words_of_bytes r
  | _ => []

/-- Guest memory after one byte is stored at an existing address. -/
def Mem.write (m : Mem) (a b : Nat) : Mem :=
  fun x => if x = a then some (b % 256) else m x

/-- Modelled from the spec: `Map_WriteB (ba, bc, buf)` of the simulator core (not among the
sources), given the `bc` bytes of `buf`: the bytes are stored in increasing address order
until an address is non-existent memory; the status is the number of bytes not stored, which
is 0 on success ("any failed guest-memory access"). -/
def Map_WriteB (m : Mem) (ba : Nat) : List Nat → Nat × Mem
  | [] => (0, m)
  | b :: bs =>
    match m ba with
    | none => ((b :: bs).length, m)
    | some _ => Map_WriteB (m.write ba b) (ba + 1) bs

/-- Modelled from the spec: `Map_ReadB (ba, bc, buf)` of the simulator core (not among the
sources): the status, which is 0 on success and the number of bytes not read when an address
is non-existent memory, and the bytes read. -/
def Map_ReadB (m : Mem) (ba : Nat) : Nat → Nat × List Nat
  | 0 => (0, [])
  | n + 1 =>
    match m ba with
    | none => (n + 1, [])
    | some b => ((Map_ReadB m (ba + 1) n).1, (b % 256) :: (Map_ReadB m (ba + 1) n).2)

/-- Modelled from the spec: `Map_WriteW (ba, bc, buf)` of the simulator core (not among the
sources), given the `bc / 2` words of `buf`; words are stored low byte first. -/
def Map_WriteW (m : Mem) (ba : Nat) (ws : List Nat) : Nat × Mem :=
  Map_WriteB m ba (ws.flatMap word_bytes)

/-- Modelled from the spec: `Map_ReadW (ba, bc, buf)` of the simulator core (not among the
sources): the status and the words read from `bc` bytes. -/
def Map_ReadW (m : Mem) (ba bc : Nat) : Nat × List Nat :=
  ((Map_ReadB m ba bc).1, words_of_bytes (Map_ReadB m ba bc).2)

/-- The function `xq_update_bdl_status_words` (pdp11_xq.cpp:1081), multiprocessor build,
over any guest bus: `write b ba ws` is the call `Map_WriteW (ba, 2, ws)` made on the bus in
state `b`, with its status and the state of the bus afterwards.  Status word 2 is written
first; the function returns when that write fails, and writes status word 1 otherwise. -/
def xq_update_bdl_status_words_on {β : Type} (write : β → Nat → List Nat → Nat × β) (b : β)
    (bdl_ba : Nat) (stw : List Nat) : Nat × β :=
  let w2 := write b (bdl_ba + 10) [stw.getD 1 0]
  if w2.1 ≠ 0 then w2
  else write w2.2 (bdl_ba + 8) [stw.getD 0 0]

/-- The function `xq_update_bdl_status_words` (pdp11_xq.cpp:1081), multiprocessor build, on
guest memory. -/
def xq_update_bdl_status_words (m : Mem) (bdl_ba : Nat) (stw : List Nat) : Nat × Mem :=
  xq_update_bdl_status_words_on Map_WriteW m bdl_ba stw

/-- The function `xq_fetch_bdl_entry` (pdp11_xq.cpp:1103), multiprocessor build: the status,
guest memory and the descriptor buffer `buf` afterwards. -/
def xq_fetch_bdl_entry (m : Mem) (bdl_ba : Nat) (buf : bdl_buf) (bcnt : Nat) :
    Nat × Mem × bdl_buf :=
  let buf0 := buf.set 0 0xFFFF
  let w := Map_WriteW m bdl_ba [buf0.get 0]
  if w.1 ≠ 0 then (w.1, w.2, buf0)
  else
    let r1 := Map_ReadW w.2 (bdl_ba + 2) 2
    let buf1 := store_words buf0 1 r1.2
    if r1.1 ≠ 0 then (r1.1, w.2, buf1)
    else if 2 < bcnt then
      let r2 := Map_ReadW w.2 (bdl_ba + 4) (bcnt - 2)
      (r2.1, w.2, store_words buf1 2 r2.2)
    else (r1.1, w.2, buf1)

/-- The 16-bit word that guest memory holds at address `a`, low byte first; `none` when
one of its two bytes is non-existent memory. -/
def word_at (m : Mem) (a : Nat) : Option Nat :=
  match m a, m (a + 1) with
  | some lo, some hi => some (lo % 256 + 256 * (hi % 256))
  | _, _ => none

/-- Guest memory holds at `ba` a classic buffer descriptor (12 bytes, all of them existing
memory) whose flag word is `f`, address word `a` and word-count word `w`. -/
def bdl_at (m : Mem) (ba f a w : Nat) : Prop :=
  (∀ k, k < 12 → (m (ba + k)).isSome = true) ∧
    word_at m (ba + 2) = some f ∧ word_at m (ba + 4) = some a ∧ word_at m (ba + 6) = some w

/-! ## Read Queue (sim_ether.cpp:709-767) -/

/-- An `eth_item` after `memset (item, 0, sizeof (struct eth_item))`. -/
def eth_item_zero : eth_item :=
  { type := 0, packet := { msg := List.replicate ETH_FRAME_SIZE 0 } }

/-- The function `ethq_clear` (sim_ether.cpp:709). -/
def ethq_clear (que : eth_queue) : eth_queue :=
  { que with item := List.replicate que.max eth_item_zero, count := 0, head := 0, tail := 0 }

/-- The function `ethq_remove` (sim_ether.cpp:717). -/
def ethq_remove (que : eth_queue) : eth_queue :=
  if que.count ≠ 0 then
    { que with
      item := que.item.set que.head eth_item_zero
      head := if que.head + 1 = que.max then 0 else que.head + 1
      count := que.count - 1 }
  else que

/-- The function `ethq_insert_data` (sim_ether.cpp:729) for a null `crc_data`. -/
def ethq_insert_data (que : eth_queue) (type : Nat) (data : List Nat) (used len crc_len : Nat)
    (status : Nat) : eth_queue :=
  let head0 := if que.count = 0 then 0 else que.head
  let tail0 : Int := if que.count = 0 then -1 else que.tail
  let tail := if tail0 + 1 = (que.max : Int) then 0 else tail0 + 1
  let over := que.max < que.count + 1
  let count := if over then que.max else que.count + 1
  let head := if over then (if head0 + 1 = que.max then 0 else head0 + 1) else head0
  let loss := if over then que.loss + 1 else que.loss
  let high := if que.high < count then count else que.high
  let old := que.item.getD tail.toNat eth_item_zero
  let it : eth_item :=
    { type := type
      packet :=
        { msg := memcpy old.packet.msg 0 data (if crc_len < len then len else crc_len)
          len := len
          used := used
          crc_len := crc_len
          status := status } }
  { que with
    count := count, head := head, tail := tail, loss := loss, high := high
    item := que.item.set tail.toNat it }

/-- The function `ethq_insert` (sim_ether.cpp:764). -/
def ethq_insert (que : eth_queue) (type : Nat) (pack : eth_packet) (status : Nat) : eth_queue :=
  ethq_insert_data que type pack.msg pack.used pack.len pack.crc_len status

/-! ## Interrupt coordinator (pdp11_xq.cpp:2996-3066) -/

/-- The function `xq_setint` (pdp11_xq.cpp:2996). -/
def xq_setint (i : CtlrId) (s : Sys) : Sys :=
  let v := s.dev i
  if v.mode = XQ_T_DELQA_PLUS ∧ v.icr = 0 then
    s.setDev i { v with pending_interrupt := 1 }
  else
    let v1 := if v.mode = XQ_T_DELQA_PLUS then { v with pending_interrupt := 0 } else v
    if v1.irq = 0 then
      let s1 := s.setDev i { v1 with irq := 1 }
      let n := u32 (s1.xq_pending_intrs + 1)
      { s1 with xq_pending_intrs := n, int_XQ := if n = 1 then true else s1.int_XQ }
    else
      s.setDev i v1

/-- The function `xq_clrint` (pdp11_xq.cpp:3025); the declaration gives `intack` the default
`FALSE` (pdp11_xq.cpp:312). -/
def xq_clrint (i : CtlrId) (intack : Bool) (s : Sys) : Sys :=
  let v := s.dev i
  if v.irq = 1 then
    let s1 := s.setDev i { v with irq := 0 }
    let n := u32 (s1.xq_pending_intrs + 4294967295)
    { s1 with
      xq_pending_intrs := n
      int_XQ := if n = 0 then false else if intack then true else s1.int_XQ }
  else
    s

/-- One iteration of the loop of `xq_int` for controller `i`: `none` when the loop goes
on to the next controller, `some` the result when the function returns. -/
def xq_int_at (i : CtlrId) (s : Sys) : Option (Nat × Sys) :=
  if (s.ctlr i).dev_dis then none
  else if (s.dev i).irq ≠ 0 then
    let s1 := xq_clrint i true s
    some ((s1.ctlr i).vec, s1)
  else none

/-- The function `xq_int` (pdp11_xq.cpp:3047), `XQ_MAX_CONTROLLERS` being 2. -/
def xq_int (s : Sys) : Nat × Sys :=
  match xq_int_at .xqa s with
  | some r => r
  | none =>
    match xq_int_at .xqb s with
    | some r => r
    | none => (0, s)

/-! ## CSR updates and the non-existent-memory error -/

/-- The function `xq_csr_set_clr` (pdp11_xq.cpp:3068); both masks are `uint16`
parameters. -/
def xq_csr_set_clr (i : CtlrId) (set_bits clear_bits : Nat) (s : Sys) : Sys :=
  let saved_csr := (s.dev i).csr
  let csr := (saved_csr ||| u16 set_bits) &&& not16 clear_bits
  let s1 := s.setDev i { s.dev i with csr := csr }
  if (saved_csr ^^^ csr) &&& XQ_CSR_IE ≠ 0 then
    let s2 :=
      if u16 clear_bits &&& XQ_CSR_IE ≠ 0 ∧ (s1.dev i).irq ≠ 0 then xq_clrint i false s1 else s1
    if u16 set_bits &&& XQ_CSR_IE ≠ 0 ∧ (s2.dev i).csr &&& XQ_CSR_XIRI ≠ 0 ∧ (s2.dev i).irq = 0
    then xq_setint i s2
    else s2
  else if csr &&& XQ_CSR_IE ≠ 0 then
    if (saved_csr ^^^ csr) &&& (u16 set_bits &&& XQ_CSR_XIRI) ≠ 0 ∧ (s1.dev i).irq = 0 then
      xq_setint i s1
    else if (saved_csr ^^^ csr) &&& (u16 clear_bits &&& XQ_CSR_XIRI) ≠ 0
        ∧ csr &&& XQ_CSR_XIRI = 0 ∧ (s1.dev i).irq ≠ 0 then
      xq_clrint i false s1
    else s1
  else s1

/-- The function `xq_nxm_error` (pdp11_xq.cpp:871). -/
def xq_nxm_error (i : CtlrId) (s : Sys) : Nat × Sys :=
  if (s.dev i).mode = XQ_T_DELQA_PLUS then
    (SCPE_OK, xq_setint i (s.setDev i { s.dev i with srr := (s.dev i).srr ||| (XQ_SRR_FES ||| XQ_SRR_NXM) }))
  else
    (SCPE_OK, xq_csr_set_clr i (XQ_CSR_NI ||| XQ_CSR_XI ||| XQ_CSR_XL ||| XQ_CSR_RL) 0 s)

/-- The function `xq_reset_santmr` (pdp11_xq.cpp:2665). -/
def xq_reset_santmr (i : CtlrId) (s : Sys) : Sys :=
  let v := s.dev i
  if v.sanity.enabled ≠ 0 then
    s.setDev i { v with sanity := { v.sanity with timer := v.sanity.quarter_secs } }
  else s

/-- The function `xq_start_receiver` (pdp11_xq.cpp:2398): `xq_activate` schedules the receive
service unit, `eth_set_async` puts the transport in asynchronous mode. -/
def xq_start_receiver (i : CtlrId) (s : Sys) : Sys :=
  let c := s.ctlr i
  if c.var.etherface = false then s
  else if c.var.must_poll ≠ 0 then s.setCtlr i { c with unit0_active := true }
  else if c.var.poll = 0 ∨ c.var.mode = XQ_T_DELQA_PLUS then s.setCtlr i { c with async := true }
  else s.setCtlr i { c with unit0_active := true }

/-- The function `xq_stop_receiver` (pdp11_xq.cpp:2417): `sim_cancel` unschedules the receive
service unit, `eth_clr_async` ends the asynchronous mode of an attached transport. -/
def xq_stop_receiver (i : CtlrId) (s : Sys) : Sys :=
  let c := s.ctlr i
  s.setCtlr i { c with unit0_active := false, async := if c.var.etherface then false else c.async }

/-- The function `xq_sw_reset` (pdp11_xq.cpp:2072).  The call of `eth_filter` reprograms the
transport only and leaves the controller state as it is. -/
def xq_sw_reset (i : CtlrId) (s : Sys) : Sys :=
  let v := s.dev i
  let v1 := { v with stats := { v.stats with reset := v.stats.reset + 1 } }
  let v2 := if v1.type = XQ_T_DELQA_PLUS then { v1 with mode := XQ_T_DELQA, iba := 0, srr := 0 } else v1
  let s2 := s.setDev i v2
  let s3 := xq_csr_set_clr i (XQ_CSR_XL ||| XQ_CSR_RL) (not16 (XQ_CSR_XL ||| XQ_CSR_RL)) s2
  let s4 := if (s3.dev i).etherface then xq_csr_set_clr i XQ_CSR_OK 0 s3 else s3
  let s5 := xq_clrint i false s4
  let v5 := s5.dev i
  let s6 := s5.setDev i
    { v5 with
      ReadQ := ethq_clear v5.ReadQ
      setup := { v5.setup with multicast := 0, promiscuous := 0 } }
  xq_stop_receiver i s6

/-- The function `xq_wr_csr` (pdp11_xq.cpp:2355), non-PDP-11 build; `data` is the written
value. -/
def xq_wr_csr (i : CtlrId) (data : Nat) (s : Sys) : Nat × Sys :=
  let set_bits := data &&& XQ_CSR_RW
  let clr_bits := ((data ^^^ XQ_CSR_RW) &&& XQ_CSR_RW) ||| (data &&& XQ_CSR_W1)
    ||| (if data &&& XQ_CSR_XI ≠ 0 then XQ_CSR_NI else 0)
  if (s.dev i).csr &&& XQ_CSR_SR ≠ 0 ∧ data &&& XQ_CSR_SR = 0 then
    (SCPE_OK, xq_sw_reset i s)
  else
    let s1 := if (s.dev i).csr &&& XQ_CSR_RE = 0 ∧ data &&& XQ_CSR_RE ≠ 0
      then xq_start_receiver i s else s
    let s2 := if (s1.dev i).csr &&& XQ_CSR_RE ≠ 0 ∧ data &&& XQ_CSR_RE = 0
      then xq_stop_receiver i s1 else s1
    (SCPE_OK, xq_csr_set_clr i set_bits clr_bits s2)

/-! ## Classic descriptor decode (pdp11_xq.cpp:1208-1215 and 1523-1530) -/

/-- The host memory address of a descriptor with flag word `f` and address word `a`:
`((f & 0x3F) << 16) | a`. -/
def bdl_address (f a : Nat) : Nat := ((f &&& 0x3F) <<< 16) ||| a

/-- The word length `w_length = ~w + 1` decoded from the word-count word `w`, a `uint16`. -/
def bdl_w_length (w : Nat) : Nat := u16 (not16 w + 1)

/-- The byte length `b_length`, a `uint16`, decoded from the flag word `f` and the word-count
word `w`: `w_length * 2`, then `b_length -= 1` if `f & XQ_DSC_H`, then `b_length -= 1` if
`f & XQ_DSC_L`. -/
def bdl_b_length (f w : Nat) : Nat :=
  let b0 := u16 (bdl_w_length w * 2)
  let b1 := if f &&& XQ_DSC_H ≠ 0 then u16 (b0 + 65535) else b0
  if f &&& XQ_DSC_L ≠ 0 then u16 (b1 + 65535) else b1

/-! ## Classic receive walk (pdp11_xq.cpp:1168-1309) -/

/-- The outcome of one iteration of a descriptor walk: the function returns `status`
(`ret`), or the loop goes round again (`next`). -/
inductive Walk where
  | ret (status : Nat) (s : Sys)
  | next (s : Sys)

/-- The value `a - b` for a `uint16` object `a`, converted back to `uint16`. -/
def sub16 (a b : Nat) : Nat := u16 (a + (65536 - b % 65536))

/-- Size adjustment and splitting of the head item (pdp11_xq.cpp:1217-1250) for a buffer of
`b_length` bytes: the statistics, the item, the number `rbl` of bytes to send and the index
of `packet.msg` at which `rbuf` points. -/
def rbdl_adjust (st : xq_stats) (item : eth_item) (b_length : Nat) :
    xq_stats × eth_item × Nat × Nat :=
  let rbl0 := u16 item.packet.len
  if item.packet.used ≠ 0 then
    let rbl1 := sub16 rbl0 item.packet.used
    let rbl := if b_length < rbl1 then b_length else rbl1
    (st, { item with packet := { item.packet with used := item.packet.used + rbl } },
      rbl, item.packet.used)
  else
    let runt := rbl0 < ETH_MIN_PACKET
    let st1 := if runt then { st with runt := st.runt + 1 } else st
    let msg1 := if runt then memset item.packet.msg rbl0 0 (ETH_MIN_PACKET - rbl0)
      else item.packet.msg
    let rbl1 := if runt then ETH_MIN_PACKET else rbl0
    let giant := ETH_MAX_PACKET < rbl1
    let st2 := if giant then { st1 with giant := st1.giant + 1 } else st1
    let len2 := if giant then ETH_MAX_PACKET else item.packet.len
    let rbl2 := if giant then ETH_MAX_PACKET else rbl1
    let rbl := if b_length < rbl2 then b_length else rbl2
    (st2, { item with packet := { item.packet with msg := msg1, len := len2, used := item.packet.used + rbl } },
      rbl, 0)

/-- The status words and statistics of a completed receive descriptor
(pdp11_xq.cpp:1259-1283) for the adjusted item, the byte count `rbl` sent and the loss
counter of the Read Queue: status word 1, status word 2, the statistics. -/
def rbdl_status (st : xq_stats) (item : eth_item) (rbl loss : Nat) : Nat × Nat × xq_stats :=
  let r : Nat × Nat × xq_stats :=
    if item.type = 0 then (0x2700, rbl, { st with setup := st.setup + 1 })
    else if item.type = 1 then (0x2000 ||| (rbl &&& 0x0700), rbl, { st with loop := st.loop + 1 })
    else if item.type = 2 then (sub16 rbl 60 &&& 0x0700, sub16 rbl 60, st)
    else (0, rbl, st)
  let w1 := if item.packet.used < item.packet.len then r.1 ||| 0xC000 else r.1
  let w2 := ((r.2.1 &&& 0x00FF) <<< 8) ||| (r.2.1 &&& 0x00FF)
  if loss ≠ 0 then (w1 ||| 0x0001, w2, { r.2.2 with dropped := r.2.2.dropped + loss })
  else (w1, w2, r.2.2)

/-- The head item of the Read Queue, `item = &xq->var->ReadQ.item[xq->var->ReadQ.head]`
(pdp11_xq.cpp:1217). -/
def rbdl_head (v : xq_device) : eth_item := v.ReadQ.item.getD v.ReadQ.head eth_item_zero

/-- The size adjustment `rbdl_adjust` for the head item and the descriptor held in
`rbdl_buf`. -/
def rbdl_adj (v : xq_device) : xq_stats × eth_item × Nat × Nat :=
  rbdl_adjust v.stats (rbdl_head v) (bdl_b_length (v.rbdl_buf.get 1) (v.rbdl_buf.get 3))

/-- The arguments `(address, bytes)` of the call of `Map_WriteB` (pdp11_xq.cpp:1253) made
for the descriptor held in `rbdl_buf`, from the state in which the head item is taken
(pdp11_xq.cpp:1217). -/
def rbdl_slice (v : xq_device) : Nat × List Nat :=
  (bdl_address (v.rbdl_buf.get 1) (v.rbdl_buf.get 2),
    bytes_at (rbdl_adj v).2.1.packet.msg (rbdl_adj v).2.2.2 (rbdl_adj v).2.2.1)

/-- The device state when `Map_WriteB` is called (pdp11_xq.cpp:1253): the statistics and
the head item are those of the size adjustment. -/
def rbdl_taken (v : xq_device) : xq_device :=
  { v with
    stats := (rbdl_adj v).1
    ReadQ := { v.ReadQ with item := v.ReadQ.item.set v.ReadQ.head (rbdl_adj v).2.1 } }

/-- The status words and statistics `rbdl_status` for the descriptor held in `rbdl_buf`. -/
def rbdl_sw (v : xq_device) : Nat × Nat × xq_stats :=
  rbdl_status (rbdl_adj v).1 (rbdl_adj v).2.1 (rbdl_adj v).2.2.1 v.ReadQ.loss

/-- The device state when the status words are written to the descriptor
(pdp11_xq.cpp:1293). -/
def rbdl_flagged (v : xq_device) : xq_device :=
  { rbdl_taken v with
    rbdl_buf := (v.rbdl_buf.set 4 (rbdl_sw v).1).set 5 (rbdl_sw v).2.1
    stats := (rbdl_sw v).2.2
    ReadQ := { (rbdl_taken v).ReadQ with loss := 0 } }

/-- The device state after the packet is removed from the queue when it is complete
(pdp11_xq.cpp:1297). -/
def rbdl_done (v : xq_device) : xq_device :=
  if (rbdl_adj v).2.1.packet.len ≤ (rbdl_adj v).2.1.packet.used
  then { rbdl_flagged v with ReadQ := ethq_remove (rbdl_flagged v).ReadQ }
  else rbdl_flagged v

/-- The part of the loop body of `xq_process_rbdl` that delivers the head item into the
descriptor held in `rbdl_buf` (pdp11_xq.cpp:1204-1304). -/
def rbdl_deliver (i : CtlrId) (s : Sys) : Walk :=
  let r := Map_ReadW s.mem ((s.dev i).rbdl_ba + 8) 4
  let v := { s.dev i with rbdl_buf := store_words (s.dev i).rbdl_buf 4 r.2 }
  if r.1 ≠ 0 then
    .ret (xq_nxm_error i (s.setDev i v)).1 (xq_nxm_error i (s.setDev i v)).2
  else
    let w := Map_WriteB s.mem (rbdl_slice v).1 (rbdl_slice v).2
    let s2 := { s with mem := w.2 }.setDev i (rbdl_taken v)
    if w.1 ≠ 0 then
      .ret (xq_nxm_error i s2).1 (xq_nxm_error i s2).2
    else
      let u := xq_update_bdl_status_words w.2 v.rbdl_ba [(rbdl_sw v).1, (rbdl_sw v).2.1]
      let s3 := { s with mem := u.2 }.setDev i (rbdl_flagged v)
      if u.1 ≠ 0 then
        .ret (xq_nxm_error i s3).1 (xq_nxm_error i s3).2
      else
        let s5 := xq_csr_set_clr i XQ_CSR_RI 0 ({ s with mem := u.2 }.setDev i (rbdl_done v))
        .next (s5.setDev i { s5.dev i with rbdl_ba := u32 ((s5.dev i).rbdl_ba + 12) })

/-- The state after an iteration of the loop of `xq_process_rbdl` that delivers into the
descriptor held in `rbdl_buf` without a guest-memory failure: the data and the status words
are in guest memory, the device state is `rbdl_done`, RI is set and `rbdl_ba` is advanced
(pdp11_xq.cpp:1253-1304). -/
def rbdl_post (i : CtlrId) (S : Sys) : Sys :=
  let m := (xq_update_bdl_status_words
    (Map_WriteB S.mem (rbdl_slice (S.dev i)).1 (rbdl_slice (S.dev i)).2).2 (S.dev i).rbdl_ba
    [(rbdl_sw (S.dev i)).1, (rbdl_sw (S.dev i)).2.1]).2
  let s5 := xq_csr_set_clr i XQ_CSR_RI 0 ({ S with mem := m }.setDev i (rbdl_done (S.dev i)))
  s5.setDev i { s5.dev i with rbdl_ba := u32 ((S.dev i).rbdl_ba + 12) }

/-- The state in which the receive walk has fetched the descriptor with flag word `f`,
address word `a` and word-count word `w` at `rbdl_ba` (pdp11_xq.cpp:1186): word 0 of the
descriptor is written as 0xFFFF and words 0 to 3 are in `rbdl_buf`. -/
def rbdl_fetched (i : CtlrId) (s : Sys) (f a w : Nat) : Sys :=
  { s with mem := (Map_WriteW s.mem (s.dev i).rbdl_ba [0xFFFF]).2 }.setDev i
    { s.dev i with
      rbdl_buf := ((((s.dev i).rbdl_buf.set 0 0xFFFF).set 1 f).set 2 a).set 3 w }

/-- The state of an iteration of the receive walk after `xq_fetch_bdl_entry`
(pdp11_xq.cpp:1186): guest memory and `rbdl_buf` are those the fetch leaves. -/
def rbdl_entry (i : CtlrId) (s : Sys) : Sys :=
  let e := xq_fetch_bdl_entry s.mem (s.dev i).rbdl_ba (s.dev i).rbdl_buf 6
  { s with mem := e.2.1 }.setDev i { s.dev i with rbdl_buf := e.2.2 }

/-- The loop body of `xq_process_rbdl` (pdp11_xq.cpp:1185-1304); `break` leaves the loop for
`return SCPE_OK`. -/
def rbdl_step (i : CtlrId) (s : Sys) : Walk :=
  let e := xq_fetch_bdl_entry s.mem (s.dev i).rbdl_ba (s.dev i).rbdl_buf 6
  let s1 := rbdl_entry i s
  let f := (s1.dev i).rbdl_buf.get 1
  if e.1 ≠ 0 then .ret (xq_nxm_error i s1).1 (xq_nxm_error i s1).2
  else if f &&& XQ_DSC_V = 0 then .ret SCPE_OK (xq_csr_set_clr i XQ_CSR_RL 0 s1)
  else if f &&& XQ_DSC_C ≠ 0 then
    .next (s1.setDev i { s1.dev i with rbdl_ba := bdl_address f ((s1.dev i).rbdl_buf.get 2) })
  else if (s1.dev i).ReadQ.count = 0 then .ret SCPE_OK s1
  else rbdl_deliver i s1

/-- The loop `while (1)` of `xq_process_rbdl` with `fuel` iterations at most. -/
def rbdl_loop : Nat → CtlrId → Sys → Option (Nat × Sys)
  | 0, _, _ => none
  | n + 1, i, s =>
    match rbdl_step i s with
    | .ret st s1 => some (st, s1)
    | .next s1 => rbdl_loop n i s1

/-- Functions the classic walks call and that are taken as parameters: the turbo receive
walk `xq_process_turbo_rbdl` (pdp11_xq.cpp:1681), setup processing `xq_process_setup`
(pdp11_xq.cpp:1370), and the packet transport behind `eth_write` and `eth_read`
(sim_ether.cpp) together with the callbacks it runs.  Each yields a status and the state
afterwards, or `none` when it does not return.  `eth_write` is the call with the write
callback of the controller (pdp11_xq.cpp:1586); `eth_write_null` is the call for the write
buffer without a callback (pdp11_xq.cpp:1864). -/
structure Collab where
  xq_process_turbo_rbdl : CtlrId → Sys → Option (Nat × Sys)
  xq_process_setup : CtlrId → Sys → Option (Nat × Sys)
  eth_write : CtlrId → Sys → Option (Nat × Sys)
  eth_read : CtlrId → Sys → Option (Nat × Sys)
  eth_write_null : CtlrId → Sys → Option (Nat × Sys)

/-- The function `xq_process_rbdl` (pdp11_xq.cpp:1168). -/
def xq_process_rbdl (K : Collab) (fuel : Nat) (i : CtlrId) (s : Sys) : Option (Nat × Sys) :=
  if (s.dev i).mode = XQ_T_DELQA_PLUS then K.xq_process_turbo_rbdl i s
  else rbdl_loop fuel i s

/-- The states and the `Map_WriteB` calls of `k` iterations of the loop of `xq_process_rbdl`
none of which returns: the list of `(address, bytes)` sent to the guest, the first call
first, and the state reached; `none` when the function returns before.  An iteration that
goes round again either follows a chain descriptor, and sends nothing, or has delivered the
slice `rbdl_slice` of the head item. -/
def rbdl_run (i : CtlrId) : Nat → Sys → Option (List (Nat × List Nat) × Sys)
  | 0, s => some ([], s)
  | k + 1, s =>
    match rbdl_step i s with
    | .ret _ _ => none
    | .next s1 =>
      match rbdl_run i k s1 with
      | none => none
      | some (tr, s2) =>
        some ((if ((rbdl_entry i s).dev i).rbdl_buf.get 1 &&& XQ_DSC_C ≠ 0 then tr
          else rbdl_slice ((rbdl_entry i s).dev i) :: tr), s2)

/-- A guest-memory access made by the iteration of the receive walk from state `s` fails:
the descriptor fetch, or, for a valid, non-chained descriptor with a packet queued, the read
of the status words, the write of the packet data, or the write of the status words. -/
def rbdl_access_fails (i : CtlrId) (s : Sys) : Prop :=
  let s1 := rbdl_entry i s
  let v := s1.dev i
  let w := Map_WriteB s1.mem (rbdl_slice v).1 (rbdl_slice v).2
  (xq_fetch_bdl_entry s.mem (s.dev i).rbdl_ba (s.dev i).rbdl_buf 6).1 ≠ 0 ∨
    (v.rbdl_buf.get 1 &&& XQ_DSC_V ≠ 0 ∧ v.rbdl_buf.get 1 &&& XQ_DSC_C = 0 ∧ v.ReadQ.count ≠ 0 ∧
      ((Map_ReadW s1.mem (v.rbdl_ba + 8) 4).1 ≠ 0 ∨ w.1 ≠ 0 ∨
        (xq_update_bdl_status_words w.2 v.rbdl_ba [(rbdl_sw v).1, (rbdl_sw v).2.1]).1 ≠ 0))

/-- The write of packet data to guest memory fails in the iteration of the receive walk
from state `s`: the descriptor is fetched, valid and not a chain descriptor, a packet is
queued, the status words are read, and `Map_WriteB` (pdp11_xq.cpp:1253) returns a nonzero
status. -/
def rbdl_write_fails (i : CtlrId) (s : Sys) : Prop :=
  let s1 := rbdl_entry i s
  let v := s1.dev i
  (xq_fetch_bdl_entry s.mem (s.dev i).rbdl_ba (s.dev i).rbdl_buf 6).1 = 0 ∧
    v.rbdl_buf.get 1 &&& XQ_DSC_V ≠ 0 ∧ v.rbdl_buf.get 1 &&& XQ_DSC_C = 0 ∧ v.ReadQ.count ≠ 0 ∧
    (Map_ReadW s1.mem (v.rbdl_ba + 8) 4).1 = 0 ∧
    (Map_WriteB s1.mem (rbdl_slice v).1 (rbdl_slice v).2).1 ≠ 0

/-! ## Classic transmit walk (pdp11_xq.cpp:889-940, 1494-1617, 2783-2810) -/

/-- The byte count of the `Map_ReadB` call of the transmit walk (pdp11_xq.cpp:1540-1542)
for a write buffer that holds `len` bytes and a descriptor with flag word `f` and word-count
word `w`: the decoded length, cut to the room left in the write buffer. -/
def xbdl_b_length (len f w : Nat) : Nat :=
  if ETH_FRAME_SIZE < len + bdl_b_length f w then sub16 ETH_FRAME_SIZE len else bdl_b_length f w

/-- The function `xq_write_callback` (pdp11_xq.cpp:889). -/
def xq_write_callback (i : CtlrId) (status : Nat) (s : Sys) : Sys :=
  let v := s.dev i
  let TDR := u16 (100 + v.write_buffer.len * 8)
  let v1 := { v with stats := { v.stats with xmit := v.stats.xmit + 1 } }
  let v2 := if status = 0 then v1 else { v1 with stats := { v1.stats with fail := v1.stats.fail + 1 } }
  let u := xq_update_bdl_status_words s.mem v2.xbdl_ba
    (if status = 0 then [0, TDR &&& 0x03FF] else [XQ_DSC_C, TDR &&& 0x03FF])
  let s2 := { s with mem := u.2 }.setDev i v2
  if u.1 ≠ 0 then (xq_nxm_error i s2).2
  else
    let s3 := xq_reset_santmr i (xq_csr_set_clr i XQ_CSR_XI 0 s2)
    s3.setDev i { s3.dev i with write_buffer := { (s3.dev i).write_buffer with len := 0 } }

/-- The loop `do ... while (status)` of `xq_svc_ex` around `eth_read` (pdp11_xq.cpp:2795),
with `fuel` iterations at most. -/
def eth_read_loop (K : Collab) : Nat → CtlrId → Sys → Option Sys
  | 0, _, _ => none
  | n + 1, i, s =>
    match K.eth_read i s with
    | none => none
    | some (st, s1) => if st ≠ 0 then eth_read_loop K n i s1 else some s1

/-- The guarded call of `xq_process_rbdl` in `xq_svc_ex` (pdp11_xq.cpp:2790 and 2801). -/
def svc_pump (K : Collab) (fuel : Nat) (i : CtlrId) (s : Sys) : Option Sys :=
  if 0 < (s.dev i).ReadQ.count ∧
      ((s.dev i).mode = XQ_T_DELQA_PLUS ∨ (s.dev i).csr &&& XQ_CSR_RL = 0) then
    (xq_process_rbdl K fuel i s).map Prod.snd
  else some s

/-- The function `xq_svc_ex` (pdp11_xq.cpp:2783); `xq_activate` schedules the receive
service unit. -/
def xq_svc_ex (K : Collab) (fuel : Nat) (i : CtlrId) (s : Sys) : Option (Nat × Sys) :=
  let r : Option Sys :=
    if (s.dev i).mode = XQ_T_DELQA_PLUS ∨ (s.dev i).csr &&& XQ_CSR_RE ≠ 0 then
      (svc_pump K fuel i s).bind fun s1 =>
        (eth_read_loop K fuel i s1).bind fun s2 => svc_pump K fuel i s2
    else some s
  r.map fun s3 =>
    let c := s3.ctlr i
    if c.var.must_poll ≠ 0 ∨ (c.var.poll ≠ 0 ∧ c.var.mode ≠ XQ_T_DELQA_PLUS) then
      (SCPE_OK, s3.setCtlr i { c with unit0_active := true })
    else (SCPE_OK, s3)

/-- The state after a looped-back or setup packet is marked complete
(pdp11_xq.cpp:1567-1576), from the state `s` in which the packet is queued and the status
words are written: the write buffer is cleared, the sanity timer reset, XI set. -/
def xbdl_done (i : CtlrId) (s : Sys) : Sys :=
  xq_csr_set_clr i XQ_CSR_XI 0 (xq_reset_santmr i
    (s.setDev i { s.dev i with write_buffer := { (s.dev i).write_buffer with len := 0 } }))

/-- The end-of-message branch of the loop body of `xq_process_xbdl`
(pdp11_xq.cpp:1547-1595): `none` when a callee does not return, `ret` when the function
returns from inside the branch, `next` when the walk goes on to `xbdl_ba += 12`. -/
def xbdl_eom (K : Collab) (fuel : Nat) (i : CtlrId) (s : Sys) : Option Walk :=
  let v := s.dev i
  let f := v.xbdl_buf.get 1
  if (v.csr &&& XQ_CSR_RE = 0 ∧ (v.csr &&& XQ_CSR_IL = 0 ∨ v.csr &&& XQ_CSR_EL ≠ 0))
      ∨ f &&& XQ_DSC_S ≠ 0 then
    let q : Option Sys :=
      if f &&& XQ_DSC_S ≠ 0 then
        (K.xq_process_setup i s).map fun r =>
          r.2.setDev i { r.2.dev i with
            ReadQ := ethq_insert (r.2.dev i).ReadQ 0 (r.2.dev i).write_buffer r.1 }
      else
        some (s.setDev i { v with ReadQ := ethq_insert v.ReadQ 1 v.write_buffer 0 })
    q.bind fun s1 =>
      let u := xq_update_bdl_status_words s1.mem (s1.dev i).xbdl_ba [0, 1]
      let s2 := { s1 with mem := u.2 }
      if u.1 ≠ 0 then some (.ret (xq_nxm_error i s2).1 (xq_nxm_error i s2).2)
      else if ((xbdl_done i s2).dev i).csr &&& XQ_CSR_RL = 0 then
        (xq_process_rbdl K fuel i (xbdl_done i s2)).map fun r => .next r.2
      else some (.next (xbdl_done i s2))
  else
    (K.eth_write i s).bind fun r =>
      if r.1 ≠ SCPE_OK then some (.next (xq_write_callback i 1 r.2))
      else if (r.2.dev i).coalesce_latency = 0 then
        (xq_svc_ex K fuel i r.2).map fun r1 => .next r1.2
      else some (.next r.2)

/-- The state of an iteration of the transmit walk after `xq_fetch_bdl_entry`
(pdp11_xq.cpp:1513): guest memory and `xbdl_buf` are those the fetch leaves. -/
def xbdl_entry (i : CtlrId) (s : Sys) : Sys :=
  let e := xq_fetch_bdl_entry s.mem (s.dev i).xbdl_ba (s.dev i).xbdl_buf 10
  { s with mem := e.2.1 }.setDev i { s.dev i with xbdl_buf := e.2.2 }

/-- The state of an iteration of the transmit walk after the buffer of the descriptor in
`xbdl_buf` is read into the write buffer (pdp11_xq.cpp:1540-1544), and the status of
`Map_ReadB`; `write_buffer.len` is advanced when the read succeeds. -/
def xbdl_read (i : CtlrId) (s1 : Sys) : Nat × Sys :=
  let v := s1.dev i
  let f := v.xbdl_buf.get 1
  let wb := v.write_buffer
  let b_length := xbdl_b_length wb.len f (v.xbdl_buf.get 3)
  let r := Map_ReadB s1.mem (bdl_address f (v.xbdl_buf.get 2)) b_length
  let msg := memcpy wb.msg wb.len r.2 r.2.length
  if r.1 ≠ 0 then (r.1, s1.setDev i { v with write_buffer := { wb with msg := msg } })
  else (r.1, s1.setDev i { v with write_buffer := { wb with msg := msg, len := wb.len + b_length } })

/-- The end of an iteration of the transmit walk that has not returned: `xbdl_ba += 12`
(pdp11_xq.cpp:1613), the `uint32` list address going on to the next descriptor. -/
def xbdl_next (i : CtlrId) : Walk → Walk
  | .ret st s => .ret st s
  | .next s => .next (s.setDev i { s.dev i with xbdl_ba := u32 ((s.dev i).xbdl_ba + 12) })

/-- The loop body of `xq_process_xbdl` (pdp11_xq.cpp:1512-1614); `fuel` bounds the loops of
the functions called from the body. -/
def xbdl_step (K : Collab) (fuel : Nat) (i : CtlrId) (s : Sys) : Option Walk :=
  let e := xq_fetch_bdl_entry s.mem (s.dev i).xbdl_ba (s.dev i).xbdl_buf 10
  let s1 := xbdl_entry i s
  let f := (s1.dev i).xbdl_buf.get 1
  if e.1 ≠ 0 then some (.ret (xq_nxm_error i s1).1 (xq_nxm_error i s1).2)
  else if f &&& XQ_DSC_V = 0 then some (.ret SCPE_OK (xq_csr_set_clr i XQ_CSR_XL 0 s1))
  else if f &&& XQ_DSC_C ≠ 0 then
    some (.next (s1.setDev i { s1.dev i with
      xbdl_ba := bdl_address f ((s1.dev i).xbdl_buf.get 2) }))
  else
    let r := xbdl_read i s1
    if r.1 ≠ 0 then some (.ret (xq_nxm_error i r.2).1 (xq_nxm_error i r.2).2)
    else
      let after : Option Walk :=
        if f &&& XQ_DSC_E ≠ 0 then xbdl_eom K fuel i r.2
        else
          let u := xq_update_bdl_status_words r.2.mem (r.2.dev i).xbdl_ba [XQ_DSC_V ||| XQ_DSC_C, 1]
          let s4 := { r.2 with mem := u.2 }
          if u.1 ≠ 0 then some (.ret (xq_nxm_error i s4).1 (xq_nxm_error i s4).2)
          else some (.next s4)
      after.map (xbdl_next i)

/-- The loop `while (1)` of `xq_process_xbdl` with `n` iterations at most. -/
def xbdl_loop (K : Collab) (fuel : Nat) : Nat → CtlrId → Sys → Option (Nat × Sys)
  | 0, _, _ => none
  | n + 1, i, s =>
    match xbdl_step K fuel i s with
    | none => none
    | some (.ret st s1) => some (st, s1)
    | some (.next s1) => xbdl_loop K fuel n i s1

/-- The state in which `xq_process_xbdl` enters its loop: the write buffer is cleared
(pdp11_xq.cpp:1507). -/
def xbdl_start (i : CtlrId) (s : Sys) : Sys :=
  s.setDev i { s.dev i with write_buffer := { (s.dev i).write_buffer with len := 0 } }

/-- The function `xq_process_xbdl` (pdp11_xq.cpp:1494). -/
def xq_process_xbdl (K : Collab) (fuel : Nat) (i : CtlrId) (s : Sys) : Option (Nat × Sys) :=
  xbdl_loop K fuel fuel i (xbdl_start i s)

/-- The state after `k` iterations of the loop of `xq_process_xbdl` none of which returns;
`none` when the function returns, or a callee fails to return, before. -/
def xbdl_run (K : Collab) (fuel : Nat) (i : CtlrId) : Nat → Sys → Option Sys
  | 0, s => some s
  | k + 1, s =>
    match xbdl_step K fuel i s with
    | some (.next s1) => xbdl_run K fuel i k s1
    | _ => none

/-- A guest-memory access made by the iteration of the transmit walk from state `s` itself
fails: the descriptor fetch, or, for a valid, non-chained descriptor, the read of the buffer,
the write of the status words of a descriptor that is not an end of message, or the write of
the status words of a looped-back end of message that is not a setup packet. -/
def xbdl_access_fails (i : CtlrId) (s : Sys) : Prop :=
  let s1 := xbdl_entry i s
  let f := (s1.dev i).xbdl_buf.get 1
  let r := xbdl_read i s1
  let v := r.2.dev i
  (xq_fetch_bdl_entry s.mem (s.dev i).xbdl_ba (s.dev i).xbdl_buf 10).1 ≠ 0 ∨
    (f &&& XQ_DSC_V ≠ 0 ∧ f &&& XQ_DSC_C = 0 ∧
      (r.1 ≠ 0 ∨
        (f &&& XQ_DSC_E = 0 ∧
          (xq_update_bdl_status_words r.2.mem v.xbdl_ba [XQ_DSC_V ||| XQ_DSC_C, 1]).1 ≠ 0) ∨
        (f &&& XQ_DSC_E ≠ 0 ∧ f &&& XQ_DSC_S = 0 ∧
          (v.csr &&& XQ_CSR_RE = 0 ∧ (v.csr &&& XQ_CSR_IL = 0 ∨ v.csr &&& XQ_CSR_EL ≠ 0)) ∧
          (xq_update_bdl_status_words r.2.mem v.xbdl_ba [0, 1]).1 ≠ 0)))

/-- The iteration of the transmit walk from state `s` reaches the end-of-message branch
(pdp11_xq.cpp:1547): the descriptor is fetched, valid, not a chain descriptor and an end of
message, and its buffer is read into the write buffer. -/
def xbdl_reaches_eom (i : CtlrId) (s : Sys) : Prop :=
  (xq_fetch_bdl_entry s.mem (s.dev i).xbdl_ba (s.dev i).xbdl_buf 10).1 = 0 ∧
    ((xbdl_entry i s).dev i).xbdl_buf.get 1 &&& XQ_DSC_V ≠ 0 ∧
    ((xbdl_entry i s).dev i).xbdl_buf.get 1 &&& XQ_DSC_C = 0 ∧
    (xbdl_read i (xbdl_entry i s)).1 = 0 ∧
    ((xbdl_entry i s).dev i).xbdl_buf.get 1 &&& XQ_DSC_E ≠ 0

/-- In the state `R` the end-of-message branch keeps the packet in the controller
(pdp11_xq.cpp:1548): the packet is looped back (RE clear and IL clear or EL set) or is a
setup packet; otherwise the packet goes to the transport. -/
def eom_local (i : CtlrId) (R : Sys) : Prop :=
  ((R.dev i).csr &&& XQ_CSR_RE = 0 ∧
      ((R.dev i).csr &&& XQ_CSR_IL = 0 ∨ (R.dev i).csr &&& XQ_CSR_EL ≠ 0))
    ∨ (R.dev i).xbdl_buf.get 1 &&& XQ_DSC_S ≠ 0

/-- A call of the interrupt coordinator. -/
inductive IntCall where
  | setint (i : CtlrId)
  | clrint (i : CtlrId) (intack : Bool)
  | int
  deriving DecidableEq

/-- The state after one call of the interrupt coordinator. -/
def IntCall.run : IntCall → Sys → Sys
  | .setint i, s => xq_setint i s
  | .clrint i a, s => xq_clrint i a s
  | .int, s => (xq_int s).2

/-- The state after a finite sequence of calls, the first call first. -/
def runCalls : List IntCall → Sys → Sys
  | [], s => s
  | c :: cs, s => runCalls cs (c.run s)

/-- The number of controllers whose local flag `irq` is 1. -/
def pendingCount (s : Sys) : Nat :=
  (if (s.dev .xqa).irq = 1 then 1 else 0) + (if (s.dev .xqb).irq = 1 then 1 else 0)

/-! ## Predicates used in the statements -/

/-- The aggregation invariant of the interrupt coordinator: the shared counter is the
number of controllers whose local flag is 1, and the shared line is asserted exactly when
that number is positive. -/
def IntInv (s : Sys) : Prop :=
  s.xq_pending_intrs = pendingCount s ∧ (s.int_XQ = true ↔ 0 < pendingCount s)

/-- The device state without the members the interrupt and CSR functions write (`csr`,
`srr`, `irq`, `pending_interrupt`): two device states with the same image differ in those
members at most. -/
def xq_device.frame (v : xq_device) : xq_device :=
  { v with csr := 0, srr := 0, irq := 0, pending_interrupt := 0 }

/-- The CSR value `c` keeps of the CSR value `c0` what decides how the transmit walk treats
an end of message and whether an NXM error is reported: the bits RE, IL, EL and NI are as in
`c0`, and RL is set if it is set in `c0`. -/
def csr_kept (c0 c : Nat) : Prop :=
  (c &&& XQ_CSR_RE = 0 ↔ c0 &&& XQ_CSR_RE = 0) ∧ (c &&& XQ_CSR_IL = 0 ↔ c0 &&& XQ_CSR_IL = 0) ∧
    (c &&& XQ_CSR_EL = 0 ↔ c0 &&& XQ_CSR_EL = 0) ∧ (c &&& XQ_CSR_NI = 0 ↔ c0 &&& XQ_CSR_NI = 0) ∧
    (c0 &&& XQ_CSR_RL ≠ 0 → c &&& XQ_CSR_RL ≠ 0)

/-- The state `t` is one in which the transmit walk, started in state `s` on a list of `N`
descriptors at `base`, has the list intact from descriptor `k` on: `xbdl_ba` is
`base + 12 * k`, the write buffer holds at most `ETH_FRAME_SIZE` bytes, the CSR keeps the
bits of `csr_kept`, guest memory is that of `s` from descriptor `k` to the end of the list,
and the same cells of guest memory exist. -/
def xbdl_inv (i : CtlrId) (s : Sys) (base N k : Nat) (t : Sys) : Prop :=
  (t.dev i).xbdl_ba = base + 12 * k ∧ (t.dev i).write_buffer.len ≤ 1518 ∧
    csr_kept (s.dev i).csr (t.dev i).csr ∧
    (∀ x, base + 12 * k ≤ x → x < base + 12 * (N + 1) → t.mem x = s.mem x) ∧
    (∀ x, (t.mem x).isSome = (s.mem x).isSome)

/-- The state in which the end-of-message branch of the transmit walk has put a looped-back
or setup packet into the Read Queue (pdp11_xq.cpp:1549-1562), from the state `R` with the
packet in the write buffer; `none` when setup processing does not return. -/
def xbdl_queued (K : Collab) (i : CtlrId) (R : Sys) : Option Sys :=
  if (R.dev i).xbdl_buf.get 1 &&& XQ_DSC_S ≠ 0 then
    (K.xq_process_setup i R).map fun r =>
      r.2.setDev i { r.2.dev i with
        ReadQ := ethq_insert (r.2.dev i).ReadQ 0 (r.2.dev i).write_buffer r.1 }
  else
    some (R.setDev i { R.dev i with
      ReadQ := ethq_insert (R.dev i).ReadQ 1 (R.dev i).write_buffer 0 })

/-- The state an iteration ends in. -/
def Walk.state : Walk → Sys
  | .ret _ s => s
  | .next s => s

/-- The status an iteration returns, `none` when the loop goes round again. -/
def Walk.status : Walk → Option Nat
  | .ret st _ => some st
  | .next _ => none

/-- Example guest memory: the addresses below 0x4000 exist and hold 0, except for a receive
descriptor at 0x1000 (flag word 0x8000: valid; address word 0x2000; word count 0xFFE2: 30
words, 60 bytes) that is followed at 0x100C by a descriptor with a clear valid bit. -/
def rx_mem : Mem := fun a =>
  if 0x4000 ≤ a then none
  else if a = 0x1003 then some 0x80
  else if a = 0x1005 then some 0x20
  else if a = 0x1006 then some 0xE2
  else if a = 0x1007 then some 0xFF
  else some 0

/-- Example packet bytes: 60 bytes, byte `k` being `k + 1`. -/
def rx_msg : List Nat := (List.range 60).map fun k => k + 1

/-- Example receive state of controller XQA in classic mode: IE and RI are set in the CSR,
the interrupt request flag is 0 (the previous interrupt has been acknowledged), the receive
list starts at 0x1000, and one normal packet of 60 bytes is queued. -/
def rx_acked : Sys :=
  { mem := rx_mem
    xqa := { var :=
      { csr := XQ_CSR_IE ||| XQ_CSR_RI
        rbdl_ba := 0x1000
        ReadQ :=
          { max := 2, count := 1, head := 0, tail := 0
            item := [{ type := 2, packet := { msg := rx_msg, len := 60 } }, eth_item_zero] } } } }

/-- Example receive state of controller XQA in classic mode: as `rx_acked`, with RI clear
and, for the queued packet, the length 30 (a runt; bytes 30 to 59 of its buffer hold stale
data). -/
def rx_runt : Sys :=
  { rx_acked with xqa := { var := { (rx_acked.dev .xqa) with
      csr := XQ_CSR_IE
      ReadQ :=
        { max := 2, count := 1, head := 0, tail := 0
          item := [{ type := 2, packet := { msg := rx_msg, len := 30 } }, eth_item_zero] } } } }

/-- Example receive state of controller XQA in classic mode: as `rx_runt`, but the address
word of the receive descriptor at 0x1000 is 0x5000, which is non-existent memory. -/
def rx_nxm : Sys :=
  { rx_runt with mem := fun a => if a = 0x1005 then some 0x50 else rx_mem a }

/-- Example receive state of controller XQA in classic mode: as `rx_acked`, with RI clear. -/
def rx_ready : Sys :=
  { rx_acked with xqa := { var := { (rx_acked.dev .xqa) with csr := XQ_CSR_IE } } }

/-- Example transmit state of controller XQA in classic mode: as `rx_nxm`, with the
transmit list at 0x1000, where the descriptor is valid and its buffer address 0x5000 is
non-existent memory. -/
def tx_nxm : Sys :=
  { rx_nxm with xqa := { var := { (rx_nxm.dev .xqa) with xbdl_ba := 0x1000 } } }

/-- Example state of controller XQA in turbo mode: a DELQA-T with the response register
clear. -/
def turbo_idle : Sys :=
  { mem := rx_mem
    xqa := { var := { type := XQ_T_DELQA_PLUS, mode := XQ_T_DELQA_PLUS, csr := XQ_CSR_IE } } }

/-- Example guest memory: the addresses below 0x4000 exist and hold 0, except for two
receive descriptors, at 0x1000 (flag word 0x8000: valid; address word 0x2000; word count
0xFFF6: 10 words, 20 bytes) and at 0x100C (valid; address word 0x3000; 20 bytes), that are
followed at 0x1018 by a descriptor with a clear valid bit. -/
def split_mem : Mem := fun a =>
  if 0x4000 ≤ a then none
  else if a = 0x1003 then some 0x80
  else if a = 0x1005 then some 0x20
  else if a = 0x1006 then some 0xF6
  else if a = 0x1007 then some 0xFF
  else if a = 0x100F then some 0x80
  else if a = 0x1011 then some 0x30
  else if a = 0x1012 then some 0xF6
  else if a = 0x1013 then some 0xFF
  else some 0

/-- Example receive state of controller XQA in classic mode: as `rx_runt` (one normal packet
of 30 bytes queued, a runt, with delivered-byte offset 0), over the guest memory `split_mem`
with its two buffers of 20 bytes. -/
def rx_runt_split : Sys := { rx_runt with mem := split_mem }

/-- Example guest memory: the addresses below 0x4000 exist and hold 0, except for a transmit
list at 0x1000 and a receive list at 0x1100.  The transmit descriptor at 0x1000 is valid and
an end of message (flag word 0xA000) with a buffer of 60 bytes at 0x2000, and is followed at
0x100C by a descriptor with a clear valid bit.  The receive descriptor at 0x1100 is a valid
chain descriptor (flag word 0xC000) whose address word 0x1100 points at itself. -/
def hang_mem : Mem := fun a =>
  if 0x4000 ≤ a then none
  else if a = 0x1003 then some 0xA0
  else if a = 0x1005 then some 0x20
  else if a = 0x1006 then some 0xE2
  else if a = 0x1007 then some 0xFF
  else if a = 0x1103 then some 0xC0
  else if a = 0x1105 then some 0x11
  else some 0

/-- Example guest memory: the addresses below 0x4000 exist and hold 0, except for a transmit
list at 0x1000: a valid segment (flag word 0x8000) with a buffer of 60 bytes at 0x2000, a
valid end of message (flag word 0xA000) with a buffer of 60 bytes at 0x3000, and at 0x1018 a
descriptor with a clear valid bit. -/
def list_mem : Mem := fun a =>
  if 0x4000 ≤ a then none
  else if a = 0x1003 then some 0x80
  else if a = 0x1005 then some 0x20
  else if a = 0x1006 then some 0xE2
  else if a = 0x1007 then some 0xFF
  else if a = 0x100F then some 0xA0
  else if a = 0x1011 then some 0x30
  else if a = 0x1012 then some 0xE2
  else if a = 0x1013 then some 0xFF
  else some 0

/-- Example state of controller XQA in classic mode over `list_mem`: the CSR has RL set and
RE and IL clear (internal loopback, no receive list given), the transmit list is at
0x1000. -/
def tx_list : Sys :=
  { mem := list_mem
    xqa := { var := { csr := XQ_CSR_RL, xbdl_ba := 0x1000,
                      ReadQ := { max := 2, item := [eth_item_zero, eth_item_zero] } } } }

/-- Example collaborators of a controller that is not attached to a network: `eth_write`
returns a status other than `SCPE_OK` and leaves the state as it is (sim_ether.cpp:2159);
the other functions do not return. -/
def no_link : Collab :=
  { xq_process_turbo_rbdl := fun _ _ => none
    xq_process_setup := fun _ _ => none
    eth_write := fun _ s => some (1, s)
    eth_read := fun _ _ => none
    eth_write_null := fun _ s => some (1, s) }

/-! ## Setup packets (pdp11_xq.cpp:1311-1481) -/

/-- Modelled from the spec: the number of filter addresses of a setup packet,
`XQ_FILTER_MAX` of `pdp11_xq.h` ("up to 14 explicit filter MAC addresses"); it is the
number of rows of `setup.macs`. -/
def XQ_FILTER_MAX : Nat := 14

/-- Modelled from the spec: the all-multicast bit of the flags word of a setup packet,
`XQ_SETUP_MC` of `pdp11_xq.h` ("bit layout: multicast-all, promiscuous, LED-select 2 bits,
sanity-select 3 bits", from the least significant bit on). -/
def XQ_SETUP_MC : Nat := 0x0001

/-- Modelled from the spec: the promiscuous bit of the flags word of a setup packet. -/
def XQ_SETUP_PM : Nat := 0x0002

/-- Modelled from the spec: the LED-select field of the flags word of a setup packet; the
source shifts it down by 2. -/
def XQ_SETUP_LD : Nat := 0x000C

/-- Modelled from the spec: the sanity-select field of the flags word of a setup packet; the
source shifts it down by 4. -/
def XQ_SETUP_ST : Nat := 0x0070

/-- The arguments of a call `eth_filter (dev, addr_count, addresses, all_multicast,
promiscuous)` of the packet transport (sim_ether.h:276). -/
structure eth_filter_call where
  addr_count : Nat := 0
  addresses : List (List Nat) := []
  all_multicast : Nat := 0
  promiscuous : Nat := 0
  deriving DecidableEq

/-- The array `macs` after the assignment `macs[i][j] = b`. -/
def mac_set (macs : List (List Nat)) (i j b : Nat) : List (List Nat) :=
  macs.set i ((macs.getD i []).set j b)

/-- The body of the extraction loops of `xq_process_setup` (pdp11_xq.cpp:1389-1393) for the
indexes `i` and `j`: the setup packet is `msg`, and `long` says whether `write_buffer.len`
is greater than 112; 01 and 0101 are octal. -/
def setup_extract_body (msg : List Nat) (long : Bool) (macs : List (List Nat)) (i j : Nat) :
    List (List Nat) :=
  let m1 := mac_set macs i j (msg.getD ((i + 1) + j * 8) 0)
  if long then mac_set m1 (i + 7) j (msg.getD ((i + 65) + j * 8) 0) else m1

/-- The array `setup.macs` after `memset` and the extraction loops `for (i = 0; i < 7; i++)
for (j = 0; j < 6; j++)` of `xq_process_setup` (pdp11_xq.cpp:1387-1393) for the setup packet
`msg` of `len` bytes. -/
def setup_extract (msg : List Nat) (len : Nat) : List (List Nat) :=
  (List.range 7).foldl
    (fun macs i =>
      (List.range 6).foldl (fun macs j => setup_extract_body msg (decide (112 < len)) macs i j) macs)
    (List.replicate XQ_FILTER_MAX (List.replicate 6 0))

/-- The array `filters` after the loop that builds the address list for `eth_filter`
(pdp11_xq.cpp:1463-1466): `memcmp` with `zeros` over the six bytes of `macs[i]`, `memcpy` of
the six bytes to `filters[count++]`. -/
def setup_filters (macs : List (List Nat)) : List (List Nat) :=
  (List.range XQ_FILTER_MAX).foldl
    (fun filters i =>
      if bytes_at (macs.getD i []) 0 6 ≠ List.replicate 6 0
      then filters ++ [bytes_at (macs.getD i []) 0 6] else filters)
    []

/-- The value `(int) (secs * 4)` of the sanity timeout switch of `xq_process_setup`
(pdp11_xq.cpp:1440-1451) for the selector `san`, which is at most 7. -/
def setup_quarter_secs (san : Nat) : Int :=
  match san with
  | 0 => 1
  | 1 => 4
  | 2 => 16
  | 3 => 64
  | 4 => 240
  | 5 => 960
  | 6 => 3840
  | _ => 15360

/-- Modelled from the spec: `sizeof (struct xq_meb)`; the structure is declared in
`pdp11_xq.h`, the source reads its one-byte members `type`, `add_lo`, `add_mi`, `add_hi`,
`siz_lo`, `siz_hi`, taken in this order. -/
def XQ_MEB_SIZE : Nat := 6

/-- The loop of `xq_process_mop` (pdp11_xq.cpp:1324-1366) from the element block at index
`meb` of the write buffer, with `n` iterations at most.  `address` is computed with the
logical operator `||`, as the source does; `meb += sizeof (struct xq_meb)` advances a
pointer to `struct xq_meb` by that many blocks. -/
def xq_process_mop_loop (i : CtlrId) : Nat → Nat → Sys → Sys
  | 0, _, s => s
  | n + 1, meb, s =>
    let v := s.dev i
    let msg := v.write_buffer.msg
    let type := msg.getD meb 0
    if type ≠ 0 ∧ meb < 256 then
      let address :=
        if msg.getD (meb + 3) 0 <<< 16 ≠ 0 ∨ msg.getD (meb + 2) 0 <<< 8 ≠ 0 ∨ msg.getD (meb + 1) 0 ≠ 0
        then 1 else 0
      if type = 1 then
        let w := Map_WriteB s.mem address (bytes_at (v.setup.macs.getD 0 []) 0 6)
        if w.1 ≠ 0 then (xq_nxm_error i { s with mem := w.2 }).2
        else xq_process_mop_loop i n (meb + XQ_MEB_SIZE * XQ_MEB_SIZE) { s with mem := w.2 }
      else if type = 10 ∧ v.type = XQ_T_DELQA_PLUS then
        let w := Map_WriteB s.mem address [2, 0, 0, 0, 0, 0]
        if w.1 ≠ 0 then (xq_nxm_error i { s with mem := w.2 }).2
        else xq_process_mop_loop i n (meb + XQ_MEB_SIZE * XQ_MEB_SIZE) { s with mem := w.2 }
      else xq_process_mop_loop i n (meb + XQ_MEB_SIZE * XQ_MEB_SIZE) s
    else s

/-- The function `xq_process_mop` (pdp11_xq.cpp:1311): the state afterwards; its status is
discarded by its caller.  The element blocks lie at the indexes 0200 to 0400 (octal) of the
write buffer, so the loop runs four times at most. -/
def xq_process_mop (i : CtlrId) (s : Sys) : Sys :=
  if (s.dev i).type = XQ_T_DEQNA then s else xq_process_mop_loop i 4 128 s

/-- The function `xq_process_setup` (pdp11_xq.cpp:1370): the status, the state afterwards
and the arguments of its call of `eth_filter`, which reprograms the transport only. -/
def xq_process_setup (i : CtlrId) (s : Sys) : Nat × Sys × eth_filter_call :=
  let v := s.dev i
  let wb := v.write_buffer
  let macs := setup_extract wb.msg wb.len
  let len := u16 wb.len
  let long := 128 < wb.len
  let multicast :=
    if long then (if len &&& XQ_SETUP_MC ≠ 0 then 1 else 0) else v.setup.multicast
  let promiscuous := if long then (if len &&& XQ_SETUP_PM ≠ 0 then 1 else 0) else 0
  let led := (len &&& XQ_SETUP_LD) >>> 2
  let san := (len &&& XQ_SETUP_ST) >>> 4
  let quarter_secs := if long then setup_quarter_secs san else v.sanity.quarter_secs
  let enabled :=
    if v.sanity.enabled ≠ 2 then (if v.csr &&& XQ_CSR_SE ≠ 0 then 1 else 0) else v.sanity.enabled
  let v1 : xq_device :=
    { v with
      setup :=
        { v.setup with
          macs := macs
          multicast := multicast
          promiscuous := promiscuous
          l1 := if long ∧ led = 1 then 0 else v.setup.l1
          l2 := if long ∧ led = 2 then 0 else v.setup.l2
          l3 := if long ∧ led = 3 then 0 else v.setup.l3 }
      sanity := { v.sanity with quarter_secs := quarter_secs, enabled := enabled } }
  let s1 := xq_reset_santmr i (s.setDev i v1)
  let call : eth_filter_call :=
    { addr_count := (setup_filters macs).length
      addresses := setup_filters macs
      all_multicast := multicast
      promiscuous := promiscuous }
  let s2 := if wb.msg.getD 0 0 ≠ 0 then xq_process_mop i s1 else s1
  (SCPE_OK, s2.setDev i { s2.dev i with setup := { (s2.dev i).setup with valid := 1 } }, call)

/-- The collaborators of the classic walks with `xq_process_setup` as the source has it;
the other members are those of `K`. -/
def with_setup (K : Collab) : Collab :=
  { K with xq_process_setup := fun i s => some ((xq_process_setup i s).1, (xq_process_setup i s).2.1) }

/-! ## Timer service (pdp11_xq.cpp:2676-2688 and 2815-2844) -/

/-- The bit MS of the vector address register: bit 15 in the table `xq_var_bits`
(pdp11_xq.cpp:552, least significant bit first). -/
def XQ_VEC_MS : Nat := 0x8000

/-- The bit OS of the vector address register: bit 14 in the table `xq_var_bits`. -/
def XQ_VEC_OS : Nat := 0x4000

/-- Modelled from the spec: the period of the system identification broadcast in seconds,
`XQ_SYSTEM_ID_SECS` of `pdp11_xq.h`. -/
def XQ_SYSTEM_ID_SECS : Nat := 540

/-- Modelled from the spec: the guest-reboot signal `STOP_SANITY`; the header that numbers
the stop codes is not among the sources, the model takes a status other than `SCPE_OK`. -/
def STOP_SANITY : Nat := 1

/-- The function `xq_boot_host` (pdp11_xq.cpp:2676): the status it returns. -/
def xq_boot_host : Nat := STOP_SANITY

/-- The function `xq_system_id` (pdp11_xq.cpp:2689) as called by the timer service: the
state afterwards.  The counter `idtmr` is set again; the packet is built in a local buffer
and sent by `eth_write` without a callback, which concerns the transport only, and the
status is discarded by the caller. -/
def xq_system_id (i : CtlrId) (s : Sys) : Sys :=
  s.setDev i { s.dev i with idtmr := (XQ_SYSTEM_ID_SECS : Int) * 4 }

/-- The function `xq_tmrsvc` (pdp11_xq.cpp:2815): the status and the state afterwards.  The
`else` of the source belongs to the test of the mode; `xq_activate` schedules the timer
service unit again and is not reached when `xq_boot_host` is returned.  The controller lock
and the cancellation check of the multiprocessor scheduler at the entry are left out, and
the counters are taken to be far from the ends of `int`. -/
def xq_tmrsvc (i : CtlrId) (s : Sys) : Nat × Sys :=
  let v := s.dev i
  let v1 : xq_device :=
    if v.sanity.enabled ≠ 0 then { v with sanity := { v.sanity with timer := v.sanity.timer - 1 } }
    else v
  if v.sanity.enabled ≠ 0 ∧ v1.sanity.timer ≤ 0 ∧ v.mode ≠ XQ_T_DELQA_PLUS then
    (xq_boot_host, s.setDev i v1)
  else
    let v2 : xq_device :=
      if v.sanity.enabled ≠ 0 ∧ v1.sanity.timer ≤ 0 then
        { v1 with mode := XQ_T_DELQA, iba := 0, srr := 0, var := XQ_VEC_MS ||| XQ_VEC_OS }
      else v1
    let s3 := s.setDev i { v2 with idtmr := v2.idtmr - 1 }
    let s4 := if (s3.dev i).idtmr ≤ 0 then xq_system_id i s3 else s3
    (SCPE_OK, s4.setCtlr i { s4.ctlr i with unit1_active := true })

/-- Modelled from the spec: one tick of the timer unit of controller `i`.  The event queue of
the simulator core is not among the sources.  The timer service is scheduled by `xq_reset`
(pdp11_xq.cpp:2648) and schedules itself again at its end (`xq_activate`,
pdp11_xq.cpp:2841), so a tick runs `xq_tmrsvc` only while the unit is scheduled, and the
unit leaves the queue when its event is delivered.  The result is the status that the run
returns, `none` when the service does not run, and the state afterwards. -/
def tmr_tick (i : CtlrId) (s : Sys) : Option Nat × Sys :=
  if (s.ctlr i).unit1_active = true then
    (some (xq_tmrsvc i (s.setCtlr i { s.ctlr i with unit1_active := false })).1,
      (xq_tmrsvc i (s.setCtlr i { s.ctlr i with unit1_active := false })).2)
  else (none, s)

/-- The statuses returned by the runs of the timer service of controller `i` during `n`
consecutive ticks with nothing else run in between, the first run first, and the state after
the last tick. -/
def tmr_ticks (i : CtlrId) : Nat → Sys → List Nat × Sys
  | 0, s => ([], s)
  | n + 1, s =>
    ((tmr_tick i s).1.toList ++ (tmr_ticks i n (tmr_tick i s).2).1,
      (tmr_ticks i n (tmr_tick i s).2).2)

/-! ## The Read Queue as a list -/

/-- A Read Queue in use: a ring of `max` items with room for a frame each, `count` of them
occupied from `head` on, the last occupied one at `tail`. -/
def ethq_wf (que : eth_queue) : Prop :=
  0 < que.max ∧ que.item.length = que.max ∧ que.count ≤ que.max ∧ que.head < que.max ∧
    (∀ it ∈ que.item, it.packet.msg.length = ETH_FRAME_SIZE) ∧
    (0 < que.count → que.tail = (((que.head + que.count - 1) % que.max : Nat) : Int))

/-- The items a Read Queue holds, the oldest (the one at `head`) first. -/
def ethq_list (que : eth_queue) : List eth_item :=
  (List.range que.count).map fun k => que.item.getD ((que.head + k) % que.max) eth_item_zero

/-- The newest item of a Read Queue, the one at `tail`. -/
def ethq_newest (que : eth_queue) : eth_item := que.item.getD que.tail.toNat eth_item_zero

/-! ## The guest-memory writes of a status update, in order -/

/-- A guest bus that records the calls of `Map_WriteW` made on it: the state is that of the
bus `write` together with the list of the calls so far, each with its address and its words,
the first call first; a call is recorded whether it succeeds or not. -/
def traced {β : Type} (write : β → Nat → List Nat → Nat × β)
    (b : β × List (Nat × List Nat)) (ba : Nat) (ws : List Nat) :
    Nat × (β × List (Nat × List Nat)) :=
  ((write b.1 ba ws).1, ((write b.1 ba ws).2, b.2 ++ [(ba, ws)]))

/-! ## Example states of the later statements -/

/-- Example state: a DELQA-T whose transport is attached, with SR, IE, RI and RE set in the
CSR, an interrupt pending, one packet queued and both filter mode flags set. -/
def sr_set : Sys :=
  { xqa :=
      { var :=
          { type := XQ_T_DELQA_PLUS
            etherface := true
            csr := XQ_CSR_SR ||| XQ_CSR_IE ||| XQ_CSR_RI ||| XQ_CSR_RE
            irq := 1
            iba := 5
            srr := 7
            ReadQ := { max := 2, count := 1, item := [{ type := 2, packet := { len := 60 } }, eth_item_zero] }
            setup := { multicast := 1, promiscuous := 1 } } }
    xq_pending_intrs := 1
    int_XQ := true }

/-- Example state: both controllers are enabled and have an interrupt pending. -/
def int_both : Sys :=
  { xqa := { var := { csr := XQ_CSR_IE ||| XQ_CSR_RI, irq := 1 }, vec := 0x1E4 }
    xqb := { var := { csr := XQ_CSR_IE ||| XQ_CSR_XI, irq := 1 }, vec := 0x1E8 }
    xq_pending_intrs := 2
    int_XQ := true }

/-- Example receive state of controller XQA in classic mode: as `rx_ready`, with three
packets lost to overflow of the Read Queue. -/
def rx_lossy : Sys :=
  { rx_ready with xqa := { var := { (rx_ready.dev .xqa) with
      ReadQ := { (rx_ready.dev .xqa).ReadQ with loss := 3 } } } }

/-- Example transmit state of controller XQA in classic mode over `rx_mem`: a frame of 60
bytes is in the write buffer and the transmit descriptor is at 0x1000. -/
def tx_done : Sys :=
  { mem := rx_mem, xqa := { var := { xbdl_ba := 0x1000, write_buffer := { msg := rx_msg, len := 60 } } } }

/-- Example Read Queue of capacity 2 that is full: the oldest item is at index 1, the
newest at index 0. -/
def full_queue : eth_queue :=
  { max := 2, count := 2, head := 1, tail := 0
    item := [{ eth_item_zero with type := 1 }, { eth_item_zero with type := 2 }] }

/-- Example state of controller XQA in classic mode: the sanity timer is enabled, set for
one quarter second, its countdown has just been reset, and the timer unit is scheduled. -/
def san_armed : Sys :=
  { xqa := { var := { csr := XQ_CSR_SE, sanity := { enabled := 1, quarter_secs := 1, timer := 1 } }
             unit1_active := true } }

/-- Example guest memory: the addresses below 0x100A exist and hold 0, so that status
word 1 of a descriptor at 0x1000 is existing memory and status word 2 is not. -/
def short_mem : Mem := fun a => if a < 0x100A then some 0 else none

/-- Example transmit state of controller XQA in classic mode: the write buffer holds a setup
packet of 130 bytes (more than 128; bit 1 of the length is set, bit 0 and the sanity-select
field are clear), byte `k` of the packet being `k`, and SE is set in the CSR. -/
def setup_long : Sys :=
  { mem := rx_mem
    xqa := { var := { csr := XQ_CSR_SE, setup := { multicast := 1 }
                      write_buffer := { msg := List.range 130, len := 130 } } } }

/-- Example transmit state of controller XQA in classic mode: as `setup_long`, with the
descriptor at 0x1000 fetched as a valid end-of-message setup descriptor (flag word 0xB000)
and an empty Read Queue of capacity 2. -/
def tx_setup : Sys :=
  { setup_long with xqa := { var := { (setup_long.dev .xqa) with
      xbdl_ba := 0x1000
      xbdl_buf := { w1 := 0xB000 }
      ReadQ := { max := 2, item := [eth_item_zero, eth_item_zero] } } } }

/-! ## Constants of the register window and of turbo mode -/

/-- Modelled from the spec: status `SCPE_UNATT` of the simulator control package, whose
header is not among the sources; a status other than `SCPE_OK`. -/
def SCPE_UNATT : Nat := 65

/-- Modelled from the spec: status `SCPE_IOERR` of the simulator control package; a status
other than `SCPE_OK`. -/
def SCPE_IOERR : Nat := 66

/-- Modelled from the spec: status `SCPE_NOFNC` of the simulator control package; a status
other than `SCPE_OK`. -/
def SCPE_NOFNC : Nat := 89

/-- Modelled from the spec: the base `VEC_Q` of the Qbus interrupt vectors, which belongs to
the simulator core. -/
def VEC_Q : Nat := 0x200

/-- The interrupt vector field of the vector address register: the bits V0 to V7 of the
table `xq_var_bits` (pdp11_xq.cpp:552, least significant bit first). -/
def XQ_VEC_IV : Nat := 0x03FC

/-- The self-test request bit RS of the vector address register: bit 13 of `xq_var_bits`. -/
def XQ_VEC_RS : Nat := 0x2000

/-- The self-test status bit S1 of the vector address register: bit 10 of `xq_var_bits`. -/
def XQ_VEC_S1 : Nat := 0x0400

/-- The self-test status field S1, S2, S3 of the vector address register: bits 10 to 12 of
`xq_var_bits`. -/
def XQ_VEC_ST : Nat := 0x1C00

/-- Modelled from the spec: macro `XQ_VEC_RO` of `pdp11_xq.h`, the read-only bits of the
vector address register ("accepts only bits the active type permits"): OS, S3, S2, S1 and
RR. -/
def XQ_VEC_RO : Nat := 0x5C02

/-- Modelled from the spec: macro `XQ_VEC_RW` of `pdp11_xq.h`, the read/write bits of the
vector address register: MS, RS, the vector field and ID. -/
def XQ_VEC_RW : Nat := 0xA3FD

/-- Modelled from the spec: macro `XQ_SRR_RESP` of `pdp11_xq.h`, the response field of the
status/response register: the bits RS0 and RS1 of the table `xq_srr_bits`
(pdp11_xq.cpp:557). -/
def XQ_SRR_RESP : Nat := 0x0003

/-- Modelled from the spec: macro `XQ_SRR_TRBO` of `pdp11_xq.h`, the response "turbo mode
active" ("response register reflects turbo-active"). -/
def XQ_SRR_TRBO : Nat := 0x0001

/-- Modelled from the spec: macro `XQ_SRR_STRT` of `pdp11_xq.h`, the response "started". -/
def XQ_SRR_STRT : Nat := 0x0002

/-- Modelled from the spec: macro `XQ_SRQR_RW` of `pdp11_xq.h`, the writable bits of the
synchronous request register. -/
def XQ_SRQR_RW : Nat := 0x0003

/-- Modelled from the spec: macro `XQ_SRQR_STRT` of `pdp11_xq.h`, the request "start ring
processing". -/
def XQ_SRQR_STRT : Nat := 0x0002

/-- Modelled from the spec: macro `XQ_SRQR_STOP` of `pdp11_xq.h`, the request "stop". -/
def XQ_SRQR_STOP : Nat := 0x0003

/-- Modelled from the spec: macro `XQ_ARQR_TRQ` of `pdp11_xq.h`, the flag "transmit
request" of the asynchronous request register. -/
def XQ_ARQR_TRQ : Nat := 0x8000

/-- Modelled from the spec: macro `XQ_ARQR_RRQ` of `pdp11_xq.h`, the flag "receive
request" of the asynchronous request register. -/
def XQ_ARQR_RRQ : Nat := 0x0080

/-- Modelled from the spec: macro `XQ_ARQR_SR` of `pdp11_xq.h`, the flag "software reset"
of the asynchronous request register. -/
def XQ_ARQR_SR : Nat := 0x0002

/-- Modelled from the spec: macro `XQ_ICR_ENA` of `pdp11_xq.h`, the interrupt enable bit of
the interrupt-control register. -/
def XQ_ICR_ENA : Nat := 0x0001

/-- Modelled from the spec: macro `XQ_IN_MO_PRO` of `pdp11_xq.h`, the promiscuous flag of
the mode word of the initialization block. -/
def XQ_IN_MO_PRO : Nat := 0x8000

/-- Modelled from the spec: macro `XQ_IN_MO_INT` of `pdp11_xq.h`, the internal-loopback flag
of the mode word of the initialization block. -/
def XQ_IN_MO_INT : Nat := 0x0040

/-- Modelled from the spec: macro `XQ_IN_MO_LOP` of `pdp11_xq.h`, the loopback flag of the
mode word of the initialization block. -/
def XQ_IN_MO_LOP : Nat := 0x0004

/-- Modelled from the spec: macro `XQ_IN_OP_HIT` of `pdp11_xq.h`, the option flag that
enables the host-inactivity timer. -/
def XQ_IN_OP_HIT : Nat := 0x0002

/-- Modelled from the spec: macro `XQ_IN_OP_INT` of `pdp11_xq.h`, the option flag that
enables interrupts. -/
def XQ_IN_OP_INT : Nat := 0x0001

/-- Modelled from the spec: `sizeof (struct xq_turbo_init_block)`: one mode word, a 6-byte
address, an 8-byte hash, three words, a 6-byte password and four ring address words. -/
def XQ_INIT_SIZE : Nat := 36

/-- Modelled from the spec: macro `XQ_TMD3_OWN` of `pdp11_xq.h`, the ownership bit of a ring
entry: set when the entry belongs to the driver. -/
def XQ_TMD3_OWN : Nat := 0x8000

/-- Modelled from the spec: macro `XQ_RMD3_OWN` of `pdp11_xq.h`, the ownership bit of an
entry of the receive ring. -/
def XQ_RMD3_OWN : Nat := 0x8000

/-- Modelled from the spec: macro `XQ_TMD3_FOT` of `pdp11_xq.h`, the flag "first of two" of
an entry of the transmit ring: the frame goes on in the next entry. -/
def XQ_TMD3_FOT : Nat := 0x4000

/-- Modelled from the spec: macro `XQ_TMD3_BCT` of `pdp11_xq.h`, the byte count field of an
entry of the transmit ring. -/
def XQ_TMD3_BCT : Nat := 0x0FFF

/-- Modelled from the spec: macro `XQ_TMD0_ERR1` of `pdp11_xq.h`, the error summary flag of
an entry of the transmit ring. -/
def XQ_TMD0_ERR1 : Nat := 0x4000

/-- Modelled from the spec: macro `XQ_TMD1_LCA` of `pdp11_xq.h`, the flag "loss of carrier"
of an entry of the transmit ring. -/
def XQ_TMD1_LCA : Nat := 0x0800

/-- Modelled from the spec: macro `XQ_TMD2_EOR` of `pdp11_xq.h`, the end-of-ring flag of an
entry of the transmit ring. -/
def XQ_TMD2_EOR : Nat := 0x0800

/-- Modelled from the spec: macro `XQ_TMD2_RON` of `pdp11_xq.h`, the flag "receiver on". -/
def XQ_TMD2_RON : Nat := 0x0020

/-- Modelled from the spec: macro `XQ_TMD2_TON` of `pdp11_xq.h`, the flag "transmitter
on". -/
def XQ_TMD2_TON : Nat := 0x0010

/-- Modelled from the spec: macro `XQ_RMD0_STP` of `pdp11_xq.h`, the start-of-packet flag
of an entry of the receive ring. -/
def XQ_RMD0_STP : Nat := 0x0200

/-- Modelled from the spec: macro `XQ_RMD0_ENP` of `pdp11_xq.h`, the end-of-packet flag of
an entry of the receive ring. -/
def XQ_RMD0_ENP : Nat := 0x0100

/-- Modelled from the spec: macro `XQ_RMD2_MIS` of `pdp11_xq.h`, the flag "packets lost" of
an entry of the receive ring. -/
def XQ_RMD2_MIS : Nat := 0x1000

/-- Modelled from the spec: macro `XQ_RMD2_EOR` of `pdp11_xq.h`, the end-of-ring flag of an
entry of the receive ring. -/
def XQ_RMD2_EOR : Nat := 0x0800

/-- Modelled from the spec: macro `XQ_RMD2_RON` of `pdp11_xq.h`, the flag "receiver on". -/
def XQ_RMD2_RON : Nat := 0x0020

/-- Modelled from the spec: macro `XQ_RMD2_TON` of `pdp11_xq.h`, the flag "transmitter
on". -/
def XQ_RMD2_TON : Nat := 0x0010

/-- Modelled from the spec: `sizeof` of an entry of a ring, eight `uint16` members. -/
def XQ_RING_ENTRY : Nat := 16

/-- Modelled from the spec: macro `XQ_QUE_MAX` of `pdp11_xq.h`, the capacity of the Read
Queue in packets. -/
def XQ_QUE_MAX : Nat := 500

/-- Modelled from the spec: macro `XQ_HW_SANITY_SECS` of `pdp11_xq.h`, the timeout in
seconds of the sanity timer enabled by the hardware switch. -/
def XQ_HW_SANITY_SECS : Nat := 240

/-! ## Read Queue creation (sim_ether.cpp:679) -/

/-- The function `ethq_init` (sim_ether.cpp:679): the status and the queue.  A queue whose
`item` is the empty list has no array yet (a null pointer); `calloc` is taken to succeed,
and gives `max` zeroed items. -/
def ethq_init (que : eth_queue) (max : Nat) : Nat × eth_queue :=
  if que.item = [] then
    (SCPE_OK, ethq_clear { que with item := List.replicate max eth_item_zero, max := max })
  else (SCPE_OK, ethq_clear que)

/-- An operation on a Read Queue: `ethq_insert` of a packet with a type and a status,
`ethq_remove`, or `ethq_clear`. -/
inductive ethq_op where
  | insert (type : Nat) (pack : eth_packet) (status : Nat)
  | remove
  | clear

/-- The queue after one operation. -/
def ethq_op.run : ethq_op → eth_queue → eth_queue
  | .insert type pack status, que => ethq_insert que type pack status
  | .remove, que => ethq_remove que
  | .clear, que => ethq_clear que

/-- The queue after a finite sequence of operations, the first operation first. -/
def ethq_run : List ethq_op → eth_queue → eth_queue
  | [], que => que
  | op :: ops, que => ethq_run ops (op.run que)

/-- The operation stays inside the packet buffers: an inserted packet has at most
`ETH_FRAME_SIZE` bytes, with and without its CRC. -/
def ethq_op.fits : ethq_op → Prop
  | .insert _ pack _ => pack.len ≤ ETH_FRAME_SIZE ∧ pack.crc_len ≤ ETH_FRAME_SIZE
  | _ => True

/-- What a queued item holds of a packet: the type, the lengths, the `used` count, the
status and the `len` bytes of the frame. -/
def item_view (it : eth_item) : eth_item :=
  { it with packet := { it.packet with msg := bytes_at it.packet.msg 0 it.packet.len } }

/-- The abstract Read Queue, a list of at most `max` packets with the oldest first, after
one operation: an insert appends the packet, dropping the first element when the list
already has `max` elements; a remove drops the first element and leaves the empty list as it
is; a clear empties the list. -/
def abs_op (max : Nat) : ethq_op → List eth_item → List eth_item
  | .insert type pack status, l =>
    (if l.length = max then l.tail else l) ++
      [item_view { type := type, packet := { pack with status := status } }]
  | .remove, l => l.tail
  | .clear, _ => []

/-- The abstract Read Queue after a finite sequence of operations, the first operation
first. -/
def abs_run (max : Nat) : List ethq_op → List eth_item → List eth_item
  | [], l => l
  | op :: ops, l => abs_run max ops (abs_op max op l)

/-! ## Classic descriptor encoding, in the words of the specification -/

/-- The flag word of `spec_bdl_encode` without the address bits: the valid, chain,
end-of-message and setup bits and the two odd-trim bits. -/
def spec_bdl_flags (v c e s l h : Bool) : Nat :=
  (if v then XQ_DSC_V else 0) ||| (if c then XQ_DSC_C else 0) ||| (if e then XQ_DSC_E else 0) |||
    (if s then XQ_DSC_S else 0) ||| (if l then XQ_DSC_L else 0) ||| (if h then XQ_DSC_H else 0)

/-- The encoding of a classic buffer descriptor in the words of the specification ("flag
word with address bits 21:16 and odd-trim bits, address-low word, two's-complement word
count"); the sources hold the decoding only.  The descriptor has the buffer address `addr`,
the byte length `len`, the flags `v`, `c`, `e`, `s`, and `h` says whether the buffer starts
on a high byte; the odd-trim bit L is set when the buffer, with the byte the bit H trims,
is not a whole number of words.  The result is the flag word, the address word and the
word-count word, the 16-bit two's complement of the number of words. -/
def spec_bdl_encode (addr len : Nat) (v c e s h : Bool) : Nat × Nat × Nat :=
  let l := decide ((len + (if h then 1 else 0)) % 2 = 1)
  let n := (len + (if h then 1 else 0) + (if l then 1 else 0)) / 2
  (spec_bdl_flags v c e s l h ||| (addr >>> 16), addr &&& 0xFFFF, (65536 - n % 65536) % 65536)

/-- The number of words of the buffer that `spec_bdl_encode` describes. -/
def spec_bdl_words (len : Nat) (h : Bool) : Nat :=
  (len + (if h then 1 else 0) + (if (len + (if h then 1 else 0)) % 2 = 1 then 1 else 0)) / 2

/-! ## Register writes (pdp11_xq.cpp:2121-2595) -/

/-- The function `xq_wr_var` (pdp11_xq.cpp:2121); `io_change_vec` sets the vector of the
device. -/
def xq_wr_var (i : CtlrId) (data : Nat) (s : Sys) : Nat × Sys :=
  let c := s.ctlr i
  let v := c.var
  let v1 : xq_device :=
    match v.type with
    | XQ_T_DEQNA => { v with var := data &&& XQ_VEC_IV }
    | _ =>
      let var0 := (v.var &&& XQ_VEC_RO) ||| (data &&& XQ_VEC_RW)
      let lock := var0 &&& XQ_VEC_MS = 0
      let var1 := if lock then var0 &&& not16 (XQ_VEC_OS ||| XQ_VEC_RS ||| XQ_VEC_ST) else var0
      let var2 :=
        if var1 &&& XQ_VEC_RS ≠ 0 then
          if v.etherface = false then (var1 &&& not16 XQ_VEC_RS) ||| XQ_VEC_S1
          else (var1 &&& not16 XQ_VEC_RS) &&& not16 XQ_VEC_ST
        else var1
      { v with var := var2, mode := if lock then XQ_T_DEQNA else XQ_T_DELQA }
  (SCPE_OK, s.setCtlr i
    { c with var := v1, vec := if data &&& XQ_VEC_IV ≠ 0 then (data &&& XQ_VEC_IV) + VEC_Q else 0 })

/-- The address `((bdl[1] & 0x3F) << 16) | (bdl[0] & ~01)` of the first descriptor of a list
given by the register pair `bdl` (pdp11_xq.cpp:1636 and 1672). -/
def bdl_base (bdl : List Nat) : Nat :=
  ((bdl.getD 1 0 &&& 0x3F) <<< 16) ||| (bdl.getD 0 0 &&& 0xFFFE)

/-- The function `xq_dispatch_rbdl` (pdp11_xq.cpp:1619). -/
def xq_dispatch_rbdl (K : Collab) (fuel : Nat) (i : CtlrId) (s : Sys) : Option (Nat × Sys) :=
  let s1 := xq_csr_set_clr i 0 XQ_CSR_RL s
  let v := s1.dev i
  let ba := bdl_base v.rbdl
  let e := xq_fetch_bdl_entry s1.mem ba {} 6
  let s2 := { s1 with mem := e.2.1 }.setDev i { v with rbdl_ba := ba, rbdl_buf := e.2.2 }
  if e.1 ≠ 0 then some (xq_nxm_error i s2)
  else if e.2.2.get 1 &&& XQ_DSC_V = 0 then some (SCPE_OK, xq_csr_set_clr i XQ_CSR_RL 0 s2)
  else if (s2.dev i).ReadQ.count ≠ 0 then
    (xq_process_rbdl K fuel i s2).map fun r => (SCPE_OK, r.2)
  else some (SCPE_OK, s2)

/-- The function `xq_dispatch_xbdl` (pdp11_xq.cpp:1655). -/
def xq_dispatch_xbdl (K : Collab) (fuel : Nat) (i : CtlrId) (s : Sys) : Option (Nat × Sys) :=
  let s1 := xq_csr_set_clr i 0 XQ_CSR_XL s
  let v := s1.dev i
  xq_process_xbdl K fuel i
    (s1.setDev i
      { v with
        xbdl_buf := {}
        write_buffer := { v.write_buffer with len := 0 }
        xbdl_ba := bdl_base v.xbdl })

/-- The function `xq_wr_icr` (pdp11_xq.cpp:2503). -/
def xq_wr_icr (i : CtlrId) (data : Nat) (s : Sys) : Nat × Sys :=
  let v := s.dev i
  let s1 := s.setDev i { v with icr := data &&& XQ_ICR_ENA }
  if data &&& XQ_ICR_ENA ≠ 0 ∧ v.icr = 0 ∧ v.pending_interrupt ≠ 0 then (SCPE_OK, xq_setint i s1)
  else (SCPE_OK, s1)

/-- The words of the object `xq->var->init`, as `Map_ReadW` sees it: the members in the
order of the structure, a byte array giving the words it holds, low byte first. -/
def init_words (b : xq_turbo_init_block) : List Nat :=
  [b.mode] ++ words_of_bytes (bytes_at b.phys 0 6) ++ words_of_bytes (bytes_at b.hash_filter 0 8)
    ++ [b.options, b.vector, b.hit_timeout] ++ words_of_bytes (bytes_at b.bootpassword 0 6)
    ++ [b.rdra_l, b.rdra_h, b.tdra_l, b.tdra_h]

/-- The initialization block whose words are `ws`. -/
def init_of_words (ws : List Nat) : xq_turbo_init_block :=
  { mode := ws.getD 0 0
    phys := ((ws.drop 1).take 3).flatMap word_bytes
    hash_filter := ((ws.drop 4).take 4).flatMap word_bytes
    options := ws.getD 8 0
    vector := ws.getD 9 0
    hit_timeout := ws.getD 10 0
    bootpassword := ((ws.drop 11).take 3).flatMap word_bytes
    rdra_l := ws.getD 14 0
    rdra_h := ws.getD 15 0
    tdra_l := ws.getD 16 0
    tdra_h := ws.getD 17 0 }

/-- The array `old` after the words `ws` are stored from its start on. -/
def store_list (old ws : List Nat) : List Nat :=
  ws.take old.length ++ old.drop ws.length

/-- The function `xq_wr_srqr` (pdp11_xq.cpp:2424).  The call of `eth_filter_hash`
reprograms the transport only. -/
def xq_wr_srqr (i : CtlrId) (data : Nat) (s : Sys) : Nat × Sys :=
  let set_bits := data &&& XQ_SRQR_RW
  let s0 := s.setDev i { s.dev i with srr := set_bits }
  let s1 : Sys :=
    if set_bits = XQ_SRQR_STRT then
      let v := s0.dev i
      let r := Map_ReadW s0.mem v.iba XQ_INIT_SIZE
      let v1 : xq_device :=
        { v with
          stats := { v.stats with setup := v.stats.setup + 1 }
          init := init_of_words (store_list (init_words v.init) r.2) }
      if r.1 ≠ SCPE_OK then xq_start_receiver i (xq_nxm_error i (s0.setDev i v1)).2
      else
        let v2 : xq_device :=
          { v1 with
            tbindx := 0
            rbindx := 0
            sanity :=
              if v1.sanity.enabled ≠ 0 ∧ v1.init.options &&& XQ_IN_OP_HIT ≠ 0 then
                { v1.sanity with quarter_secs := 4 * (v1.init.hit_timeout : Int) }
              else v1.sanity
            icr := v1.init.options &&& XQ_IN_OP_INT }
        xq_start_receiver i
          (s0.setCtlr i { s0.ctlr i with var := v2, vec := v1.init.vector + VEC_Q })
    else if set_bits = XQ_SRQR_STOP then xq_stop_receiver i s0
    else s0
  (SCPE_OK, xq_setint i (xq_reset_santmr i s1))

/-! ## Turbo receive ring (pdp11_xq.cpp:1681-1807) -/

/-- The outcome of one iteration of the loop of a ring walk: the function returns `status`
from inside the loop (`ret`), the loop is left by `break` or because its condition is false
(`brk`, with whether the iteration has consumed a descriptor), or the loop goes round again
(`next`). -/
inductive Ring where
  | ret (status : Nat) (s : Sys)
  | brk (consumed : Bool) (s : Sys)
  | next (s : Sys)

/-- The state that an iteration of a ring walk leaves. -/
def Ring.state : Ring → Sys
  | .ret _ s => s
  | .brk _ s => s
  | .next s => s

/-- The words of an entry of the receive ring, in the order of the structure. -/
def rbd_words (d : receive_buffer_descriptor) : List Nat :=
  [d.rmd0, d.rmd1, d.rmd2, d.rmd3, d.ladr, d.hadr, d.hostuse1, d.hostuse2]

/-- The entry of the receive ring whose words are `ws`. -/
def rbd_of_words (ws : List Nat) : receive_buffer_descriptor :=
  { rmd0 := ws.getD 0 0, rmd1 := ws.getD 1 0, rmd2 := ws.getD 2 0, rmd3 := ws.getD 3 0
    ladr := ws.getD 4 0, hadr := ws.getD 5 0, hostuse1 := ws.getD 6 0, hostuse2 := ws.getD 7 0 }

/-- The words of an entry of the transmit ring, in the order of the structure. -/
def tbd_words (d : transmit_buffer_descriptor) : List Nat :=
  [d.tmd0, d.tmd1, d.tmd2, d.tmd3, d.ladr, d.hadr, d.hostuse1, d.hostuse2]

/-- The entry of the transmit ring whose words are `ws`. -/
def tbd_of_words (ws : List Nat) : transmit_buffer_descriptor :=
  { tmd0 := ws.getD 0 0, tmd1 := ws.getD 1 0, tmd2 := ws.getD 2 0, tmd3 := ws.getD 3 0
    ladr := ws.getD 4 0, hadr := ws.getD 5 0, hostuse1 := ws.getD 6 0, hostuse2 := ws.getD 7 0 }

/-- The address `rdra` of the receive ring (pdp11_xq.cpp:1687), a `uint32`. -/
def turbo_rdra (v : xq_device) : Nat := u32 ((v.init.rdra_h <<< 16) ||| v.init.rdra_l)

/-- The address `tdra` of the transmit ring (pdp11_xq.cpp:1815), a `uint32`. -/
def turbo_tdra (v : xq_device) : Nat := u32 ((v.init.tdra_h <<< 16) ||| v.init.tdra_l)

/-- Size adjustment of the head item in the turbo receive walk (pdp11_xq.cpp:1721-1752),
the buffer of a ring entry holding `ETH_FRAME_SIZE` bytes: the statistics, the item with
`used` advanced, the number `rbl` of bytes to send and the index of `packet.msg` at which
`rbuf` points. -/
def turbo_adjust (st : xq_stats) (item : eth_item) : xq_stats × eth_item × Nat × Nat :=
  let rbl0 := u16 (item.packet.len + ETH_CRC_SIZE)
  if item.packet.used ≠ 0 then
    let rbl1 := sub16 rbl0 item.packet.used
    let rbl := if ETH_FRAME_SIZE < rbl1 then ETH_FRAME_SIZE else rbl1
    (st, { item with packet := { item.packet with used := item.packet.used + rbl } },
      rbl, item.packet.used)
  else
    let runt := rbl0 < ETH_MIN_PACKET
    let st1 := if runt then { st with runt := st.runt + 1 } else st
    let msg1 := if runt then memset item.packet.msg rbl0 0 (ETH_MIN_PACKET - rbl0)
      else item.packet.msg
    let rbl1 := if runt then ETH_MIN_PACKET else rbl0
    let giant := ETH_FRAME_SIZE < rbl1
    let st2 := if giant then { st1 with giant := st1.giant + 1 } else st1
    let len2 := if giant then ETH_MAX_PACKET else item.packet.len
    let rbl2 := if giant then ETH_FRAME_SIZE else rbl1
    let rbl := if ETH_FRAME_SIZE < rbl2 then ETH_FRAME_SIZE else rbl2
    (st2, { item with packet := { item.packet with msg := msg1, len := len2, used := item.packet.used + rbl } },
      rbl, 0)

/-- The word `rmd0` that the turbo receive walk writes for the adjusted item `item` and the
byte count `rbl` (pdp11_xq.cpp:1763-1769): the start-of-packet flag when `used - rbl` is 0,
the end-of-packet flag when `used` is `len + ETH_CRC_SIZE`. -/
def turbo_rmd0 (item : eth_item) (rbl : Nat) : Nat :=
  (if item.packet.used - rbl = 0 then XQ_RMD0_STP else 0) |||
    (if item.packet.used = item.packet.len + ETH_CRC_SIZE then XQ_RMD0_ENP else 0)

/-- The loop body of `xq_process_turbo_rbdl` (pdp11_xq.cpp:1696-1796) together with the test
of the loop condition.  The ring index is taken to be below `XQ_TURBO_RC_BCNT`, as the
source keeps it, so that the entry at the index and the next entry are two objects. -/
def turbo_rbdl_step (i : CtlrId) (s : Sys) : Ring :=
  let v := s.dev i
  let rdra := turbo_rdra v
  let idx := v.rbindx
  if v.ReadQ.count = 0 then .brk false s
  else
    let r := Map_ReadW s.mem (rdra + idx * XQ_RING_ENTRY) XQ_RING_ENTRY
    let d := rbd_of_words (store_list (rbd_words (v.rring.getD idx {})) r.2)
    let v1 : xq_device := { v with rring := v.rring.set idx d }
    if r.1 ≠ SCPE_OK then .ret (xq_nxm_error i (s.setDev i v1)).1 (xq_nxm_error i (s.setDev i v1)).2
    else if d.rmd3 &&& XQ_TMD3_OWN ≠ 0 then .brk false (s.setDev i v1)
    else
      let nxt := (idx + 1) % XQ_TURBO_RC_BCNT
      let address := bdl_address d.hadr d.ladr
      let a := turbo_adjust v1.stats (rbdl_head v1)
      let v2 : xq_device :=
        { v1 with
          rbindx := nxt
          stats := a.1
          ReadQ := { v1.ReadQ with item := v1.ReadQ.item.set v1.ReadQ.head a.2.1 } }
      let w := Map_WriteB s.mem address (bytes_at a.2.1.packet.msg a.2.2.2 a.2.2.1)
      let s2 := { s with mem := w.2 }.setDev i v2
      if w.1 ≠ SCPE_OK then .ret (xq_nxm_error i s2).1 (xq_nxm_error i s2).2
      else
        let lost := v2.ReadQ.loss ≠ 0
        let rmd2a := if lost then XQ_RMD2_RON ||| XQ_RMD2_TON ||| XQ_RMD2_MIS
          else XQ_RMD2_RON ||| XQ_RMD2_TON
        let v3 : xq_device :=
          if lost then
            { v2 with
              stats := { v2.stats with dropped := v2.stats.dropped + v2.ReadQ.loss }
              ReadQ := { v2.ReadQ with loss := 0 } }
          else v2
        let p := Map_ReadW w.2 (rdra + nxt * XQ_RING_ENTRY + 6) 2
        let dn := v3.rring.getD nxt {}
        let dn1 := { dn with rmd3 := (store_list [dn.rmd3] p.2).getD 0 0 }
        let d1 : receive_buffer_descriptor :=
          { d with
            rmd0 := turbo_rmd0 a.2.1 a.2.2.1
            rmd1 := a.2.2.1
            rmd2 := if dn1.rmd3 &&& XQ_RMD3_OWN ≠ 0 then rmd2a ||| XQ_RMD2_EOR else rmd2a
            rmd3 := d.rmd3 ||| XQ_TMD3_OWN }
        let ring2 := (v3.rring.set nxt dn1).set idx d1
        let u := Map_WriteW w.2 (rdra + idx * XQ_RING_ENTRY) ((rbd_words d1).take 4)
        let v4 : xq_device := { v3 with rring := ring2 }
        let s4 := { s with mem := u.2 }.setDev i v4
        if u.1 ≠ SCPE_OK then .ret (xq_nxm_error i s4).1 (xq_nxm_error i s4).2
        else
          let v5 : xq_device :=
            if a.2.1.packet.len ≤ a.2.1.packet.used then { v4 with ReadQ := ethq_remove v4.ReadQ }
            else v4
          let s5 := { s with mem := u.2 }.setDev i v5
          if (v5.rring.getD nxt {}).rmd3 &&& XQ_RMD3_OWN = 0 then .next s5 else .brk true s5

/-- The loop `do ... while` of `xq_process_turbo_rbdl` with `fuel` iterations at most, and
the end of the function (pdp11_xq.cpp:1802-1806); `consumed` says whether a descriptor has
been consumed before. -/
def turbo_rbdl_loop : Nat → CtlrId → Bool → Sys → Option (Nat × Sys)
  | 0, _, _, _ => none
  | n + 1, i, consumed, s =>
    match turbo_rbdl_step i s with
    | .ret st s1 => some (st, s1)
    | .brk c s1 => some (SCPE_OK, if consumed || c then xq_setint i s1 else s1)
    | .next s1 => turbo_rbdl_loop n i true s1

/-- The function `xq_process_turbo_rbdl` (pdp11_xq.cpp:1681). -/
def xq_process_turbo_rbdl (fuel : Nat) (i : CtlrId) (s : Sys) : Option (Nat × Sys) :=
  if (s.dev i).srr &&& XQ_SRR_RESP ≠ XQ_SRR_STRT then some (SCPE_OK, s)
  else turbo_rbdl_loop fuel i false s

/-! ## Turbo transmit ring (pdp11_xq.cpp:1809-1923) -/

/-- The byte count of the `Map_ReadB` call of the turbo transmit walk
(pdp11_xq.cpp:1845-1850) for a write buffer that holds `len` bytes and a ring entry with the
word `tmd3`: the byte count field, cut to the room left in the write buffer. -/
def turbo_b_length (len tmd3 : Nat) : Nat :=
  if ETH_FRAME_SIZE < len + (tmd3 &&& XQ_TMD3_BCT) then sub16 ETH_FRAME_SIZE len
  else tmd3 &&& XQ_TMD3_BCT

/-- The state of an iteration of the turbo transmit walk after the buffer of the ring
entry `d` is read into the write buffer (pdp11_xq.cpp:1845-1854), and the status of
`Map_ReadB`; `write_buffer.len` is advanced when the read succeeds. -/
def turbo_xbdl_read (i : CtlrId) (d : transmit_buffer_descriptor) (s1 : Sys) : Nat × Sys :=
  let v := s1.dev i
  let wb := v.write_buffer
  let b_length := turbo_b_length wb.len d.tmd3
  let r := Map_ReadB s1.mem (bdl_address d.hadr d.ladr) b_length
  let msg := memcpy wb.msg wb.len r.2 r.2.length
  if r.1 ≠ 0 then (r.1, s1.setDev i { v with write_buffer := { wb with msg := msg } })
  else (r.1, s1.setDev i { v with write_buffer := { wb with msg := msg, len := wb.len + b_length } })

/-- The completion of a frame in the turbo transmit walk (pdp11_xq.cpp:1855-1888) for the
ring entry `d`, whose flag "first of two" is clear: the entry with its status words and the
state, the write buffer being cleared; `none` when the transport does not return. -/
def turbo_xbdl_send (K : Collab) (i : CtlrId) (d : transmit_buffer_descriptor) (s : Sys) :
    Option (transmit_buffer_descriptor × Sys) :=
  let v := s.dev i
  let q : Option (Nat × Sys) :=
    if v.init.mode &&& XQ_IN_MO_LOP ≠ 0 then
      if v.init.mode &&& XQ_IN_MO_INT ≠ 0 ∨ v.etherface = true then
        some (SCPE_OK, s.setDev i { v with ReadQ := ethq_insert v.ReadQ 1 v.write_buffer 0 })
      else some (SCPE_NOFNC, s)
    else K.eth_write_null i s
  q.map fun r =>
    let v1 := r.2.dev i
    let tmd1 := u16 (100 + v1.write_buffer.len * 8)
    let v2 : xq_device :=
      { v1 with
        stats :=
          if r.1 ≠ SCPE_OK then { v1.stats with xmit := v1.stats.xmit + 1, fail := v1.stats.fail + 1 }
          else { v1.stats with xmit := v1.stats.xmit + 1 }
        write_buffer := { v1.write_buffer with len := 0 } }
    ({ d with
        tmd0 := if r.1 ≠ SCPE_OK then XQ_TMD0_ERR1 else 0
        tmd1 := if r.1 ≠ SCPE_OK then tmd1 ||| XQ_TMD1_LCA else tmd1
        tmd2 := XQ_TMD2_RON ||| XQ_TMD2_TON },
      r.2.setDev i v2)

/-- The loop body of `xq_process_turbo_xbdl` (pdp11_xq.cpp:1828-1897) together with the
test of the loop condition; `none` when the transport does not return.  The ring index is
taken to be below `XQ_TURBO_XM_BCNT`, as the source keeps it, so that the entry at the index
and the next entry are two objects. -/
def turbo_xbdl_step (K : Collab) (i : CtlrId) (s : Sys) : Option Ring :=
  let v := s.dev i
  let tdra := turbo_tdra v
  let idx := v.tbindx
  let r := Map_ReadW s.mem (tdra + idx * XQ_RING_ENTRY) XQ_RING_ENTRY
  let d := tbd_of_words (store_list (tbd_words (v.xring.getD idx {})) r.2)
  let v1 : xq_device := { v with xring := v.xring.set idx d }
  if r.1 ≠ SCPE_OK then
    some (.ret (xq_nxm_error i (s.setDev i v1)).1 (xq_nxm_error i (s.setDev i v1)).2)
  else if d.tmd3 &&& XQ_TMD3_OWN ≠ 0 then some (.brk false (s.setDev i v1))
  else
    let nxt := (idx + 1) % XQ_TURBO_XM_BCNT
    let rd := turbo_xbdl_read i d (s.setDev i { v1 with tbindx := nxt })
    if rd.1 ≠ SCPE_OK then some (.ret (xq_nxm_error i rd.2).1 (xq_nxm_error i rd.2).2)
    else
      let sent : Option (transmit_buffer_descriptor × Sys) :=
        if d.tmd3 &&& XQ_TMD3_FOT = 0 then turbo_xbdl_send K i d rd.2 else some (d, rd.2)
      sent.map fun x =>
        let v3 := x.2.dev i
        let p := Map_ReadW x.2.mem (tdra + nxt * XQ_RING_ENTRY + 6) 2
        let dn := v3.xring.getD nxt {}
        let dn1 := { dn with tmd3 := (store_list [dn.tmd3] p.2).getD 0 0 }
        let d1 : transmit_buffer_descriptor :=
          { x.1 with
            tmd2 := if dn1.tmd3 &&& XQ_TMD3_OWN ≠ 0 then x.1.tmd2 ||| XQ_TMD2_EOR else x.1.tmd2
            tmd3 := x.1.tmd3 ||| XQ_TMD3_OWN }
        let ring2 := (v3.xring.set nxt dn1).set idx d1
        let u := Map_WriteW x.2.mem (tdra + idx * XQ_RING_ENTRY) ((tbd_words d1).take 4)
        let s4 := { x.2 with mem := u.2 }.setDev i { v3 with xring := ring2 }
        if u.1 ≠ SCPE_OK then .ret (xq_nxm_error i s4).1 (xq_nxm_error i s4).2
        else if (ring2.getD nxt {}).tmd3 &&& XQ_TMD3_OWN = 0 then .next s4
        else .brk true s4

/-- The end of `xq_process_turbo_xbdl` (pdp11_xq.cpp:1899-1922): the interrupt and the
service of received data when a descriptor has been consumed. -/
def turbo_xbdl_end (K : Collab) (fuel : Nat) (i : CtlrId) (consumed : Bool) (s : Sys) :
    Option (Nat × Sys) :=
  if consumed then
    let s1 := xq_setint i s
    if (s1.dev i).coalesce_latency = 0 then
      (xq_svc_ex K fuel i s1).map fun r => (SCPE_OK, r.2)
    else some (SCPE_OK, s1)
  else some (SCPE_OK, s)

/-- The loop `do ... while` of `xq_process_turbo_xbdl` with `n` iterations at most, and the
end of the function; `consumed` says whether a descriptor has been consumed before. -/
def turbo_xbdl_loop (K : Collab) (fuel : Nat) : Nat → CtlrId → Bool → Sys → Option (Nat × Sys)
  | 0, _, _, _ => none
  | n + 1, i, consumed, s =>
    match turbo_xbdl_step K i s with
    | none => none
    | some (.ret st s1) => some (st, s1)
    | some (.brk c s1) => turbo_xbdl_end K fuel i (consumed || c) s1
    | some (.next s1) => turbo_xbdl_loop K fuel n i true s1

/-- The state in which `xq_process_turbo_xbdl` enters its loop: the write buffer is cleared
(pdp11_xq.cpp:1823). -/
def turbo_xbdl_start (i : CtlrId) (s : Sys) : Sys :=
  s.setDev i { s.dev i with write_buffer := { (s.dev i).write_buffer with len := 0 } }

/-- The function `xq_process_turbo_xbdl` (pdp11_xq.cpp:1809). -/
def xq_process_turbo_xbdl (K : Collab) (fuel : Nat) (i : CtlrId) (s : Sys) : Option (Nat × Sys) :=
  if (s.dev i).srr &&& XQ_SRR_RESP ≠ XQ_SRR_STRT then some (SCPE_OK, s)
  else turbo_xbdl_loop K fuel fuel i false (turbo_xbdl_start i s)

/-- The state after `k` iterations of the loop of `xq_process_turbo_xbdl` none of which
leaves the loop; `none` when the loop is left, or the transport fails to return, before. -/
def turbo_xbdl_run (K : Collab) (i : CtlrId) : Nat → Sys → Option Sys
  | 0, s => some s
  | k + 1, s =>
    match turbo_xbdl_step K i s with
    | some (.next s1) => turbo_xbdl_run K i k s1
    | _ => none

/-- The function `xq_wr_arqr` (pdp11_xq.cpp:2481). -/
def xq_wr_arqr (K : Collab) (fuel : Nat) (i : CtlrId) (data : Nat) (s : Sys) :
    Option (Nat × Sys) :=
  let a : Option Sys :=
    if XQ_ARQR_TRQ &&& data ≠ 0 then (xq_process_turbo_xbdl K fuel i s).map Prod.snd else some s
  a.bind fun s1 =>
    let b : Option Sys :=
      if XQ_ARQR_RRQ &&& data ≠ 0 then (xq_process_turbo_rbdl fuel i s1).map Prod.snd else some s1
    b.map fun s2 =>
      (SCPE_OK, xq_reset_santmr i (if XQ_ARQR_SR &&& data ≠ 0 then xq_sw_reset i s2 else s2))

/-- The function `xq_wr` (pdp11_xq.cpp:2519) for the controller `i` that `xq_pa2ctlr (PA)`
gives; `data` is the written value, an `int32` taken as its 32-bit pattern.  The statuses
of the functions called are discarded: the function returns `SCPE_OK`. -/
def xq_wr (K : Collab) (fuel : Nat) (i : CtlrId) (data PA : Nat) (s : Sys) : Option (Nat × Sys) :=
  let index := (PA >>> 1) &&& 7
  let c := s.ctlr i
  let v := c.var
  let r : Option Sys :=
    if v.mode = XQ_T_DELQA_PLUS then
      match index with
      | 0 => some (s.setDev i { v with iba := (v.iba &&& 0xFFFF0000) ||| (data &&& 0xFFFF) })
      | 1 => some (s.setDev i { v with iba := (v.iba &&& 0xFFFF) ||| ((data &&& 0xFFFF) <<< 16) })
      | 2 => some (xq_wr_icr i data s).2
      | 4 => some (xq_wr_srqr i data s).2
      | 7 => (xq_wr_arqr K fuel i data s).map Prod.snd
      | _ => some s
    else
      match index with
      | 0 =>
        if v.type = XQ_T_DELQA_PLUS then
          some (s.setDev i { v with iba := (v.iba &&& 0xFFFF0000) ||| (data &&& 0xFFFF) })
        else some s
      | 1 =>
        if v.type = XQ_T_DELQA_PLUS then
          let c1 : CTLR :=
            if v.iba &&& 0xFFFF = 0x0BAF ∧ data = 0xFF00 then
              { c with
                var := { v with mode := XQ_T_DELQA_PLUS, srr := XQ_SRR_TRBO }
                unit0_active := false
                async := if v.etherface then false else c.async }
            else c
          some (s.setCtlr i
            { c1 with var := { c1.var with iba := (c1.var.iba &&& 0xFFFF) ||| ((data &&& 0xFFFF) <<< 16) } })
        else some s
      | 2 => some (s.setDev i { v with rbdl := v.rbdl.set 0 (u16 data) })
      | 3 => (xq_dispatch_rbdl K fuel i (s.setDev i { v with rbdl := v.rbdl.set 1 (u16 data) })).map Prod.snd
      | 4 => some (s.setDev i { v with xbdl := v.xbdl.set 0 (u16 data) })
      | 5 => (xq_dispatch_xbdl K fuel i (s.setDev i { v with xbdl := v.xbdl.set 1 (u16 data) })).map Prod.snd
      | 6 => some (xq_wr_var i data s).2
      | 7 => some (xq_wr_csr i data s).2
      | _ => some s
  r.map fun s1 => (SCPE_OK, s1)

/-- The function `xq_reset` (pdp11_xq.cpp:2599).  `xq_make_checksum` sets the address
checksum, which only register reads use; `io_change_vec` sets the vector; `eth_filter`
reprograms the transport only; `xq_activate_abs` schedules the timer service unit;
`auto_config`, a function of the simulator core, is taken to return `SCPE_OK`. -/
def xq_reset (i : CtlrId) (s : Sys) : Nat × Sys :=
  let c := s.ctlr i
  let v := c.var
  let v1 : xq_device :=
    match v.type with
    | XQ_T_DEQNA => { v with var := 0, mode := XQ_T_DEQNA }
    | _ => { v with var := XQ_VEC_MS ||| XQ_VEC_OS, mode := XQ_T_DELQA }
  let s1 := s.setCtlr i { c with var := v1, vec := 0 }
  let s2 := xq_csr_set_clr i (XQ_CSR_RL ||| XQ_CSR_XL) (not16 (XQ_CSR_RL ||| XQ_CSR_XL)) s1
  let s3 := xq_clrint i false s2
  let q := ethq_init (s3.dev i).ReadQ XQ_QUE_MAX
  if q.1 ≠ SCPE_OK then (q.1, s3.setDev i { s3.dev i with ReadQ := q.2 })
  else
    let s4 := s3.setDev i { s3.dev i with ReadQ := ethq_clear q.2 }
    let s5 :=
      if (s4.dev i).etherface then
        let s6 := xq_csr_set_clr i XQ_CSR_OK 0 s4
        s6.setCtlr i { s6.ctlr i with unit1_active := true, async := false }
      else s4
    let c7 : CTLR := { s5.ctlr i with unit0_active := false }
    let v7 : xq_device := c7.var
    let v8 : xq_device :=
      if v7.sanity.enabled ≠ 0 then
        { v7 with sanity := { v7.sanity with quarter_secs := (XQ_HW_SANITY_SECS : Int) * 4 } }
      else v7
    (SCPE_OK, s5.setCtlr i { c7 with var := v8 })

/-! ## Local processing of received frames (pdp11_xq.cpp:1925-2070) -/

/-- The index `offset` that `xq_process_loopback` computes from bytes 14 and 15 of the frame
(pdp11_xq.cpp:1930). -/
def loopback_offset (msg : List Nat) : Nat :=
  16 + (msg.getD 14 0 ||| (msg.getD 15 0 <<< 8))

/-- The indexes of `pack->msg` and of `response.msg` that `xq_process_loopback` accesses at
`offset` and beyond: `offset` and `offset + 1` for `function` (pdp11_xq.cpp:1931), then
`offset + 2` to `offset + 7` for the forward address (pdp11_xq.cpp:1955). -/
def loopback_indexes (msg : List Nat) : List Nat :=
  (List.range 8).map fun k => loopback_offset msg + k

/-- The address `physical_address` of `xq_process_loopback` (pdp11_xq.cpp:1940-1946). -/
def loopback_physical (v : xq_device) : List Nat :=
  if v.mode = XQ_T_DELQA_PLUS then v.init.phys
  else if v.setup.valid ≠ 0 then v.setup.macs.getD 0 []
  else v.mac

/-- The packet `response` that `xq_process_loopback` builds (pdp11_xq.cpp:1938-1959) from
the frame `pack` and the address `phys`. -/
def loopback_response (pack : eth_packet) (phys : List Nat) : eth_packet :=
  let offset := loopback_offset pack.msg
  let m1 := memcpy pack.msg 0 (bytes_at pack.msg (offset + 2) 6) 6
  let m2 := memcpy m1 6 (bytes_at phys 0 6) 6
  let off2 := offset + 8 - 16
  { pack with msg := (m2.set 14 (off2 &&& 0xFF)).set 15 ((off2 >>> 8) &&& 0xFF) }

/-- The function `xq_process_loopback` (pdp11_xq.cpp:1925) for a frame `pack`; `send` is
the status of `eth_write` for the packet `response`, a local buffer.  An array is read with
`getD _ 0`, also at an index that is outside it. -/
def xq_process_loopback (send : Sys → Nat) (i : CtlrId) (pack : eth_packet) (s : Sys) :
    Nat × Sys :=
  let v := s.dev i
  let offset := loopback_offset pack.msg
  let function := pack.msg.getD offset 0 ||| (pack.msg.getD (offset + 1) 0 <<< 8)
  if function ≠ 2 then (SCPE_NOFNC, s)
  else if pack.msg.getD 0 0 &&& 1 = 0 ∧
      bytes_at (loopback_physical v) 0 6 ≠ bytes_at pack.msg 0 6 then (SCPE_NOFNC, s)
  else (send s, s.setDev i { v with stats := { v.stats with loop := v.stats.loop + 1 } })

/-- The function `xq_process_remote_console` (pdp11_xq.cpp:1973) for a frame `pack`;
`xq_system_id` sends a packet it builds in a local buffer, and `send` is the status of that
`eth_write`. -/
def xq_process_remote_console (send : Sys → Nat) (i : CtlrId) (pack : eth_packet) (s : Sys) :
    Nat × Sys :=
  if pack.msg.getD 16 0 = 5 then
    (if (s.dev i).type = XQ_T_DEQNA then SCPE_NOFNC else send s, xq_system_id i s)
  else if pack.msg.getD 16 0 = 6 then (xq_boot_host, s)
  else (SCPE_NOFNC, s)

/-- The function `xq_process_local` (pdp11_xq.cpp:2014) for a frame `pack`. -/
def xq_process_local (send : Sys → Nat) (i : CtlrId) (pack : eth_packet) (s : Sys) : Nat × Sys :=
  if (s.dev i).type = XQ_T_DEQNA then (SCPE_NOFNC, s)
  else
    let protocol := pack.msg.getD 12 0 ||| (pack.msg.getD 13 0 <<< 8)
    if protocol = 0x0090 then xq_process_loopback send i pack s
    else if protocol = 0x0260 then xq_process_remote_console send i pack s
    else (SCPE_NOFNC, s)

/-- The function `xq_read_callback` (pdp11_xq.cpp:2037); the frame is in `read_buffer`. -/
def xq_read_callback (send : Sys → Nat) (i : CtlrId) (s : Sys) : Sys :=
  let v := s.dev i
  let s1 := s.setDev i { v with stats := { v.stats with recv := v.stats.recv + 1 } }
  if v.csr &&& XQ_CSR_RE ≠ 0 ∨ v.mode = XQ_T_DELQA_PLUS then
    let r := xq_process_local send i (s1.dev i).read_buffer s1
    if r.1 ≠ SCPE_OK then
      r.2.setDev i { r.2.dev i with
        ReadQ := ethq_insert (r.2.dev i).ReadQ 2 (r.2.dev i).read_buffer r.1 }
    else r.2
  else
    s1.setDev i { s1.dev i with stats := { (s1.dev i).stats with dropped := (s1.dev i).stats.dropped + 1 } }

/-! ## The packet transport as the engine sees it (sim_ether.cpp:2153-2228, 2878-2960) -/

/-- The macro `LOOPBACK_SELF_FRAME (phy_mac, msg)` (sim_ether.h:145). -/
def LOOPBACK_SELF_FRAME (phy_mac msg : List Nat) : Bool :=
  decide (msg.getD 12 0 = 0x90 ∧ msg.getD 13 0 = 0x00 ∧ msg.getD 14 0 = 0x00 ∧
    msg.getD 15 0 = 0x00 ∧ msg.getD 16 0 = 0x02 ∧ msg.getD 17 0 = 0x00 ∧
    msg.getD 24 0 = 0x01 ∧ msg.getD 25 0 = 0x00 ∧
    bytes_at phy_mac 0 6 = bytes_at msg 0 6 ∧ bytes_at phy_mac 0 6 = bytes_at msg 6 6 ∧
    bytes_at phy_mac 0 6 = bytes_at msg 18 6)

/-- What the engine does not decide about the packet transport of a controller: the members
`have_host_nic_phy_addr` and `host_nic_phy_hw_addr` of its `ETH_DEV`, the status that the
host interface returns when the frame `msg` of `len` bytes is sent (`x_pcap_sendpacket`,
`write` or `vde_send`, reduced to 0 for success), the status of a send from a local buffer,
and the frame, if any, that a call of `eth_read` leaves in the read buffer. -/
structure eth_device where
  have_host_nic_phy_addr : Bool := false
  host_nic_phy_hw_addr : List Nat := [0, 0, 0, 0, 0, 0]
  sendpacket : List Nat → Nat → Nat := fun _ _ => 0
  send_local : Sys → Nat := fun _ => 0
  dispatch : Sys → Option eth_packet := fun _ => none

/-- The function `_eth_write` (sim_ether.cpp:2153) for the device `xq->var->etherface` and
the packet `&xq->var->write_buffer` of controller `i`, in a build without the writer thread,
where `eth_write` is this function; `routine` is the callback, `none` for a null pointer.
The counters of self-addressed loopback frames belong to the transport. -/
def _eth_write (D : eth_device) (i : CtlrId) (routine : Option (Nat → Sys → Sys)) (s : Sys) :
    Nat × Sys :=
  let v := s.dev i
  if v.etherface = false then (SCPE_UNATT, s)
  else
    let p := v.write_buffer
    let ok := ETH_MIN_PACKET ≤ p.len ∧ p.len ≤ ETH_MAX_PACKET
    let msg1 :=
      if ok ∧ LOOPBACK_SELF_FRAME p.msg p.msg = true ∧ D.have_host_nic_phy_addr = true then
        memcpy (memcpy p.msg 6 (bytes_at D.host_nic_phy_hw_addr 0 6) 6) 18
          (bytes_at D.host_nic_phy_hw_addr 0 6) 6
      else p.msg
    let status := if ok then D.sendpacket msg1 p.len else 1
    let s1 := s.setDev i { v with write_buffer := { p with msg := msg1 } }
    let s2 := match routine with
      | some r => r status s1
      | none => s1
    (if status = 0 then SCPE_OK else SCPE_IOERR, s2)

/-- The status of `eth_write` for a packet built in a local buffer, without a callback
(pdp11_xq.cpp:1962 and 2765), for the device `xq->var->etherface` of controller `i`. -/
def eth_send (D : eth_device) (i : CtlrId) (s : Sys) : Nat :=
  if (s.dev i).etherface = false then SCPE_UNATT else D.send_local s

/-- The function `eth_read` (sim_ether.cpp:2878) for the device `xq->var->etherface`, the
packet `&xq->var->read_buffer` and the read callback of controller `i`: the length of the
read buffer is cleared; when the transport has a frame for the controller, the frame is left
in the read buffer, the callback runs and the status is 1, otherwise the status is 0. -/
def eth_read (D : eth_device) (i : CtlrId) (s : Sys) : Nat × Sys :=
  let v := s.dev i
  if v.etherface = false then (0, s)
  else
    match D.dispatch s with
    | none => (0, s.setDev i { v with read_buffer := { v.read_buffer with len := 0 } })
    | some p =>
      (1, xq_read_callback (eth_send D i) i
        (s.setDev i { v with
          read_buffer := { v.read_buffer with msg := p.msg, len := p.len, crc_len := p.crc_len } }))

/-- The collaborators of the walks as the sources have them, over the transports `D i` of
the two controllers: the embedded turbo receive walk and setup processing, `_eth_write` with
the write callback of the controller or without a callback, and `eth_read` with the read
callback. -/
def link (D : CtlrId → eth_device) (fuel : Nat) : Collab :=
  { xq_process_turbo_rbdl := fun i s => xq_process_turbo_rbdl fuel i s
    xq_process_setup := fun i s => some ((xq_process_setup i s).1, (xq_process_setup i s).2.1)
    eth_write := fun i s => some (_eth_write (D i) i (some (xq_write_callback i)) s)
    eth_write_null := fun i s => some (_eth_write (D i) i none s)
    eth_read := fun i s => some (eth_read (D i) i s) }

/-! ## Predicates used in the statements on register writes -/

/-- The device state `b` has the classic descriptor registers and buffers of the device
state `a`: the register pairs `rbdl` and `xbdl`, the list addresses `rbdl_ba` and `xbdl_ba`,
the descriptor buffers, the Read Queue and the write buffer. -/
def classic_kept (a b : xq_device) : Prop :=
  b.rbdl = a.rbdl ∧ b.xbdl = a.xbdl ∧ b.rbdl_ba = a.rbdl_ba ∧ b.xbdl_ba = a.xbdl_ba ∧
    b.rbdl_buf = a.rbdl_buf ∧ b.xbdl_buf = a.xbdl_buf ∧ b.ReadQ = a.ReadQ ∧
    b.write_buffer = a.write_buffer

/-- The write buffer of the device state `v` holds at most `ETH_FRAME_SIZE` bytes. -/
def len_ok (v : xq_device) : Prop := v.write_buffer.len ≤ 1518

/-- The device state `v` is in classic mode and its interrupt request flag `irq` is 1 only
if IE is set in the CSR and at least one of XI and RI is set. -/
def irq_ok (v : xq_device) : Prop :=
  v.mode ≠ XQ_T_DELQA_PLUS ∧
    (v.irq = 1 → v.csr &&& XQ_CSR_IE ≠ 0 ∧ v.csr &&& XQ_CSR_XIRI ≠ 0)

/-- The device state `b` has the mode, the CSR, the flag `irq` and the write buffer length
of the device state `a`. -/
def quiet (a b : xq_device) : Prop :=
  b.mode = a.mode ∧ b.csr = a.csr ∧ b.irq = a.irq ∧ b.write_buffer.len = a.write_buffer.len

/-- A property `Q` of the device state of controller `i` that the engine keeps: it depends
on the mode, the CSR, the flag `irq` and on whether the write buffer holds at most
`ETH_FRAME_SIZE` bytes only (`quiet`); `xq_csr_set_clr` keeps it when no bit among IE, XI
and RI is in both masks (`csr`); `xq_clrint` keeps it (`clr`); and in turbo mode
`xq_setint` keeps it (`turbo`). -/
structure Stable (i : CtlrId) (Q : xq_device → Prop) : Prop where
  quiet : ∀ a b : xq_device, b.mode = a.mode → b.csr = a.csr → b.irq = a.irq →
    (a.write_buffer.len ≤ 1518 → b.write_buffer.len ≤ 1518) → Q a → Q b
  csr : ∀ (s : Sys) (set_bits clear_bits : Nat),
    (u16 set_bits &&& u16 clear_bits) &&& (XQ_CSR_IE ||| XQ_CSR_XIRI) = 0 →
    Q (s.dev i) → Q ((xq_csr_set_clr i set_bits clear_bits s).dev i)
  clr : ∀ (s : Sys) (intack : Bool), Q (s.dev i) → Q ((xq_clrint i intack s).dev i)
  turbo : ∀ s : Sys, (s.dev i).mode = XQ_T_DELQA_PLUS → Q (s.dev i) → Q ((xq_setint i s).dev i)

/-- The collaborators `K` keep the property `Q` of the device state of controller `i`; the
turbo receive walk is called in turbo mode only. -/
structure Respects (K : Collab) (i : CtlrId) (Q : xq_device → Prop) : Prop where
  turbo_rbdl : ∀ (s : Sys) (r : Nat × Sys), (s.dev i).mode = XQ_T_DELQA_PLUS →
    K.xq_process_turbo_rbdl i s = some r → Q (s.dev i) → Q (r.2.dev i)
  setup : ∀ (s : Sys) (r : Nat × Sys), K.xq_process_setup i s = some r → Q (s.dev i) → Q (r.2.dev i)
  write : ∀ (s : Sys) (r : Nat × Sys), K.eth_write i s = some r → Q (s.dev i) → Q (r.2.dev i)
  read : ∀ (s : Sys) (r : Nat × Sys), K.eth_read i s = some r → Q (s.dev i) → Q (r.2.dev i)
  write_null : ∀ (s : Sys) (r : Nat × Sys), K.eth_write_null i s = some r →
    Q (s.dev i) → Q (r.2.dev i)

/-- The states of the system in which controller `i` can be while it stays in classic mode:
the state after `xq_reset`, and from such a state the state after a register write `xq_wr`
that leaves the controller in classic mode, after descriptor processing (`xq_process_rbdl`,
`xq_process_xbdl`), after the receive service `xq_svc_ex`, after a transport callback
(`xq_write_callback` with any status; `eth_read`, which runs `xq_read_callback`, and
`xq_read_callback` itself), after the timer service `xq_tmrsvc`, after an interrupt
acknowledgment `xq_int`, and after anything else that leaves the device state of the
controller as it is.  The transports `D` and the bounds `fuel` of the loops are arbitrary at
every step; a step of a function that does not return within the bound adds no state. -/
inductive classic_reach (i : CtlrId) : Sys → Prop
  | reset (s : Sys) : classic_reach i (xq_reset i s).2
  | wr (D : CtlrId → eth_device) (fuel data PA : Nat) (s : Sys) (r : Nat × Sys) :
      classic_reach i s → xq_wr (link D fuel) fuel i data PA s = some r →
      (r.2.dev i).mode ≠ XQ_T_DELQA_PLUS → classic_reach i r.2
  | rbdl (D : CtlrId → eth_device) (fuel : Nat) (s : Sys) (r : Nat × Sys) :
      classic_reach i s → xq_process_rbdl (link D fuel) fuel i s = some r → classic_reach i r.2
  | xbdl (D : CtlrId → eth_device) (fuel : Nat) (s : Sys) (r : Nat × Sys) :
      classic_reach i s → xq_process_xbdl (link D fuel) fuel i s = some r → classic_reach i r.2
  | svc (D : CtlrId → eth_device) (fuel : Nat) (s : Sys) (r : Nat × Sys) :
      classic_reach i s → xq_svc_ex (link D fuel) fuel i s = some r → classic_reach i r.2
  | write_callback (status : Nat) (s : Sys) :
      classic_reach i s → classic_reach i (xq_write_callback i status s)
  | read (D : eth_device) (s : Sys) : classic_reach i s → classic_reach i (eth_read D i s).2
  | read_callback (send : Sys → Nat) (s : Sys) :
      classic_reach i s → classic_reach i (xq_read_callback send i s)
  | tmr (s : Sys) : classic_reach i s → classic_reach i (xq_tmrsvc i s).2
  | int (s : Sys) : classic_reach i s → classic_reach i (xq_int s).2
  | other (s t : Sys) : classic_reach i s → t.dev i = s.dev i → classic_reach i t

/-! ## Example states of the statements on register writes, rings and the transport -/

/-- Example state of controller XQA in classic mode over `hang_mem`: the transmit list and
the receive list both start at 0x1100, where `hang_mem` holds a valid chain descriptor (flag
word 0xC000) whose address word 0x1100 points at the descriptor itself. -/
def self_chain : Sys :=
  { mem := hang_mem, xqa := { var := { xbdl_ba := 0x1100, rbdl_ba := 0x1100 } } }

/-- Example state: controller XQA is a DELQA-T in classic mode after a reset. -/
def delqa_t : Sys :=
  { xqa := { var := { type := XQ_T_DELQA_PLUS, mode := XQ_T_DELQA, csr := XQ_CSR_RL ||| XQ_CSR_XL } } }

/-- Example state: controller XQA is a DELQA-T in turbo mode with interrupts disabled in the
interrupt-control register and a latched pending interrupt. -/
def turbo_latched : Sys :=
  { mem := rx_mem
    xqa := { var := { type := XQ_T_DELQA_PLUS, mode := XQ_T_DELQA_PLUS, srr := XQ_SRR_TRBO,
                      pending_interrupt := 1 } } }

/-- Example frame: a loopback frame (protocol bytes 0x90, 0x00 at the indexes 12 and 13) of
60 bytes in a frame buffer of `ETH_FRAME_SIZE` bytes whose skip count, the bytes 14 and 15,
is 0xFFFF; the other bytes are 0. -/
def lb_far : eth_packet :=
  { msg := List.replicate 12 0 ++ [0x90, 0x00, 0xFF, 0xFF] ++ List.replicate 1502 0, len := 60 }

/-- Example state: controller XQA is a DELQA in classic mode with the receiver enabled, its
transport attached, and the frame `lb_far` in the read buffer. -/
def rx_loopback : Sys :=
  { xqa := { var := { etherface := true, csr := XQ_CSR_RE, read_buffer := lb_far
                      ReadQ := { max := 2, item := [eth_item_zero, eth_item_zero] } } } }

/-- Example transport: the host interface fails to send every frame. -/
def wire_down : eth_device := { sendpacket := fun _ _ => 1 }

/-- Example transmit state of controller XQA in classic mode over `rx_mem`: the transport is
attached and the receiver enabled, so that a frame goes to the network; a frame of 60 bytes
is in the write buffer, and the transmit descriptor at 0x1000 is fetched as a valid end of
message (flag word 0xA000). -/
def tx_wire : Sys :=
  { mem := rx_mem
    xqa := { var := { etherface := true, csr := XQ_CSR_RE, xbdl_ba := 0x1000
                      xbdl_buf := { w1 := 0xA000 }
                      write_buffer := { msg := rx_msg, len := 60 } } } }

/-- Example guest memory: the addresses below 0x4000 exist and hold 0, except for a receive
ring at 0x1000: the entry at 0x1000 belongs to the controller (ownership bit clear) and has
the buffer address 0x2000, and the entry at 0x1010 belongs to the driver (the high byte of
its word `rmd3`, at 0x1017, is 0x80). -/
def ring_mem : Mem := fun a =>
  if 0x4000 ≤ a then none
  else if a = 0x1009 then some 0x20
  else if a = 0x1017 then some 0x80
  else some 0

/-- Example state of controller XQA in turbo mode over `ring_mem`: ring processing is
started, the receive ring is at 0x1000, and one looped-back packet of 30 bytes is queued. -/
def turbo_rx : Sys :=
  { mem := ring_mem
    xqa := { var :=
      { type := XQ_T_DELQA_PLUS, mode := XQ_T_DELQA_PLUS, srr := XQ_SRR_STRT
        init := { rdra_l := 0x1000 }
        ReadQ :=
          { max := 2, count := 1, head := 0, tail := 0
            item := [{ type := 1, packet := { msg := rx_msg, len := 30 } }, eth_item_zero] } } } }

/-- Example guest memory: the addresses from 0x200 up to 0x4000 exist, the first page, below
0x200, does not.  A transmit list is at 0x1000: a valid end of message that is a setup packet
(flag word 0xB000) with a buffer of 192 bytes at 0x2000, followed at 0x100C by a descriptor
with a clear valid bit.  Byte 0 of the setup packet is 1, so that it has MOP element blocks,
and byte 128, the type of the first element block, is 1 (read Ethernet address); the address
bytes of the block are 0. -/
def mop_mem : Mem := fun a =>
  if a < 0x200 ∨ 0x4000 ≤ a then none
  else if a = 0x1003 then some 0xB0
  else if a = 0x1005 then some 0x20
  else if a = 0x1006 then some 0xA0
  else if a = 0x1007 then some 0xFF
  else if a = 0x2000 then some 1
  else if a = 0x2080 then some 1
  else some 0

/-- Example state of controller XQA, a DELQA in classic mode, over `mop_mem`: the CSR is 0,
the transmit list is at 0x1000, the write buffer has room for a frame, and the Read Queue
has room for two packets. -/
def tx_mop : Sys :=
  { mem := mop_mem
    xqa := { var := { csr := 0, xbdl_ba := 0x1000,
                      write_buffer := { msg := List.replicate 1518 0 }
                      ReadQ := { max := 2, item := [eth_item_zero, eth_item_zero] } } } }

/-- The state in which the first iteration of the transmit walk from `tx_mop` reaches the
end-of-message branch: the descriptor at 0x1000 is fetched and its buffer is read. -/
def tx_mop_eom : Sys := (xbdl_read .xqa (xbdl_entry .xqa (xbdl_start .xqa tx_mop))).2

/-! # Theorems -/

/-! ## Bit-level lemmas -/

theorem testBit_not16 (c k : Nat) : (not16 c).testBit k = (decide (k < 16) && !c.testBit k) := by
  unfold not16
  have h : 65535 - c % 65536 = 2 ^ 16 - (c % 65536 + 1) := by
    have : c % 65536 < 65536 := Nat.mod_lt _ (by norm_num)
    omega
  have h2 : c % 65536 < 2 ^ 16 := Nat.mod_lt _ (by norm_num)
  rw [h, Nat.testBit_two_pow_sub_succ h2]
  have : c % 65536 = c % 2 ^ 16 := by norm_num
  rw [this, Nat.testBit_mod_two_pow]
  by_cases hk : k < 16 <;> simp [hk]

theorem testBit_u16 (c k : Nat) : (u16 c).testBit k = (decide (k < 16) && c.testBit k) := by
  unfold u16
  have : c % 65536 = c % 2 ^ 16 := by norm_num
  rw [this, Nat.testBit_mod_two_pow]

theorem and_two_pow_eq_iff (x y k : Nat) :
    x &&& 2 ^ k = y &&& 2 ^ k ↔ x.testBit k = y.testBit k := by
  rw [Nat.and_two_pow, Nat.and_two_pow]
  have hp : 0 < 2 ^ k := Nat.pos_pow_of_pos _ (by norm_num)
  constructor
  · intro h
    have := Nat.eq_of_mul_eq_mul_right hp h
    cases hx : x.testBit k <;> cases hy : y.testBit k <;> simp_all
  · intro h; rw [h]

theorem and_two_pow_ne_zero_iff (x k : Nat) : x &&& 2 ^ k ≠ 0 ↔ x.testBit k = true := by
  rw [Nat.and_two_pow]
  cases hx : x.testBit k <;> simp

theorem and_two_pow_eq_zero_iff (x k : Nat) : x &&& 2 ^ k = 0 ↔ x.testBit k = false := by
  rw [Nat.and_two_pow]
  cases hx : x.testBit k <;> simp

/-! ## State access lemmas -/

@[simp] theorem dev_setDev_same (s : Sys) (i : CtlrId) (v : xq_device) :
    (s.setDev i v).dev i = v := by
  cases i <;> rfl

theorem dev_setDev_other (s : Sys) (i j : CtlrId) (v : xq_device) (h : j ≠ i) :
    (s.setDev i v).dev j = s.dev j := by
  cases i <;> cases j <;> first | rfl | exact absurd rfl h

@[simp] theorem mem_setDev (s : Sys) (i : CtlrId) (v : xq_device) :
    (s.setDev i v).mem = s.mem := by
  cases i <;> rfl

@[simp] theorem mem_setCtlr (s : Sys) (i : CtlrId) (c : CTLR) :
    (s.setCtlr i c).mem = s.mem := by
  cases i <;> rfl

@[simp] theorem dev_set_mem (s : Sys) (i : CtlrId) (m : Mem) :
    ({ s with mem := m } : Sys).dev i = s.dev i := by
  cases i <;> rfl

/-! ## C1: interrupt aggregation -/

theorem xq_setint_inv (i : CtlrId) (s : Sys) (h : IntInv s) : IntInv (xq_setint i s) := by
  obtain ⟨h1, h2⟩ := h
  cases i <;>
  · simp only [IntInv, xq_setint, pendingCount, Sys.dev, Sys.ctlr, Sys.setDev, Sys.setCtlr, u32] at *
    split_ifs <;> simp_all

theorem xq_clrint_inv (i : CtlrId) (a : Bool) (s : Sys) (h : IntInv s) :
    IntInv (xq_clrint i a s) := by
  obtain ⟨h1, h2⟩ := h
  cases i <;>
  · simp only [IntInv, xq_clrint, pendingCount, Sys.dev, Sys.ctlr, Sys.setDev, Sys.setCtlr, u32] at *
    split_ifs <;> simp_all

theorem xq_int_inv (s : Sys) (h : IntInv s) : IntInv (xq_int s).2 := by
  unfold xq_int xq_int_at
  split_ifs <;> first | exact h | exact xq_clrint_inv _ _ _ h

theorem runCalls_inv (calls : List IntCall) : ∀ s : Sys, IntInv s → IntInv (runCalls calls s) := by
  induction calls with
  | nil => intro s h; exact h
  | cons c cs ih =>
    intro s h
    apply ih
    cases c with
    | setint i => exact xq_setint_inv i s h
    | clrint i a => exact xq_clrint_inv i a s h
    | int => exact xq_int_inv s h

/-- C1 (interrupt aggregation invariant).  From any state in which both controllers'
local `irq` flags are 0, the shared counter `xq_pending_intrs` is 0 and the shared line is
clear, after every finite sequence of `xq_setint`, `xq_clrint` (with `intack` false or true)
and `xq_int` calls on either controller, `xq_pending_intrs` is the number of controllers
whose `irq` flag is 1, and the shared line is asserted if and only if that number is
greater than 0. -/
theorem interrupt_aggregation_invariant (s0 : Sys) (calls : List IntCall)
    (ha : (s0.dev .xqa).irq = 0) (hb : (s0.dev .xqb).irq = 0)
    (hc : s0.xq_pending_intrs = 0) (hl : s0.int_XQ = false) :
    (runCalls calls s0).xq_pending_intrs = pendingCount (runCalls calls s0) ∧
      ((runCalls calls s0).int_XQ = true ↔ 0 < pendingCount (runCalls calls s0)) := by
  apply runCalls_inv
  simp [IntInv, pendingCount, ha, hb, hc, hl]

/-- Witness of C1: both controllers raise an interrupt, the vector of XQA is fetched, and a
clear on XQA finds nothing to clear; one interrupt (that of XQB) stays pending and the line
stays asserted. -/
theorem interrupt_aggregation_invariant_witness :
    (runCalls [.setint .xqb, .setint .xqa, .int, .clrint .xqa false] {}).xq_pending_intrs = 1 ∧
    (runCalls [.setint .xqb, .setint .xqa, .int, .clrint .xqa false] {}).int_XQ = true := by
  have h := interrupt_aggregation_invariant {}
    [.setint .xqb, .setint .xqa, .int, .clrint .xqa false]
    (by decide) (by decide) (by decide) (by decide)
  have hp : pendingCount
      (runCalls [.setint .xqb, .setint .xqa, .int, .clrint .xqa false] {}) = 1 := by
    decide
  rw [hp] at h
  exact ⟨h.1, h.2.2 (by decide)⟩

/-! ## C3: classic descriptor length decode -/

/-- C3, counterexample.  For the flag word with both odd-trim bits H and L set and the
word count 0xFFFF (one word), the walks decode the byte length 0, whereas "2 * ((-w) mod
2^16) reduced by exactly 1 when at least one of H, L is set" is 1. -/
theorem classic_length_decode_counterexample :
    bdl_b_length (XQ_DSC_H ||| XQ_DSC_L) 0xFFFF = 0 ∧
    u16 (2 * ((65536 - 0xFFFF % 65536) % 65536) + 65536 -
      (if (XQ_DSC_H ||| XQ_DSC_L) &&& XQ_DSC_H ≠ 0 ∨ (XQ_DSC_H ||| XQ_DSC_L) &&& XQ_DSC_L ≠ 0
        then 1 else 0)) = 1 := by
  decide

/-- C3, amended (classic descriptor length decode).  For every descriptor flag word `f`
and word-count word `w`, the byte length decoded by the classic receive and transmit walks
is `2 * ((-w) mod 2^16)` reduced by 1 for each of the odd-trim bits H, L of `f` that is set
(by 2 when both are set, not reduced when neither is), in 16-bit unsigned arithmetic. -/
theorem classic_length_decode (f w : Nat) :
    bdl_b_length f w =
      u16 (2 * ((65536 - w % 65536) % 65536) + 131072 -
        ((if f &&& XQ_DSC_H ≠ 0 then 1 else 0) + (if f &&& XQ_DSC_L ≠ 0 then 1 else 0))) := by
  unfold bdl_b_length bdl_w_length u16 not16
  have hw : w % 65536 < 65536 := Nat.mod_lt _ (by norm_num)
  split_ifs <;> simp only [] <;> omega

/-! ## C10: CSR write masks -/

theorem csr_xq_setint (i j : CtlrId) (s : Sys) : ((xq_setint i s).dev j).csr = (s.dev j).csr := by
  cases i <;> cases j <;>
  · simp only [xq_setint, Sys.dev, Sys.ctlr, Sys.setDev, Sys.setCtlr]
    split_ifs <;> rfl

theorem csr_xq_clrint (i j : CtlrId) (a : Bool) (s : Sys) :
    ((xq_clrint i a s).dev j).csr = (s.dev j).csr := by
  cases i <;> cases j <;>
  · simp only [xq_clrint, Sys.dev, Sys.ctlr, Sys.setDev, Sys.setCtlr]
    split_ifs <;> rfl

theorem csr_xq_csr_set_clr (i : CtlrId) (sb cb : Nat) (s : Sys) :
    ((xq_csr_set_clr i sb cb s).dev i).csr = ((s.dev i).csr ||| u16 sb) &&& not16 cb := by
  unfold xq_csr_set_clr
  simp only []
  split_ifs <;> simp [csr_xq_setint, csr_xq_clrint]

theorem dev_xq_start_receiver (i j : CtlrId) (s : Sys) :
    (xq_start_receiver i s).dev j = s.dev j := by
  cases i <;> cases j <;>
  · simp only [xq_start_receiver, Sys.dev, Sys.ctlr, Sys.setDev, Sys.setCtlr]
    split_ifs <;> rfl

theorem dev_xq_stop_receiver (i j : CtlrId) (s : Sys) :
    (xq_stop_receiver i s).dev j = s.dev j := by
  cases i <;> cases j <;> rfl

theorem csr_xq_wr_csr (i : CtlrId) (d : Nat) (s : Sys)
    (h : ¬ ((s.dev i).csr &&& XQ_CSR_SR ≠ 0 ∧ d &&& XQ_CSR_SR = 0)) :
    ((xq_wr_csr i d s).2.dev i).csr =
      ((s.dev i).csr ||| u16 (d &&& XQ_CSR_RW)) &&&
        not16 (((d ^^^ XQ_CSR_RW) &&& XQ_CSR_RW) ||| (d &&& XQ_CSR_W1) |||
          (if d &&& XQ_CSR_XI ≠ 0 then XQ_CSR_NI else 0)) := by
  unfold xq_wr_csr
  simp only [if_neg h]
  rw [csr_xq_csr_set_clr]
  split_ifs <;> simp only [dev_xq_start_receiver, dev_xq_stop_receiver]

theorem new_csr_testBit (c d k : Nat) :
    (((c ||| u16 (d &&& XQ_CSR_RW)) &&&
        not16 (((d ^^^ XQ_CSR_RW) &&& XQ_CSR_RW) ||| (d &&& XQ_CSR_W1) |||
          (if d &&& XQ_CSR_XI ≠ 0 then XQ_CSR_NI else 0))).testBit k) =
      ((c.testBit k || (decide (k < 16) && (d.testBit k && XQ_CSR_RW.testBit k))) &&
        (decide (k < 16) && !((((d.testBit k).xor (XQ_CSR_RW.testBit k)) && XQ_CSR_RW.testBit k) ||
          (d.testBit k && XQ_CSR_W1.testBit k) ||
          (d.testBit 7 && XQ_CSR_NI.testBit k)))) := by
  have hXI : d &&& XQ_CSR_XI ≠ 0 ↔ d.testBit 7 = true := and_two_pow_ne_zero_iff d 7
  by_cases h7 : d.testBit 7 = true
  · rw [if_pos (hXI.2 h7)]
    simp [testBit_not16, testBit_u16, h7]
  · rw [if_neg (fun h => h7 (hXI.1 h))]
    simp [testBit_not16, testBit_u16, h7]

/-- C10 (CSR write masks).  For every CSR write `xq_wr_csr` of a value `d` that does not
clear a currently set SR bit (non-PDP-11 build): in the new CSR each read/write bit (RE, SR,
BD, IE, IL, EL, SE) equals the corresponding bit of `d`; RI and XI are each cleared exactly
when written as 1 and otherwise keep their value; NI is cleared exactly when XI is written
as 1 and otherwise keeps its value; and the remaining read-only bits (PE, CA, OK, RR, RL,
XL) keep their previous value. -/
theorem csr_write_masks (i : CtlrId) (d : Nat) (s : Sys)
    (h : ¬ ((s.dev i).csr &&& XQ_CSR_SR ≠ 0 ∧ d &&& XQ_CSR_SR = 0)) :
    (∀ b ∈ [XQ_CSR_RE, XQ_CSR_SR, XQ_CSR_BD, XQ_CSR_IE, XQ_CSR_IL, XQ_CSR_EL, XQ_CSR_SE],
        ((xq_wr_csr i d s).2.dev i).csr &&& b = d &&& b) ∧
    (∀ b ∈ [XQ_CSR_RI, XQ_CSR_XI],
        ((xq_wr_csr i d s).2.dev i).csr &&& b = if d &&& b ≠ 0 then 0 else (s.dev i).csr &&& b) ∧
    (((xq_wr_csr i d s).2.dev i).csr &&& XQ_CSR_NI =
        if d &&& XQ_CSR_XI ≠ 0 then 0 else (s.dev i).csr &&& XQ_CSR_NI) ∧
    (∀ b ∈ [XQ_CSR_PE, XQ_CSR_CA, XQ_CSR_OK, XQ_CSR_RR, XQ_CSR_RL, XQ_CSR_XL],
        ((xq_wr_csr i d s).2.dev i).csr &&& b = (s.dev i).csr &&& b) := by
  rw [csr_xq_wr_csr i d s h]
  generalize (s.dev i).csr = c
  refine ⟨?_, ?_, ?_, ?_⟩
  · intro b hb
    simp only [List.mem_cons, List.mem_singleton, List.not_mem_nil, or_false] at hb
    rcases hb with rfl | rfl | rfl | rfl | rfl | rfl | rfl
    · exact (and_two_pow_eq_iff _ _ 0).2 (by rw [new_csr_testBit]; cases c.testBit _ <;> cases d.testBit _ <;> cases d.testBit 7 <;> decide)
    · exact (and_two_pow_eq_iff _ _ 1).2 (by rw [new_csr_testBit]; cases c.testBit _ <;> cases d.testBit _ <;> cases d.testBit 7 <;> decide)
    · exact (and_two_pow_eq_iff _ _ 3).2 (by rw [new_csr_testBit]; cases c.testBit _ <;> cases d.testBit _ <;> cases d.testBit 7 <;> decide)
    · exact (and_two_pow_eq_iff _ _ 6).2 (by rw [new_csr_testBit]; cases c.testBit _ <;> cases d.testBit _ <;> cases d.testBit 7 <;> decide)
    · exact (and_two_pow_eq_iff _ _ 8).2 (by rw [new_csr_testBit]; cases c.testBit _ <;> cases d.testBit _ <;> cases d.testBit 7 <;> decide)
    · exact (and_two_pow_eq_iff _ _ 9).2 (by rw [new_csr_testBit]; cases c.testBit _ <;> cases d.testBit _ <;> cases d.testBit 7 <;> decide)
    · exact (and_two_pow_eq_iff _ _ 10).2 (by rw [new_csr_testBit]; cases c.testBit _ <;> cases d.testBit _ <;> cases d.testBit 7 <;> decide)
  · intro b hb
    simp only [List.mem_cons, List.mem_singleton, List.not_mem_nil, or_false] at hb
    rcases hb with rfl | rfl
    · by_cases hd : d.testBit 15 = true
      · have hx : d &&& XQ_CSR_RI ≠ 0 := (and_two_pow_ne_zero_iff d 15).2 hd
        rw [if_pos hx]
        refine (and_two_pow_eq_zero_iff _ 15).2 ?_
        rw [new_csr_testBit, hd]
        cases c.testBit _ <;> cases d.testBit 7 <;> decide
      · have hx : ¬ d &&& XQ_CSR_RI ≠ 0 := fun h => hd ((and_two_pow_ne_zero_iff d 15).1 h)
        rw [if_neg hx]
        refine (and_two_pow_eq_iff _ _ 15).2 ?_
        rw [new_csr_testBit, Bool.eq_false_iff.2 hd]
        cases c.testBit _ <;> cases d.testBit 7 <;> decide
    · by_cases hd : d.testBit 7 = true
      · have hx : d &&& XQ_CSR_XI ≠ 0 := (and_two_pow_ne_zero_iff d 7).2 hd
        simp only [if_pos hx]
        refine (and_two_pow_eq_zero_iff _ 7).2 ?_
        have hh := new_csr_testBit c d 7
        simp only [if_pos hx] at hh
        rw [hh, hd]
        cases c.testBit _ <;> decide
      · have hx : ¬ d &&& XQ_CSR_XI ≠ 0 := fun h => hd ((and_two_pow_ne_zero_iff d 7).1 h)
        simp only [if_neg hx]
        refine (and_two_pow_eq_iff _ _ 7).2 ?_
        have hh := new_csr_testBit c d 7
        simp only [if_neg hx] at hh
        rw [hh, Bool.eq_false_iff.2 hd]
        cases c.testBit _ <;> decide
  · by_cases hd : d.testBit 7 = true
    · have hx : d &&& XQ_CSR_XI ≠ 0 := (and_two_pow_ne_zero_iff d 7).2 hd
      simp only [if_pos hx]
      refine (and_two_pow_eq_zero_iff _ 2).2 ?_
      have hh := new_csr_testBit c d 2
      simp only [if_pos hx] at hh
      rw [hh, hd]
      cases c.testBit _ <;> cases d.testBit _ <;> decide
    · have hx : ¬ d &&& XQ_CSR_XI ≠ 0 := fun h => hd ((and_two_pow_ne_zero_iff d 7).1 h)
      simp only [if_neg hx]
      refine (and_two_pow_eq_iff _ _ 2).2 ?_
      have hh := new_csr_testBit c d 2
      simp only [if_neg hx] at hh
      rw [hh, Bool.eq_false_iff.2 hd]
      cases c.testBit _ <;> cases d.testBit _ <;> decide
  · intro b hb
    simp only [List.mem_cons, List.mem_singleton, List.not_mem_nil, or_false] at hb
    rcases hb with rfl | rfl | rfl | rfl | rfl | rfl
    · exact (and_two_pow_eq_iff _ _ 14).2 (by rw [new_csr_testBit]; cases c.testBit _ <;> cases d.testBit _ <;> cases d.testBit 7 <;> decide)
    · exact (and_two_pow_eq_iff _ _ 13).2 (by rw [new_csr_testBit]; cases c.testBit _ <;> cases d.testBit _ <;> cases d.testBit 7 <;> decide)
    · exact (and_two_pow_eq_iff _ _ 12).2 (by rw [new_csr_testBit]; cases c.testBit _ <;> cases d.testBit _ <;> cases d.testBit 7 <;> decide)
    · exact (and_two_pow_eq_iff _ _ 11).2 (by rw [new_csr_testBit]; cases c.testBit _ <;> cases d.testBit _ <;> cases d.testBit 7 <;> decide)
    · exact (and_two_pow_eq_iff _ _ 5).2 (by rw [new_csr_testBit]; cases c.testBit _ <;> cases d.testBit _ <;> cases d.testBit 7 <;> decide)
    · exact (and_two_pow_eq_iff _ _ 4).2 (by rw [new_csr_testBit]; cases c.testBit _ <;> cases d.testBit _ <;> cases d.testBit 7 <;> decide)

/-- Witness of C10: with RI, XI, NI and OK set, the write of 0x00C1 (XI, IE, RE) sets IE and
RE, clears XI and NI, and keeps RI and OK. -/
theorem csr_write_masks_witness :
    ((xq_wr_csr .xqa 0x00C1 { xqa := { var := { csr := 0x9084 } } }).2.dev .xqa).csr = 0x9041 ∧
    ((xq_wr_csr .xqa 0x00C1 { xqa := { var := { csr := 0x9084 } } }).2.dev .xqa).csr
      &&& XQ_CSR_NI = 0 := by
  have h := csr_write_masks .xqa 0x00C1 { xqa := { var := { csr := 0x9084 } } } (by decide)
  refine ⟨by decide, ?_⟩
  rw [h.2.2.1]
  decide

/-! ## Frame lemmas of the interrupt and CSR functions -/

theorem xq_setint_frame (i : CtlrId) (s : Sys) :
    ((xq_setint i s).dev i).frame = (s.dev i).frame := by
  cases i <;>
  · simp only [xq_setint, Sys.dev, Sys.ctlr, Sys.setDev, Sys.setCtlr]
    split_ifs <;> rfl

theorem xq_clrint_frame (i : CtlrId) (a : Bool) (s : Sys) :
    ((xq_clrint i a s).dev i).frame = (s.dev i).frame := by
  cases i <;>
  · simp only [xq_clrint, Sys.dev, Sys.ctlr, Sys.setDev, Sys.setCtlr]
    split_ifs <;> rfl

@[simp] theorem xq_setint_mem (i : CtlrId) (s : Sys) : (xq_setint i s).mem = s.mem := by
  cases i <;>
  · simp only [xq_setint, Sys.dev, Sys.ctlr, Sys.setDev, Sys.setCtlr]
    split_ifs <;> rfl

@[simp] theorem xq_clrint_mem (i : CtlrId) (a : Bool) (s : Sys) :
    (xq_clrint i a s).mem = s.mem := by
  cases i <;>
  · simp only [xq_clrint, Sys.dev, Sys.ctlr, Sys.setDev, Sys.setCtlr]
    split_ifs <;> rfl

@[simp] theorem xq_csr_set_clr_mem (i : CtlrId) (sb cb : Nat) (s : Sys) :
    (xq_csr_set_clr i sb cb s).mem = s.mem := by
  unfold xq_csr_set_clr
  simp only []
  split_ifs <;> simp

theorem xq_csr_set_clr_frame (i : CtlrId) (sb cb : Nat) (s : Sys) :
    ((xq_csr_set_clr i sb cb s).dev i).frame = (s.dev i).frame := by
  unfold xq_csr_set_clr
  simp only []
  split_ifs <;> simp only [xq_setint_frame, xq_clrint_frame, dev_setDev_same] <;> rfl

theorem xq_nxm_error_frame (i : CtlrId) (s : Sys) :
    ((xq_nxm_error i s).2.dev i).frame = (s.dev i).frame := by
  unfold xq_nxm_error
  split_ifs
  · simp only [xq_setint_frame, dev_setDev_same]; rfl
  · simp only [xq_csr_set_clr_frame]

@[simp] theorem xq_nxm_error_mem (i : CtlrId) (s : Sys) : (xq_nxm_error i s).2.mem = s.mem := by
  unfold xq_nxm_error
  split_ifs <;> simp

@[simp] theorem xq_nxm_error_status (i : CtlrId) (s : Sys) : (xq_nxm_error i s).1 = SCPE_OK := by
  unfold xq_nxm_error
  split_ifs <;> rfl

theorem frame_ReadQ {v v1 : xq_device} (h : v.frame = v1.frame) : v.ReadQ = v1.ReadQ := by
  have e := congrArg xq_device.ReadQ h
  exact e
theorem frame_stats {v v1 : xq_device} (h : v.frame = v1.frame) : v.stats = v1.stats := by
  have e := congrArg xq_device.stats h
  exact e
theorem frame_mode {v v1 : xq_device} (h : v.frame = v1.frame) : v.mode = v1.mode := by
  have e := congrArg xq_device.mode h
  exact e
theorem frame_rbdl_ba {v v1 : xq_device} (h : v.frame = v1.frame) : v.rbdl_ba = v1.rbdl_ba := by
  have e := congrArg xq_device.rbdl_ba h
  exact e
theorem frame_xbdl_ba {v v1 : xq_device} (h : v.frame = v1.frame) : v.xbdl_ba = v1.xbdl_ba := by
  have e := congrArg xq_device.xbdl_ba h
  exact e
theorem frame_rbdl_buf {v v1 : xq_device} (h : v.frame = v1.frame) : v.rbdl_buf = v1.rbdl_buf := by
  have e := congrArg xq_device.rbdl_buf h
  exact e
theorem frame_xbdl_buf {v v1 : xq_device} (h : v.frame = v1.frame) : v.xbdl_buf = v1.xbdl_buf := by
  have e := congrArg xq_device.xbdl_buf h
  exact e
theorem frame_write_buffer {v v1 : xq_device} (h : v.frame = v1.frame) :
    v.write_buffer = v1.write_buffer := by
  have e := congrArg xq_device.write_buffer h
  exact e

/-- The CSR after `xq_nxm_error` in classic mode. -/
theorem xq_nxm_error_csr (i : CtlrId) (s : Sys) (h : (s.dev i).mode ≠ XQ_T_DELQA_PLUS) :
    ((xq_nxm_error i s).2.dev i).csr =
      ((s.dev i).csr ||| (XQ_CSR_NI ||| XQ_CSR_XI ||| XQ_CSR_XL ||| XQ_CSR_RL)) &&& 65535 := by
  unfold xq_nxm_error
  rw [if_neg h]
  simp only [csr_xq_csr_set_clr]
  rfl

/-! ## Guest memory lemmas -/

theorem Mem.write_same (m : Mem) (a b : Nat) : m.write a b a = some (b % 256) := by
  simp [Mem.write]

theorem Mem.write_other (m : Mem) (a b x : Nat) (h : x ≠ a) : m.write a b x = m x := by
  simp [Mem.write, h]

theorem Map_WriteB_isSome (bs : List Nat) : ∀ (m : Mem) (ba a : Nat),
    ((Map_WriteB m ba bs).2 a).isSome = (m a).isSome := by
  induction bs with
  | nil => intro m ba a; rfl
  | cons b bs ih =>
    intro m ba a
    unfold Map_WriteB
    cases h : m ba with
    | none => rfl
    | some x =>
      simp only []
      rw [ih]
      by_cases ha : a = ba
      · subst ha; simp [Mem.write, h]
      · simp [Mem.write, ha]

theorem Map_WriteB_outside (bs : List Nat) : ∀ (m : Mem) (ba a : Nat),
    (a < ba ∨ ba + bs.length ≤ a) → (Map_WriteB m ba bs).2 a = m a := by
  induction bs with
  | nil => intro m ba a _; rfl
  | cons b bs ih =>
    intro m ba a h
    unfold Map_WriteB
    cases hm : m ba with
    | none => rfl
    | some x =>
      simp only []
      rw [ih _ _ _ (by simp only [List.length_cons] at h; omega)]
      exact Mem.write_other _ _ _ _ (by simp only [List.length_cons] at h; omega)

theorem Map_WriteB_ok (bs : List Nat) : ∀ (m : Mem) (ba : Nat),
    (∀ k, k < bs.length → (m (ba + k)).isSome = true) → (Map_WriteB m ba bs).1 = 0 := by
  induction bs with
  | nil => intro m ba _; rfl
  | cons b bs ih =>
    intro m ba h
    unfold Map_WriteB
    have h0 := h 0 (by simp)
    cases hm : m ba with
    | none => simp [hm] at h0
    | some x =>
      simp only []
      apply ih
      intro k hk
      have := h (k + 1) (by simp; omega)
      by_cases hk0 : ba + 1 + k = ba
      · omega
      · rw [Mem.write_other _ _ _ _ hk0]
        rw [← this]; congr 2; omega

theorem Map_WriteB_inside (bs : List Nat) : ∀ (m : Mem) (ba k : Nat),
    (Map_WriteB m ba bs).1 = 0 → k < bs.length →
    (Map_WriteB m ba bs).2 (ba + k) = some (bs.getD k 0 % 256) := by
  induction bs with
  | nil => intro m ba k _ hk; simp at hk
  | cons b bs ih =>
    intro m ba k h hk
    unfold Map_WriteB at h ⊢
    cases hm : m ba with
    | none => simp [hm] at h
    | some x =>
      simp only [hm] at h ⊢
      cases k with
      | zero =>
        rw [Map_WriteB_outside _ _ _ _ (Or.inl (by omega))]
        simp [Mem.write]
      | succ k =>
        have := ih (m.write ba b) (ba + 1) k h (by simpa using hk)
        have e : ba + (k + 1) = ba + 1 + k := by omega
        rw [e, this]
        simp

theorem Map_WriteB_fail (bs : List Nat) : ∀ (m : Mem) (ba k : Nat),
    k < bs.length → m (ba + k) = none → (Map_WriteB m ba bs).1 ≠ 0 := by
  induction bs with
  | nil => intro m ba k hk; simp at hk
  | cons b bs ih =>
    intro m ba k hk hn
    unfold Map_WriteB
    cases hm : m ba with
    | none => simp
    | some x =>
      simp only []
      cases k with
      | zero => simp [hm] at hn
      | succ k =>
        apply ih _ _ k (by simpa using hk)
        rw [Mem.write_other _ _ _ _ (by omega)]
        rw [← hn]; congr 1; omega

theorem Map_ReadB_congr (n : Nat) : ∀ (m m1 : Mem) (ba : Nat),
    (∀ k, k < n → m (ba + k) = m1 (ba + k)) → Map_ReadB m ba n = Map_ReadB m1 ba n := by
  induction n with
  | zero => intro m m1 ba _; rfl
  | succ n ih =>
    intro m m1 ba h
    unfold Map_ReadB
    have h0 := h 0 (by omega)
    simp only [Nat.add_zero] at h0
    rw [← h0]
    have := ih m m1 (ba + 1) (fun k hk => by
      have := h (k + 1) (by omega)
      rw [show ba + 1 + k = ba + (k + 1) by omega]; exact this)
    rw [this]

theorem Map_ReadB_ok (n : Nat) : ∀ (m : Mem) (ba : Nat),
    (∀ k, k < n → (m (ba + k)).isSome = true) →
    Map_ReadB m ba n = (0, (List.range n).map fun k => ((m (ba + k)).getD 0) % 256) := by
  induction n with
  | zero => intro m ba _; rfl
  | succ n ih =>
    intro m ba h
    unfold Map_ReadB
    have h0 := h 0 (by omega)
    simp only [Nat.add_zero] at h0
    cases hm : m ba with
    | none => simp [hm] at h0
    | some x =>
      simp only []
      rw [ih m (ba + 1) (fun k hk => by
        have := h (k + 1) (by omega)
        rw [show ba + 1 + k = ba + (k + 1) by omega]; exact this)]
      simp only [List.range_succ_eq_map, List.map_cons, List.map_map, Nat.add_zero, hm, Option.getD_some]
      congr 2
      apply List.map_congr_left
      intro k _
      simp only [Function.comp]
      rw [show ba + 1 + k = ba + (k + 1) by omega]

theorem Map_ReadB_length (n : Nat) : ∀ (m : Mem) (ba : Nat),
    (Map_ReadB m ba n).1 = 0 → (Map_ReadB m ba n).2.length = n := by
  induction n with
  | zero => intro m ba _; rfl
  | succ n ih =>
    intro m ba h
    unfold Map_ReadB at h ⊢
    cases hm : m ba with
    | none => simp [hm] at h
    | some x =>
      simp only [hm] at h ⊢
      simp [ih m (ba + 1) h]

theorem word_at_congr (m m1 : Mem) (a : Nat) (h0 : m1 a = m a) (h1 : m1 (a + 1) = m (a + 1)) :
    word_at m1 a = word_at m a := by
  unfold word_at; rw [h0, h1]

theorem Map_ReadW_2 (m : Mem) (a x : Nat) (h : word_at m a = some x) :
    Map_ReadW m a 2 = (0, [x]) := by
  unfold word_at at h
  cases h0 : m a with
  | none => simp [h0] at h
  | some lo =>
    cases h1 : m (a + 1) with
    | none => simp [h0, h1] at h
    | some hi =>
      simp [h0, h1] at h
      simp [Map_ReadW, Map_ReadB, h0, h1, words_of_bytes, h]

theorem Map_ReadW_4 (m : Mem) (a x y : Nat) (hx : word_at m a = some x)
    (hy : word_at m (a + 2) = some y) : Map_ReadW m a 4 = (0, [x, y]) := by
  unfold word_at at hx hy
  cases h0 : m a with
  | none => simp [h0] at hx
  | some b0 =>
    cases h1 : m (a + 1) with
    | none => simp [h0, h1] at hx
    | some b1 =>
      cases h2 : m (a + 2) with
      | none => simp [h2] at hy
      | some b2 =>
        cases h3 : m (a + 2 + 1) with
        | none => simp [h2, h3] at hy
        | some b3 =>
          simp [h0, h1] at hx
          simp [h2, h3] at hy
          have e2 : a + 1 + 1 = a + 2 := by omega
          have e3 : a + 1 + 1 + 1 = a + 2 + 1 := by omega
          simp [Map_ReadW, Map_ReadB, h0, h1, e2, e3, h2, h3, words_of_bytes, hx, hy]

theorem word_at_isSome (m : Mem) (a : Nat) (h0 : (m a).isSome = true)
    (h1 : (m (a + 1)).isSome = true) : ∃ x, word_at m a = some x ∧ x < 65536 := by
  unfold word_at
  cases e0 : m a with
  | none => simp [e0] at h0
  | some lo =>
    cases e1 : m (a + 1) with
    | none => simp [e1] at h1
    | some hi =>
      refine ⟨_, rfl, ?_⟩
      have := Nat.mod_lt lo (show 0 < 256 by norm_num)
      have := Nat.mod_lt hi (show 0 < 256 by norm_num)
      omega

theorem word_at_lt (m : Mem) (a x : Nat) (h : word_at m a = some x) : x < 65536 := by
  unfold word_at at h
  cases e0 : m a with
  | none => simp [e0] at h
  | some lo =>
    cases e1 : m (a + 1) with
    | none => simp [e0, e1] at h
    | some hi =>
      simp [e0, e1] at h
      have := Nat.mod_lt lo (show 0 < 256 by norm_num)
      have := Nat.mod_lt hi (show 0 < 256 by norm_num)
      omega

/-- Writing one word. -/
theorem Map_WriteW_one (m : Mem) (a w : Nat) (h0 : (m a).isSome = true)
    (h1 : (m (a + 1)).isSome = true) :
    (Map_WriteW m a [w]).1 = 0 ∧ word_at (Map_WriteW m a [w]).2 a = some (w % 65536) ∧
    ∀ x, x ≠ a → x ≠ a + 1 → (Map_WriteW m a [w]).2 x = m x := by
  have hok : (Map_WriteW m a [w]).1 = 0 := by
    apply Map_WriteB_ok
    intro k hk
    simp [word_bytes] at hk
    interval_cases k
    · simpa using h0
    · simpa using h1
  refine ⟨hok, ?_, ?_⟩
  · have i0 := Map_WriteB_inside _ m a 0 hok (by simp [word_bytes])
    have i1 := Map_WriteB_inside _ m a 1 hok (by simp [word_bytes])
    unfold word_at
    simp only [Nat.add_zero] at i0
    unfold Map_WriteW
    rw [i0, i1]
    simp [word_bytes]
    omega
  · intro x hx0 hx1
    apply Map_WriteB_outside
    simp [word_bytes]
    omega

/-- A word of guest memory that a one-word write elsewhere leaves as it is. -/
theorem word_at_WriteW_other (m : Mem) (a w x : Nat) (h0 : (m a).isSome = true)
    (h1 : (m (a + 1)).isSome = true) (hx : x + 1 < a ∨ a + 1 < x) :
    word_at (Map_WriteW m a [w]).2 x = word_at m x := by
  obtain ⟨_, _, hfr⟩ := Map_WriteW_one m a w h0 h1
  exact word_at_congr m _ x (hfr x (by omega) (by omega)) (hfr (x + 1) (by omega) (by omega))

/-- The fetch of a descriptor that guest memory holds. -/
theorem xq_fetch_bdl_entry_6 (m : Mem) (ba f a w : Nat) (buf : bdl_buf) (h : bdl_at m ba f a w) :
    xq_fetch_bdl_entry m ba buf 6 =
      (0, (Map_WriteW m ba [0xFFFF]).2, (((buf.set 0 0xFFFF).set 1 f).set 2 a).set 3 w) := by
  obtain ⟨hs, hf, ha, hw⟩ := h
  have h0 := hs 0 (by norm_num)
  have h1 := hs 1 (by norm_num)
  simp only [Nat.add_zero] at h0
  obtain ⟨hok, _, hfr⟩ := Map_WriteW_one m ba 0xFFFF h0 h1
  have r1 : Map_ReadW (Map_WriteW m ba [0xFFFF]).2 (ba + 2) 2 = (0, [f]) := by
    apply Map_ReadW_2
    rw [word_at_WriteW_other m ba _ _ h0 h1 (by omega)]
    exact hf
  have r2 : Map_ReadW (Map_WriteW m ba [0xFFFF]).2 (ba + 4) 4 = (0, [a, w]) := by
    apply Map_ReadW_4
    · rw [word_at_WriteW_other m ba _ _ h0 h1 (by omega)]
      exact ha
    · rw [word_at_WriteW_other m ba _ _ h0 h1 (by omega)]
      exact hw
  unfold xq_fetch_bdl_entry
  have e : (buf.set 0 0xFFFF).get 0 = 0xFFFF := rfl
  simp only [e, hok, r1, r2, ne_eq, not_true_eq_false, if_false, store_words]
  simp

/-- Status words written to existing memory. -/
theorem xq_update_bdl_status_words_ok (m : Mem) (ba w1 w2 : Nat)
    (h : ∀ k, 8 ≤ k → k < 12 → (m (ba + k)).isSome = true) :
    (xq_update_bdl_status_words m ba [w1, w2]).1 = 0 ∧
    word_at (xq_update_bdl_status_words m ba [w1, w2]).2 (ba + 8) = some (w1 % 65536) ∧
    word_at (xq_update_bdl_status_words m ba [w1, w2]).2 (ba + 10) = some (w2 % 65536) ∧
    (∀ x, (x < ba + 8 ∨ ba + 12 ≤ x) → (xq_update_bdl_status_words m ba [w1, w2]).2 x = m x) ∧
    (∀ x, ((xq_update_bdl_status_words m ba [w1, w2]).2 x).isSome = (m x).isSome) := by
  have h8 := h 8 (by norm_num) (by norm_num)
  have h9 := h 9 (by norm_num) (by norm_num)
  have h10 := h 10 (by norm_num) (by norm_num)
  have h11 := h 11 (by norm_num) (by norm_num)
  obtain ⟨ok2, wd2, fr2⟩ := Map_WriteW_one m (ba + 10) w2 h10 h11
  have e8 : ((Map_WriteW m (ba + 10) [w2]).2 (ba + 8)).isSome = true := by
    rw [fr2 _ (by omega) (by omega)]; exact h8
  have e9 : ((Map_WriteW m (ba + 10) [w2]).2 (ba + 8 + 1)).isSome = true := by
    rw [fr2 _ (by omega) (by omega)]; exact h9
  obtain ⟨ok1, wd1, fr1⟩ := Map_WriteW_one (Map_WriteW m (ba + 10) [w2]).2 (ba + 8) w1 e8 e9
  have hu : xq_update_bdl_status_words m ba [w1, w2] =
      Map_WriteW (Map_WriteW m (ba + 10) [w2]).2 (ba + 8) [w1] := by
    unfold xq_update_bdl_status_words xq_update_bdl_status_words_on
    simp [ok2]
  rw [hu]
  refine ⟨ok1, wd1, ?_, ?_, ?_⟩
  · rw [word_at_WriteW_other _ _ _ _ e8 e9 (by omega)]
    exact wd2
  · intro x hx
    rw [fr1 x (by omega) (by omega), fr2 x (by omega) (by omega)]
  · intro x
    unfold Map_WriteW
    rw [Map_WriteB_isSome, Map_WriteB_isSome]

/-! ## One iteration of the classic receive walk -/

theorem bytes_at_length (a : List Nat) (off n : Nat) : (bytes_at a off n).length = n := by
  simp [bytes_at]

/-- The iteration of the receive walk on a valid, non-chained descriptor with a packet
queued reaches the delivery part of the loop body. -/
theorem rbdl_step_eq_deliver (i : CtlrId) (s : Sys) (f a w : Nat)
    (hd : bdl_at s.mem (s.dev i).rbdl_ba f a w)
    (hV : f &&& XQ_DSC_V ≠ 0) (hC : f &&& XQ_DSC_C = 0) (hcnt : (s.dev i).ReadQ.count ≠ 0) :
    rbdl_step i s = rbdl_deliver i (rbdl_fetched i s f a w) := by
  unfold rbdl_step rbdl_entry rbdl_fetched
  simp only [xq_fetch_bdl_entry_6 _ _ _ _ _ _ hd]
  have e1 : (((((s.dev i).rbdl_buf.set 0 0xFFFF).set 1 f).set 2 a).set 3 w).get 1 = f := rfl
  simp only [e1, ne_eq, not_true_eq_false, if_false, hV, hC, dev_setDev_same, hcnt]

theorem rbdl_done_store (v : xq_device) (x y : Nat) :
    rbdl_done { v with rbdl_buf := store_words v.rbdl_buf 4 [x, y] } = rbdl_done v := by
  rfl

theorem rbdl_slice_store (v : xq_device) (x y : Nat) :
    rbdl_slice { v with rbdl_buf := store_words v.rbdl_buf 4 [x, y] } = rbdl_slice v := by
  rfl

theorem rbdl_sw_store (v : xq_device) (x y : Nat) :
    rbdl_sw { v with rbdl_buf := store_words v.rbdl_buf 4 [x, y] } = rbdl_sw v := by
  rfl

theorem rbdl_taken_store (v : xq_device) (x y : Nat) :
    rbdl_taken { v with rbdl_buf := store_words v.rbdl_buf 4 [x, y] } =
      { rbdl_taken v with rbdl_buf := store_words v.rbdl_buf 4 [x, y] } := by
  rfl

theorem rbdl_done_rbdl_ba (v : xq_device) : (rbdl_done v).rbdl_ba = v.rbdl_ba := by
  unfold rbdl_done
  split_ifs <;> rfl

/-- The state after the delivery part of the loop body when no guest-memory access fails. -/
theorem rbdl_deliver_ok (i : CtlrId) (S : Sys) (x y : Nat)
    (hr : Map_ReadW S.mem ((S.dev i).rbdl_ba + 8) 4 = (0, [x, y]))
    (hw : (Map_WriteB S.mem (rbdl_slice (S.dev i)).1 (rbdl_slice (S.dev i)).2).1 = 0)
    (hu : (xq_update_bdl_status_words
        (Map_WriteB S.mem (rbdl_slice (S.dev i)).1 (rbdl_slice (S.dev i)).2).2 (S.dev i).rbdl_ba
        [(rbdl_sw (S.dev i)).1, (rbdl_sw (S.dev i)).2.1]).1 = 0) :
    rbdl_deliver i S = .next (rbdl_post i S) := by
  unfold rbdl_deliver rbdl_post
  simp only [hr, ne_eq, not_true_eq_false, if_false, rbdl_slice_store, rbdl_sw_store,
    rbdl_done_store, hw, hu]
  congr 3
  have := frame_rbdl_ba (xq_csr_set_clr_frame i XQ_CSR_RI 0 ({ S with mem := (xq_update_bdl_status_words
          (Map_WriteB S.mem (rbdl_slice (S.dev i)).1 (rbdl_slice (S.dev i)).2).2 (S.dev i).rbdl_ba
          [(rbdl_sw (S.dev i)).1, (rbdl_sw (S.dev i)).2.1]).2 }.setDev i (rbdl_done (S.dev i))))
  rw [this]
  simp only [dev_setDev_same, rbdl_done_rbdl_ba]

/-- The return of the delivery part when the write of the packet data fails. -/
theorem rbdl_deliver_write_fail (i : CtlrId) (S : Sys) (x y : Nat)
    (hr : Map_ReadW S.mem ((S.dev i).rbdl_ba + 8) 4 = (0, [x, y]))
    (hw : (Map_WriteB S.mem (rbdl_slice (S.dev i)).1 (rbdl_slice (S.dev i)).2).1 ≠ 0) :
    rbdl_deliver i S = .ret SCPE_OK
      (xq_nxm_error i
        ({ S with mem := (Map_WriteB S.mem (rbdl_slice (S.dev i)).1 (rbdl_slice (S.dev i)).2).2 }.setDev i
          { rbdl_taken (S.dev i) with rbdl_buf := store_words (S.dev i).rbdl_buf 4 [x, y] })).2 := by
  unfold rbdl_deliver
  simp only [hr, ne_eq, not_true_eq_false, if_false, rbdl_slice_store, rbdl_taken_store, hw,
    not_false_eq_true, if_true, xq_nxm_error_status]

/-! ### Fields of the state after a delivery -/

@[simp] theorem rbdl_post_mem (i : CtlrId) (S : Sys) :
    (rbdl_post i S).mem = (xq_update_bdl_status_words
      (Map_WriteB S.mem (rbdl_slice (S.dev i)).1 (rbdl_slice (S.dev i)).2).2 (S.dev i).rbdl_ba
      [(rbdl_sw (S.dev i)).1, (rbdl_sw (S.dev i)).2.1]).2 := by
  unfold rbdl_post
  simp

theorem rbdl_post_frame (i : CtlrId) (S : Sys) :
    ((rbdl_post i S).dev i).frame =
      ({ rbdl_done (S.dev i) with rbdl_ba := u32 ((S.dev i).rbdl_ba + 12) } : xq_device).frame := by
  unfold rbdl_post
  simp only [dev_setDev_same]
  have h := xq_csr_set_clr_frame i XQ_CSR_RI 0 ({ S with mem := (xq_update_bdl_status_words
      (Map_WriteB S.mem (rbdl_slice (S.dev i)).1 (rbdl_slice (S.dev i)).2).2 (S.dev i).rbdl_ba
      [(rbdl_sw (S.dev i)).1, (rbdl_sw (S.dev i)).2.1]).2 }.setDev i (rbdl_done (S.dev i)))
  simp only [dev_setDev_same] at h
  have e : ∀ v v1 : xq_device, v.frame = v1.frame → ∀ n,
      ({ v with rbdl_ba := n } : xq_device).frame = ({ v1 with rbdl_ba := n } : xq_device).frame := by
    intro v v1 hv n
    have := congrArg (fun z : xq_device => ({ z with rbdl_ba := n } : xq_device)) hv
    exact this
  exact e _ _ h _

theorem rbdl_post_ReadQ (i : CtlrId) (S : Sys) :
    ((rbdl_post i S).dev i).ReadQ = (rbdl_done (S.dev i)).ReadQ := by
  have e := frame_ReadQ (rbdl_post_frame i S)
  exact e

theorem rbdl_post_stats (i : CtlrId) (S : Sys) :
    ((rbdl_post i S).dev i).stats = (rbdl_done (S.dev i)).stats := by
  have e := frame_stats (rbdl_post_frame i S)
  exact e

theorem rbdl_post_rbdl_ba (i : CtlrId) (S : Sys) :
    ((rbdl_post i S).dev i).rbdl_ba = u32 ((S.dev i).rbdl_ba + 12) := by
  have e := frame_rbdl_ba (rbdl_post_frame i S)
  exact e

theorem rbdl_fetched_dev (i : CtlrId) (s : Sys) (f a w : Nat) :
    (rbdl_fetched i s f a w).dev i = { s.dev i with
      rbdl_buf := ((((s.dev i).rbdl_buf.set 0 0xFFFF).set 1 f).set 2 a).set 3 w } := by
  unfold rbdl_fetched
  rw [dev_setDev_same]

theorem rbdl_fetched_mem (i : CtlrId) (s : Sys) (f a w : Nat) :
    (rbdl_fetched i s f a w).mem = (Map_WriteW s.mem (s.dev i).rbdl_ba [0xFFFF]).2 := by
  unfold rbdl_fetched
  simp

theorem rbdl_fetched_isSome (i : CtlrId) (s : Sys) (f a w x : Nat) :
    ((rbdl_fetched i s f a w).mem x).isSome = (s.mem x).isSome := by
  rw [rbdl_fetched_mem]
  unfold Map_WriteW
  rw [Map_WriteB_isSome]

theorem rbdl_adj_fetched (i : CtlrId) (s : Sys) (f a w : Nat) :
    rbdl_adj ((rbdl_fetched i s f a w).dev i) =
      rbdl_adjust (s.dev i).stats (rbdl_head (s.dev i)) (bdl_b_length f w) := by
  rw [rbdl_fetched_dev]; rfl

theorem rbdl_slice_fetched (i : CtlrId) (s : Sys) (f a w : Nat) :
    rbdl_slice ((rbdl_fetched i s f a w).dev i) =
      (bdl_address f a,
        bytes_at (rbdl_adjust (s.dev i).stats (rbdl_head (s.dev i)) (bdl_b_length f w)).2.1.packet.msg
          (rbdl_adjust (s.dev i).stats (rbdl_head (s.dev i)) (bdl_b_length f w)).2.2.2
          (rbdl_adjust (s.dev i).stats (rbdl_head (s.dev i)) (bdl_b_length f w)).2.2.1) := by
  rw [rbdl_fetched_dev]; rfl

theorem rbdl_sw_fetched (i : CtlrId) (s : Sys) (f a w : Nat) :
    rbdl_sw ((rbdl_fetched i s f a w).dev i) =
      rbdl_status (rbdl_adjust (s.dev i).stats (rbdl_head (s.dev i)) (bdl_b_length f w)).1
        (rbdl_adjust (s.dev i).stats (rbdl_head (s.dev i)) (bdl_b_length f w)).2.1
        (rbdl_adjust (s.dev i).stats (rbdl_head (s.dev i)) (bdl_b_length f w)).2.2.1
        (s.dev i).ReadQ.loss := by
  rw [rbdl_fetched_dev]; rfl

/-- An iteration of the receive walk on a valid, non-chained descriptor whose buffer is
existing memory, with a packet queued, delivers and goes on. -/
theorem rbdl_step_ok (i : CtlrId) (s : Sys) (f a w : Nat)
    (hd : bdl_at s.mem (s.dev i).rbdl_ba f a w)
    (hV : f &&& XQ_DSC_V ≠ 0) (hC : f &&& XQ_DSC_C = 0) (hcnt : (s.dev i).ReadQ.count ≠ 0)
    (hbuf : ∀ k, k < (rbdl_adjust (s.dev i).stats (rbdl_head (s.dev i)) (bdl_b_length f w)).2.2.1 →
      (s.mem (bdl_address f a + k)).isSome = true) :
    rbdl_step i s = .next (rbdl_post i (rbdl_fetched i s f a w)) := by
  rw [rbdl_step_eq_deliver i s f a w hd hV hC hcnt]
  have hba : ((rbdl_fetched i s f a w).dev i).rbdl_ba = (s.dev i).rbdl_ba := by
    rw [rbdl_fetched_dev]
  have hs : ∀ k, k < 12 → ((rbdl_fetched i s f a w).mem ((s.dev i).rbdl_ba + k)).isSome = true := by
    intro k hk; rw [rbdl_fetched_isSome]; exact hd.1 k hk
  obtain ⟨x, hx, _⟩ := word_at_isSome (rbdl_fetched i s f a w).mem ((s.dev i).rbdl_ba + 8)
    (hs 8 (by norm_num)) (hs 9 (by norm_num))
  obtain ⟨y, hy, _⟩ := word_at_isSome (rbdl_fetched i s f a w).mem ((s.dev i).rbdl_ba + 8 + 2)
    (hs 10 (by norm_num)) (hs 11 (by norm_num))
  have hw : (Map_WriteB (rbdl_fetched i s f a w).mem (rbdl_slice ((rbdl_fetched i s f a w).dev i)).1
      (rbdl_slice ((rbdl_fetched i s f a w).dev i)).2).1 = 0 := by
    apply Map_WriteB_ok
    intro k hk
    rw [rbdl_slice_fetched] at hk ⊢
    rw [rbdl_fetched_isSome]
    simp only [bytes_at_length] at hk
    exact hbuf k hk
  apply rbdl_deliver_ok i _ x y
  · rw [hba]; exact Map_ReadW_4 _ _ x y hx hy
  · exact hw
  · rw [hba]
    refine (xq_update_bdl_status_words_ok _ _ _ _ ?_).1
    intro k h8 h12
    rw [Map_WriteB_isSome]
    exact hs k h12

theorem irq_xq_setint (i : CtlrId) (S : Sys) :
    ((xq_setint i S).dev i).irq =
      if (S.dev i).irq = 0 ∧ ¬ ((S.dev i).mode = XQ_T_DELQA_PLUS ∧ (S.dev i).icr = 0) then 1
      else (S.dev i).irq := by
  cases i <;>
  · simp only [xq_setint, Sys.dev, Sys.ctlr, Sys.setDev, Sys.setCtlr]
    split_ifs <;> simp_all

/-- The CSR tests of `xq_csr_set_clr` when RI alone is set. -/
theorem set_RI_tests (c : Nat) :
    ((c ^^^ ((c ||| u16 XQ_CSR_RI) &&& not16 0)) &&& XQ_CSR_IE = 0) ∧
    ((((c ||| u16 XQ_CSR_RI) &&& not16 0) &&& XQ_CSR_IE ≠ 0) ↔ c &&& XQ_CSR_IE ≠ 0) ∧
    (((c ^^^ ((c ||| u16 XQ_CSR_RI) &&& not16 0)) &&& (u16 XQ_CSR_RI &&& XQ_CSR_XIRI) ≠ 0) ↔
      c &&& XQ_CSR_RI = 0) ∧
    (((c ||| u16 XQ_CSR_RI) &&& not16 0) &&& XQ_CSR_RI ≠ 0) := by
  have e15 : u16 XQ_CSR_RI &&& XQ_CSR_XIRI = 2 ^ 15 := by decide
  have eIE : XQ_CSR_IE = 2 ^ 6 := by decide
  have eRI : XQ_CSR_RI = 2 ^ 15 := by decide
  rw [e15, eIE, eRI]
  have b6 : Nat.testBit 32768 6 = false := by decide
  have b15 : Nat.testBit 32768 15 = true := by decide
  refine ⟨?_, ?_, ?_, ?_⟩
  · rw [and_two_pow_eq_zero_iff]
    simp [testBit_not16, testBit_u16, b6, b15]
  · rw [and_two_pow_ne_zero_iff, and_two_pow_ne_zero_iff]
    simp [testBit_not16, testBit_u16, b6, b15]
  · rw [and_two_pow_ne_zero_iff, and_two_pow_eq_zero_iff]
    simp [testBit_not16, testBit_u16, b6, b15]
  · rw [and_two_pow_ne_zero_iff]
    simp [testBit_not16, testBit_u16, b6, b15]

/-- The interrupt request flag after RI is set in the CSR. -/
theorem irq_after_set_RI (i : CtlrId) (S : Sys) :
    ((xq_csr_set_clr i XQ_CSR_RI 0 S).dev i).irq =
      if (S.dev i).csr &&& XQ_CSR_IE ≠ 0 ∧ (S.dev i).csr &&& XQ_CSR_RI = 0 ∧ (S.dev i).irq = 0
          ∧ ¬ ((S.dev i).mode = XQ_T_DELQA_PLUS ∧ (S.dev i).icr = 0)
      then 1 else (S.dev i).irq := by
  obtain ⟨t1, t2, t3, _⟩ := set_RI_tests (S.dev i).csr
  unfold xq_csr_set_clr
  have z : (((S.dev i).csr ^^^ (((S.dev i).csr ||| u16 XQ_CSR_RI) &&& not16 0)) &&&
      (u16 0 &&& XQ_CSR_XIRI) ≠ 0) ↔ False := by
    have : u16 0 &&& XQ_CSR_XIRI = 0 := by decide
    rw [this]; simp
  simp only [t1, t2, t3, z, ne_eq, not_true_eq_false, if_false, dev_setDev_same, false_and]
  by_cases hIE : (S.dev i).csr &&& XQ_CSR_IE = 0
  · simp [hIE]
  · by_cases hRI : (S.dev i).csr &&& XQ_CSR_RI = 0
    · by_cases hq : (S.dev i).irq = 0
      · simp only [hIE, hRI, hq, not_false_eq_true, and_self, if_true, true_and]
        rw [irq_xq_setint]
        simp [hq]
      · simp [hIE, hRI, hq]
    · simp [hIE, hRI]

/-! ### Status word arithmetic -/

theorem testBit_0700 (k : Nat) : Nat.testBit 0x0700 k = (decide (8 ≤ k) && decide (k - 8 < 3)) := by
  have : (0x0700 : Nat) = (2 ^ 3 - 1) <<< 8 := by decide
  rw [this, Nat.testBit_shiftLeft, Nat.testBit_two_pow_sub_one]

theorem testBit_00FF (k : Nat) : Nat.testBit 0x00FF k = decide (k < 8) := by
  have : (0x00FF : Nat) = 2 ^ 8 - 1 := by decide
  rw [this, Nat.testBit_two_pow_sub_one]

/-- The receive byte length `x`, below 2^11, is recovered from bits 10:8 of status word 1 and
the low byte of status word 2. -/
theorem status_words_rbl (x : Nat) (hx : x < 2048) :
    ((x &&& 0x0700) &&& 0x0700) |||
      ((((x &&& 0x00FF) <<< 8) ||| (x &&& 0x00FF)) &&& 0x00FF) = x := by
  apply Nat.eq_of_testBit_eq
  intro k
  simp only [Nat.testBit_or, Nat.testBit_and, Nat.testBit_shiftLeft, testBit_0700, testBit_00FF]
  by_cases h8 : k < 8
  · have : ¬ 8 ≤ k := by omega
    simp [h8, this]
  · by_cases h11 : k < 11
    · have h3 : k - 8 < 3 := by omega
      have : 8 ≤ k := by omega
      simp [h8, h3, this]
    · have hz : x.testBit k = false := by
        apply Nat.testBit_lt_two_pow
        calc x < 2 ^ 11 := hx
          _ ≤ 2 ^ k := Nat.pow_le_pow_right (by norm_num) (by omega)
      have h3 : ¬ k - 8 < 3 := by omega
      simp [h8, h3, hz]

theorem status_word1_lt (x : Nat) : (x &&& 0x0700) % 65536 = x &&& 0x0700 := by
  apply Nat.mod_eq_of_lt
  have : x &&& 0x0700 ≤ 0x0700 := Nat.and_le_right
  omega

theorem status_word2_lt (x : Nat) :
    (((x &&& 0x00FF) <<< 8) ||| (x &&& 0x00FF)) % 65536 = ((x &&& 0x00FF) <<< 8) ||| (x &&& 0x00FF) := by
  apply Nat.mod_eq_of_lt
  have h : x &&& 0x00FF ≤ 0x00FF := Nat.and_le_right
  have h1 : (x &&& 0x00FF) <<< 8 < 2 ^ 16 := by
    rw [Nat.shiftLeft_eq]; omega
  have h2 : x &&& 0x00FF < 2 ^ 16 := by omega
  exact Nat.or_lt_two_pow h1 h2

theorem status_word1_flags (x : Nat) :
    (x &&& 0x0700) &&& 0xC000 = 0 ∧ (x &&& 0x0700) &&& 0x0001 = 0 := by
  have e1 : (0x0700 : Nat) &&& 0xC000 = 0 := by decide
  have e2 : (0x0700 : Nat) &&& 0x0001 = 0 := by decide
  constructor
  · rw [Nat.and_assoc, e1, Nat.and_zero]
  · rw [Nat.and_assoc, e2, Nat.and_zero]

theorem bytes_at_getD (a : List Nat) (off n k : Nat) (hk : k < n) :
    (bytes_at a off n).getD k 0 = a.getD (off + k) 0 := by
  unfold bytes_at
  rw [List.getD_eq_getElem _ _ (by simpa using hk)]
  simp

/-- Guest memory after an iteration of the receive walk that delivers: the status words of
the descriptor, the data in the buffer, and the cells left as they were. -/
theorem rbdl_step_mem (i : CtlrId) (s : Sys) (f a w : Nat)
    (hd : bdl_at s.mem (s.dev i).rbdl_ba f a w)
    (hbuf : ∀ k, k < (rbdl_adjust (s.dev i).stats (rbdl_head (s.dev i)) (bdl_b_length f w)).2.2.1 →
      (s.mem (bdl_address f a + k)).isSome = true) :
    word_at (rbdl_post i (rbdl_fetched i s f a w)).mem ((s.dev i).rbdl_ba + 8) =
      some ((rbdl_status (rbdl_adjust (s.dev i).stats (rbdl_head (s.dev i)) (bdl_b_length f w)).1
        (rbdl_adjust (s.dev i).stats (rbdl_head (s.dev i)) (bdl_b_length f w)).2.1
        (rbdl_adjust (s.dev i).stats (rbdl_head (s.dev i)) (bdl_b_length f w)).2.2.1
        (s.dev i).ReadQ.loss).1 % 65536) ∧
    word_at (rbdl_post i (rbdl_fetched i s f a w)).mem ((s.dev i).rbdl_ba + 10) =
      some ((rbdl_status (rbdl_adjust (s.dev i).stats (rbdl_head (s.dev i)) (bdl_b_length f w)).1
        (rbdl_adjust (s.dev i).stats (rbdl_head (s.dev i)) (bdl_b_length f w)).2.1
        (rbdl_adjust (s.dev i).stats (rbdl_head (s.dev i)) (bdl_b_length f w)).2.2.1
        (s.dev i).ReadQ.loss).2.1 % 65536) ∧
    (∀ k, k < (rbdl_adjust (s.dev i).stats (rbdl_head (s.dev i)) (bdl_b_length f w)).2.2.1 →
      (bdl_address f a + k < (s.dev i).rbdl_ba + 8 ∨ (s.dev i).rbdl_ba + 12 ≤ bdl_address f a + k) →
      (rbdl_post i (rbdl_fetched i s f a w)).mem (bdl_address f a + k) =
        some ((rbdl_adjust (s.dev i).stats (rbdl_head (s.dev i)) (bdl_b_length f w)).2.1.packet.msg.getD
          ((rbdl_adjust (s.dev i).stats (rbdl_head (s.dev i)) (bdl_b_length f w)).2.2.2 + k) 0 % 256)) ∧
    (∀ x, ((rbdl_post i (rbdl_fetched i s f a w)).mem x).isSome = (s.mem x).isSome) ∧
    (∀ x, (x < (s.dev i).rbdl_ba ∨ (s.dev i).rbdl_ba + 2 ≤ x) →
      (x < (s.dev i).rbdl_ba + 8 ∨ (s.dev i).rbdl_ba + 12 ≤ x) →
      (x < bdl_address f a ∨ bdl_address f a +
        (rbdl_adjust (s.dev i).stats (rbdl_head (s.dev i)) (bdl_b_length f w)).2.2.1 ≤ x) →
      (rbdl_post i (rbdl_fetched i s f a w)).mem x = s.mem x) := by
  have hba : ((rbdl_fetched i s f a w).dev i).rbdl_ba = (s.dev i).rbdl_ba := by
    rw [rbdl_fetched_dev]
  have hs : ∀ k, k < 12 → ((rbdl_fetched i s f a w).mem ((s.dev i).rbdl_ba + k)).isSome = true := by
    intro k hk; rw [rbdl_fetched_isSome]; exact hd.1 k hk
  have hw : (Map_WriteB (rbdl_fetched i s f a w).mem (rbdl_slice ((rbdl_fetched i s f a w).dev i)).1
      (rbdl_slice ((rbdl_fetched i s f a w).dev i)).2).1 = 0 := by
    apply Map_WriteB_ok
    intro k hk
    rw [rbdl_slice_fetched] at hk ⊢
    rw [rbdl_fetched_isSome]
    simp only [bytes_at_length] at hk
    exact hbuf k hk
  obtain ⟨_, u8, u10, ufr, usome⟩ := xq_update_bdl_status_words_ok
    (Map_WriteB (rbdl_fetched i s f a w).mem (rbdl_slice ((rbdl_fetched i s f a w).dev i)).1
      (rbdl_slice ((rbdl_fetched i s f a w).dev i)).2).2 (s.dev i).rbdl_ba
    (rbdl_sw ((rbdl_fetched i s f a w).dev i)).1 (rbdl_sw ((rbdl_fetched i s f a w).dev i)).2.1
    (by intro k _ h12; rw [Map_WriteB_isSome]; exact hs k h12)
  rw [rbdl_post_mem, hba]
  refine ⟨?_, ?_, ?_, ?_, ?_⟩
  · rw [u8, rbdl_sw_fetched]
  · rw [u10, rbdl_sw_fetched]
  · intro k hk hout
    rw [ufr _ hout]
    have hin := Map_WriteB_inside _ _ _ k hw (by rw [rbdl_slice_fetched]; simpa [bytes_at_length] using hk)
    rw [rbdl_slice_fetched] at hin ⊢
    simp only at hin ⊢
    rw [hin, bytes_at_getD _ _ _ _ hk]
  · intro x
    rw [usome, Map_WriteB_isSome, rbdl_fetched_isSome]
  · intro x h0 h8 hx
    rw [ufr _ h8, Map_WriteB_outside _ _ _ _ (by
      rw [rbdl_slice_fetched]; simpa [bytes_at_length] using hx), rbdl_fetched_mem]
    exact (Map_WriteW_one s.mem _ 0xFFFF (by simpa using hd.1 0 (by norm_num)) (hd.1 1 (by norm_num))).2.2
      x (by omega) (by omega)

/-! ### Size adjustment lemmas -/

theorem memset_getD (dst : List Nat) (off c n k : Nat) :
    (memset dst off c n).getD k 0 =
      if k < dst.length then (if off ≤ k ∧ k < off + n then c else dst.getD k 0) else 0 := by
  unfold memset
  by_cases hk : k < dst.length
  · rw [List.getD_eq_getElem _ _ (by simpa using hk)]
    simp [hk]
  · rw [if_neg hk]
    rw [List.getD_eq_default _ _ (by simpa using hk)]

/-- Size adjustment of a runt that meets a buffer of at least 60 bytes. -/
theorem rbdl_adjust_runt (st : xq_stats) (item : eth_item) (b L : Nat)
    (hlen : item.packet.len = L) (hused : item.packet.used = 0)
    (hL : L < 60) (hb : 60 ≤ b) :
    rbdl_adjust st item b =
      ({ st with runt := st.runt + 1 },
        { item with packet := { item.packet with
            msg := memset item.packet.msg L 0 (60 - L), used := 60 } }, 60, 0) := by
  unfold rbdl_adjust
  have hu : u16 item.packet.len = L := by rw [hlen]; unfold u16; omega
  simp only [hused, hu, ne_eq, not_true_eq_false, if_false, ETH_MIN_PACKET, ETH_MAX_PACKET,
    Nat.zero_add]
  have h2 : ¬ 1514 < 60 := by omega
  have h3 : ¬ b < 60 := by omega
  simp only [hL, h2, h3, if_false, if_true, decide_True, decide_False, Bool.false_eq_true]

/-- The bytes of a padded runt: the packet bytes, then zeros. -/
theorem bytes_at_runt (msg : List Nat) (L : Nat) (hL : L < 60) :
    bytes_at (memset msg L 0 (60 - L)) 0 60 = bytes_at msg 0 L ++ List.replicate (60 - L) 0 := by
  apply List.ext_getElem
  · simp [bytes_at_length]; omega
  · intro k h1 h2
    have hk : k < 60 := by simpa [bytes_at_length] using h1
    have e1 := bytes_at_getD (memset msg L 0 (60 - L)) 0 60 k hk
    rw [List.getD_eq_getElem _ _ h1] at e1
    rw [e1, memset_getD]
    by_cases hkL : k < L
    · rw [List.getElem_append_left (by simpa [bytes_at_length] using hkL)]
      have e2 := bytes_at_getD msg 0 L k hkL
      rw [List.getD_eq_getElem _ _ (by simpa [bytes_at_length] using hkL)] at e2
      rw [e2]
      have : ¬ (L ≤ 0 + k ∧ 0 + k < L + (60 - L)) := by omega
      rw [if_neg this]
      by_cases hm : 0 + k < msg.length
      · rw [if_pos hm]
      · rw [if_neg hm, List.getD_eq_default _ _ (by omega)]
    · rw [List.getElem_append_right (by simpa [bytes_at_length] using hkL)]
      simp only [List.getElem_replicate]
      split_ifs with h1 h2
      · rfl
      · exact absurd ⟨by omega, by omega⟩ h2
      · rfl

theorem rbdl_status_stats (st : xq_stats) (item : eth_item) (rbl loss : Nat) :
    (rbdl_status st item rbl loss).2.2.runt = st.runt ∧
    (rbdl_status st item rbl loss).2.2.giant = st.giant := by
  unfold rbdl_status
  split_ifs <;> exact ⟨rfl, rfl⟩

/-! ## C4: receive status encoding -/

/-- Size adjustment of a packet of legal size that fits the buffer. -/
theorem rbdl_adjust_whole (st : xq_stats) (item : eth_item) (b L : Nat)
    (hlen : item.packet.len = L) (hused : item.packet.used = 0)
    (hL1 : 60 ≤ L) (hL2 : L ≤ 1514) (hb : L ≤ b) :
    rbdl_adjust st item b =
      (st, { item with packet := { item.packet with used := L } }, L, 0) := by
  unfold rbdl_adjust
  have hu : u16 item.packet.len = L := by rw [hlen]; unfold u16; omega
  simp only [hused, hu, ne_eq, not_true_eq_false, if_false, ETH_MIN_PACKET, ETH_MAX_PACKET,
    Nat.zero_add]
  have h1 : ¬ L < 60 := by omega
  have h2 : ¬ 1514 < L := by omega
  have h3 : ¬ b < L := by omega
  simp only [h1, h2, h3, if_false, decide_False, Bool.false_eq_true]

theorem rbdl_done_int (v : xq_device) :
    (rbdl_done v).csr = v.csr ∧ (rbdl_done v).irq = v.irq ∧ (rbdl_done v).mode = v.mode ∧
      (rbdl_done v).icr = v.icr := by
  unfold rbdl_done
  split_ifs <;> exact ⟨rfl, rfl, rfl, rfl⟩

theorem rbdl_post_csr (i : CtlrId) (S : Sys) :
    ((rbdl_post i S).dev i).csr = ((S.dev i).csr ||| u16 XQ_CSR_RI) &&& not16 0 := by
  unfold rbdl_post
  simp only [dev_setDev_same, csr_xq_csr_set_clr, (rbdl_done_int _).1]

theorem rbdl_post_irq (i : CtlrId) (S : Sys) :
    ((rbdl_post i S).dev i).irq =
      if (S.dev i).csr &&& XQ_CSR_IE ≠ 0 ∧ (S.dev i).csr &&& XQ_CSR_RI = 0 ∧ (S.dev i).irq = 0
          ∧ ¬ ((S.dev i).mode = XQ_T_DELQA_PLUS ∧ (S.dev i).icr = 0)
      then 1 else (S.dev i).irq := by
  unfold rbdl_post
  simp only [dev_setDev_same, irq_after_set_RI]
  obtain ⟨h1, h2, h3, h4⟩ := rbdl_done_int (S.dev i)
  rw [h1, h2, h3, h4]


theorem rbdl_status_normal (st : xq_stats) (item : eth_item) (L : Nat)
    (htype : item.type = 2) (hdone : ¬ item.packet.used < item.packet.len)
    (hL1 : 60 ≤ L) (hL2 : L ≤ 1514) :
    rbdl_status st item L 0 =
      ((L - 60) &&& 0x0700, (((L - 60) &&& 0x00FF) <<< 8) ||| ((L - 60) &&& 0x00FF), st) := by
  unfold rbdl_status
  have hs : sub16 L 60 = L - 60 := by unfold sub16 u16; omega
  simp [htype, hdone, hs]

/-- C4, amended (receive status encoding).  In classic mode, for every normal received
packet (queue item type 2) of length `L` with 60 <= L <= 1514 that `xq_process_rbdl` delivers
whole (delivered-byte offset 0) into one valid, non-chained receive descriptor whose buffer
holds at least `L` bytes of existing memory, while `ReadQ.loss` is 0: the iteration completes
and the walk goes on from a state `s1` in which the `L` packet bytes are at the descriptor's
22-bit buffer address (wherever the status words of the descriptor do not overlap them),
status word 1 of the descriptor is `(L-60) & 0x0700` (no not-last-segment bits 0xC000, no
overflow bit), status word 2 is the low byte of `L-60` in both bytes, so that
`(sw1 & 0x0700) | (sw2 & 0x00FF) = L-60`; CSR bit RI is set; and if CSR IE was set and
either RI was clear before the delivery or the `irq` flag (0 or 1) was already 1, the
controller's `irq` flag is 1.  For `L = 60` both status words are 0. -/
theorem receive_status_encoding (i : CtlrId) (s : Sys) (f a w L : Nat)
    (hmode : (s.dev i).mode ≠ XQ_T_DELQA_PLUS)
    (hd : bdl_at s.mem (s.dev i).rbdl_ba f a w)
    (hV : f &&& XQ_DSC_V ≠ 0) (hC : f &&& XQ_DSC_C = 0)
    (hcnt : (s.dev i).ReadQ.count ≠ 0)
    (htype : (rbdl_head (s.dev i)).type = 2)
    (hlen : (rbdl_head (s.dev i)).packet.len = L)
    (hused : (rbdl_head (s.dev i)).packet.used = 0)
    (hL1 : 60 ≤ L) (hL2 : L ≤ 1514) (hb : L ≤ bdl_b_length f w)
    (hloss : (s.dev i).ReadQ.loss = 0) (hirq : (s.dev i).irq ≤ 1)
    (hbuf : ∀ k, k < L → (s.mem (bdl_address f a + k)).isSome = true) :
    ∃ s1, rbdl_step i s = .next s1 ∧
      (∀ (K : Collab) (n : Nat), xq_process_rbdl K (n + 1) i s = rbdl_loop n i s1) ∧
      (∀ k, k < L →
        (bdl_address f a + k < (s.dev i).rbdl_ba + 8 ∨ (s.dev i).rbdl_ba + 12 ≤ bdl_address f a + k) →
        s1.mem (bdl_address f a + k) = some ((rbdl_head (s.dev i)).packet.msg.getD k 0 % 256)) ∧
      word_at s1.mem ((s.dev i).rbdl_ba + 8) = some ((L - 60) &&& 0x0700) ∧
      word_at s1.mem ((s.dev i).rbdl_ba + 10) =
        some ((((L - 60) &&& 0x00FF) <<< 8) ||| ((L - 60) &&& 0x00FF)) ∧
      (((L - 60) &&& 0x0700) &&& 0x0700) |||
        (((((L - 60) &&& 0x00FF) <<< 8) ||| ((L - 60) &&& 0x00FF)) &&& 0x00FF) = L - 60 ∧
      ((L - 60) &&& 0x0700) &&& 0xC000 = 0 ∧ ((L - 60) &&& 0x0700) &&& 0x0001 = 0 ∧
      (s1.dev i).csr &&& XQ_CSR_RI ≠ 0 ∧
      ((s.dev i).csr &&& XQ_CSR_IE ≠ 0 →
        ((s.dev i).csr &&& XQ_CSR_RI = 0 ∨ (s.dev i).irq = 1) → (s1.dev i).irq = 1) ∧
      (L = 60 → (L - 60) &&& 0x0700 = 0 ∧
        (((L - 60) &&& 0x00FF) <<< 8) ||| ((L - 60) &&& 0x00FF) = 0) := by
  have hadj := rbdl_adjust_whole (s.dev i).stats (rbdl_head (s.dev i)) (bdl_b_length f w) L
    hlen hused hL1 hL2 hb
  have hstep := rbdl_step_ok i s f a w hd hV hC hcnt (by rw [hadj]; exact hbuf)
  refine ⟨_, hstep, ?_, ?_, ?_, ?_, ?_, ?_, ?_, ?_, ?_, ?_⟩
  · intro K n
    unfold xq_process_rbdl
    rw [if_neg hmode]
    show (match rbdl_step i s with
      | .ret st s1 => some (st, s1)
      | .next s1 => rbdl_loop n i s1) = _
    rw [hstep]
  · intro k hk hout
    have h := (rbdl_step_mem i s f a w hd (by rw [hadj]; exact hbuf)).2.2.1 k (by rw [hadj]; exact hk) hout
    rw [h, hadj]
    simp
  · have h := (rbdl_step_mem i s f a w hd (by rw [hadj]; exact hbuf)).1
    rw [h, hadj, hloss]
    simp only []
    rw [rbdl_status_normal _ _ L (by exact htype) (by simp [hlen]) hL1 hL2, status_word1_lt]
  · have h := (rbdl_step_mem i s f a w hd (by rw [hadj]; exact hbuf)).2.1
    rw [h, hadj, hloss]
    simp only []
    rw [rbdl_status_normal _ _ L (by exact htype) (by simp [hlen]) hL1 hL2, status_word2_lt]
  · exact status_words_rbl (L - 60) (by omega)
  · exact (status_word1_flags _).1
  · exact (status_word1_flags _).2
  · rw [rbdl_post_csr]
    exact (set_RI_tests _).2.2.2
  · intro hIE hor
    rw [rbdl_post_irq, rbdl_fetched_dev]
    simp only
    split_ifs with hc
    · rfl
    · rcases hor with h0 | h1
      · have hq : (s.dev i).irq ≠ 0 := by
          intro hq
          exact hc ⟨hIE, h0, hq, fun h => hmode h.1⟩
        omega
      · exact h1
  · intro h60
    subst h60
    decide

/-- Witness of C4: in the example state `rx_ready` (IE set, RI clear, one normal packet of
60 bytes queued, a valid descriptor with a 60-byte buffer at 0x2000) the delivery writes
status words 0 and 0, puts packet byte 0 at 0x2000 and sets the interrupt request flag. -/
theorem receive_status_encoding_witness :
    ∃ s1, rbdl_step .xqa rx_ready = .next s1 ∧
      s1.mem 0x2000 = some 1 ∧ word_at s1.mem 0x1008 = some 0 ∧ word_at s1.mem 0x100A = some 0 ∧
      (s1.dev .xqa).irq = 1 := by
  obtain ⟨s1, h1, _, h3, h4, h5, _, _, _, _, h10, _⟩ :=
    receive_status_encoding .xqa rx_ready 0x8000 0x2000 0xFFE2 60 (by decide)
      ⟨by decide, by decide, by decide, by decide⟩ (by decide) (by decide) (by decide)
      (by decide) (by decide) (by decide) (by decide) (by decide) (by decide) (by decide)
      (by decide) (by decide)
  exact ⟨s1, h1, h3 0 (by decide) (by decide), h4, h5, h10 (by decide) (Or.inl (by decide))⟩

/-- C4, counterexample.  In the example state `rx_acked` IE and RI are set and the `irq`
flag is 0.  The receive walk delivers the queued normal packet of 60 bytes whole into the
valid 60-byte buffer (data at 0x2000, status words 0 and 0, packet removed, RI set) and
returns `SCPE_OK` at the next, invalid descriptor; the `irq` flag is still 0 although IE
was set. -/
theorem receive_status_encoding_counterexample :
    (rx_acked.dev .xqa).csr &&& XQ_CSR_IE ≠ 0 ∧
    (rbdl_step .xqa rx_acked).status = none ∧
    (rbdl_step .xqa rx_acked).state.mem 0x2000 = some 1 ∧
    word_at (rbdl_step .xqa rx_acked).state.mem 0x1008 = some 0 ∧
    ((rbdl_step .xqa rx_acked).state.dev .xqa).ReadQ.count = 0 ∧
    ((rbdl_step .xqa rx_acked).state.dev .xqa).csr &&& XQ_CSR_RI ≠ 0 ∧
    ((rbdl_step .xqa rx_acked).state.dev .xqa).irq = 0 ∧
    ((rbdl_loop 2 .xqa rx_acked).map fun r => (r.1, (r.2.dev .xqa).irq)) = some (SCPE_OK, 0) := by
  decide

/-! ## C6: runt padding -/

theorem rbdl_done_stats (v : xq_device) : (rbdl_done v).stats = (rbdl_sw v).2.2 := by
  unfold rbdl_done
  split_ifs <;> rfl

theorem rbdl_done_ReadQ_removed (v : xq_device)
    (h : (rbdl_adj v).2.1.packet.len ≤ (rbdl_adj v).2.1.packet.used) (hc : v.ReadQ.count ≠ 0) :
    (rbdl_done v).ReadQ =
      { v.ReadQ with
        item := v.ReadQ.item.set v.ReadQ.head eth_item_zero
        head := if v.ReadQ.head + 1 = v.ReadQ.max then 0 else v.ReadQ.head + 1
        count := v.ReadQ.count - 1
        loss := 0 } := by
  unfold rbdl_done
  rw [if_pos h]
  simp only [rbdl_flagged, rbdl_taken, ethq_remove, hc, ne_eq, not_false_eq_true, if_true,
    List.set_set]

theorem xq_process_rbdl_next (K : Collab) (n : Nat) (i : CtlrId) (s s1 : Sys)
    (hmode : (s.dev i).mode ≠ XQ_T_DELQA_PLUS) (h : rbdl_step i s = .next s1) :
    xq_process_rbdl K (n + 1) i s = rbdl_loop n i s1 := by
  unfold xq_process_rbdl
  rw [if_neg hmode]
  show (match rbdl_step i s with
    | .ret st s1 => some (st, s1)
    | .next s1 => rbdl_loop n i s1) = _
  rw [h]

theorem xq_process_rbdl_ret (K : Collab) (n : Nat) (i : CtlrId) (s s1 : Sys) (st : Nat)
    (hmode : (s.dev i).mode ≠ XQ_T_DELQA_PLUS) (h : rbdl_step i s = .ret st s1) :
    xq_process_rbdl K (n + 1) i s = some (st, s1) := by
  unfold xq_process_rbdl
  rw [if_neg hmode]
  show (match rbdl_step i s with
    | .ret st s1 => some (st, s1)
    | .next s1 => rbdl_loop n i s1) = _
  rw [h]

/-- C6 (runt padding).  In classic receive processing, for every head packet with
delivered-byte offset 0 and length `L < 60` (`ETH_MIN_PACKET`) that meets a valid,
non-chained receive descriptor whose buffer holds at least 60 bytes of existing memory,
the iteration completes and the walk goes on from a state `s1`; `Map_WriteB` is called for
exactly 60 bytes at the buffer address, the `L` packet bytes followed by `60 - L` zero
bytes, which are in the guest buffer afterwards (wherever the status words of the descriptor
do not overlap them) while every cell outside the buffer and outside words 0, 4 and 5 of the
descriptor is as before; `stats.runt` has increased by exactly 1; and the packet is removed
from the Read Queue (the count is one less, the head has moved on, the slot is cleared). -/
theorem runt_padding (i : CtlrId) (s : Sys) (f a w L : Nat)
    (hmode : (s.dev i).mode ≠ XQ_T_DELQA_PLUS)
    (hd : bdl_at s.mem (s.dev i).rbdl_ba f a w)
    (hV : f &&& XQ_DSC_V ≠ 0) (hC : f &&& XQ_DSC_C = 0)
    (hcnt : (s.dev i).ReadQ.count ≠ 0)
    (hlen : (rbdl_head (s.dev i)).packet.len = L)
    (hused : (rbdl_head (s.dev i)).packet.used = 0)
    (hL : L < ETH_MIN_PACKET) (hb : 60 ≤ bdl_b_length f w)
    (hbuf : ∀ k, k < 60 → (s.mem (bdl_address f a + k)).isSome = true) :
    ∃ s1, rbdl_step i s = .next s1 ∧
      (∀ (K : Collab) (n : Nat), xq_process_rbdl K (n + 1) i s = rbdl_loop n i s1) ∧
      rbdl_slice ((rbdl_fetched i s f a w).dev i) =
        (bdl_address f a,
          bytes_at (rbdl_head (s.dev i)).packet.msg 0 L ++ List.replicate (60 - L) 0) ∧
      (∀ k, k < 60 →
        (bdl_address f a + k < (s.dev i).rbdl_ba + 8 ∨ (s.dev i).rbdl_ba + 12 ≤ bdl_address f a + k) →
        s1.mem (bdl_address f a + k) =
          some ((bytes_at (rbdl_head (s.dev i)).packet.msg 0 L ++ List.replicate (60 - L) 0).getD k 0
            % 256)) ∧
      (∀ x, (x < (s.dev i).rbdl_ba ∨ (s.dev i).rbdl_ba + 2 ≤ x) →
        (x < (s.dev i).rbdl_ba + 8 ∨ (s.dev i).rbdl_ba + 12 ≤ x) →
        (x < bdl_address f a ∨ bdl_address f a + 60 ≤ x) → s1.mem x = s.mem x) ∧
      (s1.dev i).stats.runt = (s.dev i).stats.runt + 1 ∧
      (s1.dev i).ReadQ.count + 1 = (s.dev i).ReadQ.count ∧
      (s1.dev i).ReadQ.head =
        (if (s.dev i).ReadQ.head + 1 = (s.dev i).ReadQ.max then 0 else (s.dev i).ReadQ.head + 1) ∧
      (s1.dev i).ReadQ.item = (s.dev i).ReadQ.item.set (s.dev i).ReadQ.head eth_item_zero := by
  have hL60 : L < 60 := hL
  have hadj := rbdl_adjust_runt (s.dev i).stats (rbdl_head (s.dev i)) (bdl_b_length f w) L
    hlen hused hL60 hb
  have hstep := rbdl_step_ok i s f a w hd hV hC hcnt (by rw [hadj]; exact hbuf)
  have hmem := rbdl_step_mem i s f a w hd (by rw [hadj]; exact hbuf)
  have hsl : rbdl_slice ((rbdl_fetched i s f a w).dev i) =
      (bdl_address f a,
        bytes_at (rbdl_head (s.dev i)).packet.msg 0 L ++ List.replicate (60 - L) 0) := by
    rw [rbdl_slice_fetched, hadj]
    simp only []
    rw [bytes_at_runt _ _ hL60]
  have hA : rbdl_adj ((rbdl_fetched i s f a w).dev i) = _ := (rbdl_adj_fetched i s f a w).trans hadj
  have hrem : (rbdl_adj ((rbdl_fetched i s f a w).dev i)).2.1.packet.len ≤
      (rbdl_adj ((rbdl_fetched i s f a w).dev i)).2.1.packet.used := by
    rw [hA]; simp only []; omega
  have hQ := rbdl_done_ReadQ_removed ((rbdl_fetched i s f a w).dev i) hrem
    (by rw [rbdl_fetched_dev]; exact hcnt)
  refine ⟨_, hstep, fun K n => xq_process_rbdl_next K n i s _ hmode hstep, hsl, ?_, ?_, ?_, ?_, ?_, ?_⟩
  · intro k hk hout
    have h := hmem.2.2.1 k (by rw [hadj]; exact hk) hout
    rw [h, hadj]
    simp only []
    rw [← bytes_at_runt _ _ hL60, bytes_at_getD _ _ _ _ hk]
  · intro x h0 h8 hx
    exact hmem.2.2.2.2 x h0 h8 (by rw [hadj]; exact hx)
  · rw [rbdl_post_stats, rbdl_done_stats, rbdl_sw_fetched, (rbdl_status_stats _ _ _ _).1, hadj]
  · rw [rbdl_post_ReadQ, hQ, rbdl_fetched_dev]
    simp only []
    omega
  · rw [rbdl_post_ReadQ, hQ, rbdl_fetched_dev]
  · rw [rbdl_post_ReadQ, hQ, rbdl_fetched_dev]

/-- Witness of C6: in the example state `rx_runt` a packet of 30 bytes meets a 60-byte
buffer at 0x2000; afterwards the buffer holds packet byte 29 at offset 29 and zero at
offsets 30 and 59, the runt counter is 1 and the queue is empty. -/
theorem runt_padding_witness :
    ∃ s1, rbdl_step .xqa rx_runt = .next s1 ∧
      s1.mem (0x2000 + 29) = some 30 ∧ s1.mem (0x2000 + 30) = some 0 ∧
      s1.mem (0x2000 + 59) = some 0 ∧
      (s1.dev .xqa).stats.runt = 1 ∧ (s1.dev .xqa).ReadQ.count = 0 := by
  obtain ⟨s1, h1, _, _, h4, _, h6, h7, _, _⟩ :=
    runt_padding .xqa rx_runt 0x8000 0x2000 0xFFE2 30 (by decide)
      ⟨by decide, by decide, by decide, by decide⟩ (by decide) (by decide) (by decide)
      (by decide) (by decide) (by decide) (by decide) (by decide)
  refine ⟨s1, h1, ?_, ?_, ?_, h6, ?_⟩
  · exact (h4 29 (by decide) (by decide)).trans (by decide)
  · exact (h4 30 (by decide) (by decide)).trans (by decide)
  · exact (h4 59 (by decide) (by decide)).trans (by decide)
  · have : (rx_runt.dev .xqa).ReadQ.count = 1 := by decide
    omega

theorem bdl_buf_get_set_low (b : bdl_buf) (idx w k : Nat) (hi : 4 ≤ idx) (hk : k < 4) :
    (b.set idx w).get k = b.get k := by
  by_cases h6 : idx < 6
  · interval_cases idx <;> interval_cases k <;> rfl
  · have e : b.set idx w = b := by
      match idx, h6 with
      | n + 6, _ => rfl
    rw [e]

theorem store_words_get_low (ws : List Nat) : ∀ (b : bdl_buf) (idx k : Nat), 4 ≤ idx → k < 4 →
    (store_words b idx ws).get k = b.get k := by
  induction ws with
  | nil => intro b idx k _ _; rfl
  | cons w ws ih =>
    intro b idx k hi hk
    unfold store_words
    rw [ih _ _ _ (by omega) hk, bdl_buf_get_set_low b idx w k hi hk]

@[simp] theorem setDev_setDev (s : Sys) (i : CtlrId) (v v1 : xq_device) :
    (s.setDev i v).setDev i v1 = s.setDev i v1 := by
  cases i <;> rfl

theorem rbdl_entry_dev (i : CtlrId) (s : Sys) :
    (rbdl_entry i s).dev i = { s.dev i with
      rbdl_buf := (xq_fetch_bdl_entry s.mem (s.dev i).rbdl_ba (s.dev i).rbdl_buf 6).2.2 } := by
  unfold rbdl_entry
  simp only [dev_setDev_same]

theorem rbdl_entry_mem (i : CtlrId) (s : Sys) :
    (rbdl_entry i s).mem = (xq_fetch_bdl_entry s.mem (s.dev i).rbdl_ba (s.dev i).rbdl_buf 6).2.1 := by
  unfold rbdl_entry
  simp only [mem_setDev]

/-- The loop body of the receive walk, case by case. -/
theorem rbdl_step_cases (i : CtlrId) (s : Sys) :
    rbdl_step i s =
      if (xq_fetch_bdl_entry s.mem (s.dev i).rbdl_ba (s.dev i).rbdl_buf 6).1 ≠ 0 then
        .ret SCPE_OK (xq_nxm_error i (rbdl_entry i s)).2
      else if ((rbdl_entry i s).dev i).rbdl_buf.get 1 &&& XQ_DSC_V = 0 then
        .ret SCPE_OK (xq_csr_set_clr i XQ_CSR_RL 0 (rbdl_entry i s))
      else if ((rbdl_entry i s).dev i).rbdl_buf.get 1 &&& XQ_DSC_C ≠ 0 then
        .next ((rbdl_entry i s).setDev i { (rbdl_entry i s).dev i with
          rbdl_ba := bdl_address (((rbdl_entry i s).dev i).rbdl_buf.get 1)
            (((rbdl_entry i s).dev i).rbdl_buf.get 2) })
      else if ((rbdl_entry i s).dev i).ReadQ.count = 0 then .ret SCPE_OK (rbdl_entry i s)
      else rbdl_deliver i (rbdl_entry i s) := by
  unfold rbdl_step
  simp only [xq_nxm_error_status]

theorem set_mem_setDev (s : Sys) (i : CtlrId) (v v1 : xq_device) (m : Mem) :
    ({ s.setDev i v with mem := m } : Sys).setDev i v1 = ({ s with mem := m } : Sys).setDev i v1 := by
  cases i <;> rfl

theorem Map_ReadW_4_words (m : Mem) (a : Nat) (h : (Map_ReadW m a 4).1 = 0) :
    ∃ x y, Map_ReadW m a 4 = (0, [x, y]) := by
  have h1 : (Map_ReadB m a 4).1 = 0 := h
  have hl := Map_ReadB_length 4 m a h1
  obtain ⟨l, hb⟩ : ∃ l, (Map_ReadB m a 4).2 = l := ⟨_, rfl⟩
  rw [hb] at hl
  match l, hl with
  | [b0, b1, b2, b3], _ =>
    refine ⟨b0 + 256 * b1, b2 + 256 * b3, ?_⟩
    unfold Map_ReadW
    rw [h1, hb]
    rfl

/-- The delivery part of the loop body of the receive walk, case by case. -/
theorem rbdl_deliver_cases (i : CtlrId) (S : Sys) :
    rbdl_deliver i S =
      if (Map_ReadW S.mem ((S.dev i).rbdl_ba + 8) 4).1 ≠ 0 then
        .ret SCPE_OK (xq_nxm_error i (S.setDev i { S.dev i with
          rbdl_buf := store_words (S.dev i).rbdl_buf 4 (Map_ReadW S.mem ((S.dev i).rbdl_ba + 8) 4).2 })).2
      else if (Map_WriteB S.mem (rbdl_slice (S.dev i)).1 (rbdl_slice (S.dev i)).2).1 ≠ 0 then
        .ret SCPE_OK (xq_nxm_error i
          ({ S with mem := (Map_WriteB S.mem (rbdl_slice (S.dev i)).1 (rbdl_slice (S.dev i)).2).2 }.setDev i
            { rbdl_taken (S.dev i) with
              rbdl_buf := store_words (S.dev i).rbdl_buf 4 (Map_ReadW S.mem ((S.dev i).rbdl_ba + 8) 4).2 })).2
      else if (xq_update_bdl_status_words
          (Map_WriteB S.mem (rbdl_slice (S.dev i)).1 (rbdl_slice (S.dev i)).2).2 (S.dev i).rbdl_ba
          [(rbdl_sw (S.dev i)).1, (rbdl_sw (S.dev i)).2.1]).1 ≠ 0 then
        .ret SCPE_OK (xq_nxm_error i
          ({ S with mem := (xq_update_bdl_status_words
              (Map_WriteB S.mem (rbdl_slice (S.dev i)).1 (rbdl_slice (S.dev i)).2).2 (S.dev i).rbdl_ba
              [(rbdl_sw (S.dev i)).1, (rbdl_sw (S.dev i)).2.1]).2 }.setDev i
            (rbdl_flagged (S.dev i)))).2
      else .next (rbdl_post i S) := by
  by_cases hr : (Map_ReadW S.mem ((S.dev i).rbdl_ba + 8) 4).1 = 0
  · obtain ⟨x, y, hxy⟩ := Map_ReadW_4_words _ _ hr
    by_cases hw : (Map_WriteB S.mem (rbdl_slice (S.dev i)).1 (rbdl_slice (S.dev i)).2).1 = 0
    · by_cases hu : (xq_update_bdl_status_words
          (Map_WriteB S.mem (rbdl_slice (S.dev i)).1 (rbdl_slice (S.dev i)).2).2 (S.dev i).rbdl_ba
          [(rbdl_sw (S.dev i)).1, (rbdl_sw (S.dev i)).2.1]).1 = 0
      · rw [rbdl_deliver_ok i S x y hxy hw hu]
        simp only [hr, hw, hu, ne_eq, not_true_eq_false, if_false]
      · unfold rbdl_deliver
        simp only [hxy, hw, hu, ne_eq, not_true_eq_false, not_false_eq_true, if_false, if_true,
          rbdl_slice_store, rbdl_sw_store, xq_nxm_error_status]
        rfl
    · rw [rbdl_deliver_write_fail i S x y hxy hw]
      simp only [hxy, hw, ne_eq, not_true_eq_false, not_false_eq_true, if_false, if_true]
  · unfold rbdl_deliver
    simp only [hr, ne_eq, not_false_eq_true, if_true, xq_nxm_error_status]

/-! ## Non-existent memory (pdp11_xq.cpp:871) -/

theorem nxm_at (i : CtlrId) (S : Sys) (c : Nat) (hm : (S.dev i).mode ≠ XQ_T_DELQA_PLUS)
    (hc : (S.dev i).csr = c) :
    ((xq_nxm_error i S).2.dev i).csr =
      (c ||| (XQ_CSR_NI ||| XQ_CSR_XI ||| XQ_CSR_XL ||| XQ_CSR_RL)) &&& 65535 := by
  rw [xq_nxm_error_csr i S hm, hc]

theorem nxm_rbdl_ba (i : CtlrId) (S : Sys) :
    ((xq_nxm_error i S).2.dev i).rbdl_ba = (S.dev i).rbdl_ba :=
  frame_rbdl_ba (xq_nxm_error_frame i S)

theorem nxm_xbdl_ba (i : CtlrId) (S : Sys) :
    ((xq_nxm_error i S).2.dev i).xbdl_ba = (S.dev i).xbdl_ba :=
  frame_xbdl_ba (xq_nxm_error_frame i S)

/-- A failing access of an iteration of the receive walk in classic mode ends the walk with
the NXM bits set. -/
theorem rbdl_step_nxm (i : CtlrId) (s : Sys) (hmode : (s.dev i).mode ≠ XQ_T_DELQA_PLUS)
    (h : rbdl_access_fails i s) :
    ∃ s1, rbdl_step i s = .ret SCPE_OK s1 ∧
      (s1.dev i).csr =
        ((s.dev i).csr ||| (XQ_CSR_NI ||| XQ_CSR_XI ||| XQ_CSR_XL ||| XQ_CSR_RL)) &&& 65535 ∧
      (s1.dev i).rbdl_ba = (s.dev i).rbdl_ba := by
  rw [rbdl_step_cases]
  unfold rbdl_access_fails at h
  simp only [] at h
  by_cases he : (xq_fetch_bdl_entry s.mem (s.dev i).rbdl_ba (s.dev i).rbdl_buf 6).1 = 0
  · obtain ⟨hV, hC, hcnt, hf⟩ := h.resolve_left (not_not.2 he)
    rw [if_neg (not_not.2 he), if_neg hV, if_neg (not_not.2 hC), if_neg hcnt, rbdl_deliver_cases]
    split_ifs with h1 h2 h3
    · refine ⟨_, rfl, ?_, ?_⟩
      · apply nxm_at
        · simp only [dev_setDev_same, rbdl_entry_dev]; exact hmode
        · simp only [dev_setDev_same, rbdl_entry_dev]
      · rw [nxm_rbdl_ba]; simp only [dev_setDev_same, rbdl_entry_dev]
    · refine ⟨_, rfl, ?_, ?_⟩
      · apply nxm_at
        · simp only [dev_setDev_same, rbdl_entry_dev]; exact hmode
        · simp only [dev_setDev_same, rbdl_entry_dev]; rfl
      · rw [nxm_rbdl_ba]; simp only [dev_setDev_same, rbdl_entry_dev]; rfl
    · refine ⟨_, rfl, ?_, ?_⟩
      · apply nxm_at
        · simp only [dev_setDev_same, rbdl_entry_dev]; exact hmode
        · simp only [dev_setDev_same, rbdl_entry_dev]; rfl
      · rw [nxm_rbdl_ba]; simp only [dev_setDev_same, rbdl_entry_dev]; rfl
    · rcases hf with hf | hf | hf
      · exact absurd hf h1
      · exact absurd hf h2
      · exact absurd hf h3
  · rw [if_pos he]
    refine ⟨_, rfl, ?_, ?_⟩
    · apply nxm_at
      · simp only [rbdl_entry_dev]; exact hmode
      · simp only [rbdl_entry_dev]
    · rw [nxm_rbdl_ba]; simp only [rbdl_entry_dev]


theorem xbdl_entry_dev (i : CtlrId) (s : Sys) :
    (xbdl_entry i s).dev i = { s.dev i with
      xbdl_buf := (xq_fetch_bdl_entry s.mem (s.dev i).xbdl_ba (s.dev i).xbdl_buf 10).2.2 } := by
  unfold xbdl_entry
  simp only [dev_setDev_same]

theorem xbdl_entry_mem (i : CtlrId) (s : Sys) :
    (xbdl_entry i s).mem = (xq_fetch_bdl_entry s.mem (s.dev i).xbdl_ba (s.dev i).xbdl_buf 10).2.1 := by
  unfold xbdl_entry
  simp only [mem_setDev]

theorem xbdl_read_dev (i : CtlrId) (S : Sys) :
    ∃ wb, ((xbdl_read i S).2.dev i) = { S.dev i with write_buffer := wb } := by
  unfold xbdl_read
  simp only []
  split_ifs
  · exact ⟨_, dev_setDev_same _ _ _⟩
  · exact ⟨_, dev_setDev_same _ _ _⟩

theorem xbdl_read_mem (i : CtlrId) (S : Sys) : (xbdl_read i S).2.mem = S.mem := by
  unfold xbdl_read
  simp only []
  split_ifs <;> simp only [mem_setDev]

theorem xbdl_read_csr (i : CtlrId) (S : Sys) : ((xbdl_read i S).2.dev i).csr = (S.dev i).csr := by
  obtain ⟨wb, h⟩ := xbdl_read_dev i S
  rw [h]

theorem xbdl_read_mode (i : CtlrId) (S : Sys) : ((xbdl_read i S).2.dev i).mode = (S.dev i).mode := by
  obtain ⟨wb, h⟩ := xbdl_read_dev i S
  rw [h]

theorem xbdl_read_xbdl_ba (i : CtlrId) (S : Sys) :
    ((xbdl_read i S).2.dev i).xbdl_ba = (S.dev i).xbdl_ba := by
  obtain ⟨wb, h⟩ := xbdl_read_dev i S
  rw [h]

theorem xbdl_read_xbdl_buf (i : CtlrId) (S : Sys) :
    ((xbdl_read i S).2.dev i).xbdl_buf = (S.dev i).xbdl_buf := by
  obtain ⟨wb, h⟩ := xbdl_read_dev i S
  rw [h]

theorem dev_set_mem2 (S : Sys) (m : Mem) (i : CtlrId) : ({ S with mem := m } : Sys).dev i = S.dev i := by
  cases i <;> rfl

/-- A failing access of an iteration of the transmit walk in classic mode ends the walk with
the NXM bits set. -/
theorem xbdl_step_nxm (K : Collab) (fuel : Nat) (i : CtlrId) (s : Sys)
    (hmode : (s.dev i).mode ≠ XQ_T_DELQA_PLUS) (h : xbdl_access_fails i s) :
    ∃ s1, xbdl_step K fuel i s = some (.ret SCPE_OK s1) ∧
      (s1.dev i).csr =
        ((s.dev i).csr ||| (XQ_CSR_NI ||| XQ_CSR_XI ||| XQ_CSR_XL ||| XQ_CSR_RL)) &&& 65535 ∧
      (s1.dev i).xbdl_ba = (s.dev i).xbdl_ba := by
  unfold xbdl_access_fails at h
  simp only [] at h
  unfold xbdl_step
  simp only [xq_nxm_error_status]
  by_cases he : (xq_fetch_bdl_entry s.mem (s.dev i).xbdl_ba (s.dev i).xbdl_buf 10).1 = 0
  · obtain ⟨hV, hC, hf⟩ := h.resolve_left (not_not.2 he)
    rw [if_neg (not_not.2 he), if_neg hV, if_neg (not_not.2 hC)]
    have hm1 : ((xbdl_read i (xbdl_entry i s)).2.dev i).mode ≠ XQ_T_DELQA_PLUS := by
      rw [xbdl_read_mode, xbdl_entry_dev]; exact hmode
    have hc1 : ((xbdl_read i (xbdl_entry i s)).2.dev i).csr = (s.dev i).csr := by
      rw [xbdl_read_csr, xbdl_entry_dev]
    have hb1 : ((xbdl_read i (xbdl_entry i s)).2.dev i).xbdl_ba = (s.dev i).xbdl_ba := by
      rw [xbdl_read_xbdl_ba, xbdl_entry_dev]
    by_cases hr : (xbdl_read i (xbdl_entry i s)).1 = 0
    · rw [if_neg (not_not.2 hr)]
      rcases hf with hf | ⟨hE, hf⟩ | ⟨hE, hS, hloop, hf⟩
      · exact absurd hr hf
      · rw [if_neg (not_not.2 hE), if_pos hf]
        refine ⟨_, rfl, ?_, ?_⟩
        · apply nxm_at
          · rw [dev_set_mem2]; exact hm1
          · rw [dev_set_mem2]; exact hc1
        · rw [nxm_xbdl_ba, dev_set_mem2]; exact hb1
      · rw [if_pos hE]
        have hbuf : ((xbdl_read i (xbdl_entry i s)).2.dev i).xbdl_buf.get 1
            = ((xbdl_entry i s).dev i).xbdl_buf.get 1 := by rw [xbdl_read_xbdl_buf]
        have hS1 : ¬ (((xbdl_read i (xbdl_entry i s)).2.dev i).xbdl_buf.get 1 &&& XQ_DSC_S ≠ 0) := by
          rw [hbuf]; exact not_not.2 hS
        unfold xbdl_eom
        simp only [xq_nxm_error_status]
        rw [if_pos (Or.inl hloop), if_neg hS1]
        simp only [Option.some_bind, mem_setDev, dev_setDev_same]
        rw [if_pos hf]
        refine ⟨_, rfl, ?_, ?_⟩
        · apply nxm_at
          · rw [dev_set_mem2, dev_setDev_same]; exact hm1
          · rw [dev_set_mem2, dev_setDev_same]; exact hc1
        · rw [nxm_xbdl_ba, dev_set_mem2, dev_setDev_same]; exact hb1
    · rw [if_pos hr]
      exact ⟨_, rfl, nxm_at _ _ _ hm1 hc1, by rw [nxm_xbdl_ba]; exact hb1⟩
  · rw [if_pos he]
    refine ⟨_, rfl, ?_, ?_⟩
    · apply nxm_at
      · simp only [xbdl_entry_dev]; exact hmode
      · simp only [xbdl_entry_dev]
    · rw [nxm_xbdl_ba]; simp only [xbdl_entry_dev]

/-- The response register and the CSR after `xq_nxm_error` in turbo mode. -/
theorem xq_nxm_error_turbo (i : CtlrId) (s : Sys) (h : (s.dev i).mode = XQ_T_DELQA_PLUS) :
    ((xq_nxm_error i s).2.dev i).srr = (s.dev i).srr ||| (XQ_SRR_FES ||| XQ_SRR_NXM) ∧
      ((xq_nxm_error i s).2.dev i).csr = (s.dev i).csr := by
  unfold xq_nxm_error
  rw [if_pos h]
  constructor
  · cases i <;>
    · simp only [xq_setint, Sys.dev, Sys.ctlr, Sys.setDev, Sys.setCtlr]
      split_ifs <;> rfl
  · rw [csr_xq_setint, dev_setDev_same]

theorem xbdl_loop_ret (K : Collab) (fuel n : Nat) (i : CtlrId) (s s1 : Sys) (st : Nat)
    (h : xbdl_step K fuel i s = some (.ret st s1)) :
    xbdl_loop K fuel (n + 1) i s = some (st, s1) := by
  show (match xbdl_step K fuel i s with
    | none => none
    | some (.ret st s1) => some (st, s1)
    | some (.next s1) => xbdl_loop K fuel n i s1) = _
  rw [h]

/-- The end-of-message branch for a packet that stays in the controller: the packet is
queued, the status words are written, and the receive walk is started when RL is clear. -/
theorem xbdl_eom_local (K : Collab) (fuel : Nat) (i : CtlrId) (R : Sys) (h : eom_local i R) :
    xbdl_eom K fuel i R =
      (xbdl_queued K i R).bind fun s1 =>
        if (xq_update_bdl_status_words s1.mem (s1.dev i).xbdl_ba [0, 1]).1 ≠ 0 then
          some (Walk.ret
            (xq_nxm_error i { s1 with
              mem := (xq_update_bdl_status_words s1.mem (s1.dev i).xbdl_ba [0, 1]).2 }).1
            (xq_nxm_error i { s1 with
              mem := (xq_update_bdl_status_words s1.mem (s1.dev i).xbdl_ba [0, 1]).2 }).2)
        else if ((xbdl_done i { s1 with
            mem := (xq_update_bdl_status_words s1.mem (s1.dev i).xbdl_ba [0, 1]).2 }).dev i).csr
              &&& XQ_CSR_RL = 0 then
          (xq_process_rbdl K fuel i (xbdl_done i { s1 with
            mem := (xq_update_bdl_status_words s1.mem (s1.dev i).xbdl_ba [0, 1]).2 })).map
              fun r => Walk.next r.2
        else some (Walk.next (xbdl_done i { s1 with
          mem := (xq_update_bdl_status_words s1.mem (s1.dev i).xbdl_ba [0, 1]).2 })) := by
  unfold eom_local at h
  unfold xbdl_eom xbdl_queued
  simp only []
  rw [if_pos h]

/-- The end-of-message branch for a packet that goes to the transport. -/
theorem xbdl_eom_sent (K : Collab) (fuel : Nat) (i : CtlrId) (R : Sys) (h : ¬ eom_local i R) :
    xbdl_eom K fuel i R =
      (K.eth_write i R).bind fun r =>
        if r.1 ≠ SCPE_OK then some (Walk.next (xq_write_callback i 1 r.2))
        else if (r.2.dev i).coalesce_latency = 0 then
          (xq_svc_ex K fuel i r.2).map fun r1 => Walk.next r1.2
        else some (Walk.next r.2) := by
  unfold eom_local at h
  unfold xbdl_eom
  simp only []
  rw [if_neg h]

/-- An iteration that reaches the end-of-message branch is that branch followed by the step
to the next descriptor. -/
theorem xbdl_step_reaches_eom (K : Collab) (fuel : Nat) (i : CtlrId) (s : Sys)
    (h : xbdl_reaches_eom i s) :
    xbdl_step K fuel i s =
      (xbdl_eom K fuel i (xbdl_read i (xbdl_entry i s)).2).map (xbdl_next i) := by
  obtain ⟨he, hV, hC, hr, hE⟩ := h
  unfold xbdl_step
  simp only []
  rw [if_neg (not_not.2 he), if_neg hV, if_neg (not_not.2 hC), if_neg (not_not.2 hr), if_pos hE]

/-- A failing write of the status words of a queued packet, looped back or a setup packet,
ends the walk with the NXM bits set. -/
theorem xbdl_step_queued_nxm (K : Collab) (fuel : Nat) (i : CtlrId) (s s1 : Sys)
    (h : xbdl_reaches_eom i s) (hl : eom_local i (xbdl_read i (xbdl_entry i s)).2)
    (hq : xbdl_queued K i (xbdl_read i (xbdl_entry i s)).2 = some s1)
    (hmode : (s1.dev i).mode ≠ XQ_T_DELQA_PLUS)
    (hf : (xq_update_bdl_status_words s1.mem (s1.dev i).xbdl_ba [0, 1]).1 ≠ 0) :
    ∃ s2, xbdl_step K fuel i s = some (.ret SCPE_OK s2) ∧
      (s2.dev i).csr =
        ((s1.dev i).csr ||| (XQ_CSR_NI ||| XQ_CSR_XI ||| XQ_CSR_XL ||| XQ_CSR_RL)) &&& 65535 ∧
      (s2.dev i).xbdl_ba = (s1.dev i).xbdl_ba := by
  rw [xbdl_step_reaches_eom K fuel i s h, xbdl_eom_local K fuel i _ hl, hq]
  simp only [Option.some_bind, xq_nxm_error_status]
  rw [if_pos hf]
  refine ⟨_, rfl, ?_, ?_⟩
  · apply nxm_at
    · rw [dev_set_mem2]; exact hmode
    · rw [dev_set_mem2]
  · rw [nxm_xbdl_ba, dev_set_mem2]

/-- The write callback whose write of the status words fails sets the NXM bits. -/
theorem xq_write_callback_nxm (i : CtlrId) (status : Nat) (s : Sys)
    (hmode : (s.dev i).mode ≠ XQ_T_DELQA_PLUS)
    (hf : (xq_update_bdl_status_words s.mem (s.dev i).xbdl_ba
      (if status = 0 then [0, u16 (100 + (s.dev i).write_buffer.len * 8) &&& 0x03FF]
        else [XQ_DSC_C, u16 (100 + (s.dev i).write_buffer.len * 8) &&& 0x03FF])).1 ≠ 0) :
    ((xq_write_callback i status s).dev i).csr =
        ((s.dev i).csr ||| (XQ_CSR_NI ||| XQ_CSR_XI ||| XQ_CSR_XL ||| XQ_CSR_RL)) &&& 65535 ∧
      ((xq_write_callback i status s).dev i).xbdl_ba = (s.dev i).xbdl_ba := by
  by_cases h0 : status = 0
  · rw [if_pos h0] at hf
    unfold xq_write_callback
    simp only [if_pos h0]
    rw [if_pos hf]
    refine ⟨?_, ?_⟩
    · apply nxm_at
      · rw [dev_setDev_same]; exact hmode
      · rw [dev_setDev_same]
    · rw [nxm_xbdl_ba, dev_setDev_same]
  · rw [if_neg h0] at hf
    unfold xq_write_callback
    simp only [if_neg h0]
    rw [if_pos hf]
    refine ⟨?_, ?_⟩
    · apply nxm_at
      · rw [dev_setDev_same]; exact hmode
      · rw [dev_setDev_same]
    · rw [nxm_xbdl_ba, dev_setDev_same]

/-- An iteration whose packet goes to the transport does not return from the walk. -/
theorem xbdl_step_sent (K : Collab) (fuel : Nat) (i : CtlrId) (s : Sys)
    (h : xbdl_reaches_eom i s) (hl : ¬ eom_local i (xbdl_read i (xbdl_entry i s)).2) (w : Walk)
    (hw : xbdl_step K fuel i s = some w) : ∃ t, w = .next t := by
  rw [xbdl_step_reaches_eom K fuel i s h, xbdl_eom_sent K fuel i _ hl] at hw
  cases hr : K.eth_write i (xbdl_read i (xbdl_entry i s)).2 with
  | none => rw [hr] at hw; exact absurd hw (by simp)
  | some r =>
    rw [hr] at hw
    simp only [Option.some_bind] at hw
    split_ifs at hw
    · simp only [Option.map_some', Option.some.injEq] at hw
      exact ⟨_, hw.symm⟩
    · cases hv : xq_svc_ex K fuel i r.2 with
      | none => rw [hv] at hw; exact absurd hw (by simp)
      | some r1 =>
        rw [hv] at hw
        simp only [Option.map_some', Option.some.injEq] at hw
        exact ⟨_, hw.symm⟩
    · simp only [Option.map_some', Option.some.injEq] at hw
      exact ⟨_, hw.symm⟩

/-- An iteration whose packet is queued, looped back or a setup packet, and whose status
words are written does not return from the walk, whatever setup processing has done. -/
theorem xbdl_step_queued (K : Collab) (fuel : Nat) (i : CtlrId) (s s1 : Sys)
    (h : xbdl_reaches_eom i s) (hl : eom_local i (xbdl_read i (xbdl_entry i s)).2)
    (hq : xbdl_queued K i (xbdl_read i (xbdl_entry i s)).2 = some s1)
    (hok : (xq_update_bdl_status_words s1.mem (s1.dev i).xbdl_ba [0, 1]).1 = 0) (w : Walk)
    (hw : xbdl_step K fuel i s = some w) : ∃ t, w = .next t := by
  rw [xbdl_step_reaches_eom K fuel i s h, xbdl_eom_local K fuel i _ hl, hq] at hw
  simp only [Option.some_bind] at hw
  rw [if_neg (not_not.2 hok)] at hw
  split_ifs at hw
  · cases hv : xq_process_rbdl K fuel i (xbdl_done i { s1 with
        mem := (xq_update_bdl_status_words s1.mem (s1.dev i).xbdl_ba [0, 1]).2 }) with
    | none => rw [hv] at hw; exact absurd hw (by simp)
    | some r1 =>
      rw [hv] at hw
      simp only [Option.map_some', Option.some.injEq] at hw
      exact ⟨_, hw.symm⟩
  · simp only [Option.map_some', Option.some.injEq] at hw
    exact ⟨_, hw.symm⟩

/-- The function `xq_process_mop` on a first element block of type 1 whose write to guest
memory fails: the NXM bits are set. -/
theorem xq_process_mop_nxm (i : CtlrId) (s : Sys) (hmode : (s.dev i).mode ≠ XQ_T_DELQA_PLUS)
    (htype : (s.dev i).type ≠ XQ_T_DEQNA)
    (hmeb : (s.dev i).write_buffer.msg.getD 128 0 = 1)
    (hf : (Map_WriteB s.mem
      (if (s.dev i).write_buffer.msg.getD (128 + 3) 0 <<< 16 ≠ 0 ∨
          (s.dev i).write_buffer.msg.getD (128 + 2) 0 <<< 8 ≠ 0 ∨
          (s.dev i).write_buffer.msg.getD (128 + 1) 0 ≠ 0 then 1 else 0)
      (bytes_at ((s.dev i).setup.macs.getD 0 []) 0 6)).1 ≠ 0) :
    ((xq_process_mop i s).dev i).csr =
        ((s.dev i).csr ||| (XQ_CSR_NI ||| XQ_CSR_XI ||| XQ_CSR_XL ||| XQ_CSR_RL)) &&& 65535 ∧
      ((xq_process_mop i s).dev i).xbdl_ba = (s.dev i).xbdl_ba := by
  unfold xq_process_mop
  rw [if_neg htype]
  show ((xq_process_mop_loop i (3 + 1) 128 s).dev i).csr = _ ∧ _
  unfold xq_process_mop_loop
  simp only []
  rw [if_pos ⟨by rw [hmeb]; norm_num, by norm_num⟩, if_pos hmeb, if_pos hf]
  refine ⟨?_, ?_⟩
  · apply nxm_at
    · rw [dev_set_mem2]; exact hmode
    · rw [dev_set_mem2]
  · rw [nxm_xbdl_ba, dev_set_mem2]

/-- C9, amended (NXM reporting).  Let a guest-memory access made by the loop body of the
classic receive walk (the descriptor fetch, the read of the status words, the write of the
packet data, the write of the status words) or of the classic transmit walk (the descriptor
fetch, the read of the buffer, the write of the status words of a segment, of a looped-back
packet or of a setup packet) fail, the controller being in classic mode.  Then the
iteration returns `SCPE_OK`: the walk stops there, whatever the number of iterations still
allowed, with the list address still that of the descriptor, and the CSR afterwards is the
CSR just before the error with NI, XI, XL and RL set and every other bit as it was.  A
failure inside a function that the transmit walk calls at an end of message sets the same
bits in the same way but does not stop the walk: when the write of a first MOP element
block of type 1 fails in `xq_process_mop`, or the write of the status words fails in
`xq_write_callback`, the CSR gets NI, XI, XL and RL and the list address stays; and an
iteration whose packet is queued with its status words written, or whose frame goes to the
transport, never returns from the walk, which goes on to the next descriptor.  In turbo mode
`xq_nxm_error` sets the bits FES and NXM of the response register `srr` and leaves the CSR
as it is. -/
theorem nxm_reporting (K : Collab) (fuel : Nat) (i : CtlrId) (s : Sys) :
    ((s.dev i).mode ≠ XQ_T_DELQA_PLUS → rbdl_access_fails i s →
      ∃ s1, rbdl_step i s = .ret SCPE_OK s1 ∧
        (∀ n, xq_process_rbdl K (n + 1) i s = some (SCPE_OK, s1)) ∧
        (s1.dev i).csr =
          ((s.dev i).csr ||| (XQ_CSR_NI ||| XQ_CSR_XI ||| XQ_CSR_XL ||| XQ_CSR_RL)) &&& 65535 ∧
        (s1.dev i).rbdl_ba = (s.dev i).rbdl_ba) ∧
    ((s.dev i).mode ≠ XQ_T_DELQA_PLUS → xbdl_access_fails i s →
      ∃ s1, xbdl_step K fuel i s = some (.ret SCPE_OK s1) ∧
        (∀ n, xbdl_loop K fuel (n + 1) i s = some (SCPE_OK, s1)) ∧
        (s1.dev i).csr =
          ((s.dev i).csr ||| (XQ_CSR_NI ||| XQ_CSR_XI ||| XQ_CSR_XL ||| XQ_CSR_RL)) &&& 65535 ∧
        (s1.dev i).xbdl_ba = (s.dev i).xbdl_ba) ∧
    (∀ s1 : Sys, xbdl_reaches_eom i s → eom_local i (xbdl_read i (xbdl_entry i s)).2 →
      xbdl_queued K i (xbdl_read i (xbdl_entry i s)).2 = some s1 →
      (s1.dev i).mode ≠ XQ_T_DELQA_PLUS →
      (xq_update_bdl_status_words s1.mem (s1.dev i).xbdl_ba [0, 1]).1 ≠ 0 →
      ∃ s2, xbdl_step K fuel i s = some (.ret SCPE_OK s2) ∧
        (∀ n, xbdl_loop K fuel (n + 1) i s = some (SCPE_OK, s2)) ∧
        (s2.dev i).csr =
          ((s1.dev i).csr ||| (XQ_CSR_NI ||| XQ_CSR_XI ||| XQ_CSR_XL ||| XQ_CSR_RL)) &&& 65535 ∧
        (s2.dev i).xbdl_ba = (s1.dev i).xbdl_ba) ∧
    ((s.dev i).mode ≠ XQ_T_DELQA_PLUS → (s.dev i).type ≠ XQ_T_DEQNA →
      (s.dev i).write_buffer.msg.getD 128 0 = 1 →
      (Map_WriteB s.mem
        (if (s.dev i).write_buffer.msg.getD (128 + 3) 0 <<< 16 ≠ 0 ∨
            (s.dev i).write_buffer.msg.getD (128 + 2) 0 <<< 8 ≠ 0 ∨
            (s.dev i).write_buffer.msg.getD (128 + 1) 0 ≠ 0 then 1 else 0)
        (bytes_at ((s.dev i).setup.macs.getD 0 []) 0 6)).1 ≠ 0 →
      ((xq_process_mop i s).dev i).csr =
          ((s.dev i).csr ||| (XQ_CSR_NI ||| XQ_CSR_XI ||| XQ_CSR_XL ||| XQ_CSR_RL)) &&& 65535 ∧
        ((xq_process_mop i s).dev i).xbdl_ba = (s.dev i).xbdl_ba) ∧
    (∀ status : Nat, (s.dev i).mode ≠ XQ_T_DELQA_PLUS →
      (xq_update_bdl_status_words s.mem (s.dev i).xbdl_ba
        (if status = 0 then [0, u16 (100 + (s.dev i).write_buffer.len * 8) &&& 0x03FF]
          else [XQ_DSC_C, u16 (100 + (s.dev i).write_buffer.len * 8) &&& 0x03FF])).1 ≠ 0 →
      ((xq_write_callback i status s).dev i).csr =
          ((s.dev i).csr ||| (XQ_CSR_NI ||| XQ_CSR_XI ||| XQ_CSR_XL ||| XQ_CSR_RL)) &&& 65535 ∧
        ((xq_write_callback i status s).dev i).xbdl_ba = (s.dev i).xbdl_ba) ∧
    (∀ s1 : Sys, xbdl_reaches_eom i s → eom_local i (xbdl_read i (xbdl_entry i s)).2 →
      xbdl_queued K i (xbdl_read i (xbdl_entry i s)).2 = some s1 →
      (xq_update_bdl_status_words s1.mem (s1.dev i).xbdl_ba [0, 1]).1 = 0 →
      ∀ w : Walk, xbdl_step K fuel i s = some w → ∃ t, w = .next t) ∧
    (xbdl_reaches_eom i s → ¬ eom_local i (xbdl_read i (xbdl_entry i s)).2 →
      ∀ w : Walk, xbdl_step K fuel i s = some w → ∃ t, w = .next t) ∧
    ((s.dev i).mode = XQ_T_DELQA_PLUS →
      (xq_nxm_error i s).1 = SCPE_OK ∧
      ((xq_nxm_error i s).2.dev i).srr = (s.dev i).srr ||| (XQ_SRR_FES ||| XQ_SRR_NXM) ∧
      ((xq_nxm_error i s).2.dev i).csr = (s.dev i).csr) := by
  refine ⟨?_, ?_, ?_, ?_, ?_, ?_, ?_, ?_⟩
  · intro hmode h
    obtain ⟨s1, h1, h2, h3⟩ := rbdl_step_nxm i s hmode h
    exact ⟨s1, h1, fun n => xq_process_rbdl_ret K n i s s1 SCPE_OK hmode h1, h2, h3⟩
  · intro hmode h
    obtain ⟨s1, h1, h2, h3⟩ := xbdl_step_nxm K fuel i s hmode h
    exact ⟨s1, h1, fun n => xbdl_loop_ret K fuel n i s s1 SCPE_OK h1, h2, h3⟩
  · intro s1 h hl hq hmode hf
    obtain ⟨s2, h1, h2, h3⟩ := xbdl_step_queued_nxm K fuel i s s1 h hl hq hmode hf
    exact ⟨s2, h1, fun n => xbdl_loop_ret K fuel n i s s2 SCPE_OK h1, h2, h3⟩
  · intro hmode htype hmeb hf
    exact xq_process_mop_nxm i s hmode htype hmeb hf
  · intro status hmode hf
    exact xq_write_callback_nxm i status s hmode hf
  · intro s1 h hl hq hok w hw
    exact xbdl_step_queued K fuel i s s1 h hl hq hok w hw
  · intro h hl w hw
    exact xbdl_step_sent K fuel i s h hl w hw
  · intro hmode
    exact ⟨xq_nxm_error_status i s, xq_nxm_error_turbo i s hmode⟩

theorem getD_set_same (l : List eth_item) (n : Nat) (a d : eth_item) (h : n < l.length) :
    (l.set n a).getD n d = a := by
  simp [List.getD_eq_getElem?_getD, List.getElem?_set, h]

/-- The fields the size adjustment leaves in the head item and the statistics. -/
theorem rbdl_adjust_fields (st : xq_stats) (item : eth_item) (b : Nat) :
    (rbdl_adjust st item b).2.1.packet.used = item.packet.used + (rbdl_adjust st item b).2.2.1 ∧
    (rbdl_adjust st item b).2.1.packet.len =
      (if item.packet.used = 0 ∧ ETH_MAX_PACKET < u16 item.packet.len then ETH_MAX_PACKET
        else item.packet.len) ∧
    (rbdl_adjust st item b).1.runt =
      st.runt + (if item.packet.used = 0 ∧ u16 item.packet.len < ETH_MIN_PACKET then 1 else 0) ∧
    (rbdl_adjust st item b).1.giant =
      st.giant + (if item.packet.used = 0 ∧ ETH_MAX_PACKET < u16 item.packet.len then 1 else 0) ∧
    (rbdl_adjust st item b).2.1.type = item.type := by
  unfold rbdl_adjust
  by_cases hu : item.packet.used = 0
  · simp only [hu, ne_eq, not_true_eq_false, if_false, true_and, Nat.zero_add]
    by_cases hr : u16 item.packet.len < ETH_MIN_PACKET
    · have hg : ¬ ETH_MAX_PACKET < u16 item.packet.len := by
        unfold ETH_MIN_PACKET at hr; unfold ETH_MAX_PACKET; omega
      have hg2 : ¬ ETH_MAX_PACKET < ETH_MIN_PACKET := by decide
      simp only [hr, hg, hg2, if_true, if_false, decide_True, decide_False, Nat.add_zero, and_self]
    · by_cases hg : ETH_MAX_PACKET < u16 item.packet.len
      · simp only [hr, hg, if_true, if_false, decide_True, decide_False, Nat.add_zero, and_self]
      · simp only [hr, hg, if_true, if_false, decide_True, decide_False, Nat.add_zero, and_self]
  · simp only [hu, ne_eq, not_false_eq_true, if_true, false_and, if_false, Nat.add_zero, and_self]


/-- The iteration of the receive walk in which the write of the packet data fails. -/
theorem rbdl_step_write_fail (i : CtlrId) (s : Sys) (h : rbdl_write_fails i s) :
    rbdl_step i s = .ret SCPE_OK (xq_nxm_error i
      ({ rbdl_entry i s with mem := (Map_WriteB (rbdl_entry i s).mem
          (rbdl_slice ((rbdl_entry i s).dev i)).1 (rbdl_slice ((rbdl_entry i s).dev i)).2).2 }.setDev i
        { rbdl_taken ((rbdl_entry i s).dev i) with
          rbdl_buf := store_words ((rbdl_entry i s).dev i).rbdl_buf 4
            (Map_ReadW (rbdl_entry i s).mem (((rbdl_entry i s).dev i).rbdl_ba + 8) 4).2 })).2 := by
  obtain ⟨he, hV, hC, hcnt, hr, hw⟩ := h
  rw [rbdl_step_cases, if_neg (not_not.2 he), if_neg hV, if_neg (not_not.2 hC), if_neg hcnt,
    rbdl_deliver_cases, if_neg (not_not.2 hr), if_pos hw]

/-- C8, amended (a failed write of packet data keeps the packet queued but not the
bookkeeping).  If, in classic mode, the write of packet data to guest memory (`Map_WriteB`)
fails while the receive walk delivers the head packet, then the walk returns `SCPE_OK` with
the NXM bits NI, XI, XL and RL set in the CSR and the Read Queue still holding the packet
(same count, head, tail and loss, same packet type), but the bookkeeping done before the
write is kept: the delivered-byte offset `packet.used` of the head item is advanced by the
number of bytes of the slice whose write failed, for a packet taken at offset 0 the runt
counter is one higher when its length is below 60 and the giant counter is one higher when
its length is above 1514, and the length of such a giant is already set to 1514. -/
theorem nxm_read_queue (i : CtlrId) (s : Sys)
    (hmode : (s.dev i).mode ≠ XQ_T_DELQA_PLUS)
    (hhead : (s.dev i).ReadQ.head < (s.dev i).ReadQ.item.length)
    (h : rbdl_write_fails i s) :
    ∃ s1, rbdl_step i s = .ret SCPE_OK s1 ∧
      (∀ (K : Collab) (n : Nat), xq_process_rbdl K (n + 1) i s = some (SCPE_OK, s1)) ∧
      (s1.dev i).csr =
        ((s.dev i).csr ||| (XQ_CSR_NI ||| XQ_CSR_XI ||| XQ_CSR_XL ||| XQ_CSR_RL)) &&& 65535 ∧
      (s1.dev i).ReadQ.count = (s.dev i).ReadQ.count ∧
      (s1.dev i).ReadQ.head = (s.dev i).ReadQ.head ∧
      (s1.dev i).ReadQ.tail = (s.dev i).ReadQ.tail ∧
      (s1.dev i).ReadQ.loss = (s.dev i).ReadQ.loss ∧
      (rbdl_head (s1.dev i)).type = (rbdl_head (s.dev i)).type ∧
      (rbdl_head (s1.dev i)).packet.used =
        (rbdl_head (s.dev i)).packet.used + (rbdl_slice ((rbdl_entry i s).dev i)).2.length ∧
      (rbdl_head (s1.dev i)).packet.len =
        (if (rbdl_head (s.dev i)).packet.used = 0 ∧
            ETH_MAX_PACKET < u16 (rbdl_head (s.dev i)).packet.len
          then ETH_MAX_PACKET else (rbdl_head (s.dev i)).packet.len) ∧
      (s1.dev i).stats.runt = (s.dev i).stats.runt +
        (if (rbdl_head (s.dev i)).packet.used = 0 ∧
            u16 (rbdl_head (s.dev i)).packet.len < ETH_MIN_PACKET then 1 else 0) ∧
      (s1.dev i).stats.giant = (s.dev i).stats.giant +
        (if (rbdl_head (s.dev i)).packet.used = 0 ∧
            ETH_MAX_PACKET < u16 (rbdl_head (s.dev i)).packet.len then 1 else 0) := by
  have hstep := rbdl_step_write_fail i s h
  refine ⟨_, hstep, fun K n => xq_process_rbdl_ret K n i s _ SCPE_OK hmode hstep, ?_, ?_⟩
  · apply nxm_at
    · simp only [dev_setDev_same, rbdl_entry_dev]; exact hmode
    · simp only [dev_setDev_same, rbdl_entry_dev]; rfl
  · have hf := xq_nxm_error_frame i
      ({ rbdl_entry i s with mem := (Map_WriteB (rbdl_entry i s).mem
          (rbdl_slice ((rbdl_entry i s).dev i)).1 (rbdl_slice ((rbdl_entry i s).dev i)).2).2 }.setDev i
        { rbdl_taken ((rbdl_entry i s).dev i) with
          rbdl_buf := store_words ((rbdl_entry i s).dev i).rbdl_buf 4
            (Map_ReadW (rbdl_entry i s).mem (((rbdl_entry i s).dev i).rbdl_ba + 8) 4).2 })
    rw [dev_setDev_same] at hf
    have hQ := frame_ReadQ hf
    have hS := frame_stats hf
    have hQ1 : (rbdl_taken ((rbdl_entry i s).dev i)).ReadQ =
        { (s.dev i).ReadQ with
          item := List.set (s.dev i).ReadQ.item (s.dev i).ReadQ.head (rbdl_adj ((rbdl_entry i s).dev i)).2.1 } := by
      unfold rbdl_taken
      simp only [rbdl_entry_dev]
    have hS1 : (rbdl_taken ((rbdl_entry i s).dev i)).stats = (rbdl_adj ((rbdl_entry i s).dev i)).1 := rfl
    have hadj : rbdl_adj ((rbdl_entry i s).dev i) = rbdl_adjust (s.dev i).stats (rbdl_head (s.dev i))
        (bdl_b_length (((rbdl_entry i s).dev i).rbdl_buf.get 1)
          (((rbdl_entry i s).dev i).rbdl_buf.get 3)) := by
      unfold rbdl_adj rbdl_head
      simp only [rbdl_entry_dev]
    have hQ2 : ∀ (v : xq_device) (B : bdl_buf),
        ({ v with rbdl_buf := B } : xq_device).ReadQ = v.ReadQ := fun _ _ => rfl
    have hS2 : ∀ (v : xq_device) (B : bdl_buf),
        ({ v with rbdl_buf := B } : xq_device).stats = v.stats := fun _ _ => rfl
    rw [hQ2, hQ1] at hQ
    rw [hS2, hS1] at hS
    have hhd : ∀ v : xq_device, v.ReadQ = { (s.dev i).ReadQ with
          item := List.set (s.dev i).ReadQ.item (s.dev i).ReadQ.head (rbdl_adj ((rbdl_entry i s).dev i)).2.1 } →
        rbdl_head v = (rbdl_adj ((rbdl_entry i s).dev i)).2.1 := by
      intro v hv
      unfold rbdl_head
      rw [hv]
      exact getD_set_same _ _ _ _ hhead
    have hlen : (rbdl_slice ((rbdl_entry i s).dev i)).2.length
        = (rbdl_adj ((rbdl_entry i s).dev i)).2.2.1 := by
      unfold rbdl_slice
      exact bytes_at_length _ _ _
    obtain ⟨f1, f2, f3, f4, f5⟩ := rbdl_adjust_fields (s.dev i).stats (rbdl_head (s.dev i))
      (bdl_b_length (((rbdl_entry i s).dev i).rbdl_buf.get 1)
        (((rbdl_entry i s).dev i).rbdl_buf.get 3))
    rw [hhd _ hQ, hS, hQ, hlen, hadj]
    exact ⟨rfl, rfl, rfl, rfl, f5, f1, f2, f3, f4⟩

/-- Instance of the amended C8 on the state `rx_nxm`: the write of the packet data fails, the
walk returns `SCPE_OK`, the packet stays queued, its delivered-byte offset is 60 and the runt
counter is 1. -/
theorem nxm_read_queue_witness :
    rbdl_write_fails .xqa rx_nxm ∧
    ∃ s1, rbdl_loop 1 .xqa rx_nxm = some (SCPE_OK, s1) ∧
      (s1.dev .xqa).ReadQ.count = 1 ∧ (rbdl_head (s1.dev .xqa)).packet.used = 60 ∧
      (s1.dev .xqa).stats.runt = 1 := by
  have hw : rbdl_write_fails .xqa rx_nxm := by
    unfold rbdl_write_fails
    decide
  obtain ⟨s1, h1, _, _, h4, _, _, _, _, h9, _, h11, _⟩ :=
    nxm_read_queue .xqa rx_nxm (by decide) (by decide) hw
  refine ⟨hw, s1, ?_, h4.trans (by decide), h9.trans (by decide), h11.trans (by decide)⟩
  show (match rbdl_step .xqa rx_nxm with
    | .ret st s1 => some (st, s1)
    | .next s1 => rbdl_loop 0 .xqa s1) = _
  rw [h1]

/-- C8 as stated does not hold: in the state `rx_nxm` (a queued runt of length 30 at
delivered-byte offset 0, runt counter 0, and a valid descriptor whose buffer is non-existent
memory) the write of the packet data fails and `xq_process_rbdl` returns `SCPE_OK` with the
head item at delivered-byte offset 60 and the runt counter at 1. -/
theorem nxm_read_queue_counterexample :
    rbdl_write_fails .xqa rx_nxm ∧
    (rbdl_head (rx_nxm.dev .xqa)).packet.used = 0 ∧ (rx_nxm.dev .xqa).stats.runt = 0 ∧
    (rbdl_loop 1 .xqa rx_nxm).map (fun r => r.1) = some SCPE_OK ∧
    (rbdl_loop 1 .xqa rx_nxm).map (fun r => (rbdl_head (r.2.dev .xqa)).packet.used) = some 60 ∧
    (rbdl_loop 1 .xqa rx_nxm).map (fun r => (r.2.dev .xqa).stats.runt) = some 1 := by
  refine ⟨?_, by decide, by decide, by decide, by decide, by decide⟩
  unfold rbdl_write_fails
  decide

/-! ## Iterations of the receive walk that go round again -/

theorem rbdl_done_mode (v : xq_device) : (rbdl_done v).mode = v.mode := by
  unfold rbdl_done
  split_ifs <;> rfl

theorem rbdl_sw_runt (v : xq_device) : (rbdl_sw v).2.2.runt = (rbdl_adj v).1.runt := by
  unfold rbdl_sw
  exact (rbdl_status_stats _ _ _ _).1

theorem rbdl_entry_fetched (i : CtlrId) (s : Sys) (f a w : Nat)
    (hd : bdl_at s.mem (s.dev i).rbdl_ba f a w) :
    rbdl_entry i s = rbdl_fetched i s f a w := by
  unfold rbdl_entry rbdl_fetched
  simp only [xq_fetch_bdl_entry_6 _ _ _ _ _ _ hd]

theorem rbdl_fetched_words (i : CtlrId) (s : Sys) (f a w : Nat) :
    ((rbdl_fetched i s f a w).dev i).rbdl_buf.get 1 = f ∧
    ((rbdl_fetched i s f a w).dev i).rbdl_buf.get 2 = a ∧
    ((rbdl_fetched i s f a w).dev i).rbdl_buf.get 3 = w := by
  rw [rbdl_fetched_dev]
  exact ⟨rfl, rfl, rfl⟩

theorem Map_ReadW_succ (m : Mem) (a n x : Nat) (h : word_at m a = some x) :
    Map_ReadW m a (n + 2) = ((Map_ReadW m (a + 2) n).1, x :: (Map_ReadW m (a + 2) n).2) := by
  unfold word_at at h
  cases h0 : m a with
  | none => simp [h0] at h
  | some lo =>
    cases h1 : m (a + 1) with
    | none => simp [h0, h1] at h
    | some hi =>
      simp [h0, h1] at h
      have e2 : a + 1 + 1 = a + 2 := by omega
      simp [Map_ReadW, Map_ReadB, h0, h1, e2, words_of_bytes, h]

theorem Map_ReadW_zero (m : Mem) (a : Nat) : Map_ReadW m a 0 = (0, []) := rfl

/-- The fetch of a transmit descriptor that guest memory holds. -/
theorem xq_fetch_bdl_entry_10 (m : Mem) (ba f a w : Nat) (buf : bdl_buf) (h : bdl_at m ba f a w) :
    ∃ x y, xq_fetch_bdl_entry m ba buf 10 =
      (0, (Map_WriteW m ba [0xFFFF]).2,
        (((((buf.set 0 0xFFFF).set 1 f).set 2 a).set 3 w).set 4 x).set 5 y) := by
  obtain ⟨hs, hf, ha, hw⟩ := h
  have h0 := hs 0 (by norm_num)
  have h1 := hs 1 (by norm_num)
  simp only [Nat.add_zero] at h0
  obtain ⟨hok, _, hfr⟩ := Map_WriteW_one m ba 0xFFFF h0 h1
  obtain ⟨x, hx, _⟩ := word_at_isSome m (ba + 8) (hs 8 (by norm_num)) (hs 9 (by norm_num))
  obtain ⟨y, hy, _⟩ := word_at_isSome m (ba + 10) (hs 10 (by norm_num)) (hs 11 (by norm_num))
  refine ⟨x, y, ?_⟩
  have r1 : Map_ReadW (Map_WriteW m ba [0xFFFF]).2 (ba + 2) 2 = (0, [f]) := by
    apply Map_ReadW_2
    rw [word_at_WriteW_other m ba _ _ h0 h1 (by omega)]
    exact hf
  have r2 : Map_ReadW (Map_WriteW m ba [0xFFFF]).2 (ba + 4) 8 = (0, [a, w, x, y]) := by
    rw [Map_ReadW_succ _ _ 6 a, Map_ReadW_succ _ _ 4 w, Map_ReadW_succ _ _ 2 x,
      Map_ReadW_succ _ _ 0 y, Map_ReadW_zero]
    · rw [word_at_WriteW_other m ba _ _ h0 h1 (by omega)]; exact hy
    · rw [word_at_WriteW_other m ba _ _ h0 h1 (by omega)]; exact hx
    · rw [word_at_WriteW_other m ba _ _ h0 h1 (by omega)]; exact hw
    · rw [word_at_WriteW_other m ba _ _ h0 h1 (by omega)]; exact ha
  unfold xq_fetch_bdl_entry
  have e : (buf.set 0 0xFFFF).get 0 = 0xFFFF := rfl
  simp only [e, hok, r1, r2, ne_eq, not_true_eq_false, if_false, store_words]
  simp


theorem xq_reset_santmr_dev (i : CtlrId) (s : Sys) :
    ∃ sn, (xq_reset_santmr i s).dev i = { s.dev i with sanity := sn } := by
  unfold xq_reset_santmr
  simp only []
  split_ifs
  · exact ⟨_, dev_setDev_same _ _ _⟩
  · exact ⟨(s.dev i).sanity, rfl⟩

@[simp] theorem xq_reset_santmr_mem (i : CtlrId) (s : Sys) : (xq_reset_santmr i s).mem = s.mem := by
  unfold xq_reset_santmr
  simp only []
  split_ifs
  · exact mem_setDev _ _ _
  · rfl

/-- What completing a looped-back packet leaves of the state. -/
theorem xbdl_done_props (i : CtlrId) (s : Sys) :
    (xbdl_done i s).mem = s.mem ∧
    ((xbdl_done i s).dev i).xbdl_ba = (s.dev i).xbdl_ba ∧
    ((xbdl_done i s).dev i).mode = (s.dev i).mode ∧
    ((xbdl_done i s).dev i).write_buffer.len = 0 ∧
    ((xbdl_done i s).dev i).csr = ((s.dev i).csr ||| u16 XQ_CSR_XI) &&& not16 0 := by
  unfold xbdl_done
  obtain ⟨sn, hsn⟩ := xq_reset_santmr_dev i
    (s.setDev i { s.dev i with write_buffer := { (s.dev i).write_buffer with len := 0 } })
  rw [dev_setDev_same] at hsn
  have hf := xq_csr_set_clr_frame i XQ_CSR_XI 0 (xq_reset_santmr i
    (s.setDev i { s.dev i with write_buffer := { (s.dev i).write_buffer with len := 0 } }))
  rw [hsn] at hf
  refine ⟨?_, ?_, ?_, ?_, ?_⟩
  · simp only [xq_csr_set_clr_mem, xq_reset_santmr_mem, mem_setDev]
  · rw [frame_xbdl_ba hf]
  · rw [frame_mode hf]
  · rw [frame_write_buffer hf]
  · rw [csr_xq_csr_set_clr, hsn]

theorem xbdl_entry_ok (i : CtlrId) (s : Sys) (f a w : Nat)
    (hd : bdl_at s.mem (s.dev i).xbdl_ba f a w) :
    (xq_fetch_bdl_entry s.mem (s.dev i).xbdl_ba (s.dev i).xbdl_buf 10).1 = 0 ∧
    (xbdl_entry i s).mem = (Map_WriteW s.mem (s.dev i).xbdl_ba [0xFFFF]).2 ∧
    ∃ B : bdl_buf, (xbdl_entry i s).dev i = { s.dev i with xbdl_buf := B } ∧
      B.get 1 = f ∧ B.get 2 = a ∧ B.get 3 = w := by
  obtain ⟨x, y, h⟩ := xq_fetch_bdl_entry_10 s.mem (s.dev i).xbdl_ba f a w (s.dev i).xbdl_buf hd
  refine ⟨by rw [h], ?_,
    ⟨((((((s.dev i).xbdl_buf.set 0 65535).set 1 f).set 2 a).set 3 w).set 4 x).set 5 y,
      ?_, rfl, rfl, rfl⟩⟩
  · rw [xbdl_entry_mem, h]
  · rw [xbdl_entry_dev, h]

theorem sub16_frame (len : Nat) (h : len ≤ 1518) : sub16 ETH_FRAME_SIZE len = 1518 - len := by
  have hF : ETH_FRAME_SIZE = 1518 := rfl
  rw [hF]
  unfold sub16 u16
  rw [Nat.mod_eq_of_lt (by omega : len < 65536)]
  omega

theorem xbdl_b_length_le (len f w : Nat) (h : len ≤ 1518) :
    xbdl_b_length len f w ≤ bdl_b_length f w ∧ len + xbdl_b_length len f w ≤ 1518 := by
  have hF : ETH_FRAME_SIZE = 1518 := rfl
  unfold xbdl_b_length
  split_ifs with h1
  · rw [sub16_frame len h]
    rw [hF] at h1
    omega
  · rw [hF] at h1
    omega

/-- The read of the transmit buffer from existing memory. -/
theorem xbdl_read_ok (i : CtlrId) (S : Sys)
    (hlen : (S.dev i).write_buffer.len ≤ 1518)
    (hbuf : ∀ k, k < bdl_b_length ((S.dev i).xbdl_buf.get 1) ((S.dev i).xbdl_buf.get 3) →
      (S.mem (bdl_address ((S.dev i).xbdl_buf.get 1) ((S.dev i).xbdl_buf.get 2) + k)).isSome = true) :
    (xbdl_read i S).1 = 0 ∧
    ∃ wb : eth_packet, (xbdl_read i S).2 = S.setDev i { S.dev i with write_buffer := wb } ∧
      wb.len ≤ 1518 := by
  obtain ⟨h1, h2⟩ := xbdl_b_length_le (S.dev i).write_buffer.len ((S.dev i).xbdl_buf.get 1)
    ((S.dev i).xbdl_buf.get 3) hlen
  have hr := Map_ReadB_ok (xbdl_b_length (S.dev i).write_buffer.len ((S.dev i).xbdl_buf.get 1)
    ((S.dev i).xbdl_buf.get 3)) S.mem
    (bdl_address ((S.dev i).xbdl_buf.get 1) ((S.dev i).xbdl_buf.get 2))
    (fun k hk => hbuf k (by omega))
  have h0 : (Map_ReadB S.mem (bdl_address ((S.dev i).xbdl_buf.get 1) ((S.dev i).xbdl_buf.get 2))
      (xbdl_b_length (S.dev i).write_buffer.len ((S.dev i).xbdl_buf.get 1)
        ((S.dev i).xbdl_buf.get 3))).1 = 0 := by rw [hr]
  unfold xbdl_read
  simp only [h0, ne_eq, not_true_eq_false, if_false]
  exact ⟨trivial, _, rfl, h2⟩

theorem Map_WriteW_isSome (m : Mem) (ba : Nat) (ws : List Nat) (x : Nat) :
    ((Map_WriteW m ba ws).2 x).isSome = (m x).isSome :=
  Map_WriteB_isSome _ m ba x

theorem testBit_set_XI (c k : Nat) (hk : k < 16) (h7 : k ≠ 7) :
    (((c ||| u16 XQ_CSR_XI) &&& not16 0).testBit k) = c.testBit k := by
  rw [Nat.testBit_and, Nat.testBit_or, testBit_not16, testBit_u16]
  have e : XQ_CSR_XI = 2 ^ 7 := rfl
  rw [e, Nat.testBit_two_pow]
  have h7b : ¬ (7 = k) := fun h => h7 h.symm
  simp [hk, h7b]

theorem mask_set_XI (c k : Nat) (hk : k < 16) (h7 : k ≠ 7) :
    (((c ||| u16 XQ_CSR_XI) &&& not16 0) &&& 2 ^ k = 0) ↔ (c &&& 2 ^ k = 0) := by
  rw [and_two_pow_eq_zero_iff, and_two_pow_eq_zero_iff, testBit_set_XI c k hk h7]

theorem csr_kept_set_XI (c0 c : Nat) (h : csr_kept c0 c) :
    csr_kept c0 ((c ||| u16 XQ_CSR_XI) &&& not16 0) := by
  obtain ⟨h1, h2, h3, h4, h5⟩ := h
  have eRE : XQ_CSR_RE = 2 ^ 0 := rfl
  have eIL : XQ_CSR_IL = 2 ^ 8 := rfl
  have eEL : XQ_CSR_EL = 2 ^ 9 := rfl
  have eNI : XQ_CSR_NI = 2 ^ 2 := rfl
  have eRL : XQ_CSR_RL = 2 ^ 5 := rfl
  refine ⟨?_, ?_, ?_, ?_, ?_⟩
  · rw [← h1, eRE]; exact mask_set_XI c 0 (by norm_num) (by norm_num)
  · rw [← h2, eIL]; exact mask_set_XI c 8 (by norm_num) (by norm_num)
  · rw [← h3, eEL]; exact mask_set_XI c 9 (by norm_num) (by norm_num)
  · rw [← h4, eNI]; exact mask_set_XI c 2 (by norm_num) (by norm_num)
  · intro h0 hc
    rw [eRL] at hc
    have := (mask_set_XI c 5 (by norm_num) (by norm_num)).1 hc
    rw [← eRL] at this
    exact h5 h0 this

/-- An iteration of the transmit walk on a valid, non-chained end of message with a readable
buffer hands the state `R` with the packet in the write buffer to the end-of-message
branch. -/
theorem xbdl_step_at_eom (K : Collab) (fuel : Nat) (i : CtlrId) (s : Sys) (f a w : Nat)
    (hd : bdl_at s.mem (s.dev i).xbdl_ba f a w)
    (hV : f &&& XQ_DSC_V ≠ 0) (hC : f &&& XQ_DSC_C = 0) (hE : f &&& XQ_DSC_E ≠ 0)
    (hlen : (s.dev i).write_buffer.len ≤ 1518)
    (hbuf : ∀ k, k < bdl_b_length f w → (s.mem (bdl_address f a + k)).isSome = true) :
    ∃ R, R.mem = (Map_WriteW s.mem (s.dev i).xbdl_ba [0xFFFF]).2 ∧
      (R.dev i).xbdl_ba = (s.dev i).xbdl_ba ∧ (R.dev i).csr = (s.dev i).csr ∧
      (R.dev i).xbdl_buf.get 1 = f ∧ (R.dev i).write_buffer.len ≤ 1518 ∧
      xbdl_step K fuel i s = (xbdl_eom K fuel i R).map (xbdl_next i) := by
  obtain ⟨he, hm, B, hB, b1, b2, b3⟩ := xbdl_entry_ok i s f a w hd
  have hf1 : ((xbdl_entry i s).dev i).xbdl_buf.get 1 = f := by rw [hB]; exact b1
  have hf2 : ((xbdl_entry i s).dev i).xbdl_buf.get 2 = a := by rw [hB]; exact b2
  have hf3 : ((xbdl_entry i s).dev i).xbdl_buf.get 3 = w := by rw [hB]; exact b3
  have hSsome : ∀ x, ((xbdl_entry i s).mem x).isSome = (s.mem x).isSome := by
    intro x; rw [hm]; exact Map_WriteW_isSome _ _ _ _
  obtain ⟨hr0, wb, hR, hwb⟩ := xbdl_read_ok i (xbdl_entry i s) (by rw [hB]; exact hlen)
    (by
      intro k hk
      rw [hf1, hf3] at hk
      rw [hf1, hf2, hSsome]
      exact hbuf k hk)
  have hRmem : (xbdl_read i (xbdl_entry i s)).2.mem = (xbdl_entry i s).mem := xbdl_read_mem _ _
  have hRdev : (xbdl_read i (xbdl_entry i s)).2.dev i =
      { (xbdl_entry i s).dev i with write_buffer := wb } := by
    rw [hR, dev_setDev_same]
  refine ⟨(xbdl_read i (xbdl_entry i s)).2, by rw [hRmem, hm], by rw [hRdev, hB],
    by rw [hRdev, hB], by rw [hRdev]; exact hf1, by rw [hRdev]; exact hwb, ?_⟩
  unfold xbdl_step
  simp only [xq_nxm_error_status]
  rw [if_neg (not_not.2 he), hf1, if_neg hV, if_neg (not_not.2 hC), if_neg (not_not.2 hr0),
    if_pos hE]

/-- What `xq_write_callback` leaves of the state when the status words are existing
memory. -/
theorem xq_write_callback_props (i : CtlrId) (status : Nat) (s : Sys)
    (hst : ∀ k, 8 ≤ k → k < 12 → (s.mem ((s.dev i).xbdl_ba + k)).isSome = true) :
    (∀ x, (x < (s.dev i).xbdl_ba + 8 ∨ (s.dev i).xbdl_ba + 12 ≤ x) →
      (xq_write_callback i status s).mem x = s.mem x) ∧
    (∀ x, ((xq_write_callback i status s).mem x).isSome = (s.mem x).isSome) ∧
    ((xq_write_callback i status s).dev i).xbdl_ba = (s.dev i).xbdl_ba ∧
    ((xq_write_callback i status s).dev i).write_buffer.len = 0 ∧
    ((xq_write_callback i status s).dev i).csr = ((s.dev i).csr ||| u16 XQ_CSR_XI) &&& not16 0 := by
  obtain ⟨ws, hws⟩ : ∃ ws : Nat × Nat,
      (if status = 0 then [0, u16 (100 + (s.dev i).write_buffer.len * 8) &&& 0x03FF]
        else [XQ_DSC_C, u16 (100 + (s.dev i).write_buffer.len * 8) &&& 0x03FF]) = [ws.1, ws.2] := by
    by_cases h : status = 0
    · exact ⟨(0, _), by rw [if_pos h]⟩
    · exact ⟨(XQ_DSC_C, _), by rw [if_neg h]⟩
  obtain ⟨V2, hV2, v2ba, v2csr⟩ : ∃ V2 : xq_device,
      (if status = 0 then
        { s.dev i with stats := { (s.dev i).stats with xmit := (s.dev i).stats.xmit + 1 } }
      else { s.dev i with stats := { (s.dev i).stats with
          xmit := (s.dev i).stats.xmit + 1, fail := (s.dev i).stats.fail + 1 } }) = V2 ∧
      V2.xbdl_ba = (s.dev i).xbdl_ba ∧ V2.csr = (s.dev i).csr := by
    by_cases h : status = 0
    · exact ⟨_, rfl, by rw [if_pos h], by rw [if_pos h]⟩
    · exact ⟨_, rfl, by rw [if_neg h], by rw [if_neg h]⟩
  obtain ⟨u0, _, _, uout, usome⟩ := xq_update_bdl_status_words_ok s.mem (s.dev i).xbdl_ba
    ws.1 ws.2 hst
  have hdef : xq_write_callback i status s =
      (xq_reset_santmr i (xq_csr_set_clr i XQ_CSR_XI 0
        ({ s with mem := (xq_update_bdl_status_words s.mem (s.dev i).xbdl_ba [ws.1, ws.2]).2 }.setDev i V2))).setDev i
        { (xq_reset_santmr i (xq_csr_set_clr i XQ_CSR_XI 0
            ({ s with mem := (xq_update_bdl_status_words s.mem (s.dev i).xbdl_ba [ws.1, ws.2]).2 }.setDev i V2))).dev i with
          write_buffer := { ((xq_reset_santmr i (xq_csr_set_clr i XQ_CSR_XI 0
            ({ s with mem := (xq_update_bdl_status_words s.mem (s.dev i).xbdl_ba [ws.1, ws.2]).2 }.setDev i V2))).dev i).write_buffer with len := 0 } } := by
    unfold xq_write_callback
    simp only []
    rw [hws]
    have e : (if status = 0 then
        { s.dev i with stats := { (s.dev i).stats with xmit := (s.dev i).stats.xmit + 1 } }
      else { s.dev i with stats := { (s.dev i).stats with
          xmit := (s.dev i).stats.xmit + 1, fail := (s.dev i).stats.fail + 1 } } : xq_device).xbdl_ba
        = (s.dev i).xbdl_ba := by rw [hV2]; exact v2ba
    rw [e, if_neg (not_not.2 u0), hV2]
  rw [hdef]
  obtain ⟨T, hT⟩ : ∃ T, xq_csr_set_clr i XQ_CSR_XI 0
      ({ s with mem := (xq_update_bdl_status_words s.mem (s.dev i).xbdl_ba [ws.1, ws.2]).2 }.setDev i V2)
      = T := ⟨_, rfl⟩
  have t1 : T.mem = (xq_update_bdl_status_words s.mem (s.dev i).xbdl_ba [ws.1, ws.2]).2 := by
    rw [← hT, xq_csr_set_clr_mem, mem_setDev]
  have t2 : (T.dev i).xbdl_ba = (s.dev i).xbdl_ba := by
    rw [← hT, frame_xbdl_ba (xq_csr_set_clr_frame i XQ_CSR_XI 0 _), dev_setDev_same, v2ba]
  have t3 : (T.dev i).csr = ((s.dev i).csr ||| u16 XQ_CSR_XI) &&& not16 0 := by
    rw [← hT, csr_xq_csr_set_clr, dev_setDev_same, v2csr]
  rw [hT]
  obtain ⟨sn, hsn⟩ := xq_reset_santmr_dev i T
  refine ⟨?_, ?_, ?_, ?_, ?_⟩
  · intro x hx
    rw [mem_setDev, xq_reset_santmr_mem, t1, uout x hx]
  · intro x
    rw [mem_setDev, xq_reset_santmr_mem, t1, usome]
  · rw [dev_setDev_same, hsn]; exact t2
  · rw [dev_setDev_same]
  · rw [dev_setDev_same, hsn]; exact t3


theorem xbdl_run_next (K : Collab) (fuel k : Nat) (i : CtlrId) (s s1 : Sys)
    (h : xbdl_step K fuel i s = some (.next s1)) :
    xbdl_run K fuel i (k + 1) s = xbdl_run K fuel i k s1 := by
  show (match xbdl_step K fuel i s with
    | some (.next s1) => xbdl_run K fuel i k s1
    | _ => none) = _
  rw [h]

theorem xbdl_run_step (K : Collab) (fuel : Nat) (i : CtlrId) (k : Nat) (s : Sys)
    (h : (xbdl_run K fuel i (k + 1) s).isSome = true) :
    ∃ s1, xbdl_step K fuel i s = some (.next s1) := by
  unfold xbdl_run at h
  cases hs : xbdl_step K fuel i s with
  | none => rw [hs] at h; exact absurd h (by simp)
  | some w =>
    cases w with
    | ret st s1 => rw [hs] at h; exact absurd h (by simp)
    | next s1 => exact ⟨s1, rfl⟩

/-- The receive walk on a chain descriptor that points at itself goes round for ever. -/
theorem rbdl_loop_self_chain (i : CtlrId) (R f w : Nat) (hV : f &&& XQ_DSC_V ≠ 0)
    (hC : f &&& XQ_DSC_C ≠ 0) :
    ∀ (n : Nat) (a : Nat) (t : Sys), (t.dev i).rbdl_ba = R → bdl_at t.mem R f a w →
      bdl_address f a = R → rbdl_loop n i t = none := by
  intro n
  induction n with
  | zero => intro a t _ _ _; rfl
  | succ n ih =>
    intro a t hba hd haddr
    have hd1 : bdl_at t.mem (t.dev i).rbdl_ba f a w := by rw [hba]; exact hd
    have he := rbdl_entry_fetched i t f a w hd1
    obtain ⟨w1, w2, _⟩ := rbdl_fetched_words i t f a w
    have hf0 : (xq_fetch_bdl_entry t.mem (t.dev i).rbdl_ba (t.dev i).rbdl_buf 6).1 = 0 := by
      rw [xq_fetch_bdl_entry_6 t.mem (t.dev i).rbdl_ba f a w (t.dev i).rbdl_buf hd1]
    have hstep : rbdl_step i t = .next ((rbdl_fetched i t f a w).setDev i
        { (rbdl_fetched i t f a w).dev i with rbdl_ba := bdl_address f a }) := by
      rw [rbdl_step_cases, he, w1, w2, if_neg (not_not.2 hf0), if_neg hV, if_pos hC]
    show (match rbdl_step i t with
      | .ret st s1 => some (st, s1)
      | .next s1 => rbdl_loop n i s1) = none
    rw [hstep]
    apply ih a
    · rw [dev_setDev_same]; exact haddr
    · rw [mem_setDev, rbdl_fetched_mem]
      obtain ⟨hs, hf, ha, hw⟩ := hd
      have h0 : (t.mem R).isSome = true := by have := hs 0 (by norm_num); simpa using this
      have h1 := hs 1 (by norm_num)
      rw [hba]
      refine ⟨?_, ?_, ?_, ?_⟩
      · intro k hk; rw [Map_WriteW_isSome]; exact hs k hk
      · rw [word_at_WriteW_other t.mem R _ _ h0 h1 (by omega)]; exact hf
      · rw [word_at_WriteW_other t.mem R _ _ h0 h1 (by omega)]; exact ha
      · rw [word_at_WriteW_other t.mem R _ _ h0 h1 (by omega)]; exact hw
    · exact haddr


/-- An iteration of the transmit walk on an end of message that goes to a network that is
not attached: `eth_write` fails and `xq_write_callback` completes the descriptor. -/
theorem xbdl_step_unattached (K : Collab) (fuel : Nat) (i : CtlrId) (s : Sys) (f a w : Nat)
    (hd : bdl_at s.mem (s.dev i).xbdl_ba f a w)
    (hV : f &&& XQ_DSC_V ≠ 0) (hC : f &&& XQ_DSC_C = 0) (hE : f &&& XQ_DSC_E ≠ 0)
    (hS : f &&& XQ_DSC_S = 0)
    (hnet : ¬ ((s.dev i).csr &&& XQ_CSR_RE = 0 ∧
      ((s.dev i).csr &&& XQ_CSR_IL = 0 ∨ (s.dev i).csr &&& XQ_CSR_EL ≠ 0)))
    (hK : ∀ R, K.eth_write i R = some (1, R))
    (hlen : (s.dev i).write_buffer.len ≤ 1518)
    (hbuf : ∀ k, k < bdl_b_length f w → (s.mem (bdl_address f a + k)).isSome = true) :
    ∃ s1, xbdl_step K fuel i s = some (.next s1) ∧
      (s1.dev i).xbdl_ba = u32 ((s.dev i).xbdl_ba + 12) ∧
      (s1.dev i).write_buffer.len ≤ 1518 ∧
      (s1.dev i).csr = ((s.dev i).csr ||| u16 XQ_CSR_XI) &&& not16 0 ∧
      (∀ x, (x < (s.dev i).xbdl_ba ∨ (s.dev i).xbdl_ba + 12 ≤ x) → s1.mem x = s.mem x) ∧
      (∀ x, (s1.mem x).isSome = (s.mem x).isSome) := by
  obtain ⟨R, r1, r2, r3, r4, _, r6⟩ := xbdl_step_at_eom K fuel i s f a w hd hV hC hE hlen hbuf
  have h0 : (s.mem (s.dev i).xbdl_ba).isSome = true := by
    have := hd.1 0 (by norm_num); simpa using this
  obtain ⟨_, _, wout⟩ := Map_WriteW_one s.mem (s.dev i).xbdl_ba 0xFFFF h0 (hd.1 1 (by norm_num))
  have hst : ∀ k, 8 ≤ k → k < 12 → (R.mem ((R.dev i).xbdl_ba + k)).isSome = true := by
    intro k _ hk
    rw [r1, r2, Map_WriteW_isSome]
    exact hd.1 k hk
  obtain ⟨c1, c2, c3, c4, c5⟩ := xq_write_callback_props i 1 R hst
  have heom : xbdl_eom K fuel i R = some (.next (xq_write_callback i 1 R)) := by
    unfold xbdl_eom
    simp only []
    rw [r3, r4, if_neg (by
      intro h
      rcases h with h | h
      · exact hnet h
      · exact h hS), hK]
    simp only [Option.some_bind]
    rw [if_pos (by decide)]
  rw [r6, heom]
  refine ⟨_, rfl, ?_, ?_, ?_, ?_, ?_⟩
  · rw [dev_setDev_same, c3, r2]
  · rw [dev_setDev_same]; show ((xq_write_callback i 1 R).dev i).write_buffer.len ≤ _
    rw [c4]; omega
  · rw [dev_setDev_same]; show ((xq_write_callback i 1 R).dev i).csr = _
    rw [c5, r3]
  · intro x hx
    rw [mem_setDev, c1 x (by rw [r2]; omega), r1]
    exact wout x (by omega) (by omega)
  · intro x
    rw [mem_setDev, c2, r1, Map_WriteW_isSome]


/-- The list is intact from descriptor `k + 1` on after an iteration on descriptor `k` that
writes to that descriptor only and changes XI at most. -/
theorem xbdl_inv_next (i : CtlrId) (s : Sys) (base N k : Nat) (t t1 : Sys)
    (ht : xbdl_inv i s base N k t) (hk : k < N) (hwrap : base + 12 * N + 12 ≤ 2 ^ 32)
    (h2 : (t1.dev i).xbdl_ba = u32 ((t.dev i).xbdl_ba + 12))
    (h3 : (t1.dev i).write_buffer.len ≤ 1518)
    (h4 : (t1.dev i).csr = (t.dev i).csr ∨
      (t1.dev i).csr = ((t.dev i).csr ||| u16 XQ_CSR_XI) &&& not16 0)
    (h5 : ∀ x, (x < (t.dev i).xbdl_ba ∨ (t.dev i).xbdl_ba + 12 ≤ x) → t1.mem x = t.mem x)
    (h6 : ∀ x, (t1.mem x).isSome = (t.mem x).isSome) :
    xbdl_inv i s base N (k + 1) t1 := by
  obtain ⟨tba, tlen, tcsr, tmem, tsome⟩ := ht
  refine ⟨?_, h3, ?_, ?_, ?_⟩
  · rw [h2, tba]
    unfold u32
    rw [Nat.mod_eq_of_lt (by omega)]
    omega
  · rcases h4 with h4 | h4
    · rw [h4]; exact tcsr
    · rw [h4]; exact csr_kept_set_XI _ _ tcsr
  · intro x hx hx2
    rw [h5 x (by rw [tba]; omega)]
    exact tmem x (by omega) hx2
  · intro x
    rw [h6, tsome]

/-- C5 (receive splitting), the runt that is split.  In the state `rx_runt_split` the head
packet is a runt of 30 bytes (byte `k` is `k + 1`) at delivered-byte offset 0, so that its
effective length is 60, and the receive list holds two valid, non-chained descriptors with
buffers of 20 bytes.  Two iterations of the walk send the packet bytes 0 to 19 to the first
buffer and the bytes 20 to 29 to the second, 30 bytes in all and none of the padding; the
status word 1 computed for the first descriptor is 0xC700, flagged as not the last segment,
and for the second 0x0700, not flagged; the packet stays queued after the first iteration
and leaves the queue in the second, when 30 of the 60 bytes are delivered; the runt counter
is 1. -/
theorem runt_split_short :
    (rbdl_head (rx_runt_split.dev .xqa)).packet.len = 30 ∧
    (rbdl_head (rx_runt_split.dev .xqa)).packet.used = 0 ∧
    (rbdl_run .xqa 2 rx_runt_split).map (fun r => r.1) =
      some [(0x2000, (List.range 20).map fun k => k + 1),
        (0x3000, (List.range 10).map fun k => k + 21)] ∧
    (rbdl_run .xqa 2 rx_runt_split).map (fun r => (r.1.flatMap Prod.snd).length) = some 30 ∧
    (rbdl_sw ((rbdl_entry .xqa rx_runt_split).dev .xqa)).1 = 0xC700 ∧
    (rbdl_run .xqa 1 rx_runt_split).map (fun r => (rbdl_sw ((rbdl_entry .xqa r.2).dev .xqa)).1) =
      some 0x0700 ∧
    (rbdl_run .xqa 1 rx_runt_split).map (fun r => (r.2.dev .xqa).ReadQ.count) = some 1 ∧
    (rbdl_run .xqa 2 rx_runt_split).map (fun r => (r.2.dev .xqa).ReadQ.count) = some 0 ∧
    (rbdl_run .xqa 2 rx_runt_split).map (fun r => (r.2.dev .xqa).stats.runt) = some 1 := by
  refine ⟨by decide, by decide, by decide, by decide, by decide, by decide, by decide,
    by decide, by decide⟩

/-! ## C11: software reset -/

theorem reset_csr_value (c : Nat) :
    (c ||| u16 (XQ_CSR_XL ||| XQ_CSR_RL)) &&& not16 (not16 (XQ_CSR_XL ||| XQ_CSR_RL)) =
      XQ_CSR_XL ||| XQ_CSR_RL := by
  have e1 : u16 (XQ_CSR_XL ||| XQ_CSR_RL) = 48 := by decide
  have e2 : not16 (not16 (XQ_CSR_XL ||| XQ_CSR_RL)) = 48 := by decide
  have e3 : XQ_CSR_XL ||| XQ_CSR_RL = 48 := by decide
  rw [e1, e2, e3]
  apply Nat.eq_of_testBit_eq
  intro k
  simp only [Nat.testBit_and, Nat.testBit_or]
  cases Nat.testBit c k <;> cases Nat.testBit 48 k <;> rfl

/-- A CSR update that neither sets IE nor leaves IE set raises no interrupt: the state
afterwards is the state with the new CSR value, with the interrupt cleared or not. -/
theorem xq_csr_set_clr_no_IE (i : CtlrId) (sb cb : Nat) (s : Sys)
    (h1 : u16 sb &&& XQ_CSR_IE = 0)
    (h2 : (((s.dev i).csr ||| u16 sb) &&& not16 cb) &&& XQ_CSR_IE = 0) :
    xq_csr_set_clr i sb cb s =
        s.setDev i { s.dev i with csr := ((s.dev i).csr ||| u16 sb) &&& not16 cb } ∨
      xq_csr_set_clr i sb cb s =
        xq_clrint i false
          (s.setDev i { s.dev i with csr := ((s.dev i).csr ||| u16 sb) &&& not16 cb }) := by
  unfold xq_csr_set_clr
  simp only [h1, h2, ne_eq, not_true_eq_false, false_and, if_false]
  split_ifs <;> first | (left; rfl) | (right; rfl)

@[simp] theorem count_setDev (s : Sys) (i : CtlrId) (v : xq_device) :
    (s.setDev i v).xq_pending_intrs = s.xq_pending_intrs := by
  cases i <;> rfl

/-- The unconditional clear of a flag that is 0 or 1: the flag is 0 afterwards, the shared
count has gone down by one exactly when the flag was 1, and `srr` is as before. -/
theorem xq_clrint_settled (i : CtlrId) (a : Bool) (s : Sys) (h : (s.dev i).irq ≤ 1) :
    ((xq_clrint i a s).dev i).irq = 0 ∧
    (xq_clrint i a s).xq_pending_intrs =
      (if (s.dev i).irq = 1 then u32 (s.xq_pending_intrs + 4294967295) else s.xq_pending_intrs) ∧
    ((xq_clrint i a s).dev i).srr = (s.dev i).srr := by
  have e : (s.dev i).irq = 0 ∨ (s.dev i).irq = 1 := by omega
  cases i <;>
  · simp only [xq_clrint, Sys.dev, Sys.ctlr, Sys.setDev, Sys.setCtlr] at *
    rcases e with e | e <;> simp [e]

theorem xq_csr_set_clr_settled (i : CtlrId) (sb cb : Nat) (s : Sys)
    (h1 : u16 sb &&& XQ_CSR_IE = 0)
    (h2 : (((s.dev i).csr ||| u16 sb) &&& not16 cb) &&& XQ_CSR_IE = 0)
    (h : (s.dev i).irq ≤ 1) :
    ((xq_csr_set_clr i sb cb s).dev i).irq ≤ 1 ∧
    (if ((xq_csr_set_clr i sb cb s).dev i).irq = 1
      then u32 ((xq_csr_set_clr i sb cb s).xq_pending_intrs + 4294967295)
      else (xq_csr_set_clr i sb cb s).xq_pending_intrs) =
      (if (s.dev i).irq = 1 then u32 (s.xq_pending_intrs + 4294967295) else s.xq_pending_intrs) ∧
    ((xq_csr_set_clr i sb cb s).dev i).srr = (s.dev i).srr := by
  rcases xq_csr_set_clr_no_IE i sb cb s h1 h2 with e | e
  · rw [e]
    simp only [dev_setDev_same, count_setDev]
    exact ⟨h, trivial, trivial⟩
  · rw [e]
    obtain ⟨c1, c2, c3⟩ := xq_clrint_settled i false
      (s.setDev i { s.dev i with csr := ((s.dev i).csr ||| u16 sb) &&& not16 cb })
      (by rw [dev_setDev_same]; exact h)
    rw [c1, c2, c3]
    simp only [dev_setDev_same, count_setDev]
    exact ⟨by norm_num, by simp, trivial⟩


@[simp] theorem count_setCtlr_var (s : Sys) (i : CtlrId) (c : CTLR) :
    (s.setCtlr i c).xq_pending_intrs = s.xq_pending_intrs := by
  cases i <;> rfl

theorem count_xq_stop_receiver (i : CtlrId) (s : Sys) :
    (xq_stop_receiver i s).xq_pending_intrs = s.xq_pending_intrs := by
  cases i <;> rfl

theorem frame_etherface {v v1 : xq_device} (h : v.frame = v1.frame) :
    v.etherface = v1.etherface := by
  have e := congrArg xq_device.etherface h
  exact e

theorem frame_iba {v v1 : xq_device} (h : v.frame = v1.frame) : v.iba = v1.iba := by
  have e := congrArg xq_device.iba h
  exact e

theorem frame_setup {v v1 : xq_device} (h : v.frame = v1.frame) : v.setup = v1.setup := by
  have e := congrArg xq_device.setup h
  exact e

/-- The three interrupt-relevant steps of a reset (pdp11_xq.cpp:2087-2093) from a state `S`
whose `irq` flag is 0 or 1: the CSR is XL|RL, with OK when a transport is attached, the flag
is 0, and the shared count has gone down by one exactly when the flag was 1. -/
theorem sw_reset_core (i : CtlrId) (S : Sys) (h : (S.dev i).irq ≤ 1) :
    ∃ T, xq_clrint i false
        (if ((xq_csr_set_clr i (XQ_CSR_XL ||| XQ_CSR_RL) (not16 (XQ_CSR_XL ||| XQ_CSR_RL)) S).dev i).etherface
          then xq_csr_set_clr i XQ_CSR_OK 0
            (xq_csr_set_clr i (XQ_CSR_XL ||| XQ_CSR_RL) (not16 (XQ_CSR_XL ||| XQ_CSR_RL)) S)
          else xq_csr_set_clr i (XQ_CSR_XL ||| XQ_CSR_RL) (not16 (XQ_CSR_XL ||| XQ_CSR_RL)) S) = T ∧
      (T.dev i).csr = (if (S.dev i).etherface then XQ_CSR_XL ||| XQ_CSR_RL ||| XQ_CSR_OK
        else XQ_CSR_XL ||| XQ_CSR_RL) ∧
      (T.dev i).irq = 0 ∧
      T.xq_pending_intrs =
        (if (S.dev i).irq = 1 then u32 (S.xq_pending_intrs + 4294967295) else S.xq_pending_intrs) ∧
      (T.dev i).frame = (S.dev i).frame ∧ (T.dev i).srr = (S.dev i).srr := by
  obtain ⟨S3, hS3⟩ : ∃ S3,
    xq_csr_set_clr i (XQ_CSR_XL ||| XQ_CSR_RL) (not16 (XQ_CSR_XL ||| XQ_CSR_RL)) S = S3 := ⟨_, rfl⟩
  have c3 : (S3.dev i).csr = XQ_CSR_XL ||| XQ_CSR_RL := by
    rw [← hS3, csr_xq_csr_set_clr, reset_csr_value]
  have f3 : (S3.dev i).frame = (S.dev i).frame := by rw [← hS3, xq_csr_set_clr_frame]
  obtain ⟨i3, n3, r3⟩ := xq_csr_set_clr_settled i (XQ_CSR_XL ||| XQ_CSR_RL)
    (not16 (XQ_CSR_XL ||| XQ_CSR_RL)) S (by decide) (by rw [reset_csr_value]; decide) h
  rw [hS3] at i3 n3 r3 ⊢
  have e3 : (S3.dev i).etherface = (S.dev i).etherface := frame_etherface f3
  obtain ⟨S4, hS4⟩ : ∃ S4, (if (S3.dev i).etherface then xq_csr_set_clr i XQ_CSR_OK 0 S3 else S3) = S4 :=
    ⟨_, rfl⟩
  rw [hS4]
  by_cases he : (S3.dev i).etherface = true
  · rw [if_pos he] at hS4
    obtain ⟨i4, n4, r4⟩ := xq_csr_set_clr_settled i XQ_CSR_OK 0 S3 (by rfl)
      (by rw [c3]; rfl) i3
    rw [hS4] at i4 n4 r4
    obtain ⟨i5, n5, r5⟩ := xq_clrint_settled i false S4 i4
    refine ⟨_, rfl, ?_, i5, n5.trans (n4.trans n3), ?_, r5.trans (r4.trans r3)⟩
    · rw [csr_xq_clrint, ← hS4, csr_xq_csr_set_clr, c3, if_pos (e3 ▸ he)]
      rfl
    · rw [xq_clrint_frame, ← hS4, xq_csr_set_clr_frame, f3]
  · rw [if_neg he] at hS4
    subst hS4
    obtain ⟨i5, n5, r5⟩ := xq_clrint_settled i false S3 i3
    refine ⟨_, rfl, ?_, i5, n5.trans n3, ?_, r5.trans r3⟩
    · rw [csr_xq_clrint, c3, if_neg (e3 ▸ he)]
    · rw [xq_clrint_frame, f3]

/-- C11 (software reset on the falling edge of SR).  A write to the CSR whose SR bit is 0
while CSR.SR is 1, on a controller whose `irq` flag is 0 or 1, is exactly the software reset
`xq_sw_reset`, whatever the other written bits are.  Afterwards the CSR is XL|RL, with OK
exactly when a transport is attached; the `irq` flag is 0 and the shared pending count has
gone down by one if the flag was 1 and is unchanged otherwise; the Read Queue is empty; the
all-multicast and promiscuous flags are 0; `stats.reset` has grown by 1; and a controller of
type DELQA-T has mode DELQA and `iba = srr = 0`. -/
theorem software_reset (i : CtlrId) (data : Nat) (s : Sys)
    (hSR : (s.dev i).csr &&& XQ_CSR_SR ≠ 0) (hd : data &&& XQ_CSR_SR = 0)
    (hirq : (s.dev i).irq ≤ 1) :
    xq_wr_csr i data s = (SCPE_OK, xq_sw_reset i s) ∧
    ((xq_wr_csr i data s).2.dev i).csr =
      (if (s.dev i).etherface then XQ_CSR_XL ||| XQ_CSR_RL ||| XQ_CSR_OK
        else XQ_CSR_XL ||| XQ_CSR_RL) ∧
    ((xq_wr_csr i data s).2.dev i).irq = 0 ∧
    (xq_wr_csr i data s).2.xq_pending_intrs =
      (if (s.dev i).irq = 1 then u32 (s.xq_pending_intrs + 4294967295) else s.xq_pending_intrs) ∧
    ((xq_wr_csr i data s).2.dev i).ReadQ.count = 0 ∧
    ethq_list ((xq_wr_csr i data s).2.dev i).ReadQ = [] ∧
    ((xq_wr_csr i data s).2.dev i).setup.multicast = 0 ∧
    ((xq_wr_csr i data s).2.dev i).setup.promiscuous = 0 ∧
    ((xq_wr_csr i data s).2.dev i).stats.reset = (s.dev i).stats.reset + 1 ∧
    ((s.dev i).type = XQ_T_DELQA_PLUS →
      ((xq_wr_csr i data s).2.dev i).mode = XQ_T_DELQA ∧
      ((xq_wr_csr i data s).2.dev i).iba = 0 ∧ ((xq_wr_csr i data s).2.dev i).srr = 0) := by
  have hw : xq_wr_csr i data s = (SCPE_OK, xq_sw_reset i s) := by
    unfold xq_wr_csr
    simp only []
    rw [if_pos ⟨hSR, hd⟩]
  rw [hw]
  refine ⟨rfl, ?_⟩
  obtain ⟨S, hS⟩ : ∃ S, s.setDev i
      (if (s.dev i).type = XQ_T_DELQA_PLUS then
        { s.dev i with
            stats := { (s.dev i).stats with reset := (s.dev i).stats.reset + 1 }
            mode := XQ_T_DELQA, iba := 0, srr := 0 }
      else { s.dev i with stats := { (s.dev i).stats with reset := (s.dev i).stats.reset + 1 } }) = S :=
    ⟨_, rfl⟩
  have d0 : S.dev i = (if (s.dev i).type = XQ_T_DELQA_PLUS then
        { s.dev i with
            stats := { (s.dev i).stats with reset := (s.dev i).stats.reset + 1 }
            mode := XQ_T_DELQA, iba := 0, srr := 0 }
      else { s.dev i with stats := { (s.dev i).stats with reset := (s.dev i).stats.reset + 1 } }) := by
    rw [← hS, dev_setDev_same]
  have q0 : (S.dev i).irq = (s.dev i).irq := by rw [d0]; split_ifs <;> rfl
  have q1 : (S.dev i).etherface = (s.dev i).etherface := by rw [d0]; split_ifs <;> rfl
  have q2 : (S.dev i).stats.reset = (s.dev i).stats.reset + 1 := by rw [d0]; split_ifs <;> rfl
  have q3 : S.xq_pending_intrs = s.xq_pending_intrs := by rw [← hS, count_setDev]
  have q4 : (s.dev i).type = XQ_T_DELQA_PLUS →
      (S.dev i).mode = XQ_T_DELQA ∧ (S.dev i).iba = 0 ∧ (S.dev i).srr = 0 := by
    intro ht
    rw [d0, if_pos ht]
    exact ⟨rfl, rfl, rfl⟩
  obtain ⟨T, hT, t1, t2, t3, t4, t5⟩ := sw_reset_core i S (by rw [q0]; exact hirq)
  have hr : xq_sw_reset i s = xq_stop_receiver i (T.setDev i
      { T.dev i with
        ReadQ := ethq_clear (T.dev i).ReadQ
        setup := { (T.dev i).setup with multicast := 0, promiscuous := 0 } }) := by
    rw [← hT, ← hS]
    rfl
  simp only [hr, dev_xq_stop_receiver, dev_setDev_same, count_xq_stop_receiver, count_setDev]
  refine ⟨?_, ?_, ?_, ?_, ?_, ?_, ?_, ?_, ?_⟩
  · rw [t1, q1]
  · exact t2
  · rw [t3, q0, q3]
  · rfl
  · simp [ethq_list, ethq_clear]
  · trivial
  · trivial
  · rw [frame_stats t4, q2]
  · intro ht
    obtain ⟨m1, m2, m3⟩ := q4 ht
    exact ⟨by rw [frame_mode t4]; exact m1, by rw [frame_iba t4]; exact m2, by rw [t5]; exact m3⟩

/-- Witness of C11: in the example state `sr_set` (a DELQA-T with a transport attached, SR,
IE and RI set, an interrupt pending and a packet queued) the write of 0 to the CSR leaves
the CSR at XL|RL|OK, the flag and the shared count at 0, the queue empty and the mode
DELQA. -/
theorem software_reset_witness :
    ((xq_wr_csr .xqa 0 sr_set).2.dev .xqa).csr = 0x1030 ∧
    ((xq_wr_csr .xqa 0 sr_set).2.dev .xqa).irq = 0 ∧
    (xq_wr_csr .xqa 0 sr_set).2.xq_pending_intrs = 0 ∧
    ((xq_wr_csr .xqa 0 sr_set).2.dev .xqa).ReadQ.count = 0 ∧
    ((xq_wr_csr .xqa 0 sr_set).2.dev .xqa).stats.reset = 1 ∧
    ((xq_wr_csr .xqa 0 sr_set).2.dev .xqa).mode = XQ_T_DELQA := by
  obtain ⟨_, h2, h3, h4, h5, _, _, _, h9, h10⟩ :=
    software_reset .xqa 0 sr_set (by decide) (by decide) (by decide)
  exact ⟨h2, h3, h4, h5, h9, (h10 (by decide)).1⟩

/-! ## C12: vector dispatch -/

/-- C12 (vector dispatch).  In a state that satisfies the aggregation invariant and whose
`irq` flags are 0 or 1, `xq_int` looks at XQA, then at XQB, and passes over a disabled
controller.  If the first enabled controller with `irq = 1` is XQA (respectively XQB), the
result is its vector, its `irq` flag is 0 afterwards, the shared count has gone down by 1,
the `irq` flag of the other controller is as before, and the shared line is asserted
afterwards exactly when the other controller has `irq = 1`.  If no enabled controller has
`irq = 1` the result is 0 and the state is unchanged. -/
theorem vector_dispatch (s : Sys) (hinv : IntInv s)
    (ha : (s.dev .xqa).irq ≤ 1) (hb : (s.dev .xqb).irq ≤ 1) :
    ((s.ctlr .xqa).dev_dis = false ∧ (s.dev .xqa).irq = 1 →
      (xq_int s).1 = (s.ctlr .xqa).vec ∧ ((xq_int s).2.dev .xqa).irq = 0 ∧
      (xq_int s).2.xq_pending_intrs + 1 = s.xq_pending_intrs ∧
      ((xq_int s).2.dev .xqb).irq = (s.dev .xqb).irq ∧
      ((xq_int s).2.int_XQ = true ↔ (s.dev .xqb).irq = 1)) ∧
    (((s.ctlr .xqa).dev_dis = true ∨ (s.dev .xqa).irq ≠ 1) ∧
        (s.ctlr .xqb).dev_dis = false ∧ (s.dev .xqb).irq = 1 →
      (xq_int s).1 = (s.ctlr .xqb).vec ∧ ((xq_int s).2.dev .xqb).irq = 0 ∧
      (xq_int s).2.xq_pending_intrs + 1 = s.xq_pending_intrs ∧
      ((xq_int s).2.dev .xqa).irq = (s.dev .xqa).irq ∧
      ((xq_int s).2.int_XQ = true ↔ (s.dev .xqa).irq = 1)) ∧
    (((s.ctlr .xqa).dev_dis = true ∨ (s.dev .xqa).irq ≠ 1) ∧
        ((s.ctlr .xqb).dev_dis = true ∨ (s.dev .xqb).irq ≠ 1) →
      xq_int s = (0, s)) := by
  obtain ⟨h1, h2⟩ := hinv
  have ea : (s.dev .xqa).irq = 0 ∨ (s.dev .xqa).irq = 1 := by omega
  have eb : (s.dev .xqb).irq = 0 ∨ (s.dev .xqb).irq = 1 := by omega
  simp only [xq_int, xq_int_at, xq_clrint, pendingCount, Sys.dev, Sys.ctlr, Sys.setDev,
    Sys.setCtlr, u32] at *
  rcases ea with ea | ea <;> rcases eb with eb | eb <;>
    cases hda : s.xqa.dev_dis <;> cases hdb : s.xqb.dev_dis <;>
    simp_all

/-- Witness of C12: in the example state `int_both` both controllers are enabled and have
`irq = 1`; `xq_int` returns the vector of XQA, clears its flag, takes the shared count from
2 to 1 and leaves the flag of XQB and the shared line set. -/
theorem vector_dispatch_witness :
    (xq_int int_both).1 = 0x1E4 ∧ ((xq_int int_both).2.dev .xqa).irq = 0 ∧
    (xq_int int_both).2.xq_pending_intrs + 1 = 2 ∧
    ((xq_int int_both).2.dev .xqb).irq = 1 ∧ (xq_int int_both).2.int_XQ = true := by
  obtain ⟨h1, h2, h3, h4, h5⟩ :=
    (vector_dispatch int_both ⟨by decide, by decide⟩ (by decide) (by decide)).1
      ⟨by decide, by decide⟩
  exact ⟨h1, h2, h3, h4, h5.2 (by decide)⟩

/-! ## C17: loss reporting -/

theorem rbdl_adjust_dropped (st : xq_stats) (item : eth_item) (b : Nat) :
    (rbdl_adjust st item b).1.dropped = st.dropped := by
  unfold rbdl_adjust
  simp only []
  split_ifs <;> rfl

theorem testBit_zero_0700 (x : Nat) : (x &&& 0x0700).testBit 0 = false := by
  rw [Nat.testBit_and]
  have e : Nat.testBit 0x0700 0 = false := by decide
  rw [e, Bool.and_false]

/-- The overflow bit and the drop counter of `rbdl_status`: bit 0 of status word 1 is set
exactly when the loss counter is not 0, and the loss is added to `dropped`. -/
theorem rbdl_status_loss (st : xq_stats) (item : eth_item) (rbl loss : Nat) :
    (((rbdl_status st item rbl loss).1 % 65536).testBit 0 = decide (loss ≠ 0)) ∧
    (rbdl_status st item rbl loss).2.2.dropped = st.dropped + loss := by
  have hu : ∀ x : Nat, (x % 65536).testBit 0 = x.testBit 0 := by
    intro x
    have := testBit_u16 x 0
    simpa [u16] using this
  have c1 : Nat.testBit 0x2700 0 = false := by decide
  have c2 : Nat.testBit 0x2000 0 = false := by decide
  have c3 : Nat.testBit 0xC000 0 = false := by decide
  have c4 : Nat.testBit 0x0001 0 = true := by decide
  have c5 : Nat.testBit 0 0 = false := by decide
  unfold rbdl_status
  simp only [hu]
  by_cases hl : loss = 0
  · subst hl
    simp only [ne_eq, not_true_eq_false, if_false, decide_False, Nat.add_zero]
    split_ifs <;>
      simp only [Nat.testBit_or, testBit_zero_0700, c1, c2, c3, c5, Bool.or_false, and_self]
  · simp only [hl, ne_eq, not_false_eq_true, if_true, decide_True]
    split_ifs <;>
      simp only [Nat.testBit_or, testBit_zero_0700, c1, c2, c3, c4, c5, Bool.or_true, and_self,
        true_and]

theorem rbdl_done_loss (v : xq_device) : (rbdl_done v).ReadQ.loss = 0 := by
  unfold rbdl_done rbdl_flagged ethq_remove
  split_ifs <;> rfl

/-- C17 (loss reporting).  When an iteration of the classic receive walk completes a
descriptor (valid, not a chain descriptor, a packet queued, descriptor and buffer in
existing memory), the walk goes on and status word 1 is written to the descriptor.  If the
loss counter of the Read Queue is `n > 0`, bit 0 of the written status word 1 is set,
`stats.dropped` has grown by `n` and the loss counter is 0; if the loss counter is 0, bit 0
is clear, `stats.dropped` is unchanged and the loss counter is still 0. -/
theorem loss_reporting (i : CtlrId) (s : Sys) (f a w : Nat)
    (hd : bdl_at s.mem (s.dev i).rbdl_ba f a w)
    (hV : f &&& XQ_DSC_V ≠ 0) (hC : f &&& XQ_DSC_C = 0) (hcnt : (s.dev i).ReadQ.count ≠ 0)
    (hbuf : ∀ k, k < (rbdl_adjust (s.dev i).stats (rbdl_head (s.dev i)) (bdl_b_length f w)).2.2.1 →
      (s.mem (bdl_address f a + k)).isSome = true) :
    ∃ s1 sw1, rbdl_step i s = .next s1 ∧
      word_at s1.mem ((s.dev i).rbdl_ba + 8) = some sw1 ∧
      (0 < (s.dev i).ReadQ.loss →
        sw1.testBit 0 = true ∧
        (s1.dev i).stats.dropped = (s.dev i).stats.dropped + (s.dev i).ReadQ.loss ∧
        (s1.dev i).ReadQ.loss = 0) ∧
      ((s.dev i).ReadQ.loss = 0 →
        sw1.testBit 0 = false ∧
        (s1.dev i).stats.dropped = (s.dev i).stats.dropped ∧
        (s1.dev i).ReadQ.loss = 0) := by
  have hstep := rbdl_step_ok i s f a w hd hV hC hcnt hbuf
  have hm := (rbdl_step_mem i s f a w hd hbuf).1
  obtain ⟨b0, b1⟩ := rbdl_status_loss
    (rbdl_adjust (s.dev i).stats (rbdl_head (s.dev i)) (bdl_b_length f w)).1
    (rbdl_adjust (s.dev i).stats (rbdl_head (s.dev i)) (bdl_b_length f w)).2.1
    (rbdl_adjust (s.dev i).stats (rbdl_head (s.dev i)) (bdl_b_length f w)).2.2.1
    (s.dev i).ReadQ.loss
  have hst : ((rbdl_post i (rbdl_fetched i s f a w)).dev i).stats.dropped =
      (s.dev i).stats.dropped + (s.dev i).ReadQ.loss := by
    rw [rbdl_post_stats, rbdl_done_stats, rbdl_sw_fetched, b1, rbdl_adjust_dropped]
  have hl : ((rbdl_post i (rbdl_fetched i s f a w)).dev i).ReadQ.loss = 0 := by
    rw [rbdl_post_ReadQ, rbdl_done_loss]
  refine ⟨_, _, hstep, hm, ?_, ?_⟩
  · intro hpos
    refine ⟨?_, hst, hl⟩
    rw [b0]
    exact decide_eq_true (by omega)
  · intro h0
    refine ⟨?_, ?_, hl⟩
    · rw [b0, h0]
      rfl
    · rw [hst, h0, Nat.add_zero]

/-- Witness of C17: in the example state `rx_lossy` (three packets lost, one packet of 60
bytes queued, a valid descriptor at 0x1000) the delivery sets bit 0 of status word 1, takes
`stats.dropped` from 0 to 3 and clears the loss counter. -/
theorem loss_reporting_witness :
    ∃ s1 sw1, rbdl_step .xqa rx_lossy = .next s1 ∧
      word_at s1.mem 0x1008 = some sw1 ∧ sw1.testBit 0 = true ∧
      (s1.dev .xqa).stats.dropped = 3 ∧ (s1.dev .xqa).ReadQ.loss = 0 := by
  obtain ⟨s1, sw1, h1, h2, h3, _⟩ :=
    loss_reporting .xqa rx_lossy 0x8000 0x2000 0xFFE2
      ⟨by decide, by decide, by decide, by decide⟩ (by decide) (by decide) (by decide)
      (by decide)
  obtain ⟨h4, h5, h6⟩ := h3 (by decide)
  exact ⟨s1, sw1, h1, h2, h4, h5, h6⟩

/-! ## C18: transmit completion status -/

theorem tdr_value (len : Nat) (h : len ≤ 1518) :
    u16 (100 + len * 8) &&& 0x03FF = (100 + 8 * len) % 1024 ∧ (100 + 8 * len) % 1024 ≠ 0 := by
  have e : u16 (100 + len * 8) = 100 + 8 * len := by
    unfold u16
    omega
  have e2 : (0x03FF : Nat) = 2 ^ 10 - 1 := by norm_num
  rw [e, e2, Nat.and_pow_two_sub_one_eq_mod]
  constructor
  · norm_num
  · omega

/-- The write callback, as a function of the two status words it writes. -/
theorem xq_write_callback_eq (i : CtlrId) (status : Nat) (s : Sys) :
    ∃ (w1 : Nat) (S2 : Sys), w1 = (if status = 0 then 0 else XQ_DSC_C) ∧
      S2.mem = (xq_update_bdl_status_words s.mem (s.dev i).xbdl_ba
        [w1, u16 (100 + (s.dev i).write_buffer.len * 8) &&& 0x03FF]).2 ∧
      (S2.dev i).stats = { (s.dev i).stats with
        xmit := (s.dev i).stats.xmit + 1
        fail := (s.dev i).stats.fail + (if status = 0 then 0 else 1) } ∧
      xq_write_callback i status s =
        (if (xq_update_bdl_status_words s.mem (s.dev i).xbdl_ba
            [w1, u16 (100 + (s.dev i).write_buffer.len * 8) &&& 0x03FF]).1 ≠ 0
          then (xq_nxm_error i S2).2
          else (xq_reset_santmr i (xq_csr_set_clr i XQ_CSR_XI 0 S2)).setDev i
            { (xq_reset_santmr i (xq_csr_set_clr i XQ_CSR_XI 0 S2)).dev i with
              write_buffer :=
                { ((xq_reset_santmr i (xq_csr_set_clr i XQ_CSR_XI 0 S2)).dev i).write_buffer with
                  len := 0 } }) := by
  refine ⟨_, ({ s with mem := (xq_update_bdl_status_words s.mem (s.dev i).xbdl_ba
        [if status = 0 then 0 else XQ_DSC_C,
          u16 (100 + (s.dev i).write_buffer.len * 8) &&& 0x03FF]).2 } : Sys).setDev i
      { s.dev i with stats := { (s.dev i).stats with
          xmit := (s.dev i).stats.xmit + 1
          fail := (s.dev i).stats.fail + (if status = 0 then 0 else 1) } }, rfl, ?_, ?_, ?_⟩
  · rw [mem_setDev]
  · rw [dev_setDev_same]
  · by_cases h0 : status = 0
    · subst h0
      unfold xq_write_callback
      simp only [if_true]
      try rfl
    · unfold xq_write_callback
      simp only [if_neg h0]
      try rfl

/-- C18 (transmit completion status).  For a write buffer of `len` bytes, `0 ≤ len ≤ 1518`,
the write callback counts the transmission in `stats.xmit` and, when the status is a
failure, in `stats.fail`; `(100 + 8 * len) mod 1024` is never 0; and when the status words
of the descriptor at `xbdl_ba` are existing memory, status word 1 is written as 0 on success
and as `XQ_DSC_C` on failure and status word 2 as `(100 + 8 * len) mod 1024`. -/
theorem transmit_completion_status (i : CtlrId) (status : Nat) (s : Sys)
    (hlen : (s.dev i).write_buffer.len ≤ 1518) :
    ((xq_write_callback i status s).dev i).stats.xmit = (s.dev i).stats.xmit + 1 ∧
    ((xq_write_callback i status s).dev i).stats.fail =
      (s.dev i).stats.fail + (if status = 0 then 0 else 1) ∧
    (100 + 8 * (s.dev i).write_buffer.len) % 1024 ≠ 0 ∧
    ((∀ k, 8 ≤ k → k < 12 → (s.mem ((s.dev i).xbdl_ba + k)).isSome = true) →
      word_at (xq_write_callback i status s).mem ((s.dev i).xbdl_ba + 8) =
        some (if status = 0 then 0 else XQ_DSC_C) ∧
      word_at (xq_write_callback i status s).mem ((s.dev i).xbdl_ba + 10) =
        some ((100 + 8 * (s.dev i).write_buffer.len) % 1024)) := by
  obtain ⟨t1, t2⟩ := tdr_value (s.dev i).write_buffer.len hlen
  obtain ⟨w1, S2, hw1, m2, st2, hcb⟩ := xq_write_callback_eq i status s
  rw [t1] at m2 hcb
  have hstats : ((xq_write_callback i status s).dev i).stats = (S2.dev i).stats := by
    rw [hcb]
    split_ifs
    · exact frame_stats (xq_nxm_error_frame i S2)
    · rw [dev_setDev_same]
      obtain ⟨sn, hsn⟩ := xq_reset_santmr_dev i (xq_csr_set_clr i XQ_CSR_XI 0 S2)
      rw [hsn]
      exact (frame_stats (xq_csr_set_clr_frame i XQ_CSR_XI 0 S2) :
        ((xq_csr_set_clr i XQ_CSR_XI 0 S2).dev i).stats = (S2.dev i).stats)
  have hmem : (xq_write_callback i status s).mem = S2.mem := by
    rw [hcb]
    split_ifs
    · rw [xq_nxm_error_mem]
    · rw [mem_setDev, xq_reset_santmr_mem, xq_csr_set_clr_mem]
  refine ⟨?_, ?_, t2, ?_⟩
  · rw [hstats, st2]
  · rw [hstats, st2]
  · intro hst
    obtain ⟨_, u8, u10, _, _⟩ := xq_update_bdl_status_words_ok s.mem (s.dev i).xbdl_ba
      w1 ((100 + 8 * (s.dev i).write_buffer.len) % 1024) hst
    rw [hmem, m2, u8, u10]
    constructor
    · rw [hw1]
      split_ifs <;> rfl
    · rw [Nat.mod_eq_of_lt (by omega)]

/-- Witness of C18: in the example state `tx_done` (a frame of 60 bytes in the write buffer,
the transmit descriptor at 0x1000) a failed write is recorded as status word 1 = 0x4000 and
status word 2 = 580, and `stats.fail` is 1. -/
theorem transmit_completion_status_witness :
    ((xq_write_callback .xqa 1 tx_done).dev .xqa).stats.fail = 1 ∧
    word_at (xq_write_callback .xqa 1 tx_done).mem 0x1008 = some 0x4000 ∧
    word_at (xq_write_callback .xqa 1 tx_done).mem 0x100A = some 580 := by
  obtain ⟨_, h2, _, h4⟩ := transmit_completion_status .xqa 1 tx_done (by decide)
  obtain ⟨h5, h6⟩ := h4 (by decide)
  exact ⟨h2, h5, h6⟩

/-! ## C19: status-word write order -/

/-- C19 (status-word write order).  In the multiprocessor build, run on any guest bus that
records the `Map_WriteW` calls made on it, `xq_update_bdl_status_words (bdl_ba, stw)` has the
status and the effect on the bus that it has without the recording, and the calls it issues,
in the order in which it issues them, are: the write of status word 2 (`stw[1]`) at
`bdl_ba + 10` and then the write of status word 1 (`stw[0]`) at `bdl_ba + 8`, when the write
of status word 2 succeeds; the write of status word 2 alone, when it fails.  In that case
the function returns the status of that write, and on guest memory the two bytes of status
word 1 are as before. -/
theorem status_word_write_order {β : Type} (write : β → Nat → List Nat → Nat × β) (b : β)
    (tr : List (Nat × List Nat)) (m : Mem) (bdl_ba : Nat) (stw : List Nat) :
    (xq_update_bdl_status_words_on (traced write) (b, tr) bdl_ba stw).1 =
        (xq_update_bdl_status_words_on write b bdl_ba stw).1 ∧
    (xq_update_bdl_status_words_on (traced write) (b, tr) bdl_ba stw).2.1 =
        (xq_update_bdl_status_words_on write b bdl_ba stw).2 ∧
    ((write b (bdl_ba + 10) [stw.getD 1 0]).1 = 0 →
      (xq_update_bdl_status_words_on (traced write) (b, tr) bdl_ba stw).2.2 =
        tr ++ [(bdl_ba + 10, [stw.getD 1 0]), (bdl_ba + 8, [stw.getD 0 0])]) ∧
    ((write b (bdl_ba + 10) [stw.getD 1 0]).1 ≠ 0 →
      (xq_update_bdl_status_words_on (traced write) (b, tr) bdl_ba stw).2.2 =
        tr ++ [(bdl_ba + 10, [stw.getD 1 0])] ∧
      xq_update_bdl_status_words_on write b bdl_ba stw =
        write b (bdl_ba + 10) [stw.getD 1 0]) ∧
    ((Map_WriteW m (bdl_ba + 10) [stw.getD 1 0]).1 ≠ 0 →
      (xq_update_bdl_status_words m bdl_ba stw).1 =
        (Map_WriteW m (bdl_ba + 10) [stw.getD 1 0]).1 ∧
      (xq_update_bdl_status_words m bdl_ba stw).1 ≠ 0 ∧
      (xq_update_bdl_status_words m bdl_ba stw).2 (bdl_ba + 8) = m (bdl_ba + 8) ∧
      (xq_update_bdl_status_words m bdl_ba stw).2 (bdl_ba + 9) = m (bdl_ba + 9)) := by
  have hfail : ∀ {γ : Type} (wr : γ → Nat → List Nat → Nat × γ) (c : γ),
      (wr c (bdl_ba + 10) [stw.getD 1 0]).1 ≠ 0 →
      xq_update_bdl_status_words_on wr c bdl_ba stw = wr c (bdl_ba + 10) [stw.getD 1 0] := by
    intro γ wr c h
    unfold xq_update_bdl_status_words_on
    simp only []
    rw [if_pos h]
  have hok : ∀ {γ : Type} (wr : γ → Nat → List Nat → Nat × γ) (c : γ),
      (wr c (bdl_ba + 10) [stw.getD 1 0]).1 = 0 →
      xq_update_bdl_status_words_on wr c bdl_ba stw =
        wr (wr c (bdl_ba + 10) [stw.getD 1 0]).2 (bdl_ba + 8) [stw.getD 0 0] := by
    intro γ wr c h
    unfold xq_update_bdl_status_words_on
    simp only []
    rw [if_neg (not_not.2 h)]
  have htr : (traced write (b, tr) (bdl_ba + 10) [stw.getD 1 0]).1 =
      (write b (bdl_ba + 10) [stw.getD 1 0]).1 := rfl
  refine ⟨?_, ?_, ?_, ?_, ?_⟩
  · by_cases h : (write b (bdl_ba + 10) [stw.getD 1 0]).1 = 0
    · rw [hok (traced write) (b, tr) (by rw [htr]; exact h), hok write b h]
      rfl
    · rw [hfail (traced write) (b, tr) (by rw [htr]; exact h), hfail write b h]
      rfl
  · by_cases h : (write b (bdl_ba + 10) [stw.getD 1 0]).1 = 0
    · rw [hok (traced write) (b, tr) (by rw [htr]; exact h), hok write b h]
      rfl
    · rw [hfail (traced write) (b, tr) (by rw [htr]; exact h), hfail write b h]
      rfl
  · intro h
    rw [hok (traced write) (b, tr) (by rw [htr]; exact h)]
    show (tr ++ [(bdl_ba + 10, [stw.getD 1 0])]) ++ [(bdl_ba + 8, [stw.getD 0 0])] = _
    rw [List.append_assoc]
    rfl
  · intro h
    rw [hfail (traced write) (b, tr) (by rw [htr]; exact h), hfail write b h]
    exact ⟨rfl, rfl⟩
  · intro h
    have e2 : xq_update_bdl_status_words m bdl_ba stw =
        Map_WriteW m (bdl_ba + 10) [stw.getD 1 0] := hfail Map_WriteW m h
    have out : ∀ x, x < bdl_ba + 10 → (Map_WriteW m (bdl_ba + 10) [stw.getD 1 0]).2 x = m x := by
      intro x hx
      unfold Map_WriteW
      exact Map_WriteB_outside _ _ _ _ (Or.inl hx)
    exact ⟨by rw [e2], by rw [e2]; exact h, by rw [e2]; exact out _ (by omega),
      by rw [e2]; exact out _ (by omega)⟩

/-- Witness of C19 on guest memory with its calls recorded.  Over the example memory
`list_mem` the two writes for the descriptor at 0x1000 are issued, status word 2 first; over
the example memory `short_mem`, where status word 2 of the descriptor at 0x1000 is
non-existent memory, the write of status word 2 is the only call, the function returns its
error, and the bytes of status word 1 are as before. -/
theorem status_word_write_order_witness :
    (xq_update_bdl_status_words_on (traced Map_WriteW) (list_mem, []) 0x1000 [5, 7]).2.2 =
      [(0x100A, [7]), (0x1008, [5])] ∧
    (xq_update_bdl_status_words_on (traced Map_WriteW) (short_mem, []) 0x1000 [5, 7]).2.2 =
      [(0x100A, [7])] ∧
    (xq_update_bdl_status_words short_mem 0x1000 [5, 7]).1 ≠ 0 ∧
    (xq_update_bdl_status_words short_mem 0x1000 [5, 7]).2 0x1008 = short_mem 0x1008 := by
  obtain ⟨_, _, h3, _, _⟩ :=
    status_word_write_order Map_WriteW list_mem [] list_mem 0x1000 [5, 7]
  obtain ⟨_, _, _, h4, h5⟩ :=
    status_word_write_order Map_WriteW short_mem [] short_mem 0x1000 [5, 7]
  obtain ⟨_, c, d, _⟩ := h5 (by decide)
  exact ⟨h3 (by decide), (h4 (by decide)).1, c, d⟩

/-! ## C16: Read Queue overflow -/

theorem getD_set_other (l : List eth_item) (n k : Nat) (a d : eth_item) (h : k ≠ n) :
    (l.set n a).getD k d = l.getD k d := by
  simp [List.getD_eq_getElem?_getD, List.getElem?_set, Ne.symm h]

theorem succ_mod_step (x M : Nat) (hM : 0 < M) :
    (if x % M + 1 = M then 0 else x % M + 1) = (x + 1) % M := by
  have hlt : x % M < M := Nat.mod_lt _ hM
  by_cases h1 : M = 1
  · subst h1
    simp [Nat.mod_one]
  · have e1 : 1 % M = 1 := Nat.mod_eq_of_lt (by omega)
    have key : (x + 1) % M = (x % M + 1) % M := by rw [Nat.add_mod, e1]
    rw [key]
    split_ifs with h
    · rw [h, Nat.mod_self]
    · exact (Nat.mod_eq_of_lt (show x % M + 1 < M by omega)).symm

theorem memcpy_length (dst : List Nat) (off : Nat) (src : List Nat) (n : Nat) :
    (memcpy dst off src n).length = dst.length := by
  unfold memcpy
  simp

theorem memcpy_bytes (dst src : List Nat) (n len : Nat) (h1 : len ≤ n) (h2 : len ≤ dst.length) :
    bytes_at (memcpy dst 0 src n) 0 len = bytes_at src 0 len := by
  unfold bytes_at
  apply List.map_congr_left
  intro k hk
  have hk1 : k < len := by simpa using hk
  unfold memcpy
  rw [List.getD_eq_getElem _ _ (by simp; omega)]
  simp
  intro h
  omega

/-- The index at which `ethq_insert_data` stores, and the fields it leaves. -/
theorem ethq_insert_data_fields (que : eth_queue) (type : Nat) (data : List Nat)
    (used len crc_len status : Nat) (hwf : ethq_wf que) :
    ∃ T : Nat, T = (if que.count = 0 then 0 else (que.head + que.count) % que.max) ∧ T < que.max ∧
      (ethq_insert_data que type data used len crc_len status).tail = (T : Int) ∧
      (ethq_insert_data que type data used len crc_len status).item = que.item.set T
        { type := type
          packet :=
            { msg := memcpy (que.item.getD T eth_item_zero).packet.msg 0 data
                (if crc_len < len then len else crc_len)
              len := len, used := used, crc_len := crc_len, status := status } } ∧
      (ethq_insert_data que type data used len crc_len status).max = que.max ∧
      (ethq_insert_data que type data used len crc_len status).count =
        (if que.count = que.max then que.max else que.count + 1) ∧
      (ethq_insert_data que type data used len crc_len status).loss =
        (if que.count = que.max then que.loss + 1 else que.loss) ∧
      (ethq_insert_data que type data used len crc_len status).head =
        (if que.count = que.max then (que.head + 1) % que.max
          else if que.count = 0 then 0 else que.head) := by
  obtain ⟨hM, hlen, hcnt, hhead, hmsg, htail⟩ := hwf
  have hover : que.max < que.count + 1 ↔ que.count = que.max := by omega
  have hh1 : (if que.head + 1 = que.max then 0 else que.head + 1) = (que.head + 1) % que.max := by
    have := succ_mod_step que.head que.max hM
    rwa [Nat.mod_eq_of_lt hhead] at this
  by_cases hc0 : que.count = 0
  · have hne : ¬ que.count = que.max := by omega
    have ht : (if (-1 : Int) + 1 = (que.max : Int) then (0 : Int) else -1 + 1) = ((0 : Nat) : Int) := by
      split_ifs <;> rfl
    refine ⟨0, by rw [if_pos hc0], hM, ?_, ?_, rfl, ?_, ?_, ?_⟩
    · unfold ethq_insert_data
      simp only [hc0, if_true, ht]
    · unfold ethq_insert_data
      simp only [hc0, if_true, ht, Int.toNat_ofNat]
    · unfold ethq_insert_data
      simp only [hover, hne, if_false]
    · unfold ethq_insert_data
      simp only [hover, hne, if_false]
    · unfold ethq_insert_data
      simp only []
      split_ifs <;> first | rfl | omega
  · have hpos : 0 < que.count := Nat.pos_of_ne_zero hc0
    have htl := htail hpos
    have ht : (if que.tail + 1 = (que.max : Int) then (0 : Int) else que.tail + 1) =
        (((que.head + que.count) % que.max : Nat) : Int) := by
      have e := succ_mod_step (que.head + que.count - 1) que.max hM
      have e2 : que.head + que.count - 1 + 1 = que.head + que.count := by omega
      rw [e2] at e
      rw [← e, htl]
      split_ifs with h1 h2 h2
      · rfl
      · exact absurd (by exact_mod_cast h1) h2
      · exact absurd (by exact_mod_cast h2) h1
      · push_cast; rfl
    refine ⟨(que.head + que.count) % que.max, by rw [if_neg hc0], Nat.mod_lt _ hM, ?_, ?_, rfl, ?_, ?_, ?_⟩
    · unfold ethq_insert_data
      simp only [hc0, if_false, ht]
    · unfold ethq_insert_data
      simp only [hc0, if_false, ht, Int.toNat_ofNat]
    · unfold ethq_insert_data
      simp only [hover]
    · unfold ethq_insert_data
      simp only [hover]
    · unfold ethq_insert_data
      simp only [hover, hc0, if_false, hh1]

theorem mod_add_ne (a j M : Nat) (hj0 : 0 < j) (hjM : j < M) : (a + j) % M ≠ a % M := by
  intro h
  have h1 : a + j ≡ a + 0 [MOD M] := h
  have h2 : j ≡ 0 [MOD M] := Nat.ModEq.add_left_cancel' a h1
  have h3 : M ∣ j := (Nat.modEq_zero_iff_dvd).1 h2
  have := Nat.le_of_dvd hj0 h3
  omega

theorem map_range_snoc (f : Nat → eth_item) (n : Nat) :
    (List.range (n + 1)).map f = (List.range n).map f ++ [f n] := by
  rw [List.range_succ, List.map_append]
  rfl

theorem map_range_tail (f : Nat → eth_item) (n : Nat) :
    ((List.range (n + 1)).map f).tail = (List.range n).map fun k => f (k + 1) := by
  rw [List.range_succ_eq_map]
  simp [List.map_map, Function.comp]

/-- What `ethq_insert_data` does to a Read Queue in use, as a list of items. -/
theorem ethq_insert_data_list (que : eth_queue) (type : Nat) (data : List Nat)
    (used len crc_len status : Nat) (hwf : ethq_wf que) (hlen : len ≤ ETH_FRAME_SIZE) :
    ethq_wf (ethq_insert_data que type data used len crc_len status) ∧
    (ethq_newest (ethq_insert_data que type data used len crc_len status)).type = type ∧
    (ethq_newest (ethq_insert_data que type data used len crc_len status)).packet.len = len ∧
    (ethq_newest (ethq_insert_data que type data used len crc_len status)).packet.used = used ∧
    bytes_at (ethq_newest (ethq_insert_data que type data used len crc_len status)).packet.msg 0 len =
      bytes_at data 0 len ∧
    (que.count = que.max →
      (ethq_insert_data que type data used len crc_len status).count = que.max ∧
      (ethq_insert_data que type data used len crc_len status).head = (que.head + 1) % que.max ∧
      (ethq_insert_data que type data used len crc_len status).loss = que.loss + 1 ∧
      ethq_list (ethq_insert_data que type data used len crc_len status) =
        (ethq_list que).tail ++ [ethq_newest (ethq_insert_data que type data used len crc_len status)]) ∧
    (que.count < que.max →
      (ethq_insert_data que type data used len crc_len status).count = que.count + 1 ∧
      (ethq_insert_data que type data used len crc_len status).loss = que.loss ∧
      ethq_list (ethq_insert_data que type data used len crc_len status) =
        ethq_list que ++ [ethq_newest (ethq_insert_data que type data used len crc_len status)]) := by
  obtain ⟨T, hT, hTM, qtail, qitem, qmax, qcount, qloss, qhead⟩ :=
    ethq_insert_data_fields que type data used len crc_len status hwf
  obtain ⟨hM, hlenI, hcnt, hhead, hmsg, htail⟩ := hwf
  obtain ⟨q, hq⟩ : ∃ q, ethq_insert_data que type data used len crc_len status = q := ⟨_, rfl⟩
  rw [hq] at qtail qitem qmax qcount qloss qhead ⊢
  obtain ⟨nw, hnw⟩ : ∃ nw : eth_item, nw =
      { type := type
        packet :=
          { msg := memcpy (que.item.getD T eth_item_zero).packet.msg 0 data
              (if crc_len < len then len else crc_len)
            len := len, used := used, crc_len := crc_len, status := status } } := ⟨_, rfl⟩
  rw [← hnw] at qitem
  have hTl : T < que.item.length := by rw [hlenI]; exact hTM
  have hold : (que.item.getD T eth_item_zero).packet.msg.length = ETH_FRAME_SIZE := by
    rw [List.getD_eq_getElem _ _ hTl]
    exact hmsg _ (List.getElem_mem _)
  have hnew : ethq_newest q = nw := by
    unfold ethq_newest
    rw [qtail, qitem, Int.toNat_ofNat, getD_set_same _ _ _ _ hTl]
  have hg : ∀ k, k ≠ T → q.item.getD k eth_item_zero = que.item.getD k eth_item_zero := by
    intro k hk
    rw [qitem, getD_set_other _ _ _ _ _ hk]
  have hgT : q.item.getD T eth_item_zero = nw := by
    rw [qitem, getD_set_same _ _ _ _ hTl]
  refine ⟨?_, ?_, ?_, ?_, ?_, ?_, ?_⟩
  · refine ⟨by rw [qmax]; exact hM, by rw [qitem, List.length_set, qmax]; exact hlenI, ?_, ?_, ?_, ?_⟩
    · rw [qcount, qmax]; split_ifs <;> omega
    · rw [qhead, qmax]
      split_ifs
      · exact Nat.mod_lt _ hM
      · exact hM
      · exact hhead
    · intro it hit
      rw [qitem] at hit
      rcases List.mem_or_eq_of_mem_set hit with h1 | h1
      · exact hmsg _ h1
      · rw [h1, hnw]
        simp only [memcpy_length, hold]
    · intro _
      rw [qtail, qhead, qcount, qmax, hT]
      congr 1
      by_cases hf : que.count = que.max
      · have hc0 : ¬ que.count = 0 := by omega
        rw [if_pos hf, if_pos hf, if_neg hc0, hf]
        have e1 : (que.head + 1) % que.max + que.max - 1 = (que.head + 1) % que.max + (que.max - 1) := by
          omega
        rw [e1, Nat.mod_add_mod]
        congr 1
        omega
      · rw [if_neg hf, if_neg hf]
        by_cases hc0 : que.count = 0
        · rw [if_pos hc0, if_pos hc0, hc0]
          simp
        · rw [if_neg hc0, if_neg hc0]
          congr 1
  · rw [hnew, hnw]
  · rw [hnew, hnw]
  · rw [hnew, hnw]
  · rw [hnew, hnw]
    exact memcpy_bytes _ _ _ _ (by split_ifs <;> omega) (by rw [hold]; exact hlen)
  · intro hf
    have hc0 : ¬ que.count = 0 := by omega
    rw [if_neg hc0] at hT
    have hTh : T = que.head := by
      rw [hT, hf, Nat.add_mod_right, Nat.mod_eq_of_lt hhead]
    refine ⟨by rw [qcount, if_pos hf], by rw [qhead, if_pos hf], by rw [qloss, if_pos hf], ?_⟩
    obtain ⟨m, hm⟩ : ∃ m, que.max = m + 1 := ⟨que.max - 1, by omega⟩
    unfold ethq_list
    rw [qcount, if_pos hf, qhead, if_pos hf, qmax, hf, hm, map_range_snoc, map_range_tail]
    congr 1
    · apply List.map_congr_left
      intro k hk
      have hk1 : k < m := by simpa using hk
      rw [← hm, Nat.mod_add_mod]
      have e : que.head + 1 + k = que.head + (k + 1) := by omega
      rw [e]
      apply hg
      rw [hTh]
      have := mod_add_ne que.head (k + 1) que.max (by omega) (by omega)
      rwa [Nat.mod_eq_of_lt hhead] at this
    · rw [← hm, Nat.mod_add_mod, hnew]
      have e : que.head + 1 + m = que.head + que.max := by omega
      rw [e, Nat.add_mod_right, Nat.mod_eq_of_lt hhead, ← hTh, hgT]
  · intro hlt
    have hf : ¬ que.count = que.max := by omega
    refine ⟨by rw [qcount, if_neg hf], by rw [qloss, if_neg hf], ?_⟩
    unfold ethq_list
    rw [qcount, if_neg hf, qhead, if_neg hf, qmax, map_range_snoc]
    by_cases hc0 : que.count = 0
    · rw [if_pos hc0] at hT
      rw [if_pos hc0, hc0]
      simp only [List.range_zero, List.map_nil, List.nil_append, Nat.zero_add, Nat.add_zero]
      rw [Nat.zero_mod, ← hT, hgT, hnew]
    · rw [if_neg hc0] at hT
      rw [if_neg hc0]
      congr 1
      · apply List.map_congr_left
        intro k hk
        have hk1 : k < que.count := by simpa using hk
        apply hg
        rw [hT]
        have := mod_add_ne (que.head + k) (que.count - k) que.max (by omega) (by omega)
        have e : que.head + k + (que.count - k) = que.head + que.count := by omega
        rw [e] at this
        exact this.symm
      · rw [← hT, hgT, hnew]

/-- C16 (Read Queue overflow).  For a Read Queue in use (capacity `max > 0`, `count` items
from `head` to `tail`) and a packet of at most `ETH_FRAME_SIZE` bytes, `ethq_insert_data`
leaves a queue in use whose newest item, the one at the new `tail`, has the given type,
length and `used` count and the `len` bytes of the data.  If the queue holds `count = max`
items, `count` stays `max`, `head` advances by one modulo `max`, `loss` grows by 1, and the
items held are the former ones without the oldest, in order, followed by the new item.  If
`count < max`, `count` grows by 1, `loss` is unchanged, and the items held are the former
ones, in order, followed by the new item. -/
theorem read_queue_insert (que : eth_queue) (type : Nat) (data : List Nat)
    (used len crc_len status : Nat) (hwf : ethq_wf que) (hlen : len ≤ ETH_FRAME_SIZE) :
    ethq_wf (ethq_insert_data que type data used len crc_len status) ∧
    (ethq_newest (ethq_insert_data que type data used len crc_len status)).type = type ∧
    (ethq_newest (ethq_insert_data que type data used len crc_len status)).packet.len = len ∧
    (ethq_newest (ethq_insert_data que type data used len crc_len status)).packet.used = used ∧
    bytes_at (ethq_newest (ethq_insert_data que type data used len crc_len status)).packet.msg 0 len =
      bytes_at data 0 len ∧
    (que.count = que.max →
      (ethq_insert_data que type data used len crc_len status).count = que.max ∧
      (ethq_insert_data que type data used len crc_len status).head = (que.head + 1) % que.max ∧
      (ethq_insert_data que type data used len crc_len status).loss = que.loss + 1 ∧
      ethq_list (ethq_insert_data que type data used len crc_len status) =
        (ethq_list que).tail ++ [ethq_newest (ethq_insert_data que type data used len crc_len status)]) ∧
    (que.count < que.max →
      (ethq_insert_data que type data used len crc_len status).count = que.count + 1 ∧
      (ethq_insert_data que type data used len crc_len status).loss = que.loss ∧
      ethq_list (ethq_insert_data que type data used len crc_len status) =
        ethq_list que ++ [ethq_newest (ethq_insert_data que type data used len crc_len status)]) :=
  ethq_insert_data_list que type data used len crc_len status hwf hlen

/-- Witness of C16: the example queue `full_queue` of capacity 2 holds 2 items, the oldest
at index 1; an insert leaves the count at 2, moves `head` to index 0 and counts one loss. -/
theorem read_queue_insert_witness :
    (ethq_insert_data full_queue 2 rx_msg 0 60 0 0).count = 2 ∧
    (ethq_insert_data full_queue 2 rx_msg 0 60 0 0).head = 0 ∧
    (ethq_insert_data full_queue 2 rx_msg 0 60 0 0).loss = 1 ∧
    (ethq_newest (ethq_insert_data full_queue 2 rx_msg 0 60 0 0)).packet.len = 60 := by
  have hwf : ethq_wf full_queue := by
    refine ⟨by decide, by decide, by decide, by decide, ?_, fun _ => by decide⟩
    intro it hit
    simp only [full_queue, List.mem_cons, List.mem_singleton, List.not_mem_nil, or_false] at hit
    rcases hit with h | h <;> rw [h] <;> simp [eth_item_zero]
  obtain ⟨_, _, h3, _, _, h6, _⟩ :=
    read_queue_insert full_queue 2 rx_msg 0 60 0 0 hwf (by decide)
  obtain ⟨h7, h8, h9, _⟩ := h6 (by decide)
  exact ⟨h7, h8, h9, h3⟩

/-! ## C13: loopback and setup routing -/

theorem xbdl_done_ReadQ (i : CtlrId) (s : Sys) :
    ((xbdl_done i s).dev i).ReadQ = (s.dev i).ReadQ := by
  unfold xbdl_done
  obtain ⟨sn, hsn⟩ := xq_reset_santmr_dev i
    (s.setDev i { s.dev i with write_buffer := { (s.dev i).write_buffer with len := 0 } })
  rw [dev_setDev_same] at hsn
  have hf := xq_csr_set_clr_frame i XQ_CSR_XI 0 (xq_reset_santmr i
    (s.setDev i { s.dev i with write_buffer := { (s.dev i).write_buffer with len := 0 } }))
  rw [hsn] at hf
  rw [frame_ReadQ hf]

theorem XI_after_set (c : Nat) : ((c ||| u16 XQ_CSR_XI) &&& not16 0) &&& XQ_CSR_XI ≠ 0 := by
  have e : XQ_CSR_XI = 2 ^ 7 := rfl
  rw [e, and_two_pow_ne_zero_iff, Nat.testBit_and, Nat.testBit_or, testBit_not16, testBit_u16,
    Nat.testBit_two_pow]
  simp

/-- The part of the end-of-message branch that follows the insertion into the Read Queue
(pdp11_xq.cpp:1566-1579), from the state `Q` in which the packet is queued, when the status
words of the descriptor are existing memory. -/
theorem xbdl_eom_tail (K : Collab) (fuel : Nat) (i : CtlrId) (Q : Sys)
    (hst : ∀ k, 8 ≤ k → k < 12 → (Q.mem ((Q.dev i).xbdl_ba + k)).isSome = true) :
    ∃ D, D = xbdl_done i { Q with mem := (xq_update_bdl_status_words Q.mem (Q.dev i).xbdl_ba [0, 1]).2 } ∧
      (if (xq_update_bdl_status_words Q.mem (Q.dev i).xbdl_ba [0, 1]).1 ≠ 0 then
          some (Walk.ret
            (xq_nxm_error i
              { Q with mem := (xq_update_bdl_status_words Q.mem (Q.dev i).xbdl_ba [0, 1]).2 }).1
            (xq_nxm_error i
              { Q with mem := (xq_update_bdl_status_words Q.mem (Q.dev i).xbdl_ba [0, 1]).2 }).2)
        else if ((xbdl_done i
            { Q with mem := (xq_update_bdl_status_words Q.mem (Q.dev i).xbdl_ba [0, 1]).2 }).dev i).csr
              &&& XQ_CSR_RL = 0 then
          (xq_process_rbdl K fuel i (xbdl_done i
            { Q with mem := (xq_update_bdl_status_words Q.mem (Q.dev i).xbdl_ba [0, 1]).2 })).map
              fun r => Walk.next r.2
        else some (Walk.next (xbdl_done i
            { Q with mem := (xq_update_bdl_status_words Q.mem (Q.dev i).xbdl_ba [0, 1]).2 }))) =
        (if (D.dev i).csr &&& XQ_CSR_RL = 0 then
          (xq_process_rbdl K fuel i D).map fun r => Walk.next r.2
        else some (Walk.next D)) ∧
      (D.dev i).ReadQ = (Q.dev i).ReadQ ∧
      word_at D.mem ((Q.dev i).xbdl_ba + 8) = some 0 ∧
      word_at D.mem ((Q.dev i).xbdl_ba + 10) = some 1 ∧
      (D.dev i).write_buffer.len = 0 ∧ (D.dev i).csr &&& XQ_CSR_XI ≠ 0 := by
  obtain ⟨u0, u8, u10, _, _⟩ := xq_update_bdl_status_words_ok Q.mem (Q.dev i).xbdl_ba 0 1 hst
  obtain ⟨d1, d2, _, d4, d5⟩ := xbdl_done_props i
    ({ Q with mem := (xq_update_bdl_status_words Q.mem (Q.dev i).xbdl_ba [0, 1]).2 } : Sys)
  have d6 := xbdl_done_ReadQ i
    ({ Q with mem := (xq_update_bdl_status_words Q.mem (Q.dev i).xbdl_ba [0, 1]).2 } : Sys)
  simp only [dev_set_mem2] at d2 d5 d6
  refine ⟨_, rfl, ?_, d6, ?_, ?_, d4, ?_⟩
  · rw [if_neg (not_not.2 u0)]
  · rw [d1]; exact u8
  · rw [d1]; exact u10
  · rw [d5]; exact XI_after_set _

/-- The end-of-message branch for a frame that is routed internally, when the status words
of the descriptor are existing memory: the frame is queued with type `ty`, the status words
are written, and the branch ends with the state `D` or hands `D` to the receive walk. -/
theorem xbdl_eom_internal (K : Collab) (fuel : Nat) (i : CtlrId) (s : Sys) (r : Nat × Sys)
    (hint : (s.dev i).xbdl_buf.get 1 &&& XQ_DSC_S ≠ 0 ∨
      ((s.dev i).csr &&& XQ_CSR_RE = 0 ∧
        ((s.dev i).csr &&& XQ_CSR_IL = 0 ∨ (s.dev i).csr &&& XQ_CSR_EL ≠ 0)))
    (hr : if (s.dev i).xbdl_buf.get 1 &&& XQ_DSC_S ≠ 0 then K.xq_process_setup i s = some r
      else r = (0, s))
    (hst : ∀ k, 8 ≤ k → k < 12 → (r.2.mem ((r.2.dev i).xbdl_ba + k)).isSome = true) :
    ∃ D,
      xbdl_eom K fuel i s =
        (if (D.dev i).csr &&& XQ_CSR_RL = 0 then
          (xq_process_rbdl K fuel i D).map fun q => Walk.next q.2
        else some (Walk.next D)) ∧
      (∀ K1 : Collab, K1.xq_process_setup = K.xq_process_setup →
        xbdl_eom K1 fuel i s =
          (if (D.dev i).csr &&& XQ_CSR_RL = 0 then
            (xq_process_rbdl K1 fuel i D).map fun q => Walk.next q.2
          else some (Walk.next D))) ∧
      (D.dev i).ReadQ = ethq_insert (r.2.dev i).ReadQ
        (if (s.dev i).xbdl_buf.get 1 &&& XQ_DSC_S ≠ 0 then 0 else 1) (r.2.dev i).write_buffer r.1 ∧
      word_at D.mem ((r.2.dev i).xbdl_ba + 8) = some 0 ∧
      word_at D.mem ((r.2.dev i).xbdl_ba + 10) = some 1 ∧
      (D.dev i).write_buffer.len = 0 ∧ (D.dev i).csr &&& XQ_CSR_XI ≠ 0 := by
  have hint1 : ((s.dev i).csr &&& XQ_CSR_RE = 0 ∧
        ((s.dev i).csr &&& XQ_CSR_IL = 0 ∨ (s.dev i).csr &&& XQ_CSR_EL ≠ 0)) ∨
      (s.dev i).xbdl_buf.get 1 &&& XQ_DSC_S ≠ 0 := hint.symm
  obtain ⟨Q, hQ⟩ : ∃ Q, r.2.setDev i { r.2.dev i with
      ReadQ := ethq_insert (r.2.dev i).ReadQ
        (if (s.dev i).xbdl_buf.get 1 &&& XQ_DSC_S ≠ 0 then 0 else 1) (r.2.dev i).write_buffer r.1 } = Q :=
    ⟨_, rfl⟩
  have q1 : Q.mem = r.2.mem := by rw [← hQ, mem_setDev]
  have q2 : (Q.dev i).xbdl_ba = (r.2.dev i).xbdl_ba := by rw [← hQ, dev_setDev_same]
  have q3 : (Q.dev i).ReadQ = ethq_insert (r.2.dev i).ReadQ
      (if (s.dev i).xbdl_buf.get 1 &&& XQ_DSC_S ≠ 0 then 0 else 1) (r.2.dev i).write_buffer r.1 := by
    rw [← hQ, dev_setDev_same]
  have hstQ : ∀ k, 8 ≤ k → k < 12 → (Q.mem ((Q.dev i).xbdl_ba + k)).isSome = true := by
    intro k h8 h12
    rw [q1, q2]
    exact hst k h8 h12
  have hform : ∀ K1 : Collab, K1.xq_process_setup = K.xq_process_setup →
      xbdl_eom K1 fuel i s =
        (if (xq_update_bdl_status_words Q.mem (Q.dev i).xbdl_ba [0, 1]).1 ≠ 0 then
          some (Walk.ret
            (xq_nxm_error i
              { Q with mem := (xq_update_bdl_status_words Q.mem (Q.dev i).xbdl_ba [0, 1]).2 }).1
            (xq_nxm_error i
              { Q with mem := (xq_update_bdl_status_words Q.mem (Q.dev i).xbdl_ba [0, 1]).2 }).2)
        else if ((xbdl_done i
            { Q with mem := (xq_update_bdl_status_words Q.mem (Q.dev i).xbdl_ba [0, 1]).2 }).dev i).csr
              &&& XQ_CSR_RL = 0 then
          (xq_process_rbdl K1 fuel i (xbdl_done i
            { Q with mem := (xq_update_bdl_status_words Q.mem (Q.dev i).xbdl_ba [0, 1]).2 })).map
              fun r => Walk.next r.2
        else some (Walk.next (xbdl_done i
            { Q with mem := (xq_update_bdl_status_words Q.mem (Q.dev i).xbdl_ba [0, 1]).2 }))) := by
    intro K1 hK1
    unfold xbdl_eom
    simp only []
    rw [if_pos hint1]
    by_cases hS : (s.dev i).xbdl_buf.get 1 &&& XQ_DSC_S ≠ 0
    · rw [if_pos hS] at hr hQ
      rw [if_pos hS, hK1, hr]
      simp only [Option.map_some', Option.some_bind]
      rw [hQ]
    · rw [if_neg hS] at hr hQ
      subst hr
      rw [if_neg hS]
      simp only [Option.some_bind]
      rw [hQ]
  obtain ⟨D, hD, heq, dq, d8, d10, dl, dx⟩ := xbdl_eom_tail K fuel i Q hstQ
  refine ⟨D, ?_, ?_, dq.trans q3, by rw [← q2]; exact d8, by rw [← q2]; exact d10, dl, dx⟩
  · rw [hform K rfl]
    exact heq
  · intro K1 hK1
    obtain ⟨D1, hD1, heq1, _⟩ := xbdl_eom_tail K1 fuel i Q hstQ
    rw [hform K1 hK1, heq1, hD1, hD]

/-- C13 (loopback and setup routing).  At an end-of-message transmit descriptor the frame is
routed internally exactly when the setup flag S of the descriptor is set, or CSR.RE is clear
and CSR.IL is clear or CSR.EL is set.  Here `r` is the result of setup processing when S is
set and the state itself otherwise, the Read Queue is in use, the frame has at most
`ETH_FRAME_SIZE` bytes and the status words of the descriptor are existing memory.  In the
internal case the branch does not depend on `eth_write` or `eth_read`; it reaches a state
`D` in which the frame is the newest item of the Read Queue, with type 0 for a setup packet
and type 1 otherwise and with the bytes of the write buffer, the status words of the
descriptor are 0 and 1, the length of the write buffer is 0 and CSR.XI is set; from `D` the
branch goes on, after the receive walk when CSR.RL is clear.  In the other case the state is
handed as it is to `eth_write`, and the write callback is run with a failure when `eth_write`
does not return `SCPE_OK`. -/
theorem loopback_setup_routing (K : Collab) (fuel : Nat) (i : CtlrId) (s : Sys) (r : Nat × Sys)
    (hr : if (s.dev i).xbdl_buf.get 1 &&& XQ_DSC_S ≠ 0 then K.xq_process_setup i s = some r
      else r = (0, s))
    (hwf : ethq_wf (r.2.dev i).ReadQ) (hlen : (r.2.dev i).write_buffer.len ≤ ETH_FRAME_SIZE)
    (hst : ∀ k, 8 ≤ k → k < 12 → (r.2.mem ((r.2.dev i).xbdl_ba + k)).isSome = true) :
    (((s.dev i).xbdl_buf.get 1 &&& XQ_DSC_S ≠ 0 ∨
        ((s.dev i).csr &&& XQ_CSR_RE = 0 ∧
          ((s.dev i).csr &&& XQ_CSR_IL = 0 ∨ (s.dev i).csr &&& XQ_CSR_EL ≠ 0))) →
      ∃ D,
        xbdl_eom K fuel i s =
          (if (D.dev i).csr &&& XQ_CSR_RL = 0 then
            (xq_process_rbdl K fuel i D).map fun q => Walk.next q.2
          else some (Walk.next D)) ∧
        (∀ K1 : Collab, K1.xq_process_setup = K.xq_process_setup →
          K1.xq_process_turbo_rbdl = K.xq_process_turbo_rbdl →
          xbdl_eom K1 fuel i s = xbdl_eom K fuel i s) ∧
        (D.dev i).ReadQ = ethq_insert (r.2.dev i).ReadQ
          (if (s.dev i).xbdl_buf.get 1 &&& XQ_DSC_S ≠ 0 then 0 else 1)
          (r.2.dev i).write_buffer r.1 ∧
        (ethq_newest (D.dev i).ReadQ).type =
          (if (s.dev i).xbdl_buf.get 1 &&& XQ_DSC_S ≠ 0 then 0 else 1) ∧
        (ethq_newest (D.dev i).ReadQ).packet.len = (r.2.dev i).write_buffer.len ∧
        bytes_at (ethq_newest (D.dev i).ReadQ).packet.msg 0 (r.2.dev i).write_buffer.len =
          bytes_at (r.2.dev i).write_buffer.msg 0 (r.2.dev i).write_buffer.len ∧
        word_at D.mem ((r.2.dev i).xbdl_ba + 8) = some 0 ∧
        word_at D.mem ((r.2.dev i).xbdl_ba + 10) = some 1 ∧
        (D.dev i).write_buffer.len = 0 ∧ (D.dev i).csr &&& XQ_CSR_XI ≠ 0) ∧
    (¬ ((s.dev i).xbdl_buf.get 1 &&& XQ_DSC_S ≠ 0 ∨
        ((s.dev i).csr &&& XQ_CSR_RE = 0 ∧
          ((s.dev i).csr &&& XQ_CSR_IL = 0 ∨ (s.dev i).csr &&& XQ_CSR_EL ≠ 0))) →
      xbdl_eom K fuel i s =
        (K.eth_write i s).bind fun q =>
          if q.1 ≠ SCPE_OK then some (Walk.next (xq_write_callback i 1 q.2))
          else if (q.2.dev i).coalesce_latency = 0 then
            (xq_svc_ex K fuel i q.2).map fun r1 => Walk.next r1.2
          else some (Walk.next q.2)) := by
  constructor
  · intro hint
    obtain ⟨D, h1, h2, h3, h4, h5, h6, h7⟩ := xbdl_eom_internal K fuel i s r hint hr hst
    obtain ⟨_, n2, n3, _, n5, _, _⟩ := read_queue_insert (r.2.dev i).ReadQ
      (if (s.dev i).xbdl_buf.get 1 &&& XQ_DSC_S ≠ 0 then 0 else 1)
      (r.2.dev i).write_buffer.msg (r.2.dev i).write_buffer.used (r.2.dev i).write_buffer.len
      (r.2.dev i).write_buffer.crc_len r.1 hwf hlen
    refine ⟨D, h1, ?_, h3, ?_, ?_, ?_, h4, h5, h6, h7⟩
    · intro K1 e1 e2
      have e3 : xq_process_rbdl K1 fuel i D = xq_process_rbdl K fuel i D := by
        unfold xq_process_rbdl
        rw [e2]
      rw [h2 K1 e1, h1, e3]
    · rw [h3]; exact n2
    · rw [h3]; exact n3
    · rw [h3]; exact n5
  · intro hext
    have hext1 : ¬ (((s.dev i).csr &&& XQ_CSR_RE = 0 ∧
          ((s.dev i).csr &&& XQ_CSR_IL = 0 ∨ (s.dev i).csr &&& XQ_CSR_EL ≠ 0)) ∨
        (s.dev i).xbdl_buf.get 1 &&& XQ_DSC_S ≠ 0) := fun h => hext h.symm
    unfold xbdl_eom
    simp only []
    rw [if_neg hext1]

/-! ## C15: setup address de-interleaving -/

theorem getD_getD_set (l : List Nat) (b x b1 : Nat) (hb : b < l.length) :
    (l.set b x).getD b1 0 = if b1 = b then x else l.getD b1 0 := by
  simp only [List.getD_eq_getElem?_getD, List.getElem?_set]
  by_cases h : b1 = b
  · subst h
    simp [hb]
  · have h1 : ¬ b = b1 := fun e => h e.symm
    simp [h, h1]

theorem mac_set_get (macs : List (List Nat)) (a b x a1 b1 : Nat) (ha : a < macs.length)
    (hb : b < (macs.getD a []).length) :
    ((mac_set macs a b x).getD a1 []).getD b1 0 =
      if a1 = a ∧ b1 = b then x else (macs.getD a1 []).getD b1 0 := by
  unfold mac_set
  by_cases h : a1 = a
  · subst h
    have e : (macs.set a1 ((macs.getD a1 []).set b x)).getD a1 [] = (macs.getD a1 []).set b x := by
      simp [List.getD_eq_getElem?_getD, List.getElem?_set, ha]
    rw [e, getD_getD_set _ _ _ _ hb]
    simp
  · have h1 : ¬ a = a1 := fun e => h e.symm
    have e : (macs.set a ((macs.getD a []).set b x)).getD a1 [] = macs.getD a1 [] := by
      simp [List.getD_eq_getElem?_getD, List.getElem?_set, h1]
    rw [e]
    simp [h]

theorem mac_set_shape (macs : List (List Nat)) (a b x : Nat) :
    (mac_set macs a b x).length = macs.length ∧
    ∀ a1, ((mac_set macs a b x).getD a1 []).length = (macs.getD a1 []).length := by
  unfold mac_set
  refine ⟨by simp, ?_⟩
  intro a1
  by_cases h : a = a1
  · subst h
    by_cases ha : a < macs.length
    · simp [List.getD_eq_getElem?_getD, List.getElem?_set, ha]
    · have hn : macs[a]? = none := List.getElem?_eq_none (by omega)
      simp [List.getD_eq_getElem?_getD, List.getElem?_set, ha, hn]
  · simp [List.getD_eq_getElem?_getD, List.getElem?_set, h]

/-- The body of the extraction loops on an array of 14 addresses of 6 bytes. -/
theorem setup_extract_body_get (msg : List Nat) (long : Bool) (macs : List (List Nat)) (i j : Nat)
    (hi : i < 7) (hj : j < 6)
    (hs : macs.length = 14 ∧ ∀ a, a < 14 → (macs.getD a []).length = 6) :
    ((setup_extract_body msg long macs i j).length = 14 ∧
      ∀ a, a < 14 → ((setup_extract_body msg long macs i j).getD a []).length = 6) ∧
    ∀ a1 b1, ((setup_extract_body msg long macs i j).getD a1 []).getD b1 0 =
      if a1 = i ∧ b1 = j then msg.getD ((i + 1) + j * 8) 0
      else if long = true ∧ a1 = i + 7 ∧ b1 = j then msg.getD ((i + 65) + j * 8) 0
      else (macs.getD a1 []).getD b1 0 := by
  obtain ⟨hl, he⟩ := hs
  obtain ⟨s1, s2⟩ := mac_set_shape macs i j (msg.getD ((i + 1) + j * 8) 0)
  have g1 := mac_set_get macs i j (msg.getD ((i + 1) + j * 8) 0)
  cases long
  · unfold setup_extract_body
    simp only [Bool.false_eq_true, if_false, false_and]
    refine ⟨⟨s1.trans hl, fun a ha => (s2 a).trans (he a ha)⟩, ?_⟩
    intro a1 b1
    exact g1 a1 b1 (by omega) (by rw [he i (by omega)]; exact hj)
  · unfold setup_extract_body
    simp only [if_true, true_and]
    obtain ⟨t1, t2⟩ := mac_set_shape (mac_set macs i j (msg.getD ((i + 1) + j * 8) 0)) (i + 7) j
      (msg.getD ((i + 65) + j * 8) 0)
    refine ⟨⟨t1.trans (s1.trans hl), fun a ha => (t2 a).trans ((s2 a).trans (he a ha))⟩, ?_⟩
    intro a1 b1
    rw [mac_set_get _ _ _ _ a1 b1 (by omega) (by rw [s2, he _ (by omega)]; exact hj),
      g1 a1 b1 (by omega) (by rw [he i (by omega)]; exact hj)]
    by_cases h1 : a1 = i ∧ b1 = j
    · have h2 : ¬ (a1 = i + 7 ∧ b1 = j) := by omega
      rw [if_neg h2, if_pos h1, if_pos h1]
    · rw [if_neg h1, if_neg h1]

/-- The inner extraction loop over `j < n`. -/
theorem setup_extract_inner (msg : List Nat) (long : Bool) (i : Nat) (hi : i < 7) :
    ∀ (n : Nat), n ≤ 6 → ∀ (macs : List (List Nat)),
    (macs.length = 14 ∧ ∀ a, a < 14 → (macs.getD a []).length = 6) →
    (((List.range n).foldl (fun macs j => setup_extract_body msg long macs i j) macs).length = 14 ∧
      ∀ a, a < 14 →
        (((List.range n).foldl (fun macs j => setup_extract_body msg long macs i j) macs).getD a []).length
          = 6) ∧
    ∀ a1 b1,
      (((List.range n).foldl (fun macs j => setup_extract_body msg long macs i j) macs).getD a1 []).getD
          b1 0 =
        if a1 = i ∧ b1 < n then msg.getD ((i + 1) + b1 * 8) 0
        else if long = true ∧ a1 = i + 7 ∧ b1 < n then msg.getD ((i + 65) + b1 * 8) 0
        else (macs.getD a1 []).getD b1 0 := by
  intro n
  induction n with
  | zero =>
    intro _ macs hs
    refine ⟨hs, ?_⟩
    intro a1 b1
    simp
  | succ n ih =>
    intro hn macs hs
    obtain ⟨sh, gt⟩ := ih (by omega) macs hs
    rw [List.range_succ, List.foldl_append]
    simp only [List.foldl_cons, List.foldl_nil]
    obtain ⟨sh1, gt1⟩ := setup_extract_body_get msg long _ i n hi (by omega) sh
    refine ⟨sh1, ?_⟩
    intro a1 b1
    rw [gt1 a1 b1, gt a1 b1]
    by_cases h1 : a1 = i
    · by_cases h2 : b1 = n
      · subst h1 h2
        simp
      · by_cases h3 : b1 < n
        · have h4 : b1 < n + 1 := by omega
          simp [h1, h2, h3, h4]
        · have h4 : ¬ b1 < n + 1 := by omega
          simp [h1, h2, h3, h4]
    · by_cases h2 : b1 = n
      · subst h2
        simp [h1]
      · by_cases h3 : b1 < n
        · have h4 : b1 < n + 1 := by omega
          simp [h1, h2, h3, h4]
        · have h4 : ¬ b1 < n + 1 := by omega
          simp [h1, h2, h3, h4]

/-- The outer extraction loop over `i < n`. -/
theorem setup_extract_outer (msg : List Nat) (long : Bool) :
    ∀ (n : Nat), n ≤ 7 → ∀ (macs : List (List Nat)),
    (macs.length = 14 ∧ ∀ a, a < 14 → (macs.getD a []).length = 6) →
    (((List.range n).foldl (fun macs i =>
        (List.range 6).foldl (fun macs j => setup_extract_body msg long macs i j) macs) macs).length = 14 ∧
      ∀ a, a < 14 →
        (((List.range n).foldl (fun macs i =>
          (List.range 6).foldl (fun macs j => setup_extract_body msg long macs i j) macs) macs).getD a
            []).length = 6) ∧
    ∀ a1 b1,
      (((List.range n).foldl (fun macs i =>
          (List.range 6).foldl (fun macs j => setup_extract_body msg long macs i j) macs) macs).getD a1
            []).getD b1 0 =
        if a1 < n ∧ b1 < 6 then msg.getD ((a1 + 1) + b1 * 8) 0
        else if long = true ∧ 7 ≤ a1 ∧ a1 < 7 + n ∧ b1 < 6 then msg.getD ((a1 - 7 + 65) + b1 * 8) 0
        else (macs.getD a1 []).getD b1 0 := by
  intro n
  induction n with
  | zero =>
    intro _ macs hs
    refine ⟨hs, ?_⟩
    intro a1 b1
    have h1 : ¬ (7 ≤ a1 ∧ a1 < 7 + 0 ∧ b1 < 6) := by omega
    simp [h1]
  | succ n ih =>
    intro hn macs hs
    obtain ⟨sh, gt⟩ := ih (by omega) macs hs
    have e : List.range (n + 1) = List.range n ++ [n] := List.range_succ n
    rw [e, List.foldl_append]
    simp only [List.foldl_cons, List.foldl_nil]
    obtain ⟨sh1, gt1⟩ := setup_extract_inner msg long n (by omega) 6 (Nat.le_refl _) _ sh
    refine ⟨sh1, ?_⟩
    intro a1 b1
    rw [gt1 a1 b1, gt a1 b1]
    by_cases hb : b1 < 6
    · by_cases h1 : a1 = n
      · subst h1
        simp [hb]
      · by_cases h2 : a1 = n + 7
        · subst h2
          have e : n + 7 - 7 = n := by omega
          have h3 : ¬ (n + 7 < n + 1) := by omega
          have h4 : ¬ (n + 7 < n) := by omega
          have h5 : n + 7 < 7 + (n + 1) := by omega
          have h6 : ¬ (n + 7 < 7 + n) := by omega
          simp [hb, h1, e, h3, h4, h5, h6]
        · by_cases h3 : a1 < n
          · have h4 : a1 < n + 1 := by omega
            simp [hb, h1, h2, h3, h4]
          · have h4 : ¬ a1 < n + 1 := by omega
            have h5 : (a1 < 7 + (n + 1)) ↔ (a1 < 7 + n) := by omega
            simp [hb, h1, h2, h3, h4, h5]
    · simp [hb]

theorem replicate_getD_getD (n m a1 b1 : Nat) :
    ((List.replicate n (List.replicate m 0)).getD a1 []).getD b1 0 = 0 := by
  simp only [List.getD_eq_getElem?_getD, List.getElem?_replicate]
  split_ifs with h1
  · simp only [Option.getD_some, List.getElem?_replicate]
    split_ifs <;> rfl
  · rfl

theorem replicate_getD_length (n m a : Nat) (ha : a < n) :
    ((List.replicate n (List.replicate m 0)).getD a []).length = m := by
  simp [List.getD_eq_getElem?_getD, List.getElem?_replicate, ha]

/-- The array `setup.macs` that the extraction loops leave: 14 addresses of 6 bytes, byte `j`
of address `a` taken from the setup packet as the source indexes it. -/
theorem setup_extract_get (msg : List Nat) (len : Nat) :
    ((setup_extract msg len).length = 14 ∧
      ∀ a, a < 14 → ((setup_extract msg len).getD a []).length = 6) ∧
    (∀ a j, a < 7 → j < 6 →
      ((setup_extract msg len).getD a []).getD j 0 = msg.getD ((a + 1) + 8 * j) 0) ∧
    (∀ a j, 7 ≤ a → a < 14 → j < 6 →
      ((setup_extract msg len).getD a []).getD j 0 =
        if 112 < len then msg.getD ((a - 7 + 65) + 8 * j) 0 else 0) := by
  have hinit : (List.replicate XQ_FILTER_MAX (List.replicate 6 0)).length = 14 ∧
      ∀ a, a < 14 → ((List.replicate XQ_FILTER_MAX (List.replicate 6 0)).getD a []).length = 6 := by
    refine ⟨rfl, ?_⟩
    intro a ha
    exact replicate_getD_length _ _ a ha
  obtain ⟨sh, gt⟩ := setup_extract_outer msg (decide (112 < len)) 7 (Nat.le_refl _) _ hinit
  refine ⟨sh, ?_, ?_⟩
  · intro a j ha hj
    have := gt a j
    unfold setup_extract
    rw [this, if_pos ⟨ha, hj⟩, Nat.mul_comm]
  · intro a j ha7 ha hj
    have := gt a j
    unfold setup_extract
    rw [this, if_neg (by omega), replicate_getD_getD]
    by_cases h : 112 < len
    · rw [if_pos h, if_pos ⟨decide_eq_true h, ha7, by omega, hj⟩, Nat.mul_comm]
    · rw [if_neg h, if_neg (by simp [h])]

theorem foldl_filter_append (p : Nat → Prop) [DecidablePred p] (f : Nat → List Nat) :
    ∀ (l : List Nat) (init : List (List Nat)),
      l.foldl (fun acc x => if p x then acc ++ [f x] else acc) init =
        init ++ (l.filter fun x => decide (p x)).map f := by
  intro l
  induction l with
  | nil => intro init; simp
  | cons x xs ih =>
    intro init
    rw [List.foldl_cons, ih]
    by_cases h : p x
    · simp [h, List.filter_cons]
    · simp [h, List.filter_cons]

theorem bytes_at_self (m : List Nat) (n : Nat) (h : m.length = n) : bytes_at m 0 n = m := by
  unfold bytes_at
  apply List.ext_getElem
  · simp [h]
  · intro k h1 h2
    simp only [List.getElem_map, List.getElem_range, Nat.zero_add]
    rw [List.getD_eq_getElem _ _ h2]

/-- The address list built for `eth_filter` from an array of 14 addresses of 6 bytes: the
addresses that are not all-zero, in index order. -/
theorem setup_filters_eq (macs : List (List Nat))
    (hs : macs.length = 14 ∧ ∀ a, a < 14 → (macs.getD a []).length = 6) :
    setup_filters macs = macs.filter fun m => decide (m ≠ List.replicate 6 0) := by
  obtain ⟨hl, he⟩ := hs
  have hm : macs = (List.range 14).map fun a => macs.getD a [] := by
    apply List.ext_getElem
    · simp [hl]
    · intro k h1 h2
      simp only [List.getElem_map, List.getElem_range]
      rw [List.getD_eq_getElem _ _ h1]
  unfold setup_filters
  rw [foldl_filter_append (fun a => bytes_at (macs.getD a []) 0 6 ≠ List.replicate 6 0)
    (fun a => bytes_at (macs.getD a []) 0 6)]
  rw [List.nil_append]
  conv_rhs => rw [hm, List.filter_map]
  have hr : ∀ a, a ∈ List.range XQ_FILTER_MAX → bytes_at (macs.getD a []) 0 6 = macs.getD a [] := by
    intro a ha
    exact bytes_at_self _ _ (he a (by simpa [XQ_FILTER_MAX] using ha))
  have e1 : (List.range XQ_FILTER_MAX).filter
      (fun a => decide (bytes_at (macs.getD a []) 0 6 ≠ List.replicate 6 0)) =
      (List.range 14).filter ((fun m => decide (m ≠ List.replicate 6 0)) ∘ fun a => macs.getD a []) := by
    apply List.filter_congr
    intro a ha
    simp only [Function.comp]
    rw [hr a ha]
  rw [e1]
  apply List.map_congr_left
  intro a ha
  exact hr a (List.mem_of_mem_filter ha)

theorem xq_process_mop_loop_frame (i : CtlrId) :
    ∀ (n meb : Nat) (s : Sys),
      ((xq_process_mop_loop i n meb s).dev i).frame = (s.dev i).frame := by
  intro n
  induction n with
  | zero => intro meb s; rfl
  | succ n ih =>
    intro meb s
    unfold xq_process_mop_loop
    simp only []
    split_ifs <;>
      first
      | rfl
      | (rw [xq_nxm_error_frame, dev_set_mem2])
      | (rw [ih, dev_set_mem2])

theorem xq_process_mop_frame (i : CtlrId) (s : Sys) :
    ((xq_process_mop i s).dev i).frame = (s.dev i).frame := by
  unfold xq_process_mop
  split_ifs
  · rfl
  · exact xq_process_mop_loop_frame i 4 128 s

/-- The setup state and the `eth_filter` call that `xq_process_setup` leaves. -/
theorem xq_process_setup_fields (i : CtlrId) (s : Sys) :
    (xq_process_setup i s).1 = SCPE_OK ∧
    ((xq_process_setup i s).2.1.dev i).setup.macs =
      setup_extract (s.dev i).write_buffer.msg (s.dev i).write_buffer.len ∧
    ((xq_process_setup i s).2.1.dev i).setup.promiscuous =
      (if 128 < (s.dev i).write_buffer.len then
        (if u16 (s.dev i).write_buffer.len &&& XQ_SETUP_PM ≠ 0 then 1 else 0) else 0) ∧
    ((xq_process_setup i s).2.1.dev i).setup.multicast =
      (if 128 < (s.dev i).write_buffer.len then
        (if u16 (s.dev i).write_buffer.len &&& XQ_SETUP_MC ≠ 0 then 1 else 0)
        else (s.dev i).setup.multicast) ∧
    (xq_process_setup i s).2.2.addresses =
      setup_filters (setup_extract (s.dev i).write_buffer.msg (s.dev i).write_buffer.len) ∧
    (xq_process_setup i s).2.2.addr_count =
      (setup_filters (setup_extract (s.dev i).write_buffer.msg (s.dev i).write_buffer.len)).length ∧
    (xq_process_setup i s).2.2.promiscuous = ((xq_process_setup i s).2.1.dev i).setup.promiscuous ∧
    (xq_process_setup i s).2.2.all_multicast = ((xq_process_setup i s).2.1.dev i).setup.multicast := by
  obtain ⟨v1, hv1⟩ : ∃ v1 : xq_device, v1 = { s.dev i with
      setup :=
        { (s.dev i).setup with
          macs := setup_extract (s.dev i).write_buffer.msg (s.dev i).write_buffer.len
          multicast := (if 128 < (s.dev i).write_buffer.len then
            (if u16 (s.dev i).write_buffer.len &&& XQ_SETUP_MC ≠ 0 then 1 else 0)
            else (s.dev i).setup.multicast)
          promiscuous := (if 128 < (s.dev i).write_buffer.len then
            (if u16 (s.dev i).write_buffer.len &&& XQ_SETUP_PM ≠ 0 then 1 else 0) else 0)
          l1 := if 128 < (s.dev i).write_buffer.len ∧
            (u16 (s.dev i).write_buffer.len &&& XQ_SETUP_LD) >>> 2 = 1 then 0 else (s.dev i).setup.l1
          l2 := if 128 < (s.dev i).write_buffer.len ∧
            (u16 (s.dev i).write_buffer.len &&& XQ_SETUP_LD) >>> 2 = 2 then 0 else (s.dev i).setup.l2
          l3 := if 128 < (s.dev i).write_buffer.len ∧
            (u16 (s.dev i).write_buffer.len &&& XQ_SETUP_LD) >>> 2 = 3 then 0 else (s.dev i).setup.l3 }
      sanity := { (s.dev i).sanity with
        quarter_secs := if 128 < (s.dev i).write_buffer.len then
            setup_quarter_secs ((u16 (s.dev i).write_buffer.len &&& XQ_SETUP_ST) >>> 4)
          else (s.dev i).sanity.quarter_secs
        enabled := if (s.dev i).sanity.enabled ≠ 2 then
            (if (s.dev i).csr &&& XQ_CSR_SE ≠ 0 then 1 else 0) else (s.dev i).sanity.enabled } } :=
    ⟨_, rfl⟩
  obtain ⟨S2, hS2⟩ : ∃ S2, S2 = (if (s.dev i).write_buffer.msg.getD 0 0 ≠ 0
      then xq_process_mop i (xq_reset_santmr i (s.setDev i v1))
      else xq_reset_santmr i (s.setDev i v1)) := ⟨_, rfl⟩
  have hres : (xq_process_setup i s).2.1 =
      S2.setDev i { S2.dev i with setup := { (S2.dev i).setup with valid := 1 } } := by
    rw [hS2, hv1]
    rfl
  have hset : (S2.dev i).setup = v1.setup := by
    obtain ⟨sn, hsn⟩ := xq_reset_santmr_dev i (s.setDev i v1)
    rw [dev_setDev_same] at hsn
    have e1 : ((xq_reset_santmr i (s.setDev i v1)).dev i).setup = v1.setup := by rw [hsn]
    rw [hS2]
    split_ifs
    · rw [frame_setup (xq_process_mop_frame i _), e1]
    · exact e1
  have hfin : ((xq_process_setup i s).2.1.dev i).setup = { v1.setup with valid := 1 } := by
    rw [hres, dev_setDev_same]
    show ({ (S2.dev i).setup with valid := 1 } : xq_setup) = _
    rw [hset]
  refine ⟨rfl, ?_, ?_, ?_, rfl, rfl, ?_, ?_⟩
  · rw [hfin, hv1]
  · rw [hfin, hv1]
  · rw [hfin, hv1]
  · rw [hfin, hv1]; rfl
  · rw [hfin, hv1]; rfl

/-! ## C14: setup mode flags -/

theorem u16_mask_bit (x k : Nat) (hk : k < 16) : (u16 x &&& 2 ^ k ≠ 0) ↔ x.testBit k = true := by
  rw [and_two_pow_ne_zero_iff, testBit_u16]
  simp [hk]

/-- C14 (setup mode flags).  After `xq_process_setup` on a setup packet of `len` bytes the
promiscuous flag is 1 if `len > 128` and bit 1 of `len` is set, and 0 otherwise; the
all-multicast flag is as before when `len ≤ 128` and is bit 0 of `len` when `len > 128`; the
same two values are passed to `eth_filter`, and the status is `SCPE_OK`. -/
theorem setup_mode_flags (i : CtlrId) (s : Sys) :
    (xq_process_setup i s).1 = SCPE_OK ∧
    ((xq_process_setup i s).2.1.dev i).setup.promiscuous =
      (if 128 < (s.dev i).write_buffer.len ∧ (s.dev i).write_buffer.len.testBit 1 = true
        then 1 else 0) ∧
    ((xq_process_setup i s).2.1.dev i).setup.multicast =
      (if 128 < (s.dev i).write_buffer.len then
        (if (s.dev i).write_buffer.len.testBit 0 = true then 1 else 0)
        else (s.dev i).setup.multicast) ∧
    (xq_process_setup i s).2.2.promiscuous =
      (if 128 < (s.dev i).write_buffer.len ∧ (s.dev i).write_buffer.len.testBit 1 = true
        then 1 else 0) ∧
    (xq_process_setup i s).2.2.all_multicast =
      (if 128 < (s.dev i).write_buffer.len then
        (if (s.dev i).write_buffer.len.testBit 0 = true then 1 else 0)
        else (s.dev i).setup.multicast) := by
  obtain ⟨h1, _, h3, h4, _, _, h7, h8⟩ := xq_process_setup_fields i s
  have b1 := u16_mask_bit (s.dev i).write_buffer.len 1 (by norm_num)
  have b0 := u16_mask_bit (s.dev i).write_buffer.len 0 (by norm_num)
  have e1 : XQ_SETUP_PM = 2 ^ 1 := rfl
  have e0 : XQ_SETUP_MC = 2 ^ 0 := rfl
  have hp : ((xq_process_setup i s).2.1.dev i).setup.promiscuous =
      (if 128 < (s.dev i).write_buffer.len ∧ (s.dev i).write_buffer.len.testBit 1 = true
        then 1 else 0) := by
    rw [h3, e1]
    by_cases hl : 128 < (s.dev i).write_buffer.len
    · by_cases hb : (s.dev i).write_buffer.len.testBit 1 = true
      · rw [if_pos hl, if_pos (b1.2 hb), if_pos ⟨hl, hb⟩]
      · rw [if_pos hl, if_neg (fun h => hb (b1.1 h)), if_neg (fun h => hb h.2)]
    · rw [if_neg hl, if_neg (fun h => hl h.1)]
  have hm : ((xq_process_setup i s).2.1.dev i).setup.multicast =
      (if 128 < (s.dev i).write_buffer.len then
        (if (s.dev i).write_buffer.len.testBit 0 = true then 1 else 0)
        else (s.dev i).setup.multicast) := by
    rw [h4, e0]
    by_cases hl : 128 < (s.dev i).write_buffer.len
    · by_cases hb : (s.dev i).write_buffer.len.testBit 0 = true
      · rw [if_pos hl, if_pos hl, if_pos (b0.2 hb), if_pos hb]
      · rw [if_pos hl, if_pos hl, if_neg (fun h => hb (b0.1 h)), if_neg hb]
    · rw [if_neg hl, if_neg hl]
  exact ⟨h1, hp, hm, h7.trans hp, h8.trans hm⟩

/-- Witness of C14: for the example setup packet of 130 bytes of `setup_long` the
promiscuous flag becomes 1 and the all-multicast flag, which was 1, becomes 0. -/
theorem setup_mode_flags_witness :
    ((xq_process_setup .xqa setup_long).2.1.dev .xqa).setup.promiscuous = 1 ∧
    ((xq_process_setup .xqa setup_long).2.1.dev .xqa).setup.multicast = 0 := by
  obtain ⟨_, h2, h3, _⟩ := setup_mode_flags .xqa setup_long
  exact ⟨h2.trans (by decide), h3.trans (by decide)⟩

/-- C15 (setup address de-interleaving).  After `xq_process_setup` on the setup packet `msg`
of `len` bytes, `setup.macs` holds 14 addresses of 6 bytes: byte `j` of address `a` is
`msg[(a + 1) + 8 * j]` for `a` in 0..6, and for `a` in 7..13 it is
`msg[(a - 7 + 65) + 8 * j]` when `len > 112` and 0 when `len ≤ 112`.  The address list passed
to `eth_filter` is the list of those of the 14 addresses that are not all-zero, in index
order, and the count passed is its length. -/
theorem setup_address_deinterleave (i : CtlrId) (s : Sys) :
    ((xq_process_setup i s).2.1.dev i).setup.macs.length = 14 ∧
    (∀ a, a < 14 → (((xq_process_setup i s).2.1.dev i).setup.macs.getD a []).length = 6) ∧
    (∀ a j, a < 7 → j < 6 →
      (((xq_process_setup i s).2.1.dev i).setup.macs.getD a []).getD j 0 =
        (s.dev i).write_buffer.msg.getD ((a + 1) + 8 * j) 0) ∧
    (∀ a j, 7 ≤ a → a < 14 → j < 6 →
      (((xq_process_setup i s).2.1.dev i).setup.macs.getD a []).getD j 0 =
        if 112 < (s.dev i).write_buffer.len
        then (s.dev i).write_buffer.msg.getD ((a - 7 + 65) + 8 * j) 0 else 0) ∧
    (xq_process_setup i s).2.2.addresses =
      (((xq_process_setup i s).2.1.dev i).setup.macs.filter
        fun m => decide (m ≠ List.replicate 6 0)) ∧
    (xq_process_setup i s).2.2.addr_count =
      (((xq_process_setup i s).2.1.dev i).setup.macs.filter
        fun m => decide (m ≠ List.replicate 6 0)).length := by
  obtain ⟨_, h2, _, _, h5, h6, _, _⟩ := xq_process_setup_fields i s
  obtain ⟨sh, lo, hi⟩ := setup_extract_get (s.dev i).write_buffer.msg (s.dev i).write_buffer.len
  have hf := setup_filters_eq _ sh
  rw [h2]
  exact ⟨sh.1, sh.2, lo, hi, h5.trans hf, h6.trans (by rw [hf])⟩

/-- Witness of C15: for the example setup packet of `setup_long` (130 bytes, byte `k` being
`k`) byte 0 of address 0 is `msg[1]`, byte 5 of address 6 is `msg[47]`, and byte 0 of
address 7 is `msg[65]`. -/
theorem setup_address_deinterleave_witness :
    (((xq_process_setup .xqa setup_long).2.1.dev .xqa).setup.macs.getD 0 []).getD 0 0 = 1 ∧
    (((xq_process_setup .xqa setup_long).2.1.dev .xqa).setup.macs.getD 6 []).getD 5 0 = 47 ∧
    (((xq_process_setup .xqa setup_long).2.1.dev .xqa).setup.macs.getD 7 []).getD 0 0 = 65 := by
  obtain ⟨_, _, h3, h4, _⟩ := setup_address_deinterleave .xqa setup_long
  exact ⟨(h3 0 0 (by decide) (by decide)).trans (by decide),
    (h3 6 5 (by decide) (by decide)).trans (by decide),
    (h4 7 0 (by decide) (by decide) (by decide)).trans (by decide)⟩

/-! ## C20: sanity timer -/

/-- A run of the timer service in classic mode with the sanity timer enabled and the
countdown at 1 or less: the countdown goes down by one, the reboot signal is returned, and
nothing else changes; the system id counter and the timer unit are not reached. -/
theorem xq_tmrsvc_expired (i : CtlrId) (s : Sys)
    (hen : (s.dev i).sanity.enabled ≠ 0) (hmode : (s.dev i).mode ≠ XQ_T_DELQA_PLUS)
    (ht : (s.dev i).sanity.timer ≤ 1) :
    xq_tmrsvc i s =
      (STOP_SANITY, s.setDev i { s.dev i with
        sanity := { (s.dev i).sanity with timer := (s.dev i).sanity.timer - 1 } }) := by
  unfold xq_tmrsvc
  simp only [hen, ne_eq, not_false_eq_true, if_true, true_and]
  rw [if_pos ⟨by omega, hmode⟩]
  rfl

theorem ctlr_setDev_unit1 (i : CtlrId) (X : Sys) (v : xq_device) :
    ((X.setDev i v).ctlr i).unit1_active = (X.ctlr i).unit1_active := by
  cases i <;> rfl

theorem ctlr_setCtlr_same (i : CtlrId) (X : Sys) (c : CTLR) : (X.setCtlr i c).ctlr i = c := by
  cases i <;> rfl

/-- A tick while the timer unit is not scheduled runs nothing. -/
theorem tmr_tick_idle (i : CtlrId) (s : Sys) (h : (s.ctlr i).unit1_active = false) :
    tmr_tick i s = (none, s) := by
  unfold tmr_tick
  rw [if_neg (by rw [h]; simp)]

/-- Consecutive ticks while the timer unit is not scheduled run nothing. -/
theorem tmr_ticks_idle (i : CtlrId) :
    ∀ (n : Nat) (s : Sys), (s.ctlr i).unit1_active = false → tmr_ticks i n s = ([], s) := by
  intro n
  induction n with
  | zero => intro s _; rfl
  | succ n ih =>
    intro s h
    unfold tmr_ticks
    rw [tmr_tick_idle i s h, ih s h]
    rfl

/-- A tick with the timer unit scheduled, in classic mode with the sanity timer enabled and
the countdown at 1 or less: the timer service runs and returns the reboot signal, the
countdown goes down by one, and the timer unit is left unscheduled. -/
theorem tmr_tick_expired (i : CtlrId) (s : Sys)
    (hen : (s.dev i).sanity.enabled ≠ 0) (hmode : (s.dev i).mode ≠ XQ_T_DELQA_PLUS)
    (ht : (s.dev i).sanity.timer ≤ 1) (hu : (s.ctlr i).unit1_active = true) :
    (tmr_tick i s).1 = some STOP_SANITY ∧
    ((tmr_tick i s).2.ctlr i).unit1_active = false ∧
    ((tmr_tick i s).2.dev i).sanity.timer = (s.dev i).sanity.timer - 1 ∧
    ((tmr_tick i s).2.dev i).idtmr = (s.dev i).idtmr := by
  have hdev : (s.setCtlr i { s.ctlr i with unit1_active := false }).dev i = s.dev i := by
    cases i <;> rfl
  have h1 := xq_tmrsvc_expired i (s.setCtlr i { s.ctlr i with unit1_active := false })
    (by rw [hdev]; exact hen) (by rw [hdev]; exact hmode) (by rw [hdev]; exact ht)
  unfold tmr_tick
  rw [if_pos hu, h1]
  refine ⟨rfl, ?_, ?_, ?_⟩
  · show ((Sys.setDev _ i _).ctlr i).unit1_active = false
    rw [ctlr_setDev_unit1, ctlr_setCtlr_same]
  · show ((Sys.setDev _ i _).dev i).sanity.timer = _
    rw [dev_setDev_same, hdev]
  · show ((Sys.setDev _ i _).dev i).idtmr = _
    rw [dev_setDev_same, hdev]

theorem frame_sanity {v v1 : xq_device} (h : v.frame = v1.frame) : v.sanity = v1.sanity := by
  have e := congrArg xq_device.sanity h
  exact e

/-- The sanity timer state and the mode that `xq_process_setup` leaves. -/
theorem xq_process_setup_sanity (i : CtlrId) (s : Sys) :
    ((xq_process_setup i s).2.1.dev i).mode = (s.dev i).mode ∧
    ((xq_process_setup i s).2.1.dev i).sanity.enabled =
      (if (s.dev i).sanity.enabled ≠ 2 then (if (s.dev i).csr &&& XQ_CSR_SE ≠ 0 then 1 else 0)
        else (s.dev i).sanity.enabled) ∧
    ((xq_process_setup i s).2.1.dev i).sanity.quarter_secs =
      (if 128 < (s.dev i).write_buffer.len then
        setup_quarter_secs ((u16 (s.dev i).write_buffer.len &&& XQ_SETUP_ST) >>> 4)
        else (s.dev i).sanity.quarter_secs) ∧
    (((xq_process_setup i s).2.1.dev i).sanity.enabled ≠ 0 →
      ((xq_process_setup i s).2.1.dev i).sanity.timer =
        ((xq_process_setup i s).2.1.dev i).sanity.quarter_secs) := by
  obtain ⟨v1, hv1⟩ : ∃ v1 : xq_device, v1 = { s.dev i with
      setup :=
        { (s.dev i).setup with
          macs := setup_extract (s.dev i).write_buffer.msg (s.dev i).write_buffer.len
          multicast := (if 128 < (s.dev i).write_buffer.len then
            (if u16 (s.dev i).write_buffer.len &&& XQ_SETUP_MC ≠ 0 then 1 else 0)
            else (s.dev i).setup.multicast)
          promiscuous := (if 128 < (s.dev i).write_buffer.len then
            (if u16 (s.dev i).write_buffer.len &&& XQ_SETUP_PM ≠ 0 then 1 else 0) else 0)
          l1 := if 128 < (s.dev i).write_buffer.len ∧
            (u16 (s.dev i).write_buffer.len &&& XQ_SETUP_LD) >>> 2 = 1 then 0 else (s.dev i).setup.l1
          l2 := if 128 < (s.dev i).write_buffer.len ∧
            (u16 (s.dev i).write_buffer.len &&& XQ_SETUP_LD) >>> 2 = 2 then 0 else (s.dev i).setup.l2
          l3 := if 128 < (s.dev i).write_buffer.len ∧
            (u16 (s.dev i).write_buffer.len &&& XQ_SETUP_LD) >>> 2 = 3 then 0 else (s.dev i).setup.l3 }
      sanity := { (s.dev i).sanity with
        quarter_secs := if 128 < (s.dev i).write_buffer.len then
            setup_quarter_secs ((u16 (s.dev i).write_buffer.len &&& XQ_SETUP_ST) >>> 4)
          else (s.dev i).sanity.quarter_secs
        enabled := if (s.dev i).sanity.enabled ≠ 2 then
            (if (s.dev i).csr &&& XQ_CSR_SE ≠ 0 then 1 else 0) else (s.dev i).sanity.enabled } } :=
    ⟨_, rfl⟩
  obtain ⟨S1, hS1⟩ : ∃ S1, S1 = xq_reset_santmr i (s.setDev i v1) := ⟨_, rfl⟩
  obtain ⟨S2, hS2⟩ : ∃ S2, S2 = (if (s.dev i).write_buffer.msg.getD 0 0 ≠ 0
      then xq_process_mop i S1 else S1) := ⟨_, rfl⟩
  have hres : (xq_process_setup i s).2.1 =
      S2.setDev i { S2.dev i with setup := { (S2.dev i).setup with valid := 1 } } := by
    rw [hS2, hS1, hv1]
    rfl
  have hfr : (S2.dev i).frame = (S1.dev i).frame := by
    rw [hS2]
    split_ifs
    · exact xq_process_mop_frame i S1
    · rfl
  have hd1 : S1.dev i = { v1 with sanity :=
      (if v1.sanity.enabled ≠ 0 then { v1.sanity with timer := v1.sanity.quarter_secs }
        else v1.sanity) } := by
    rw [hS1]
    unfold xq_reset_santmr
    simp only [dev_setDev_same]
    split_ifs
    · rw [dev_setDev_same]
    · rw [dev_setDev_same]
  have hsan : ((xq_process_setup i s).2.1.dev i).sanity =
      (if v1.sanity.enabled ≠ 0 then { v1.sanity with timer := v1.sanity.quarter_secs }
        else v1.sanity) := by
    rw [hres, dev_setDev_same]
    show (S2.dev i).sanity = _
    rw [frame_sanity hfr, hd1]
  have hmd : ((xq_process_setup i s).2.1.dev i).mode = (s.dev i).mode := by
    rw [hres, dev_setDev_same]
    show (S2.dev i).mode = _
    rw [frame_mode hfr, hd1, hv1]
  have he : v1.sanity.enabled = (if (s.dev i).sanity.enabled ≠ 2 then
      (if (s.dev i).csr &&& XQ_CSR_SE ≠ 0 then 1 else 0) else (s.dev i).sanity.enabled) := by
    rw [hv1]
  have hqs : v1.sanity.quarter_secs = (if 128 < (s.dev i).write_buffer.len then
      setup_quarter_secs ((u16 (s.dev i).write_buffer.len &&& XQ_SETUP_ST) >>> 4)
      else (s.dev i).sanity.quarter_secs) := by
    rw [hv1]
  refine ⟨hmd, ?_, ?_, ?_⟩
  · rw [hsan, ← he]
    split_ifs <;> rfl
  · rw [hsan, ← hqs]
    split_ifs <;> rfl
  · rw [hsan]
    by_cases h0 : v1.sanity.enabled ≠ 0
    · rw [if_pos h0]
      intro _
      rfl
    · rw [if_neg h0]
      intro h1
      exact absurd h1 h0

/-- C20 (sanity timer scenario).  With the sanity timer enabled in classic mode and set for
0.25 s (a countdown of one quarter-second tick), the timer unit scheduled, after the
countdown has been reset and with nothing else run in between: the countdown is 1, the first
tick runs the timer service `xq_tmrsvc`, which returns the reboot signal `STOP_SANITY`
without scheduling the timer unit again, and the later ticks do not run it, so that the
signal is raised exactly once in five consecutive ticks, and in any number of ticks from one
on.  A setup packet of more than 128 bytes whose sanity-select field is 0, processed in
classic mode with CSR.SE set or the timer switched on by the operator, gives this
configuration: the timer is enabled, set for one quarter second, and the countdown is 1. -/
theorem sanity_timer_scenario (i : CtlrId) (s : Sys) (n : Nat)
    (hen : (s.dev i).sanity.enabled ≠ 0) (hmode : (s.dev i).mode ≠ XQ_T_DELQA_PLUS)
    (hq : (s.dev i).sanity.quarter_secs = 1) (hu : (s.ctlr i).unit1_active = true) :
    ((xq_reset_santmr i s).dev i).sanity.timer = 1 ∧
    (tmr_tick i (xq_reset_santmr i s)).1 = some STOP_SANITY ∧
    (tmr_ticks i 5 (xq_reset_santmr i s)).1 = [STOP_SANITY] ∧
    (tmr_ticks i 5 (xq_reset_santmr i s)).1.count STOP_SANITY = 1 ∧
    (tmr_ticks i (n + 1) (xq_reset_santmr i s)).1 = [STOP_SANITY] ∧
    ((tmr_ticks i (n + 1) (xq_reset_santmr i s)).2.ctlr i).unit1_active = false ∧
    ((tmr_ticks i (n + 1) (xq_reset_santmr i s)).2.dev i).sanity.timer = 0 ∧
    ((tmr_ticks i (n + 1) (xq_reset_santmr i s)).2.dev i).idtmr = (s.dev i).idtmr ∧
    (∀ s0 : Sys, 128 < (s0.dev i).write_buffer.len →
      (u16 (s0.dev i).write_buffer.len &&& XQ_SETUP_ST) >>> 4 = 0 →
      ((s0.dev i).csr &&& XQ_CSR_SE ≠ 0 ∨ (s0.dev i).sanity.enabled = 2) →
      (s0.dev i).mode ≠ XQ_T_DELQA_PLUS →
      ((xq_process_setup i s0).2.1.dev i).sanity.enabled ≠ 0 ∧
      ((xq_process_setup i s0).2.1.dev i).mode ≠ XQ_T_DELQA_PLUS ∧
      ((xq_process_setup i s0).2.1.dev i).sanity.quarter_secs = 1 ∧
      ((xq_process_setup i s0).2.1.dev i).sanity.timer = 1) := by
  have hd : (xq_reset_santmr i s).dev i =
      { s.dev i with sanity := { (s.dev i).sanity with timer := (s.dev i).sanity.quarter_secs } } := by
    unfold xq_reset_santmr
    simp only []
    rw [if_pos hen, dev_setDev_same]
  have hc : ((xq_reset_santmr i s).ctlr i).unit1_active = true := by
    unfold xq_reset_santmr
    simp only []
    rw [if_pos hen, ctlr_setDev_unit1]
    exact hu
  have h1 : ((xq_reset_santmr i s).dev i).sanity.enabled ≠ 0 := by rw [hd]; exact hen
  have h2 : ((xq_reset_santmr i s).dev i).mode ≠ XQ_T_DELQA_PLUS := by rw [hd]; exact hmode
  have h3 : ((xq_reset_santmr i s).dev i).sanity.timer = 1 := by rw [hd]; exact hq
  obtain ⟨t1, t2, t3, t4⟩ := tmr_tick_expired i _ h1 h2 (by rw [h3]) hc
  have hticks : ∀ k, tmr_ticks i (k + 1) (xq_reset_santmr i s) =
      ([STOP_SANITY], (tmr_tick i (xq_reset_santmr i s)).2) := by
    intro k
    show ((tmr_tick i (xq_reset_santmr i s)).1.toList ++
        (tmr_ticks i k (tmr_tick i (xq_reset_santmr i s)).2).1,
      (tmr_ticks i k (tmr_tick i (xq_reset_santmr i s)).2).2) = _
    rw [tmr_ticks_idle i k _ t2, t1]
    rfl
  refine ⟨h3, t1, ?_, ?_, ?_, ?_, ?_, ?_, ?_⟩
  · rw [hticks 4]
  · rw [hticks 4]
    show List.count STOP_SANITY [STOP_SANITY] = 1
    decide
  · rw [hticks n]
  · rw [hticks n]; exact t2
  · rw [hticks n]
    show ((tmr_tick i (xq_reset_santmr i s)).2.dev i).sanity.timer = 0
    rw [t3, h3]
    rfl
  · rw [hticks n]
    show ((tmr_tick i (xq_reset_santmr i s)).2.dev i).idtmr = _
    rw [t4, hd]
  · intro s0 hlen hsel hse hm0
    obtain ⟨m1, m2, m3, m4⟩ := xq_process_setup_sanity i s0
    have e1 : ((xq_process_setup i s0).2.1.dev i).sanity.enabled ≠ 0 := by
      rw [m2]
      rcases hse with h | h
      · by_cases h2 : (s0.dev i).sanity.enabled = 2
        · rw [if_neg (not_not.2 h2), h2]
          norm_num
        · rw [if_pos h2, if_pos h]
          norm_num
      · rw [if_neg (not_not.2 h), h]
        norm_num
    have e3 : ((xq_process_setup i s0).2.1.dev i).sanity.quarter_secs = 1 := by
      rw [m3, if_pos hlen, hsel]
      rfl
    exact ⟨e1, by rw [m1]; exact hm0, e3, (m4 e1).trans e3⟩

/-- Witness of C20: in the example state `san_armed`, with the timer unit scheduled, five
consecutive ticks run the timer service once; it returns `STOP_SANITY`, and the timer unit
is not scheduled afterwards. -/
theorem sanity_timer_scenario_witness :
    (tmr_ticks .xqa 5 (xq_reset_santmr .xqa san_armed)).1 = [STOP_SANITY] ∧
    (tmr_ticks .xqa 5 (xq_reset_santmr .xqa san_armed)).1.count STOP_SANITY = 1 ∧
    ((tmr_ticks .xqa 5 (xq_reset_santmr .xqa san_armed)).2.ctlr .xqa).unit1_active = false := by
  obtain ⟨_, _, h3, h4, _, h6, _⟩ :=
    sanity_timer_scenario .xqa san_armed 4 (by decide) (by decide) (by decide) (by decide)
  exact ⟨h3, h4, h6⟩

/-! ## Witness of C13 -/

/-- What `xq_process_setup` leaves of the device state and, for a setup packet without MOP
information, of guest memory. -/
theorem xq_process_setup_kept (i : CtlrId) (s : Sys) :
    ((xq_process_setup i s).2.1.dev i).ReadQ = (s.dev i).ReadQ ∧
    ((xq_process_setup i s).2.1.dev i).write_buffer = (s.dev i).write_buffer ∧
    ((xq_process_setup i s).2.1.dev i).xbdl_ba = (s.dev i).xbdl_ba ∧
    ((s.dev i).write_buffer.msg.getD 0 0 = 0 → (xq_process_setup i s).2.1.mem = s.mem) := by
  obtain ⟨v1, hv1⟩ : ∃ v1 : xq_device, v1 = { s.dev i with
      setup :=
        { (s.dev i).setup with
          macs := setup_extract (s.dev i).write_buffer.msg (s.dev i).write_buffer.len
          multicast := (if 128 < (s.dev i).write_buffer.len then
            (if u16 (s.dev i).write_buffer.len &&& XQ_SETUP_MC ≠ 0 then 1 else 0)
            else (s.dev i).setup.multicast)
          promiscuous := (if 128 < (s.dev i).write_buffer.len then
            (if u16 (s.dev i).write_buffer.len &&& XQ_SETUP_PM ≠ 0 then 1 else 0) else 0)
          l1 := if 128 < (s.dev i).write_buffer.len ∧
            (u16 (s.dev i).write_buffer.len &&& XQ_SETUP_LD) >>> 2 = 1 then 0 else (s.dev i).setup.l1
          l2 := if 128 < (s.dev i).write_buffer.len ∧
            (u16 (s.dev i).write_buffer.len &&& XQ_SETUP_LD) >>> 2 = 2 then 0 else (s.dev i).setup.l2
          l3 := if 128 < (s.dev i).write_buffer.len ∧
            (u16 (s.dev i).write_buffer.len &&& XQ_SETUP_LD) >>> 2 = 3 then 0 else (s.dev i).setup.l3 }
      sanity := { (s.dev i).sanity with
        quarter_secs := if 128 < (s.dev i).write_buffer.len then
            setup_quarter_secs ((u16 (s.dev i).write_buffer.len &&& XQ_SETUP_ST) >>> 4)
          else (s.dev i).sanity.quarter_secs
        enabled := if (s.dev i).sanity.enabled ≠ 2 then
            (if (s.dev i).csr &&& XQ_CSR_SE ≠ 0 then 1 else 0) else (s.dev i).sanity.enabled } } :=
    ⟨_, rfl⟩
  obtain ⟨S1, hS1⟩ : ∃ S1, S1 = xq_reset_santmr i (s.setDev i v1) := ⟨_, rfl⟩
  obtain ⟨S2, hS2⟩ : ∃ S2, S2 = (if (s.dev i).write_buffer.msg.getD 0 0 ≠ 0
      then xq_process_mop i S1 else S1) := ⟨_, rfl⟩
  have hres : (xq_process_setup i s).2.1 =
      S2.setDev i { S2.dev i with setup := { (S2.dev i).setup with valid := 1 } } := by
    rw [hS2, hS1, hv1]
    rfl
  have hfr : (S2.dev i).frame = (S1.dev i).frame := by
    rw [hS2]
    split_ifs
    · exact xq_process_mop_frame i S1
    · rfl
  obtain ⟨sn, hsn⟩ := xq_reset_santmr_dev i (s.setDev i v1)
  rw [dev_setDev_same, ← hS1] at hsn
  refine ⟨?_, ?_, ?_, ?_⟩
  · rw [hres, dev_setDev_same]
    show (S2.dev i).ReadQ = _
    rw [frame_ReadQ hfr, hsn, hv1]
  · rw [hres, dev_setDev_same]
    show (S2.dev i).write_buffer = _
    rw [frame_write_buffer hfr, hsn, hv1]
  · rw [hres, dev_setDev_same]
    show (S2.dev i).xbdl_ba = _
    rw [frame_xbdl_ba hfr, hsn, hv1]
  · intro h0
    rw [hres, mem_setDev, hS2, if_neg (not_not.2 h0), hS1, xq_reset_santmr_mem, mem_setDev]

/-- Witness of C13.  In the example state `tx_list` (RE and IL clear, RL set, no setup flag,
an empty Read Queue of capacity 2, the descriptor at 0x1000) the frame is looped back: it
is queued as an item of type 1, the status words 0 and 1 are written at 0x1008 and 0x100A,
the write buffer is cleared and XI is set.  In the example state `tx_setup` (a setup
descriptor, setup processing as the source has it) the setup packet of 130 bytes is queued
as an item of type 0, with the same status words. -/
theorem loopback_setup_routing_witness :
    (∃ D,
      xbdl_eom no_link 0 .xqa tx_list =
        (if (D.dev .xqa).csr &&& XQ_CSR_RL = 0 then
          (xq_process_rbdl no_link 0 .xqa D).map fun q => Walk.next q.2
        else some (Walk.next D)) ∧
      (ethq_newest (D.dev .xqa).ReadQ).type = 1 ∧
      word_at D.mem 0x1008 = some 0 ∧ word_at D.mem 0x100A = some 1 ∧
      (D.dev .xqa).write_buffer.len = 0 ∧ (D.dev .xqa).csr &&& XQ_CSR_XI ≠ 0) ∧
    (∃ D,
      xbdl_eom (with_setup no_link) 0 .xqa tx_setup =
        (if (D.dev .xqa).csr &&& XQ_CSR_RL = 0 then
          (xq_process_rbdl (with_setup no_link) 0 .xqa D).map fun q => Walk.next q.2
        else some (Walk.next D)) ∧
      (ethq_newest (D.dev .xqa).ReadQ).type = 0 ∧
      (ethq_newest (D.dev .xqa).ReadQ).packet.len = 130 ∧
      word_at D.mem 0x1008 = some 0 ∧ word_at D.mem 0x100A = some 1 ∧
      (D.dev .xqa).write_buffer.len = 0 ∧ (D.dev .xqa).csr &&& XQ_CSR_XI ≠ 0) := by
  have hz : ∀ it, it ∈ [eth_item_zero, eth_item_zero] → it.packet.msg.length = ETH_FRAME_SIZE := by
    intro it hit
    simp only [List.mem_cons, List.mem_singleton, List.not_mem_nil, or_false, or_self] at hit
    rw [hit]
    simp [eth_item_zero]
  have hwf : ethq_wf (tx_list.dev .xqa).ReadQ :=
    ⟨by decide, by decide, by decide, by decide, hz, fun h => absurd h (by decide)⟩
  obtain ⟨k1, k2, k3, k4⟩ := xq_process_setup_kept .xqa tx_setup
  have k5 := k4 (by decide)
  have hwf2 : ethq_wf (((xq_process_setup .xqa tx_setup).2.1.dev .xqa).ReadQ) := by
    rw [k1]
    exact ⟨by decide, by decide, by decide, by decide, hz, fun h => absurd h (by decide)⟩
  constructor
  · obtain ⟨D, h1, _, _, h4, _, _, h7, h8, h9, h10⟩ :=
      (loopback_setup_routing no_link 0 .xqa tx_list (0, tx_list)
        (by rw [if_neg (by decide)]) hwf (by decide) (by decide)).1 (Or.inr (by decide))
    exact ⟨D, h1, h4, h7, h8, h9, h10⟩
  · obtain ⟨D, h1, _, _, h4, h5, _, h7, h8, h9, h10⟩ :=
      (loopback_setup_routing (with_setup no_link) 0 .xqa tx_setup
        ((xq_process_setup .xqa tx_setup).1, (xq_process_setup .xqa tx_setup).2.1)
        (by rw [if_pos (by decide)]; rfl) hwf2 (by rw [k2]; decide)
        (by rw [k5, k3]; decide)).1 (Or.inl (by decide))
    rw [k3] at h7 h8
    rw [k2] at h5
    exact ⟨D, h1, h4.trans (by decide), h5, h7, h8, h9, h10⟩

/-! ## C25: a chain descriptor that points at itself -/

/-- A fetched descriptor stays in guest memory: the fetch writes word 0 only. -/
theorem bdl_at_fetched (m : Mem) (R f a w : Nat) (hd : bdl_at m R f a w) :
    bdl_at (Map_WriteW m R [0xFFFF]).2 R f a w := by
  obtain ⟨hs, hf, ha, hw⟩ := hd
  have h0 : (m R).isSome = true := by have := hs 0 (by norm_num); simpa using this
  have h1 := hs 1 (by norm_num)
  refine ⟨?_, ?_, ?_, ?_⟩
  · intro k hk; rw [Map_WriteW_isSome]; exact hs k hk
  · rw [word_at_WriteW_other m R _ _ h0 h1 (by omega)]; exact hf
  · rw [word_at_WriteW_other m R _ _ h0 h1 (by omega)]; exact ha
  · rw [word_at_WriteW_other m R _ _ h0 h1 (by omega)]; exact hw

/-- An iteration of the transmit walk on a valid chain descriptor goes round again with
`xbdl_ba` set to the address of the descriptor; guest memory changes in word 0 of the
descriptor only. -/
theorem xbdl_step_chain (K : Collab) (fuel : Nat) (i : CtlrId) (s : Sys) (f a w : Nat)
    (hd : bdl_at s.mem (s.dev i).xbdl_ba f a w) (hV : f &&& XQ_DSC_V ≠ 0)
    (hC : f &&& XQ_DSC_C ≠ 0) :
    ∃ t, xbdl_step K fuel i s = some (.next t) ∧ (t.dev i).xbdl_ba = bdl_address f a ∧
      t.mem = (Map_WriteW s.mem (s.dev i).xbdl_ba [0xFFFF]).2 ∧
      (t.dev i).mode = (s.dev i).mode := by
  obtain ⟨he, hm, B, hB, b1, b2, b3⟩ := xbdl_entry_ok i s f a w hd
  have hf1 : ((xbdl_entry i s).dev i).xbdl_buf.get 1 = f := by rw [hB]; exact b1
  have hf2 : ((xbdl_entry i s).dev i).xbdl_buf.get 2 = a := by rw [hB]; exact b2
  unfold xbdl_step
  simp only [xq_nxm_error_status]
  rw [if_neg (not_not.2 he), hf1, hf2, if_neg hV, if_pos hC]
  refine ⟨_, rfl, ?_, ?_, ?_⟩
  · rw [dev_setDev_same]
  · rw [mem_setDev, hm]
  · rw [dev_setDev_same, hB]

/-- The transmit walk that starts on a valid chain descriptor pointing at itself is, after
every number of iterations, about to fetch the same descriptor again. -/
theorem xbdl_run_self_chain (K : Collab) (fuel : Nat) (i : CtlrId) (R f a w : Nat)
    (hV : f &&& XQ_DSC_V ≠ 0) (hC : f &&& XQ_DSC_C ≠ 0) (haddr : bdl_address f a = R) :
    ∀ (k : Nat) (s : Sys), (s.dev i).xbdl_ba = R → bdl_at s.mem R f a w →
      ∃ t, xbdl_run K fuel i k s = some t ∧ (t.dev i).xbdl_ba = R ∧ bdl_at t.mem R f a w := by
  intro k
  induction k with
  | zero => intro s hba hd; exact ⟨s, rfl, hba, hd⟩
  | succ k ih =>
    intro s hba hd
    have hd1 : bdl_at s.mem (s.dev i).xbdl_ba f a w := by rw [hba]; exact hd
    obtain ⟨t, ht, tba, tmem, _⟩ := xbdl_step_chain K fuel i s f a w hd1 hV hC
    rw [xbdl_run_next K fuel k i s t ht]
    apply ih t (tba.trans haddr)
    rw [tmem, hba]
    exact bdl_at_fetched s.mem R f a w hd

/-- The transmit walk that starts on a valid chain descriptor pointing at itself does not
return, whatever the fuel. -/
theorem xbdl_loop_self_chain (K : Collab) (fuel : Nat) (i : CtlrId) (R f a w : Nat)
    (hV : f &&& XQ_DSC_V ≠ 0) (hC : f &&& XQ_DSC_C ≠ 0) (haddr : bdl_address f a = R) :
    ∀ (n : Nat) (s : Sys), (s.dev i).xbdl_ba = R → bdl_at s.mem R f a w →
      xbdl_loop K fuel n i s = none := by
  intro n
  induction n with
  | zero => intro s _ _; rfl
  | succ n ih =>
    intro s hba hd
    have hd1 : bdl_at s.mem (s.dev i).xbdl_ba f a w := by rw [hba]; exact hd
    obtain ⟨t, ht, tba, tmem, _⟩ := xbdl_step_chain K fuel i s f a w hd1 hV hC
    show (match xbdl_step K fuel i s with
      | none => none
      | some (.ret st s1) => some (st, s1)
      | some (.next s1) => xbdl_loop K fuel n i s1) = none
    rw [ht]
    apply ih t (tba.trans haddr)
    rw [tmem, hba]
    exact bdl_at_fetched s.mem R f a w hd

/-- An iteration of the receive walk on a valid chain descriptor goes round again with
`rbdl_ba` set to the address of the descriptor; guest memory changes in word 0 of the
descriptor only. -/
theorem rbdl_step_chain (i : CtlrId) (s : Sys) (f a w : Nat)
    (hd : bdl_at s.mem (s.dev i).rbdl_ba f a w) (hV : f &&& XQ_DSC_V ≠ 0)
    (hC : f &&& XQ_DSC_C ≠ 0) :
    ∃ t, rbdl_step i s = .next t ∧ (t.dev i).rbdl_ba = bdl_address f a ∧
      t.mem = (Map_WriteW s.mem (s.dev i).rbdl_ba [0xFFFF]).2 ∧
      ((rbdl_entry i s).dev i).rbdl_buf.get 1 = f := by
  have he := rbdl_entry_fetched i s f a w hd
  obtain ⟨w1, w2, _⟩ := rbdl_fetched_words i s f a w
  have hf0 : (xq_fetch_bdl_entry s.mem (s.dev i).rbdl_ba (s.dev i).rbdl_buf 6).1 = 0 := by
    rw [xq_fetch_bdl_entry_6 s.mem (s.dev i).rbdl_ba f a w (s.dev i).rbdl_buf hd]
  have hstep : rbdl_step i s = .next ((rbdl_fetched i s f a w).setDev i
      { (rbdl_fetched i s f a w).dev i with rbdl_ba := bdl_address f a }) := by
    rw [rbdl_step_cases, he, w1, w2, if_neg (not_not.2 hf0), if_neg hV, if_pos hC]
  refine ⟨_, hstep, ?_, ?_, ?_⟩
  · rw [dev_setDev_same]
  · rw [mem_setDev, rbdl_fetched_mem]
  · rw [he, w1]

/-- The receive walk that starts on a valid chain descriptor pointing at itself is, after
every number of iterations, about to fetch the same descriptor again, and has sent nothing
to the guest. -/
theorem rbdl_run_self_chain (i : CtlrId) (R f a w : Nat)
    (hV : f &&& XQ_DSC_V ≠ 0) (hC : f &&& XQ_DSC_C ≠ 0) (haddr : bdl_address f a = R) :
    ∀ (k : Nat) (s : Sys), (s.dev i).rbdl_ba = R → bdl_at s.mem R f a w →
      ∃ t, rbdl_run i k s = some ([], t) ∧ (t.dev i).rbdl_ba = R ∧ bdl_at t.mem R f a w := by
  intro k
  induction k with
  | zero => intro s hba hd; exact ⟨s, rfl, hba, hd⟩
  | succ k ih =>
    intro s hba hd
    have hd1 : bdl_at s.mem (s.dev i).rbdl_ba f a w := by rw [hba]; exact hd
    obtain ⟨t, ht, tba, tmem, hf⟩ := rbdl_step_chain i s f a w hd1 hV hC
    obtain ⟨t2, hrun, h2, h3⟩ := ih t (tba.trans haddr)
      (by rw [tmem, hba]; exact bdl_at_fetched s.mem R f a w hd)
    refine ⟨t2, ?_, h2, h3⟩
    show (match rbdl_step i s with
      | .ret _ _ => none
      | .next s1 =>
        match rbdl_run i k s1 with
        | none => none
        | some (tr, s2) =>
          some ((if ((rbdl_entry i s).dev i).rbdl_buf.get 1 &&& XQ_DSC_C ≠ 0 then tr
            else rbdl_slice ((rbdl_entry i s).dev i) :: tr), s2)) = _
    rw [ht]
    simp only [hrun, hf, if_pos hC]

/-- C25 (termination).  There is a guest-memory state in which every access succeeds, a
descriptor at 0x1100 with the valid and chain bits set (flag word 0xC000) whose address
field is its own address, for which the classic walks started there never return: for every
number `k` of iterations the transmit walk `xq_process_xbdl`, and likewise the receive walk
`xq_process_rbdl`, has made `k` iterations without returning and is about to fetch the same
descriptor, which guest memory still holds with all its bytes existing; and neither walk
returns for any amount of fuel, whatever the functions they could call. -/
theorem self_chain_never_returns :
    ∃ s : Sys, (s.dev .xqa).mode ≠ XQ_T_DELQA_PLUS ∧
      (s.dev .xqa).xbdl_ba = 0x1100 ∧ (s.dev .xqa).rbdl_ba = 0x1100 ∧
      bdl_at s.mem 0x1100 0xC000 0x1100 0 ∧ bdl_address 0xC000 0x1100 = 0x1100 ∧
      0xC000 &&& XQ_DSC_V ≠ 0 ∧ 0xC000 &&& XQ_DSC_C ≠ 0 ∧
      (∀ (K : Collab) (fuel k : Nat),
        ∃ t, xbdl_run K fuel .xqa k (xbdl_start .xqa s) = some t ∧
          (t.dev .xqa).xbdl_ba = 0x1100 ∧ bdl_at t.mem 0x1100 0xC000 0x1100 0) ∧
      (∀ (K : Collab) (fuel : Nat), xq_process_xbdl K fuel .xqa s = none) ∧
      (∀ k : Nat,
        ∃ t, rbdl_run .xqa k s = some ([], t) ∧
          (t.dev .xqa).rbdl_ba = 0x1100 ∧ bdl_at t.mem 0x1100 0xC000 0x1100 0) ∧
      (∀ (K : Collab) (fuel : Nat), xq_process_rbdl K fuel .xqa s = none) := by
  have hd : bdl_at self_chain.mem 0x1100 0xC000 0x1100 0 :=
    ⟨by decide, by decide, by decide, by decide⟩
  have hds : bdl_at (xbdl_start .xqa self_chain).mem 0x1100 0xC000 0x1100 0 := hd
  refine ⟨self_chain, by decide, rfl, rfl, hd, by decide, by decide, by decide, ?_, ?_, ?_, ?_⟩
  · intro K fuel k
    exact xbdl_run_self_chain K fuel .xqa 0x1100 0xC000 0x1100 0 (by decide) (by decide)
      (by decide) k _ rfl hds
  · intro K fuel
    exact xbdl_loop_self_chain K fuel .xqa 0x1100 0xC000 0x1100 0 (by decide) (by decide)
      (by decide) fuel _ rfl hds
  · intro k
    exact rbdl_run_self_chain .xqa 0x1100 0xC000 0x1100 0 (by decide) (by decide)
      (by decide) k _ rfl hd
  · intro K fuel
    unfold xq_process_rbdl
    rw [if_neg (by decide)]
    exact rbdl_loop_self_chain .xqa 0x1100 0xC000 0 (by decide) (by decide) fuel 0x1100 _ rfl
      hd (by decide)

/-! ## C29: the Read Queue refines a list -/

theorem eth_item_zero_msg : eth_item_zero.packet.msg.length = ETH_FRAME_SIZE := by
  simp [eth_item_zero]

/-- A cleared queue of positive capacity is in use and holds nothing. -/
theorem ethq_clear_wf (que : eth_queue) (hM : 0 < que.max) :
    ethq_wf (ethq_clear que) ∧ (ethq_clear que).max = que.max ∧ ethq_list (ethq_clear que) = [] := by
  refine ⟨⟨hM, by simp [ethq_clear], Nat.zero_le _, hM, ?_, ?_⟩, rfl, rfl⟩
  · intro it hit
    have : it = eth_item_zero := by
      simp only [ethq_clear] at hit
      exact List.eq_of_mem_replicate hit
    rw [this]
    exact eth_item_zero_msg
  · intro h
    exact absurd h (by simp [ethq_clear])

/-- What `ethq_remove` does to a Read Queue in use, as a list of items. -/
theorem ethq_remove_list (que : eth_queue) (hwf : ethq_wf que) :
    ethq_wf (ethq_remove que) ∧ (ethq_remove que).max = que.max ∧
      ethq_list (ethq_remove que) = (ethq_list que).tail := by
  obtain ⟨hM, hlenI, hcnt, hhead, hmsg, htail⟩ := hwf
  by_cases hc0 : que.count = 0
  · have e : ethq_remove que = que := by
      unfold ethq_remove
      rw [if_neg (not_not.2 hc0)]
    rw [e]
    refine ⟨⟨hM, hlenI, hcnt, hhead, hmsg, htail⟩, rfl, ?_⟩
    unfold ethq_list
    rw [hc0]
    rfl
  · have hh1 : (if que.head + 1 = que.max then 0 else que.head + 1) = (que.head + 1) % que.max := by
      have := succ_mod_step que.head que.max hM
      rwa [Nat.mod_eq_of_lt hhead] at this
    have e : ethq_remove que =
        { que with
          item := que.item.set que.head eth_item_zero
          head := (que.head + 1) % que.max
          count := que.count - 1 } := by
      unfold ethq_remove
      rw [if_pos hc0, hh1]
    rw [e]
    refine ⟨⟨hM, by simp [hlenI], ?_, Nat.mod_lt _ hM, ?_, ?_⟩, rfl, ?_⟩
    · show que.count - 1 ≤ que.max
      omega
    · intro it hit
      rcases List.mem_or_eq_of_mem_set hit with h1 | h1
      · exact hmsg _ h1
      · rw [h1]; exact eth_item_zero_msg
    · intro hpos
      have hpos1 : 0 < que.count - 1 := hpos
      show que.tail = ((((que.head + 1) % que.max + (que.count - 1) - 1) % que.max : Nat) : Int)
      rw [htail (by omega)]
      congr 1
      have e1 : (que.head + 1) % que.max + (que.count - 1) - 1 =
          (que.head + 1) % que.max + (que.count - 2) := by omega
      rw [e1, Nat.mod_add_mod]
      congr 1
      omega
    · unfold ethq_list
      obtain ⟨m, hm⟩ : ∃ m, que.count = m + 1 := ⟨que.count - 1, by omega⟩
      show (List.range (que.count - 1)).map (fun k =>
          (que.item.set que.head eth_item_zero).getD (((que.head + 1) % que.max + k) % que.max)
            eth_item_zero) = _
      rw [hm, map_range_tail]
      apply List.map_congr_left
      intro k hk
      have hk1 : k < m := by simpa using hk
      rw [Nat.mod_add_mod]
      have e2 : que.head + 1 + k = que.head + (k + 1) := by omega
      rw [e2]
      apply getD_set_other
      have := mod_add_ne que.head (k + 1) que.max (by omega) (by omega)
      rwa [Nat.mod_eq_of_lt hhead] at this

/-- The view of the item that `ethq_insert` leaves at the tail. -/
theorem view_newest (que : eth_queue) (type : Nat) (pack : eth_packet) (status : Nat)
    (hwf : ethq_wf que) (hlen : pack.len ≤ ETH_FRAME_SIZE) :
    item_view (ethq_newest (ethq_insert que type pack status)) =
      item_view { type := type, packet := { pack with status := status } } := by
  obtain ⟨T, hT, hTM, qtail, qitem, qmax, qcount, qloss, qhead⟩ :=
    ethq_insert_data_fields que type pack.msg pack.used pack.len pack.crc_len status hwf
  obtain ⟨hM, hlenI, hcnt, hhead, hmsg, htail⟩ := hwf
  have hTl : T < que.item.length := by rw [hlenI]; exact hTM
  have hold : (que.item.getD T eth_item_zero).packet.msg.length = ETH_FRAME_SIZE := by
    rw [List.getD_eq_getElem _ _ hTl]
    exact hmsg _ (List.getElem_mem _)
  have hnew : ethq_newest (ethq_insert que type pack status) =
      { type := type
        packet :=
          { msg := memcpy (que.item.getD T eth_item_zero).packet.msg 0 pack.msg
              (if pack.crc_len < pack.len then pack.len else pack.crc_len)
            len := pack.len, used := pack.used, crc_len := pack.crc_len, status := status } } := by
    unfold ethq_newest ethq_insert
    rw [qtail, qitem, Int.toNat_ofNat, getD_set_same _ _ _ _ hTl]
  rw [hnew]
  unfold item_view
  simp only
  rw [memcpy_bytes _ _ _ _ (by split_ifs <;> omega) (by rw [hold]; exact hlen)]

/-- One operation on a Read Queue in use is the operation of the abstract list on the views
of its items. -/
theorem ethq_op_refines (max : Nat) (op : ethq_op) (que : eth_queue) (hwf : ethq_wf que)
    (hmax : que.max = max) (hfit : op.fits) :
    ethq_wf (op.run que) ∧ (op.run que).max = max ∧
      (ethq_list (op.run que)).map item_view = abs_op max op ((ethq_list que).map item_view) := by
  have hcount : (ethq_list que).length = que.count := by simp [ethq_list]
  cases op with
  | insert type pack status =>
    obtain ⟨h1, _, _, _, _, hfull, hroom⟩ :=
      ethq_insert_data_list que type pack.msg pack.used pack.len pack.crc_len status hwf hfit.1
    have hv := view_newest que type pack status hwf hfit.1
    refine ⟨h1, ?_, ?_⟩
    · obtain ⟨_, _, _, _, _, qmax, _⟩ :=
        ethq_insert_data_fields que type pack.msg pack.used pack.len pack.crc_len status hwf
      exact qmax.trans hmax
    · show (ethq_list (ethq_insert que type pack status)).map item_view =
        (if ((ethq_list que).map item_view).length = max then ((ethq_list que).map item_view).tail
          else (ethq_list que).map item_view) ++
          [item_view { type := type, packet := { pack with status := status } }]
      rw [List.length_map, hcount, ← hmax, ← hv]
      by_cases hf : que.count = que.max
      · rw [if_pos hf]
        have := (hfull hf).2.2.2
        unfold ethq_insert
        rw [this, List.map_append, List.map_tail]
        rfl
      · rw [if_neg hf]
        have := (hroom (by have := hwf.2.2.1; omega)).2.2
        unfold ethq_insert
        rw [this, List.map_append]
        rfl
  | remove =>
    obtain ⟨h1, h2, h3⟩ := ethq_remove_list que hwf
    refine ⟨h1, h2.trans hmax, ?_⟩
    show (ethq_list (ethq_remove que)).map item_view = ((ethq_list que).map item_view).tail
    rw [h3, List.map_tail]
  | clear =>
    obtain ⟨h1, h2, h3⟩ := ethq_clear_wf que hwf.1
    refine ⟨h1, h2.trans hmax, ?_⟩
    show (ethq_list (ethq_clear que)).map item_view = []
    rw [h3]
    rfl

/-- A sequence of operations on a Read Queue in use is the sequence of operations of the
abstract list on the views of its items. -/
theorem ethq_run_refines (max : Nat) :
    ∀ (ops : List ethq_op) (que : eth_queue), ethq_wf que → que.max = max →
      (∀ op ∈ ops, op.fits) →
      ethq_wf (ethq_run ops que) ∧ (ethq_run ops que).max = max ∧
        (ethq_list (ethq_run ops que)).map item_view =
          abs_run max ops ((ethq_list que).map item_view) := by
  intro ops
  induction ops with
  | nil => intro que hwf hmax _; exact ⟨hwf, hmax, rfl⟩
  | cons op ops ih =>
    intro que hwf hmax hfit
    obtain ⟨h1, h2, h3⟩ := ethq_op_refines max op que hwf hmax (hfit op (List.mem_cons_self _ _))
    obtain ⟨k1, k2, k3⟩ := ih (op.run que) h1 h2 (fun o ho => hfit o (List.mem_cons_of_mem _ ho))
    refine ⟨k1, k2, ?_⟩
    show (ethq_list (ethq_run ops (op.run que))).map item_view = abs_run max ops (abs_op max op _)
    rw [k3, h3]

/-- C29 (refinement).  Let a Read Queue be created by `ethq_init` with capacity `max > 0`
(from a queue without an item array) and let any finite sequence of `ethq_insert`,
`ethq_remove` and `ethq_clear` follow, the inserted packets having at most `ETH_FRAME_SIZE`
bytes.  The queue reached has capacity `max`, `count ≤ max`, `head < max` and, when
`count > 0`, `tail = (head + count - 1) mod max`; the views of the items at the positions
`head`, `head + 1`, ... (modulo `max`) are the abstract list obtained from the empty list by
appending on insert (dropping the first element when the list already has `max` elements),
dropping the first element on remove (no change when empty) and emptying on clear; the list
has `count` elements, and when `count > 0` its first element, the oldest retained packet,
is the view of the item at `head`. -/
theorem read_queue_refinement (max : Nat) (que0 : eth_queue) (ops : List ethq_op)
    (hmax : 0 < max) (hnew : que0.item = []) (hfit : ∀ op ∈ ops, op.fits) :
    (ethq_run ops (ethq_init que0 max).2).max = max ∧
    (ethq_run ops (ethq_init que0 max).2).count ≤ max ∧
    (ethq_run ops (ethq_init que0 max).2).head < max ∧
    (0 < (ethq_run ops (ethq_init que0 max).2).count →
      (ethq_run ops (ethq_init que0 max).2).tail =
        ((((ethq_run ops (ethq_init que0 max).2).head +
          (ethq_run ops (ethq_init que0 max).2).count - 1) % max : Nat) : Int)) ∧
    (ethq_list (ethq_run ops (ethq_init que0 max).2)).map item_view = abs_run max ops [] ∧
    (abs_run max ops []).length = (ethq_run ops (ethq_init que0 max).2).count ∧
    (0 < (ethq_run ops (ethq_init que0 max).2).count →
      (abs_run max ops []).head? =
        some (item_view ((ethq_run ops (ethq_init que0 max).2).item.getD
          (ethq_run ops (ethq_init que0 max).2).head eth_item_zero))) := by
  have hinit : (ethq_init que0 max).2 =
      ethq_clear { que0 with item := List.replicate max eth_item_zero, max := max } := by
    unfold ethq_init
    rw [if_pos hnew]
  obtain ⟨w1, w2, w3⟩ :=
    ethq_clear_wf { que0 with item := List.replicate max eth_item_zero, max := max } hmax
  rw [← hinit] at w1 w2 w3
  obtain ⟨k1, k2, k3⟩ := ethq_run_refines max ops (ethq_init que0 max).2 w1 w2 hfit
  rw [w3] at k3
  obtain ⟨q, hq⟩ : ∃ q, ethq_run ops (ethq_init que0 max).2 = q := ⟨_, rfl⟩
  rw [hq] at k1 k2 k3 ⊢
  obtain ⟨hM, hlenI, hcnt, hhead, hmsg, htail⟩ := k1
  have k3' : (ethq_list q).map item_view = abs_run max ops [] := k3
  refine ⟨k2, by rw [← k2]; exact hcnt, by rw [← k2]; exact hhead, ?_, k3', ?_, ?_⟩
  · intro hpos
    rw [← k2]
    exact htail hpos
  · rw [← k3']
    simp [ethq_list]
  · intro hpos
    rw [← k3']
    obtain ⟨m, hm⟩ : ∃ m, q.count = m + 1 := ⟨q.count - 1, by omega⟩
    unfold ethq_list
    rw [hm, List.range_succ_eq_map]
    simp only [List.map_cons, List.head?_cons, Nat.add_zero]
    rw [Nat.mod_eq_of_lt hhead]

/-- Witness of C29: a queue of capacity 2 is created, three packets of types 0, 1 and 2 are
inserted, and one packet is removed; the queue then holds the packet of type 2 alone, the
first packet having been dropped by the third insert and the second removed. -/
theorem read_queue_refinement_witness :
    (ethq_run [.insert 0 {} 0, .insert 1 {} 0, .insert 2 {} 0, .remove] (ethq_init {} 2).2).count = 1 ∧
    abs_run 2 [.insert 0 {} 0, .insert 1 {} 0, .insert 2 {} 0, .remove] [] =
      [item_view { type := 2, packet := {} }] ∧
    (ethq_list (ethq_run [.insert 0 {} 0, .insert 1 {} 0, .insert 2 {} 0, .remove]
      (ethq_init {} 2).2)).map item_view =
      abs_run 2 [.insert 0 {} 0, .insert 1 {} 0, .insert 2 {} 0, .remove] [] := by
  have hfit : ∀ op ∈ [ethq_op.insert 0 {} 0, .insert 1 {} 0, .insert 2 {} 0, .remove], op.fits := by
    intro op hop
    simp only [List.mem_cons, List.mem_singleton, List.not_mem_nil, or_false] at hop
    rcases hop with h | h | h | h <;> rw [h] <;> simp [ethq_op.fits]
  have h := read_queue_refinement 2 {} [.insert 0 {} 0, .insert 1 {} 0, .insert 2 {} 0, .remove]
    (by decide) rfl hfit
  have hl : abs_run 2 [.insert 0 {} 0, .insert 1 {} 0, .insert 2 {} 0, .remove] [] =
      [item_view { type := 2, packet := {} }] := by
    decide
  refine ⟨?_, hl, h.2.2.2.2.1⟩
  rw [← h.2.2.2.2.2.1, hl]
  rfl

/-! ## C23: descriptor round trip -/

theorem or_small_testBit (F hi k : Nat) (hhi : hi < 64) (hk : 6 ≤ k) :
    (F ||| hi).testBit k = F.testBit k := by
  have h2 : hi < 2 ^ k := lt_of_lt_of_le hhi (by
    calc 64 = 2 ^ 6 := rfl
      _ ≤ 2 ^ k := Nat.pow_le_pow_right (by norm_num) hk)
  rw [Nat.testBit_or, Nat.testBit_lt_two_pow h2, Bool.or_false]

theorem spec_bdl_flags_low (v c e s l h : Bool) (k : Nat) (hk : k < 6) :
    (spec_bdl_flags v c e s l h).testBit k = false := by
  interval_cases k <;> cases v <;> cases c <;> cases e <;> cases s <;> cases l <;> cases h <;> rfl

theorem spec_bdl_flags_bits (v c e s l h : Bool) :
    ((spec_bdl_flags v c e s l h).testBit 15 = v) ∧ ((spec_bdl_flags v c e s l h).testBit 14 = c) ∧
    ((spec_bdl_flags v c e s l h).testBit 13 = e) ∧ ((spec_bdl_flags v c e s l h).testBit 12 = s) ∧
    ((spec_bdl_flags v c e s l h).testBit 7 = l) ∧ ((spec_bdl_flags v c e s l h).testBit 6 = h) := by
  cases v <;> cases c <;> cases e <;> cases s <;> cases l <;> cases h <;>
    exact ⟨rfl, rfl, rfl, rfl, rfl, rfl⟩

/-- The address decoded from a flag word that carries the bits 21:16 of `addr` above the
flags and from the low word of `addr`. -/
theorem bdl_address_encode (F addr : Nat) (ha : addr < 2 ^ 22)
    (hF : ∀ k, k < 6 → F.testBit k = false) :
    bdl_address (F ||| (addr >>> 16)) (addr &&& 0xFFFF) = addr := by
  unfold bdl_address
  apply Nat.eq_of_testBit_eq
  intro k
  have e63 : (0x3F : Nat) = 2 ^ 6 - 1 := rfl
  have eFF : (0xFFFF : Nat) = 2 ^ 16 - 1 := rfl
  rw [Nat.testBit_or, Nat.testBit_shiftLeft, Nat.testBit_and, Nat.testBit_and, Nat.testBit_or,
    Nat.testBit_shiftRight, e63, eFF, Nat.testBit_two_pow_sub_one, Nat.testBit_two_pow_sub_one]
  by_cases h16 : k < 16
  · have : ¬ k ≥ 16 := by omega
    simp [h16, this]
  · by_cases h22 : k < 22
    · have h6 : k - 16 < 6 := by omega
      have e : 16 + (k - 16) = k := by omega
      have h16' : k ≥ 16 := by omega
      simp [h16, h16', h6, hF _ h6, e]
    · have hk : addr.testBit k = false :=
        Nat.testBit_lt_two_pow (lt_of_lt_of_le ha (Nat.pow_le_pow_right (by norm_num) (by omega)))
      have h6 : ¬ k - 16 < 6 := by omega
      simp [h16, h6, hk]

/-- The word length decoded from the 16-bit two's complement of `n` words, `n` being at
most 32768. -/
theorem decode_words (n : Nat) (hn : n ≤ 32768) :
    bdl_w_length ((65536 - n % 65536) % 65536) = n := by
  unfold bdl_w_length u16 not16
  omega

/-- C23 as stated does not hold: a buffer of 32768 words without odd-trim bits has a word
count that 16 bits hold in two's complement (0x8000, the two's complement of 32768) and the
byte length 65536; the controller decodes the byte length 0, the decoded length being a
16-bit value. -/
theorem descriptor_round_trip_counterexample :
    spec_bdl_words 65536 false = 32768 ∧
    (spec_bdl_encode 0 65536 true false false false false).2.2 = 0x8000 ∧
    bdl_w_length (spec_bdl_encode 0 65536 true false false false false).2.2 = 32768 ∧
    bdl_b_length (spec_bdl_encode 0 65536 true false false false false).1
      (spec_bdl_encode 0 65536 true false false false false).2.2 = 0 ∧
    bdl_b_length (spec_bdl_encode 0 65536 true false false false false).1
      (spec_bdl_encode 0 65536 true false false false false).2.2 ≠ 65536 := by
  refine ⟨by decide, by decide, by decide, by decide, by decide⟩

/-- C23, amended (algebraic).  Encoding a classic buffer descriptor (an address below 2^22,
a byte length below 65536, the valid, chain, end-of-message and setup flags, and whether the
buffer starts on a high byte) into the flag word with the address bits 21:16 and the odd-trim
bits, the address-low word and the two's-complement word count, and then decoding with the
decode steps of the controller, reproduces the same address, the same byte length and the
same flag bits. -/
theorem descriptor_round_trip (addr len : Nat) (v c e s h : Bool)
    (ha : addr < 2 ^ 22) (hl : len < 65536) :
    bdl_address (spec_bdl_encode addr len v c e s h).1 (spec_bdl_encode addr len v c e s h).2.1 =
      addr ∧
    bdl_b_length (spec_bdl_encode addr len v c e s h).1 (spec_bdl_encode addr len v c e s h).2.2 =
      len ∧
    ((spec_bdl_encode addr len v c e s h).1 &&& XQ_DSC_V ≠ 0 ↔ v = true) ∧
    ((spec_bdl_encode addr len v c e s h).1 &&& XQ_DSC_C ≠ 0 ↔ c = true) ∧
    ((spec_bdl_encode addr len v c e s h).1 &&& XQ_DSC_E ≠ 0 ↔ e = true) ∧
    ((spec_bdl_encode addr len v c e s h).1 &&& XQ_DSC_S ≠ 0 ↔ s = true) ∧
    ((spec_bdl_encode addr len v c e s h).1 &&& XQ_DSC_H ≠ 0 ↔ h = true) ∧
    ((spec_bdl_encode addr len v c e s h).1 &&& XQ_DSC_L ≠ 0 ↔
      (len + (if h then 1 else 0)) % 2 = 1) := by
  obtain ⟨l, hl0⟩ : ∃ l : Bool, l = decide ((len + (if h then 1 else 0)) % 2 = 1) := ⟨_, rfl⟩
  obtain ⟨n, hn0⟩ : ∃ n : Nat,
      n = (len + (if h then 1 else 0) + (if l then 1 else 0)) / 2 := ⟨_, rfl⟩
  have henc : spec_bdl_encode addr len v c e s h =
      (spec_bdl_flags v c e s l h ||| (addr >>> 16), addr &&& 0xFFFF, (65536 - n % 65536) % 65536) := by
    unfold spec_bdl_encode
    simp only [← hl0, ← hn0]
  rw [henc]
  simp only
  have hhi : addr >>> 16 < 64 := by
    rw [Nat.shiftRight_eq_div_pow]
    have : addr < 2 ^ 16 * 64 := by
      calc addr < 2 ^ 22 := ha
        _ = 2 ^ 16 * 64 := by norm_num
    exact Nat.div_lt_of_lt_mul this
  obtain ⟨b15, b14, b13, b12, b7, b6⟩ := spec_bdl_flags_bits v c e s l h
  have eV : XQ_DSC_V = 2 ^ 15 := rfl
  have eC : XQ_DSC_C = 2 ^ 14 := rfl
  have eE : XQ_DSC_E = 2 ^ 13 := rfl
  have eS : XQ_DSC_S = 2 ^ 12 := rfl
  have eL : XQ_DSC_L = 2 ^ 7 := rfl
  have eH : XQ_DSC_H = 2 ^ 6 := rfl
  have hH : (spec_bdl_flags v c e s l h ||| (addr >>> 16)) &&& XQ_DSC_H ≠ 0 ↔ h = true := by
    rw [eH, and_two_pow_ne_zero_iff, or_small_testBit _ _ _ hhi (by norm_num), b6]
  have hL : (spec_bdl_flags v c e s l h ||| (addr >>> 16)) &&& XQ_DSC_L ≠ 0 ↔ l = true := by
    rw [eL, and_two_pow_ne_zero_iff, or_small_testBit _ _ _ hhi (by norm_num), b7]
  have hlp : l = true ↔ (len + (if h then 1 else 0)) % 2 = 1 := by
    rw [hl0]; simp
  refine ⟨bdl_address_encode _ addr ha (spec_bdl_flags_low v c e s l h), ?_, ?_, ?_, ?_, ?_, hH,
    hL.trans hlp⟩
  · have hn : n ≤ 32768 := by
      rw [hn0]
      cases h <;> cases l <;> simp <;> omega
    unfold bdl_b_length
    rw [decode_words n hn]
    simp only []
    cases hh : h <;> cases hlv : l
    · have h1 : ¬ (spec_bdl_flags v c e s l h ||| (addr >>> 16)) &&& XQ_DSC_H ≠ 0 := by
        rw [hH, hh]; simp
      have h2 : ¬ (spec_bdl_flags v c e s l h ||| (addr >>> 16)) &&& XQ_DSC_L ≠ 0 := by
        rw [hL, hlv]; simp
      rw [hh, hlv] at hn0 hlp
      rw [hh, hlv] at h1 h2
      rw [if_neg h1, if_neg h2]
      unfold u16
      simp at hn0 hlp
      omega
    · have h1 : ¬ (spec_bdl_flags v c e s l h ||| (addr >>> 16)) &&& XQ_DSC_H ≠ 0 := by
        rw [hH, hh]; simp
      have h2 : (spec_bdl_flags v c e s l h ||| (addr >>> 16)) &&& XQ_DSC_L ≠ 0 := by
        rw [hL, hlv]
      rw [hh, hlv] at hn0 hlp
      rw [hh, hlv] at h1 h2
      rw [if_neg h1, if_pos h2]
      unfold u16
      simp at hn0 hlp
      omega
    · have h1 : (spec_bdl_flags v c e s l h ||| (addr >>> 16)) &&& XQ_DSC_H ≠ 0 := by
        rw [hH, hh]
      have h2 : ¬ (spec_bdl_flags v c e s l h ||| (addr >>> 16)) &&& XQ_DSC_L ≠ 0 := by
        rw [hL, hlv]; simp
      rw [hh, hlv] at hn0 hlp
      rw [hh, hlv] at h1 h2
      rw [if_pos h1, if_neg h2]
      unfold u16
      simp at hn0 hlp
      omega
    · have h1 : (spec_bdl_flags v c e s l h ||| (addr >>> 16)) &&& XQ_DSC_H ≠ 0 := by
        rw [hH, hh]
      have h2 : (spec_bdl_flags v c e s l h ||| (addr >>> 16)) &&& XQ_DSC_L ≠ 0 := by
        rw [hL, hlv]
      rw [hh, hlv] at hn0 hlp
      rw [hh, hlv] at h1 h2
      rw [if_pos h1, if_pos h2]
      unfold u16
      simp at hn0 hlp
      omega
  · rw [eV, and_two_pow_ne_zero_iff, or_small_testBit _ _ _ hhi (by norm_num), b15]
  · rw [eC, and_two_pow_ne_zero_iff, or_small_testBit _ _ _ hhi (by norm_num), b14]
  · rw [eE, and_two_pow_ne_zero_iff, or_small_testBit _ _ _ hhi (by norm_num), b13]
  · rw [eS, and_two_pow_ne_zero_iff, or_small_testBit _ _ _ hhi (by norm_num), b12]

/-- Witness of C23: a descriptor for 61 bytes at 0x3F1234 that starts on a high byte, with
the valid and end-of-message flags, is encoded and decoded. -/
theorem descriptor_round_trip_witness :
    bdl_address (spec_bdl_encode 0x3F1234 61 true false true false true).1
      (spec_bdl_encode 0x3F1234 61 true false true false true).2.1 = 0x3F1234 ∧
    bdl_b_length (spec_bdl_encode 0x3F1234 61 true false true false true).1
      (spec_bdl_encode 0x3F1234 61 true false true false true).2.2 = 61 :=
  ⟨(descriptor_round_trip 0x3F1234 61 true false true false true (by norm_num) (by norm_num)).1,
    (descriptor_round_trip 0x3F1234 61 true false true false true (by norm_num) (by norm_num)).2.1⟩

/-! ## C21 and C22: the register window and turbo mode -/

theorem classic_kept_of_frame {a b : xq_device} (h : b.frame = a.frame) : classic_kept a b := by
  have e1 := congrArg xq_device.rbdl h
  have e2 := congrArg xq_device.xbdl h
  have e3 := congrArg xq_device.rbdl_ba h
  have e4 := congrArg xq_device.xbdl_ba h
  have e5 := congrArg xq_device.rbdl_buf h
  have e6 := congrArg xq_device.xbdl_buf h
  have e7 := congrArg xq_device.ReadQ h
  have e8 := congrArg xq_device.write_buffer h
  exact ⟨e1, e2, e3, e4, e5, e6, e7, e8⟩

theorem classic_kept_trans {a b c : xq_device} (h1 : classic_kept a b) (h2 : classic_kept b c) :
    classic_kept a c := by
  obtain ⟨a1, a2, a3, a4, a5, a6, a7, a8⟩ := h1
  obtain ⟨b1, b2, b3, b4, b5, b6, b7, b8⟩ := h2
  exact ⟨b1.trans a1, b2.trans a2, b3.trans a3, b4.trans a4, b5.trans a5, b6.trans a6,
    b7.trans a7, b8.trans a8⟩

theorem iba_low_after_write (a d : Nat) (hd : d &&& 0xFFFF = 0x0BAF) :
    ((a &&& 0xFFFF0000) ||| (d &&& 0xFFFF)) &&& 0xFFFF = 0x0BAF := by
  rw [hd]
  apply Nat.eq_of_testBit_eq
  intro k
  have e1 : (0xFFFF0000 : Nat) = (2 ^ 16 - 1) <<< 16 := by decide
  have e2 : (0xFFFF : Nat) = 2 ^ 16 - 1 := rfl
  rw [Nat.testBit_and, Nat.testBit_or, Nat.testBit_and, e1, e2, Nat.testBit_shiftLeft,
    Nat.testBit_two_pow_sub_one, Nat.testBit_two_pow_sub_one]
  by_cases h16 : k < 16
  · have : ¬ k ≥ 16 := by omega
    simp [h16, this]
  · have hk : (0x0BAF : Nat).testBit k = false :=
      Nat.testBit_lt_two_pow (lt_of_lt_of_le (by norm_num : (0x0BAF : Nat) < 2 ^ 16)
        (Nat.pow_le_pow_right (by norm_num) (by omega)))
    simp [h16, hk]

/-- A write to the register with index 0 in classic mode. -/
theorem xq_wr_index0 (K : Collab) (fuel : Nat) (i : CtlrId) (data PA : Nat) (s : Sys)
    (hidx : (PA >>> 1) &&& 7 = 0) (hmode : (s.dev i).mode ≠ XQ_T_DELQA_PLUS) :
    xq_wr K fuel i data PA s = some (SCPE_OK,
      if (s.dev i).type = XQ_T_DELQA_PLUS then
        s.setDev i { s.dev i with iba := ((s.dev i).iba &&& 0xFFFF0000) ||| (data &&& 0xFFFF) }
      else s) := by
  have hm : ¬ (s.ctlr i).var.mode = XQ_T_DELQA_PLUS := hmode
  unfold xq_wr
  simp only [hidx, if_neg hm]
  by_cases ht : (s.ctlr i).var.type = XQ_T_DELQA_PLUS
  · have ht' : (s.dev i).type = XQ_T_DELQA_PLUS := ht
    rw [if_pos ht, if_pos ht']
    rfl
  · have ht' : ¬ (s.dev i).type = XQ_T_DELQA_PLUS := ht
    rw [if_neg ht, if_neg ht']
    rfl

/-- A write to the register with index 1 in classic mode. -/
theorem xq_wr_index1 (K : Collab) (fuel : Nat) (i : CtlrId) (data PA : Nat) (s : Sys)
    (hidx : (PA >>> 1) &&& 7 = 1) (hmode : (s.dev i).mode ≠ XQ_T_DELQA_PLUS) :
    ∃ t, xq_wr K fuel i data PA s = some (SCPE_OK, t) ∧
      ((s.dev i).type ≠ XQ_T_DELQA_PLUS → t = s) ∧
      ((s.dev i).type = XQ_T_DELQA_PLUS → (s.dev i).iba &&& 0xFFFF = 0x0BAF → data = 0xFF00 →
        (t.dev i).mode = XQ_T_DELQA_PLUS ∧ (t.dev i).srr = XQ_SRR_TRBO ∧
        (t.ctlr i).unit0_active = false) := by
  have hm : ¬ (s.ctlr i).var.mode = XQ_T_DELQA_PLUS := hmode
  unfold xq_wr
  simp only [hidx, if_neg hm]
  by_cases ht : (s.ctlr i).var.type = XQ_T_DELQA_PLUS
  · have ht' : (s.dev i).type = XQ_T_DELQA_PLUS := ht
    rw [if_pos ht]
    refine ⟨_, rfl, fun h => absurd ht' h, ?_⟩
    intro _ hiba hdata
    have hiba' : (s.ctlr i).var.iba &&& 0xFFFF = 0x0BAF := hiba
    rw [if_pos ⟨hiba', hdata⟩]
    cases i <;> exact ⟨rfl, rfl, rfl⟩
  · have ht' : ¬ (s.dev i).type = XQ_T_DELQA_PLUS := ht
    rw [if_neg ht]
    exact ⟨_, rfl, fun _ => rfl, fun h => absurd h ht'⟩

/-- C21 (turbo handshake).  Let a controller not be in turbo mode.  A register write of a
value whose low 16 bits are 0x0BAF to index 0 followed by a register write of exactly 0xFF00
to index 1 both return `SCPE_OK`; for a controller of type DELQA-T they set the active mode
to turbo (`XQ_T_DELQA_PLUS`) and `srr` to `XQ_SRR_TRBO`, and unschedule the receive service;
for a controller of type DEQNA or DELQA (such a controller is not in turbo mode) the two
writes leave the whole state as it is, so neither `mode` nor `srr` nor `iba` changes. -/
theorem turbo_handshake (K : Collab) (fuel : Nat) (i : CtlrId) (d0 PA0 PA1 : Nat) (s : Sys)
    (h0 : (PA0 >>> 1) &&& 7 = 0) (h1 : (PA1 >>> 1) &&& 7 = 1) (hd : d0 &&& 0xFFFF = 0x0BAF)
    (hmode : (s.dev i).mode ≠ XQ_T_DELQA_PLUS) :
    ∃ s1 s2, xq_wr K fuel i d0 PA0 s = some (SCPE_OK, s1) ∧
      xq_wr K fuel i 0xFF00 PA1 s1 = some (SCPE_OK, s2) ∧
      ((s.dev i).type = XQ_T_DELQA_PLUS →
        (s2.dev i).mode = XQ_T_DELQA_PLUS ∧ (s2.dev i).srr = XQ_SRR_TRBO ∧
        (s2.ctlr i).unit0_active = false) ∧
      ((s.dev i).type ≠ XQ_T_DELQA_PLUS →
        s2 = s ∧ (s2.dev i).mode = (s.dev i).mode ∧ (s2.dev i).srr = (s.dev i).srr ∧
        (s2.dev i).iba = (s.dev i).iba) := by
  have w0 := xq_wr_index0 K fuel i d0 PA0 s h0 hmode
  by_cases ht : (s.dev i).type = XQ_T_DELQA_PLUS
  · rw [if_pos ht] at w0
    obtain ⟨S1, hS1⟩ : ∃ S1, S1 = s.setDev i
        { s.dev i with iba := ((s.dev i).iba &&& 0xFFFF0000) ||| (d0 &&& 0xFFFF) } := ⟨_, rfl⟩
    rw [← hS1] at w0
    have m1 : (S1.dev i).mode ≠ XQ_T_DELQA_PLUS := by rw [hS1, dev_setDev_same]; exact hmode
    have t1 : (S1.dev i).type = XQ_T_DELQA_PLUS := by rw [hS1, dev_setDev_same]; exact ht
    have i1 : (S1.dev i).iba &&& 0xFFFF = 0x0BAF := by
      rw [hS1, dev_setDev_same]
      exact iba_low_after_write _ _ hd
    obtain ⟨t, wt, _, hturbo⟩ := xq_wr_index1 K fuel i 0xFF00 PA1 S1 h1 m1
    exact ⟨S1, t, w0, wt, fun _ => hturbo t1 i1 rfl, fun h => absurd ht h⟩
  · rw [if_neg ht] at w0
    obtain ⟨t, wt, hsame, _⟩ := xq_wr_index1 K fuel i 0xFF00 PA1 s h1 hmode
    have e := hsame ht
    refine ⟨s, t, w0, wt, fun h => absurd h ht, fun _ => ?_⟩
    rw [e]
    exact ⟨rfl, rfl, rfl, rfl⟩

/-- Witness of C21: the DELQA-T `delqa_t`, in classic mode, receives the two writes at the
register addresses 0 and 2 of its window. -/
theorem turbo_handshake_witness :
    ∃ s1 s2, xq_wr no_link 0 .xqa 0x0BAF 0 delqa_t = some (SCPE_OK, s1) ∧
      xq_wr no_link 0 .xqa 0xFF00 2 s1 = some (SCPE_OK, s2) ∧
      (s2.dev .xqa).mode = XQ_T_DELQA_PLUS ∧ (s2.dev .xqa).srr = XQ_SRR_TRBO := by
  obtain ⟨s1, s2, a, b, c, _⟩ := turbo_handshake no_link 0 .xqa 0x0BAF 0 2 delqa_t
    (by decide) (by decide) (by decide) (by decide)
  exact ⟨s1, s2, a, b, (c rfl).1, (c rfl).2.1⟩

/-! ### C22 -/

theorem xq_setint_kept (i : CtlrId) (s : Sys) : classic_kept (s.dev i) ((xq_setint i s).dev i) :=
  classic_kept_of_frame (xq_setint_frame i s)

theorem xq_reset_santmr_kept (i : CtlrId) (s : Sys) :
    classic_kept (s.dev i) ((xq_reset_santmr i s).dev i) := by
  obtain ⟨sn, hsn⟩ := xq_reset_santmr_dev i s
  rw [hsn]
  exact ⟨rfl, rfl, rfl, rfl, rfl, rfl, rfl, rfl⟩

@[simp] theorem xq_start_receiver_mem (i : CtlrId) (s : Sys) : (xq_start_receiver i s).mem = s.mem := by
  unfold xq_start_receiver
  simp only []
  split_ifs <;> simp

@[simp] theorem xq_stop_receiver_mem (i : CtlrId) (s : Sys) : (xq_stop_receiver i s).mem = s.mem := by
  unfold xq_stop_receiver
  simp

@[simp] theorem dev_setCtlr_same (s : Sys) (i : CtlrId) (c : CTLR) : (s.setCtlr i c).dev i = c.var := by
  cases i <;> rfl

/-- The function `xq_wr_icr` leaves the classic descriptor registers and guest memory as
they are. -/
theorem xq_wr_icr_kept (i : CtlrId) (data : Nat) (s : Sys) :
    classic_kept (s.dev i) ((xq_wr_icr i data s).2.dev i) ∧ (xq_wr_icr i data s).2.mem = s.mem := by
  unfold xq_wr_icr
  simp only []
  split_ifs
  · refine ⟨classic_kept_trans ?_ (xq_setint_kept i _), by simp⟩
    rw [dev_setDev_same]
    exact ⟨rfl, rfl, rfl, rfl, rfl, rfl, rfl, rfl⟩
  · refine ⟨?_, by simp⟩
    rw [dev_setDev_same]
    exact ⟨rfl, rfl, rfl, rfl, rfl, rfl, rfl, rfl⟩

/-- The function `xq_wr_srqr` leaves the classic descriptor registers and guest memory as
they are. -/
theorem xq_wr_srqr_kept (i : CtlrId) (data : Nat) (s : Sys) :
    classic_kept (s.dev i) ((xq_wr_srqr i data s).2.dev i) ∧ (xq_wr_srqr i data s).2.mem = s.mem := by
  obtain ⟨S0, hS0⟩ : ∃ S0, S0 = s.setDev i { s.dev i with srr := data &&& XQ_SRQR_RW } := ⟨_, rfl⟩
  have k0 : classic_kept (s.dev i) (S0.dev i) ∧ S0.mem = s.mem := by
    rw [hS0, dev_setDev_same, mem_setDev]
    exact ⟨⟨rfl, rfl, rfl, rfl, rfl, rfl, rfl, rfl⟩, rfl⟩
  have key : ∀ S1 : Sys, (classic_kept (s.dev i) (S1.dev i) ∧ S1.mem = s.mem) →
      classic_kept (s.dev i) ((xq_setint i (xq_reset_santmr i S1)).dev i) ∧
        (xq_setint i (xq_reset_santmr i S1)).mem = s.mem := by
    intro S1 h
    refine ⟨classic_kept_trans (classic_kept_trans h.1 (xq_reset_santmr_kept i S1))
      (xq_setint_kept i _), ?_⟩
    rw [xq_setint_mem, xq_reset_santmr_mem, h.2]
  unfold xq_wr_srqr
  simp only [← hS0]
  apply key
  split_ifs
  · rw [dev_xq_start_receiver, xq_start_receiver_mem, xq_nxm_error_mem, mem_setDev]
    refine ⟨classic_kept_trans (classic_kept_trans k0.1 ?_)
      (classic_kept_of_frame (xq_nxm_error_frame i _)), k0.2⟩
    rw [dev_setDev_same]
    exact ⟨rfl, rfl, rfl, rfl, rfl, rfl, rfl, rfl⟩
  · rw [dev_xq_start_receiver, xq_start_receiver_mem, mem_setCtlr, dev_setCtlr_same]
    exact ⟨classic_kept_trans k0.1 ⟨rfl, rfl, rfl, rfl, rfl, rfl, rfl, rfl⟩, k0.2⟩
  · rw [dev_xq_start_receiver, xq_start_receiver_mem, mem_setCtlr, dev_setCtlr_same]
    exact ⟨classic_kept_trans k0.1 ⟨rfl, rfl, rfl, rfl, rfl, rfl, rfl, rfl⟩, k0.2⟩
  · rw [dev_xq_stop_receiver, xq_stop_receiver_mem]
    exact k0
  · exact k0

/-- C22 as stated does not hold: in the state `turbo_latched` controller XQA is in turbo
mode; a register write of the value 1 to index 2 (address 4 of the window) is the write of the
interrupt-control register: it sets `icr` and raises the latched interrupt, so the state
after differs from the state before; and a write of the value 3 to index 4 (address 8) is a
synchronous request, which sets the response register. -/
theorem turbo_write_ignored_counterexample :
    (turbo_latched.dev .xqa).mode = XQ_T_DELQA_PLUS ∧
    (∃ t, xq_wr no_link 0 .xqa 1 4 turbo_latched = some (SCPE_OK, t) ∧
      (turbo_latched.dev .xqa).icr = 0 ∧ (t.dev .xqa).icr = 1 ∧
      (turbo_latched.dev .xqa).irq = 0 ∧ (t.dev .xqa).irq = 1 ∧
      turbo_latched.int_XQ = false ∧ t.int_XQ = true) ∧
    (∃ t, xq_wr no_link 0 .xqa 3 8 turbo_latched = some (SCPE_OK, t) ∧
      (turbo_latched.dev .xqa).srr = 1 ∧ (t.dev .xqa).srr = 3) := by
  refine ⟨rfl, ⟨_, rfl, ?_⟩, ⟨_, rfl, ?_⟩⟩
  · decide
  · decide

/-- C22, amended (frame effect).  Once the active mode is turbo, a register write
(`xq_wr`) of any value to the register index 3 or 5 is ignored: it returns `SCPE_OK` and the
state after equals the state before.  A write to index 2 is the write of the
interrupt-control register (`xq_wr_icr`) and a write to index 4 is the synchronous request
(`xq_wr_srqr`).  For each of the four indexes the classic descriptor registers are not
updated and no descriptor processing is started: `rbdl`, `xbdl`, `rbdl_ba`, `xbdl_ba`, the
descriptor buffers, the Read Queue, the write buffer and guest memory are as before. -/
theorem turbo_write_ignored (K : Collab) (fuel : Nat) (i : CtlrId) (data PA : Nat) (s : Sys)
    (hmode : (s.dev i).mode = XQ_T_DELQA_PLUS) :
    (((PA >>> 1) &&& 7 = 3 ∨ (PA >>> 1) &&& 7 = 5) →
      xq_wr K fuel i data PA s = some (SCPE_OK, s)) ∧
    ((PA >>> 1) &&& 7 = 2 → xq_wr K fuel i data PA s = some (SCPE_OK, (xq_wr_icr i data s).2)) ∧
    ((PA >>> 1) &&& 7 = 4 → xq_wr K fuel i data PA s = some (SCPE_OK, (xq_wr_srqr i data s).2)) ∧
    (((PA >>> 1) &&& 7 = 2 ∨ (PA >>> 1) &&& 7 = 3 ∨ (PA >>> 1) &&& 7 = 4 ∨ (PA >>> 1) &&& 7 = 5) →
      ∃ t, xq_wr K fuel i data PA s = some (SCPE_OK, t) ∧ classic_kept (s.dev i) (t.dev i) ∧
        t.mem = s.mem) := by
  have hm : (s.ctlr i).var.mode = XQ_T_DELQA_PLUS := hmode
  have h35 : ((PA >>> 1) &&& 7 = 3 ∨ (PA >>> 1) &&& 7 = 5) →
      xq_wr K fuel i data PA s = some (SCPE_OK, s) := by
    intro h
    unfold xq_wr
    rcases h with h | h <;> simp only [h, if_pos hm] <;> rfl
  have h2 : (PA >>> 1) &&& 7 = 2 →
      xq_wr K fuel i data PA s = some (SCPE_OK, (xq_wr_icr i data s).2) := by
    intro h
    unfold xq_wr
    simp only [h, if_pos hm]
    rfl
  have h4 : (PA >>> 1) &&& 7 = 4 →
      xq_wr K fuel i data PA s = some (SCPE_OK, (xq_wr_srqr i data s).2) := by
    intro h
    unfold xq_wr
    simp only [h, if_pos hm]
    rfl
  refine ⟨h35, h2, h4, ?_⟩
  rintro (h | h | h | h)
  · exact ⟨_, h2 h, (xq_wr_icr_kept i data s).1, (xq_wr_icr_kept i data s).2⟩
  · exact ⟨_, h35 (Or.inl h), ⟨rfl, rfl, rfl, rfl, rfl, rfl, rfl, rfl⟩, rfl⟩
  · exact ⟨_, h4 h, (xq_wr_srqr_kept i data s).1, (xq_wr_srqr_kept i data s).2⟩
  · exact ⟨_, h35 (Or.inr h), ⟨rfl, rfl, rfl, rfl, rfl, rfl, rfl, rfl⟩, rfl⟩

/-- Witness of C22: writes of the value 1 to the indexes 3 and 2 of the window of the
controller `turbo_latched`, which is in turbo mode. -/
theorem turbo_write_ignored_witness :
    xq_wr no_link 0 .xqa 1 6 turbo_latched = some (SCPE_OK, turbo_latched) ∧
    xq_wr no_link 0 .xqa 1 4 turbo_latched = some (SCPE_OK, (xq_wr_icr .xqa 1 turbo_latched).2) :=
  ⟨(turbo_write_ignored no_link 0 .xqa 1 6 turbo_latched rfl).1 (Or.inl (by decide)),
    (turbo_write_ignored no_link 0 .xqa 1 4 turbo_latched rfl).2.1 (by decide)⟩

/-! ## C26: the indexes of loopback processing -/

/-- The indexes that `xq_process_loopback` accesses at `offset` and beyond for a frame whose
skip count is `n`. -/
theorem loopback_indexes_eq (msg : List Nat) (k : Nat) (hk : k ∈ loopback_indexes msg) :
    16 + (msg.getD 14 0 ||| (msg.getD 15 0 <<< 8)) ≤ k := by
  unfold loopback_indexes loopback_offset at hk
  simp only [List.mem_map, List.mem_range] at hk
  obtain ⟨j, _, hj⟩ := hk
  omega

/-- C26, the behaviour of the code at the failing input.  The frame `lb_far` fills a frame
buffer of 1518 bytes and is a loopback frame whose skip count is 0xFFFF; it is in the read
buffer of the DELQA `rx_loopback`, whose receiver is enabled, so that the read callback hands
it to `xq_process_local` and this to `xq_process_loopback`.  The function computes the offset
65551 and reads `function` at the indexes 65551 and 65552, which are not below 1518; the
indexes of the forward address, 65553 to 65558, are not inside the buffer either. -/
theorem loopback_offset_outside :
    lb_far.msg.length = ETH_FRAME_SIZE ∧
    (rx_loopback.dev .xqa).read_buffer = lb_far ∧
    (∀ send : Sys → Nat,
      xq_process_local send .xqa lb_far rx_loopback =
        xq_process_loopback send .xqa lb_far rx_loopback) ∧
    loopback_offset lb_far.msg = 65551 ∧
    loopback_indexes lb_far.msg = [65551, 65552, 65553, 65554, 65555, 65556, 65557, 65558] ∧
    (∀ k ∈ loopback_indexes lb_far.msg, ¬ k < ETH_FRAME_SIZE) := by
  have hoff : loopback_offset lb_far.msg = 65551 := by decide
  have hidx : loopback_indexes lb_far.msg =
      [65551, 65552, 65553, 65554, 65555, 65556, 65557, 65558] := by
    unfold loopback_indexes
    rw [hoff]
    rfl
  have hlen : lb_far.msg.length = ETH_FRAME_SIZE := by
    show (List.replicate 12 0 ++ [0x90, 0x00, 0xFF, 0xFF] ++ List.replicate 1502 0).length = 1518
    rw [List.length_append, List.length_append, List.length_replicate, List.length_replicate]
    rfl
  refine ⟨hlen, rfl, ?_, hoff, hidx, ?_⟩
  · intro send
    unfold xq_process_local
    rw [if_neg (by decide)]
    simp only []
    rw [if_pos (by decide)]
  · intro k hk
    rw [hidx] at hk
    simp only [List.mem_cons, List.mem_singleton, List.not_mem_nil, or_false] at hk
    have hF : ETH_FRAME_SIZE = 1518 := rfl
    rw [hF]
    omega

/-! ## C30: completion of a failed write -/

/-- C30, the behaviour of the code at the failing input.  In the state `tx_wire` a frame of
60 bytes is at its end-of-message descriptor, the transport is attached and the receiver is
enabled, so the frame goes to the transport; the host interface fails to send it
(`wire_down`).  `_eth_write` runs the write callback with the failure status and returns
`SCPE_IOERR`, and the transmit walk runs the write callback once more: `stats.xmit` goes from
0 to 2 and `stats.fail` from 0 to 2, and the status words are written twice, the second
time for an empty write buffer (status word 2 is 100, the value for the length 0, and not
580, the value for 60 bytes).  When the host interface sends the frame, the completion is
applied once. -/
theorem failed_write_completes_twice :
    (tx_wire.dev .xqa).stats.xmit = 0 ∧ (tx_wire.dev .xqa).stats.fail = 0 ∧
    (tx_wire.dev .xqa).write_buffer.len = 60 ∧
    (∃ t1, _eth_write wire_down .xqa (some (xq_write_callback .xqa)) tx_wire = (SCPE_IOERR, t1) ∧
      (t1.dev .xqa).stats.xmit = 1 ∧ (t1.dev .xqa).stats.fail = 1 ∧
      word_at t1.mem 0x1008 = some XQ_DSC_C ∧ word_at t1.mem 0x100A = some 580) ∧
    (∃ t, xbdl_eom (link (fun _ => wire_down) 0) 0 .xqa tx_wire = some (.next t) ∧
      (t.dev .xqa).stats.xmit = 2 ∧ (t.dev .xqa).stats.fail = 2 ∧
      word_at t.mem 0x1008 = some XQ_DSC_C ∧ word_at t.mem 0x100A = some 100) ∧
    (∃ t, xbdl_eom (link (fun _ => {}) 1) 1 .xqa tx_wire = some (.next t) ∧
      (t.dev .xqa).stats.xmit = 1 ∧ (t.dev .xqa).stats.fail = 0) := by
  refine ⟨rfl, rfl, rfl, ⟨_, rfl, ?_⟩, ⟨_, rfl, ?_⟩, ⟨_, rfl, ?_⟩⟩
  · decide
  · decide
  · decide

/-! ## C24: start and end of packet in the turbo receive ring -/

/-- C24, the behaviour of the code at the failing input.  In the state `turbo_rx` the
controller is in turbo mode, ring processing is started, one packet of 30 bytes is queued
and entry 0 of the receive ring, at 0x1000, belongs to the controller.  The turbo receive
walk pads the packet to 60 bytes and sends them to the buffer of entry 0, which so receives
the first byte of the packet, and removes the packet from the Read Queue; the word `rmd0`
it writes to the entry is `XQ_RMD0_STP` alone, without `XQ_RMD0_ENP`, the byte count `rmd1`
is 60, and ownership of the entry is returned to the driver. -/
theorem turbo_runt_no_end_of_packet :
    (turbo_rx.dev .xqa).ReadQ.count = 1 ∧ (rbdl_head (turbo_rx.dev .xqa)).packet.len = 30 ∧
    (rbdl_head (turbo_rx.dev .xqa)).packet.used = 0 ∧
    XQ_RMD0_STP &&& XQ_RMD0_ENP = 0 ∧
    ∃ t, xq_process_turbo_rbdl 1 .xqa turbo_rx = some (SCPE_OK, t) ∧
      (t.dev .xqa).ReadQ.count = 0 ∧ (t.dev .xqa).stats.runt = 1 ∧
      word_at t.mem 0x1000 = some XQ_RMD0_STP ∧ word_at t.mem 0x1002 = some 60 ∧
      word_at t.mem 0x1006 = some XQ_RMD3_OWN := by
  refine ⟨rfl, rfl, rfl, by decide, ⟨_, rfl, ?_⟩⟩
  decide

/-! ## Properties of the device state that the walks keep -/

theorem quiet_refl (a : xq_device) : quiet a a := ⟨rfl, rfl, rfl, rfl⟩

theorem quiet_trans {a b c : xq_device} (h1 : quiet a b) (h2 : quiet b c) : quiet a c :=
  ⟨h2.1.trans h1.1, h2.2.1.trans h1.2.1, h2.2.2.1.trans h1.2.2.1, h2.2.2.2.trans h1.2.2.2⟩

theorem quiet_of_frame_csr {a b : xq_device} (h : b.frame = a.frame) (hc : b.csr = a.csr)
    (hi : b.irq = a.irq) : quiet a b := by
  have e1 := congrArg xq_device.mode h
  have e2 := congrArg xq_device.write_buffer h
  exact ⟨e1, hc, hi, congrArg eth_packet.len e2⟩

theorem keep_quiet {i : CtlrId} {Q : xq_device → Prop} (hQ : Stable i Q) {a b : xq_device}
    (ha : Q a) (h : quiet a b) : Q b :=
  hQ.quiet a b h.1 h.2.1 h.2.2.1 (fun hl => by rw [h.2.2.2]; exact hl) ha

theorem keeps_nxm {i : CtlrId} {Q : xq_device → Prop} (hQ : Stable i Q) (s : Sys)
    (h : Q (s.dev i)) : Q ((xq_nxm_error i s).2.dev i) := by
  unfold xq_nxm_error
  split_ifs with hm
  · apply hQ.turbo
    · rw [dev_setDev_same]; exact hm
    · rw [dev_setDev_same]; exact keep_quiet hQ h ⟨rfl, rfl, rfl, rfl⟩
  · exact hQ.csr s _ 0 (by decide) h

theorem quiet_santmr (i : CtlrId) (s : Sys) : quiet (s.dev i) ((xq_reset_santmr i s).dev i) := by
  obtain ⟨sn, hsn⟩ := xq_reset_santmr_dev i s
  rw [hsn]
  exact ⟨rfl, rfl, rfl, rfl⟩

theorem keeps_santmr {i : CtlrId} {Q : xq_device → Prop} (hQ : Stable i Q) (s : Sys)
    (h : Q (s.dev i)) : Q ((xq_reset_santmr i s).dev i) :=
  keep_quiet hQ h (quiet_santmr i s)

theorem quiet_rbdl_done (v : xq_device) : quiet v (rbdl_done v) := by
  unfold rbdl_done
  split_ifs <;> exact ⟨rfl, rfl, rfl, rfl⟩

theorem keeps_rbdl_deliver {i : CtlrId} {Q : xq_device → Prop} (hQ : Stable i Q) (S : Sys)
    (h : Q (S.dev i)) : Q ((rbdl_deliver i S).state.dev i) := by
  rw [rbdl_deliver_cases]
  split_ifs
  · apply keeps_nxm hQ
    rw [dev_setDev_same]
    exact keep_quiet hQ h ⟨rfl, rfl, rfl, rfl⟩
  · apply keeps_nxm hQ
    rw [dev_setDev_same]
    exact keep_quiet hQ h ⟨rfl, rfl, rfl, rfl⟩
  · apply keeps_nxm hQ
    rw [dev_setDev_same]
    exact keep_quiet hQ h ⟨rfl, rfl, rfl, rfl⟩
  · show Q ((rbdl_post i S).dev i)
    unfold rbdl_post
    simp only [dev_setDev_same]
    refine keep_quiet hQ (hQ.csr _ XQ_CSR_RI 0 (by decide) ?_) ⟨rfl, rfl, rfl, rfl⟩
    rw [dev_setDev_same]
    exact keep_quiet hQ h (quiet_rbdl_done _)

theorem keeps_rbdl_step {i : CtlrId} {Q : xq_device → Prop} (hQ : Stable i Q) (s : Sys)
    (h : Q (s.dev i)) : Q ((rbdl_step i s).state.dev i) := by
  have he : Q ((rbdl_entry i s).dev i) := by
    rw [rbdl_entry_dev]
    exact keep_quiet hQ h ⟨rfl, rfl, rfl, rfl⟩
  rw [rbdl_step_cases]
  split_ifs
  · exact keeps_nxm hQ _ he
  · exact hQ.csr _ XQ_CSR_RL 0 (by decide) he
  · show Q (((rbdl_entry i s).setDev i _).dev i)
    rw [dev_setDev_same]
    exact keep_quiet hQ he ⟨rfl, rfl, rfl, rfl⟩
  · exact he
  · exact keeps_rbdl_deliver hQ _ he

theorem keeps_rbdl_loop {i : CtlrId} {Q : xq_device → Prop} (hQ : Stable i Q) :
    ∀ (n : Nat) (s : Sys) (r : Nat × Sys), rbdl_loop n i s = some r → Q (s.dev i) →
      Q (r.2.dev i) := by
  intro n
  induction n with
  | zero => intro s r h; exact absurd h (by simp [rbdl_loop])
  | succ n ih =>
    intro s r h hq
    have hs := keeps_rbdl_step hQ s hq
    unfold rbdl_loop at h
    cases hw : rbdl_step i s with
    | ret st s1 =>
      rw [hw] at h hs
      simp only [Option.some.injEq] at h
      rw [← h]
      exact hs
    | next s1 =>
      rw [hw] at h hs
      exact ih s1 r h hs

theorem keeps_rbdl {K : Collab} {i : CtlrId} {Q : xq_device → Prop} (hQ : Stable i Q)
    (hK : Respects K i Q) (fuel : Nat) (s : Sys) (r : Nat × Sys)
    (h : xq_process_rbdl K fuel i s = some r) (hq : Q (s.dev i)) : Q (r.2.dev i) := by
  unfold xq_process_rbdl at h
  split_ifs at h with hm
  · exact hK.turbo_rbdl s r hm h hq
  · exact keeps_rbdl_loop hQ fuel s r h hq

theorem keeps_svc_pump {K : Collab} {i : CtlrId} {Q : xq_device → Prop} (hQ : Stable i Q)
    (hK : Respects K i Q) (fuel : Nat) (s t : Sys)
    (h : svc_pump K fuel i s = some t) (hq : Q (s.dev i)) : Q (t.dev i) := by
  unfold svc_pump at h
  split_ifs at h
  · cases hr : xq_process_rbdl K fuel i s with
    | none => rw [hr] at h; exact absurd h (by simp)
    | some r =>
      rw [hr] at h
      simp only [Option.map_some', Option.some.injEq] at h
      rw [← h]
      exact keeps_rbdl hQ hK fuel s r hr hq
  · simp only [Option.some.injEq] at h
    rw [← h]
    exact hq

theorem keeps_eth_read_loop {K : Collab} {i : CtlrId} {Q : xq_device → Prop}
    (hK : Respects K i Q) :
    ∀ (n : Nat) (s t : Sys), eth_read_loop K n i s = some t → Q (s.dev i) → Q (t.dev i) := by
  intro n
  induction n with
  | zero => intro s t h; exact absurd h (by simp [eth_read_loop])
  | succ n ih =>
    intro s t h hq
    unfold eth_read_loop at h
    cases hr : K.eth_read i s with
    | none => rw [hr] at h; exact absurd h (by simp)
    | some r =>
      rw [hr] at h
      have h1 := hK.read s r hr hq
      simp only [] at h
      split_ifs at h
      · exact ih r.2 t h h1
      · simp only [Option.some.injEq] at h
        rw [← h]
        exact h1

theorem keeps_svc_ex {K : Collab} {i : CtlrId} {Q : xq_device → Prop} (hQ : Stable i Q)
    (hK : Respects K i Q) (fuel : Nat) (s : Sys) (r : Nat × Sys)
    (h : xq_svc_ex K fuel i s = some r) (hq : Q (s.dev i)) : Q (r.2.dev i) := by
  unfold xq_svc_ex at h
  simp only [] at h
  have key : ∀ s3 : Sys, Q (s3.dev i) →
      Q ((if (s3.ctlr i).var.must_poll ≠ 0 ∨
            ((s3.ctlr i).var.poll ≠ 0 ∧ (s3.ctlr i).var.mode ≠ XQ_T_DELQA_PLUS) then
          (SCPE_OK, s3.setCtlr i { s3.ctlr i with unit0_active := true })
        else (SCPE_OK, s3)).2.dev i) := by
    intro s3 h3
    split_ifs
    · have e : (s3.setCtlr i { s3.ctlr i with unit0_active := true }).dev i = s3.dev i := by
        cases i <;> rfl
      show Q ((s3.setCtlr i { s3.ctlr i with unit0_active := true }).dev i)
      rw [e]; exact h3
    · exact h3
  split_ifs at h
  · cases h1 : svc_pump K fuel i s with
    | none => rw [h1] at h; exact absurd h (by simp)
    | some s1 =>
      rw [h1] at h
      simp only [Option.some_bind] at h
      cases h2 : eth_read_loop K fuel i s1 with
      | none => rw [h2] at h; exact absurd h (by simp)
      | some s2 =>
        rw [h2] at h
        simp only [Option.some_bind] at h
        cases h3 : svc_pump K fuel i s2 with
        | none => rw [h3] at h; exact absurd h (by simp)
        | some s3 =>
          rw [h3] at h
          simp only [Option.map_some', Option.some.injEq] at h
          rw [← h]
          exact key s3 (keeps_svc_pump hQ hK fuel s2 s3 h3
            (keeps_eth_read_loop hK fuel s1 s2 h2 (keeps_svc_pump hQ hK fuel s s1 h1 hq)))
  · simp only [Option.map_some', Option.some.injEq] at h
    rw [← h]
    exact key s hq

theorem keep_len {i : CtlrId} {Q : xq_device → Prop} (hQ : Stable i Q) {a b : xq_device}
    (ha : Q a) (hm : b.mode = a.mode) (hc : b.csr = a.csr) (hi : b.irq = a.irq)
    (hl : a.write_buffer.len ≤ 1518 → b.write_buffer.len ≤ 1518) : Q b :=
  hQ.quiet a b hm hc hi hl ha

theorem keeps_write_callback {i : CtlrId} {Q : xq_device → Prop} (hQ : Stable i Q)
    (status : Nat) (s : Sys) (h : Q (s.dev i)) : Q ((xq_write_callback i status s).dev i) := by
  obtain ⟨v2, hv2, hq2⟩ : ∃ v2 : xq_device,
      v2 = (if status = 0 then
          { s.dev i with stats := { (s.dev i).stats with xmit := (s.dev i).stats.xmit + 1 } }
        else
          { s.dev i with
            stats := { (s.dev i).stats with
              xmit := (s.dev i).stats.xmit + 1, fail := (s.dev i).stats.fail + 1 } }) ∧
      quiet (s.dev i) v2 := ⟨_, rfl, by split_ifs <;> exact ⟨rfl, rfl, rfl, rfl⟩⟩
  have hs2 : ∀ m : Mem, Q ((({ s with mem := m } : Sys).setDev i v2).dev i) := by
    intro m
    rw [dev_setDev_same]
    exact keep_quiet hQ h hq2
  have hba : v2.xbdl_ba = (s.dev i).xbdl_ba := by
    rw [hv2]; split_ifs <;> rfl
  have e : xq_write_callback i status s =
      (if (xq_update_bdl_status_words s.mem v2.xbdl_ba
            (if status = 0 then [0, u16 (100 + (s.dev i).write_buffer.len * 8) &&& 0x03FF]
              else [XQ_DSC_C, u16 (100 + (s.dev i).write_buffer.len * 8) &&& 0x03FF])).1 ≠ 0 then
          (xq_nxm_error i (({ s with mem := (xq_update_bdl_status_words s.mem v2.xbdl_ba
            (if status = 0 then [0, u16 (100 + (s.dev i).write_buffer.len * 8) &&& 0x03FF]
              else [XQ_DSC_C, u16 (100 + (s.dev i).write_buffer.len * 8) &&& 0x03FF])).2 } :
                Sys).setDev i v2)).2
        else
          (xq_reset_santmr i (xq_csr_set_clr i XQ_CSR_XI 0 (({ s with mem :=
            (xq_update_bdl_status_words s.mem v2.xbdl_ba
              (if status = 0 then [0, u16 (100 + (s.dev i).write_buffer.len * 8) &&& 0x03FF]
                else [XQ_DSC_C, u16 (100 + (s.dev i).write_buffer.len * 8) &&& 0x03FF])).2 } :
                  Sys).setDev i v2))).setDev i
            { (xq_reset_santmr i (xq_csr_set_clr i XQ_CSR_XI 0 (({ s with mem :=
                (xq_update_bdl_status_words s.mem v2.xbdl_ba
                  (if status = 0 then [0, u16 (100 + (s.dev i).write_buffer.len * 8) &&& 0x03FF]
                    else [XQ_DSC_C, u16 (100 + (s.dev i).write_buffer.len * 8) &&& 0x03FF])).2 } :
                      Sys).setDev i v2))).dev i with
              write_buffer :=
                { ((xq_reset_santmr i (xq_csr_set_clr i XQ_CSR_XI 0 (({ s with mem :=
                    (xq_update_bdl_status_words s.mem v2.xbdl_ba
                      (if status = 0 then [0, u16 (100 + (s.dev i).write_buffer.len * 8) &&& 0x03FF]
                        else [XQ_DSC_C, u16 (100 + (s.dev i).write_buffer.len * 8) &&& 0x03FF])).2 } :
                          Sys).setDev i v2))).dev i).write_buffer with len := 0 } }) := by
    rw [hv2]
    rfl
  rw [e]
  by_cases hu : (xq_update_bdl_status_words s.mem v2.xbdl_ba
      (if status = 0 then [0, u16 (100 + (s.dev i).write_buffer.len * 8) &&& 0x03FF]
        else [XQ_DSC_C, u16 (100 + (s.dev i).write_buffer.len * 8) &&& 0x03FF])).1 ≠ 0
  · rw [if_pos hu]
    exact keeps_nxm hQ _ (hs2 _)
  · rw [if_neg hu, dev_setDev_same]
    exact keep_len hQ (keeps_santmr hQ _ (hQ.csr _ XQ_CSR_XI 0 (by decide) (hs2 _)))
      rfl rfl rfl (fun _ => Nat.zero_le _)

theorem keeps_xbdl_done {i : CtlrId} {Q : xq_device → Prop} (hQ : Stable i Q) (s : Sys)
    (h : Q (s.dev i)) : Q ((xbdl_done i s).dev i) := by
  unfold xbdl_done
  refine hQ.csr _ XQ_CSR_XI 0 (by decide) (keeps_santmr hQ _ ?_)
  rw [dev_setDev_same]
  exact keep_len hQ h rfl rfl rfl (fun _ => Nat.zero_le _)

theorem keeps_xbdl_read {i : CtlrId} {Q : xq_device → Prop} (hQ : Stable i Q) (s : Sys)
    (h : Q (s.dev i)) : Q ((xbdl_read i s).2.dev i) := by
  unfold xbdl_read
  simp only []
  split_ifs
  · rw [dev_setDev_same]
    exact keep_quiet hQ h ⟨rfl, rfl, rfl, rfl⟩
  · rw [dev_setDev_same]
    exact keep_len hQ h rfl rfl rfl (fun hl => (xbdl_b_length_le _ _ _ hl).2)

theorem keeps_set_mem {i : CtlrId} {Q : xq_device → Prop} (s : Sys) (m : Mem)
    (h : Q (s.dev i)) : Q (({ s with mem := m } : Sys).dev i) := by
  rw [dev_set_mem]; exact h

/-- The part of the end-of-message branch after a looped-back or setup packet is queued. -/
theorem keeps_eom_tail {K : Collab} {i : CtlrId} {Q : xq_device → Prop} (hQ : Stable i Q)
    (hK : Respects K i Q) (fuel : Nat) (s1 : Sys) (w : Walk)
    (h : (if (xq_update_bdl_status_words s1.mem (s1.dev i).xbdl_ba [0, 1]).1 ≠ 0 then
        some (Walk.ret
          (xq_nxm_error i { s1 with mem := (xq_update_bdl_status_words s1.mem (s1.dev i).xbdl_ba [0, 1]).2 }).1
          (xq_nxm_error i { s1 with mem := (xq_update_bdl_status_words s1.mem (s1.dev i).xbdl_ba [0, 1]).2 }).2)
      else if ((xbdl_done i { s1 with mem := (xq_update_bdl_status_words s1.mem (s1.dev i).xbdl_ba [0, 1]).2 }).dev i).csr
          &&& XQ_CSR_RL = 0 then
        (xq_process_rbdl K fuel i (xbdl_done i
          { s1 with mem := (xq_update_bdl_status_words s1.mem (s1.dev i).xbdl_ba [0, 1]).2 })).map
            fun r => Walk.next r.2
      else some (Walk.next (xbdl_done i
        { s1 with mem := (xq_update_bdl_status_words s1.mem (s1.dev i).xbdl_ba [0, 1]).2 }))) = some w)
    (hq : Q (s1.dev i)) : Q (w.state.dev i) := by
  have hm := keeps_set_mem (i := i) (Q := Q) s1
    (xq_update_bdl_status_words s1.mem (s1.dev i).xbdl_ba [0, 1]).2 hq
  split_ifs at h
  · simp only [Option.some.injEq] at h
    rw [← h]
    exact keeps_nxm hQ _ hm
  · cases hr : xq_process_rbdl K fuel i (xbdl_done i
        { s1 with mem := (xq_update_bdl_status_words s1.mem (s1.dev i).xbdl_ba [0, 1]).2 }) with
    | none => rw [hr] at h; exact absurd h (by simp)
    | some r =>
      rw [hr] at h
      simp only [Option.map_some', Option.some.injEq] at h
      rw [← h]
      exact keeps_rbdl hQ hK fuel _ r hr (keeps_xbdl_done hQ _ hm)
  · simp only [Option.some.injEq] at h
    rw [← h]
    exact keeps_xbdl_done hQ _ hm

theorem keeps_xbdl_eom {K : Collab} {i : CtlrId} {Q : xq_device → Prop} (hQ : Stable i Q)
    (hK : Respects K i Q) (fuel : Nat) (s : Sys) (w : Walk)
    (h : xbdl_eom K fuel i s = some w) (hq : Q (s.dev i)) : Q (w.state.dev i) := by
  unfold xbdl_eom at h
  simp only [] at h
  split_ifs at h with hA hS
  · cases hr : K.xq_process_setup i s with
    | none => rw [hr] at h; exact absurd h (by simp)
    | some r =>
      rw [hr] at h
      simp only [Option.map_some', Option.some_bind] at h
      refine keeps_eom_tail hQ hK fuel _ w h ?_
      rw [dev_setDev_same]
      exact keep_quiet hQ (hK.setup s r hr hq) ⟨rfl, rfl, rfl, rfl⟩
  · simp only [Option.some_bind] at h
    refine keeps_eom_tail hQ hK fuel _ w h ?_
    rw [dev_setDev_same]
    exact keep_quiet hQ hq ⟨rfl, rfl, rfl, rfl⟩
  · cases hr : K.eth_write i s with
    | none => rw [hr] at h; exact absurd h (by simp)
    | some r =>
      rw [hr] at h
      simp only [Option.some_bind] at h
      have h1 := hK.write s r hr hq
      split_ifs at h
      · simp only [Option.some.injEq] at h
        rw [← h]
        exact keeps_write_callback hQ 1 r.2 h1
      · cases hv : xq_svc_ex K fuel i r.2 with
        | none => rw [hv] at h; exact absurd h (by simp)
        | some r1 =>
          rw [hv] at h
          simp only [Option.map_some', Option.some.injEq] at h
          rw [← h]
          exact keeps_svc_ex hQ hK fuel r.2 r1 hv h1
      · simp only [Option.some.injEq] at h
        rw [← h]
        exact h1

theorem keeps_xbdl_next {i : CtlrId} {Q : xq_device → Prop} (hQ : Stable i Q) (w : Walk)
    (h : Q (w.state.dev i)) : Q ((xbdl_next i w).state.dev i) := by
  cases w with
  | ret st s => exact h
  | next s =>
    show Q ((s.setDev i _).dev i)
    rw [dev_setDev_same]
    exact keep_quiet hQ h ⟨rfl, rfl, rfl, rfl⟩

theorem keeps_xbdl_step {K : Collab} {i : CtlrId} {Q : xq_device → Prop} (hQ : Stable i Q)
    (hK : Respects K i Q) (fuel : Nat) (s : Sys) (w : Walk)
    (h : xbdl_step K fuel i s = some w) (hq : Q (s.dev i)) : Q (w.state.dev i) := by
  have he : Q ((xbdl_entry i s).dev i) := by
    rw [xbdl_entry_dev]
    exact keep_quiet hQ hq ⟨rfl, rfl, rfl, rfl⟩
  have hrd := keeps_xbdl_read hQ (xbdl_entry i s) he
  unfold xbdl_step at h
  simp only [] at h
  split_ifs at h with c1 c2 c3 c4 c5 c6
  · simp only [Option.some.injEq] at h
    rw [← h]
    exact keeps_nxm hQ _ he
  · simp only [Option.some.injEq] at h
    rw [← h]
    exact hQ.csr _ XQ_CSR_XL 0 (by decide) he
  · simp only [Option.some.injEq] at h
    rw [← h]
    show Q (((xbdl_entry i s).setDev i _).dev i)
    rw [dev_setDev_same]
    exact keep_quiet hQ he ⟨rfl, rfl, rfl, rfl⟩
  · simp only [Option.some.injEq] at h
    rw [← h]
    exact keeps_nxm hQ _ hrd
  · cases hr : xbdl_eom K fuel i (xbdl_read i (xbdl_entry i s)).2 with
    | none => rw [hr] at h; exact absurd h (by simp)
    | some w1 =>
      rw [hr] at h
      simp only [Option.map_some', Option.some.injEq] at h
      rw [← h]
      exact keeps_xbdl_next hQ _ (keeps_xbdl_eom hQ hK fuel _ w1 hr hrd)
  · simp only [Option.map_some', Option.some.injEq] at h
    rw [← h]
    exact keeps_xbdl_next hQ _ (keeps_nxm hQ _ (keeps_set_mem _ _ hrd))
  · simp only [Option.map_some', Option.some.injEq] at h
    rw [← h]
    exact keeps_xbdl_next hQ _ (keeps_set_mem _ _ hrd)

theorem keeps_xbdl_run {K : Collab} {i : CtlrId} {Q : xq_device → Prop} (hQ : Stable i Q)
    (hK : Respects K i Q) (fuel : Nat) :
    ∀ (k : Nat) (s t : Sys), xbdl_run K fuel i k s = some t → Q (s.dev i) → Q (t.dev i) := by
  intro k
  induction k with
  | zero =>
    intro s t h hq
    unfold xbdl_run at h
    simp only [Option.some.injEq] at h
    rw [← h]; exact hq
  | succ k ih =>
    intro s t h hq
    obtain ⟨s1, hs1⟩ := xbdl_run_step K fuel i k s (by rw [h]; rfl)
    rw [xbdl_run_next K fuel k i s s1 hs1] at h
    exact ih s1 t h (keeps_xbdl_step hQ hK fuel s _ hs1 hq)

theorem keeps_xbdl_loop {K : Collab} {i : CtlrId} {Q : xq_device → Prop} (hQ : Stable i Q)
    (hK : Respects K i Q) (fuel : Nat) :
    ∀ (n : Nat) (s : Sys) (r : Nat × Sys), xbdl_loop K fuel n i s = some r → Q (s.dev i) →
      Q (r.2.dev i) := by
  intro n
  induction n with
  | zero => intro s r h; exact absurd h (by simp [xbdl_loop])
  | succ n ih =>
    intro s r h hq
    unfold xbdl_loop at h
    cases hw : xbdl_step K fuel i s with
    | none => rw [hw] at h; exact absurd h (by simp)
    | some w =>
      have hs := keeps_xbdl_step hQ hK fuel s w hw hq
      rw [hw] at h
      cases w with
      | ret st s1 =>
        simp only [Option.some.injEq] at h
        rw [← h]
        exact hs
      | next s1 => exact ih s1 r h hs

theorem keeps_xbdl_start {i : CtlrId} {Q : xq_device → Prop} (hQ : Stable i Q) (s : Sys)
    (h : Q (s.dev i)) : Q ((xbdl_start i s).dev i) := by
  unfold xbdl_start
  rw [dev_setDev_same]
  exact keep_len hQ h rfl rfl rfl (fun _ => Nat.zero_le _)

theorem keeps_xbdl {K : Collab} {i : CtlrId} {Q : xq_device → Prop} (hQ : Stable i Q)
    (hK : Respects K i Q) (fuel : Nat) (s : Sys) (r : Nat × Sys)
    (h : xq_process_xbdl K fuel i s = some r) (hq : Q (s.dev i)) : Q (r.2.dev i) :=
  keeps_xbdl_loop hQ hK fuel fuel _ r h (keeps_xbdl_start hQ s hq)

/-- One iteration of the turbo receive walk keeps a stable property, and the mode unless
the function returns from inside the loop. -/
theorem keeps_turbo_rbdl_step {i : CtlrId} {Q : xq_device → Prop} (hQ : Stable i Q) (s : Sys)
    (h : Q (s.dev i)) :
    (match turbo_rbdl_step i s with
      | .ret _ s1 => Q (s1.dev i)
      | .brk _ s1 => Q (s1.dev i) ∧ (s1.dev i).mode = (s.dev i).mode
      | .next s1 => Q (s1.dev i) ∧ (s1.dev i).mode = (s.dev i).mode) := by
  have hset : ∀ (t : Sys) (v : xq_device), quiet (s.dev i) v → Q ((t.setDev i v).dev i) := by
    intro t v hv
    rw [dev_setDev_same]
    exact keep_quiet hQ h hv
  have hmode : ∀ (t : Sys) (v : xq_device), quiet (s.dev i) v →
      ((t.setDev i v).dev i).mode = (s.dev i).mode := by
    intro t v hv
    rw [dev_setDev_same]
    exact hv.1
  unfold turbo_rbdl_step
  lift_lets
  intro v rdra idx r d v1 nxt address a src1 v2 w s2 lost rmd2a src2 src3 v3 p dn dn1 d1 ring2 u v4
    s4 v5 s5
  have q1 : quiet (s.dev i) v1 := ⟨rfl, rfl, rfl, rfl⟩
  have q2 : quiet (s.dev i) v2 := ⟨rfl, rfl, rfl, rfl⟩
  have q3 : quiet (s.dev i) v3 := by
    dsimp only [v3]
    split_ifs <;> exact ⟨rfl, rfl, rfl, rfl⟩
  have q4 : quiet (s.dev i) v4 := quiet_trans q3 ⟨rfl, rfl, rfl, rfl⟩
  have q5 : quiet (s.dev i) v5 := by
    dsimp only [v5]
    split_ifs
    · exact quiet_trans q4 ⟨rfl, rfl, rfl, rfl⟩
    · exact q4
  split_ifs
  all_goals first
    | exact ⟨h, rfl⟩
    | exact keeps_nxm hQ _ (hset _ _ q1)
    | exact keeps_nxm hQ _ (hset _ _ q2)
    | exact keeps_nxm hQ _ (hset _ _ q4)
    | exact ⟨hset _ _ q1, hmode _ _ q1⟩
    | exact ⟨hset _ _ q5, hmode _ _ q5⟩

theorem keeps_turbo_rbdl_loop {i : CtlrId} {Q : xq_device → Prop} (hQ : Stable i Q) :
    ∀ (n : Nat) (c : Bool) (s : Sys) (r : Nat × Sys), (s.dev i).mode = XQ_T_DELQA_PLUS →
      turbo_rbdl_loop n i c s = some r → Q (s.dev i) → Q (r.2.dev i) := by
  intro n
  induction n with
  | zero => intro c s r _ h; exact absurd h (by simp [turbo_rbdl_loop])
  | succ n ih =>
    intro c s r hm h hq
    have hstep := keeps_turbo_rbdl_step hQ s hq
    unfold turbo_rbdl_loop at h
    cases hw : turbo_rbdl_step i s with
    | ret st s1 =>
      rw [hw] at h hstep
      simp only [Option.some.injEq] at h
      rw [← h]
      exact hstep
    | brk c1 s1 =>
      rw [hw] at h hstep
      simp only [Option.some.injEq] at h
      rw [← h]
      show Q ((if (c || c1) = true then xq_setint i s1 else s1).dev i)
      split_ifs
      · exact hQ.turbo s1 (hstep.2.trans hm) hstep.1
      · exact hstep.1
    | next s1 =>
      rw [hw] at h hstep
      exact ih true s1 r (hstep.2.trans hm) h hstep.1

theorem keeps_turbo_rbdl {i : CtlrId} {Q : xq_device → Prop} (hQ : Stable i Q) (fuel : Nat)
    (s : Sys) (r : Nat × Sys) (hm : (s.dev i).mode = XQ_T_DELQA_PLUS)
    (h : xq_process_turbo_rbdl fuel i s = some r) (hq : Q (s.dev i)) : Q (r.2.dev i) := by
  unfold xq_process_turbo_rbdl at h
  split_ifs at h
  · simp only [Option.some.injEq] at h
    rw [← h]; exact hq
  · exact keeps_turbo_rbdl_loop hQ fuel false s r hm h hq

theorem keeps_mop_loop {i : CtlrId} {Q : xq_device → Prop} (hQ : Stable i Q) :
    ∀ (n meb : Nat) (s : Sys), Q (s.dev i) → Q ((xq_process_mop_loop i n meb s).dev i) := by
  intro n
  induction n with
  | zero => intro meb s h; exact h
  | succ n ih =>
    intro meb s h
    unfold xq_process_mop_loop
    simp only []
    split_ifs
    all_goals first
      | exact h
      | exact keeps_nxm hQ _ (keeps_set_mem _ _ h)
      | exact ih _ _ (keeps_set_mem _ _ h)

theorem keeps_mop {i : CtlrId} {Q : xq_device → Prop} (hQ : Stable i Q) (s : Sys)
    (h : Q (s.dev i)) : Q ((xq_process_mop i s).dev i) := by
  unfold xq_process_mop
  split_ifs
  · exact h
  · exact keeps_mop_loop hQ 4 128 s h

theorem keeps_setup {i : CtlrId} {Q : xq_device → Prop} (hQ : Stable i Q) (s : Sys)
    (h : Q (s.dev i)) : Q ((xq_process_setup i s).2.1.dev i) := by
  unfold xq_process_setup
  lift_lets
  intro v wb macs len long multicast promiscuous led san quarter_secs enabled src1 src2 v1 s1 call
    s2 src3 src4
  have q1 : quiet (s.dev i) v1 := ⟨rfl, rfl, rfl, rfl⟩
  have hs1 : Q (s1.dev i) := by
    refine keeps_santmr hQ _ ?_
    rw [dev_setDev_same]
    exact keep_quiet hQ h q1
  have hs2 : Q (s2.dev i) := by
    dsimp only [s2]
    split_ifs
    · exact keeps_mop hQ _ hs1
    · exact hs1
  show Q ((s2.setDev i _).dev i)
  rw [dev_setDev_same]
  exact keep_quiet hQ hs2 ⟨rfl, rfl, rfl, rfl⟩

theorem keeps_eth_write {i : CtlrId} {Q : xq_device → Prop} (hQ : Stable i Q) (D : eth_device)
    (s : Sys) (h : Q (s.dev i)) :
    Q ((_eth_write D i (some (xq_write_callback i)) s).2.dev i) := by
  unfold _eth_write
  simp only []
  split_ifs
  all_goals first
    | exact h
    | (refine keeps_write_callback hQ _ _ ?_
       rw [dev_setDev_same]
       exact keep_quiet hQ h ⟨rfl, rfl, rfl, rfl⟩)

theorem keeps_eth_write_null {i : CtlrId} {Q : xq_device → Prop} (hQ : Stable i Q)
    (D : eth_device) (s : Sys) (h : Q (s.dev i)) : Q ((_eth_write D i none s).2.dev i) := by
  unfold _eth_write
  simp only []
  split_ifs
  all_goals first
    | exact h
    | (show Q ((s.setDev i _).dev i)
       rw [dev_setDev_same]
       exact keep_quiet hQ h ⟨rfl, rfl, rfl, rfl⟩)

theorem quiet_process_local (send : Sys → Nat) (i : CtlrId) (pack : eth_packet) (s : Sys) :
    quiet (s.dev i) ((xq_process_local send i pack s).2.dev i) := by
  unfold xq_process_local xq_process_loopback xq_process_remote_console xq_system_id
  simp only []
  split_ifs
  all_goals first
    | exact ⟨rfl, rfl, rfl, rfl⟩
    | (show quiet (s.dev i) ((s.setDev i _).dev i)
       rw [dev_setDev_same]
       exact ⟨rfl, rfl, rfl, rfl⟩)

theorem keeps_read_callback {i : CtlrId} {Q : xq_device → Prop} (hQ : Stable i Q)
    (send : Sys → Nat) (s : Sys) (h : Q (s.dev i)) : Q ((xq_read_callback send i s).dev i) := by
  have h1 : Q ((s.setDev i { s.dev i with
      stats := { (s.dev i).stats with recv := (s.dev i).stats.recv + 1 } }).dev i) := by
    rw [dev_setDev_same]
    exact keep_quiet hQ h ⟨rfl, rfl, rfl, rfl⟩
  unfold xq_read_callback
  simp only []
  split_ifs
  · rw [dev_setDev_same]
    exact keep_quiet hQ (keep_quiet hQ h1 (quiet_process_local send i _ _)) ⟨rfl, rfl, rfl, rfl⟩
  · exact keep_quiet hQ h1 (quiet_process_local send i _ _)
  · rw [dev_setDev_same]
    exact keep_quiet hQ h1 ⟨rfl, rfl, rfl, rfl⟩

theorem keeps_eth_read {i : CtlrId} {Q : xq_device → Prop} (hQ : Stable i Q) (D : eth_device)
    (s : Sys) (h : Q (s.dev i)) : Q ((eth_read D i s).2.dev i) := by
  unfold eth_read
  simp only []
  split_ifs
  · exact h
  · cases hd : D.dispatch s with
    | none =>
      show Q ((s.setDev i _).dev i)
      rw [dev_setDev_same]
      exact keep_quiet hQ h ⟨rfl, rfl, rfl, rfl⟩
    | some p =>
      refine keeps_read_callback hQ _ _ ?_
      rw [dev_setDev_same]
      exact keep_quiet hQ h ⟨rfl, rfl, rfl, rfl⟩

/-- The collaborators as the sources have them keep every stable property. -/
theorem link_respects {i : CtlrId} {Q : xq_device → Prop} (hQ : Stable i Q)
    (D : CtlrId → eth_device) (fuel : Nat) : Respects (link D fuel) i Q where
  turbo_rbdl := fun s r hm h hq => keeps_turbo_rbdl hQ fuel s r hm h hq
  setup := fun s r h hq => by
    simp only [link, Option.some.injEq] at h
    rw [← h]
    exact keeps_setup hQ s hq
  write := fun s r h hq => by
    simp only [link, Option.some.injEq] at h
    rw [← h]
    exact keeps_eth_write hQ (D i) s hq
  read := fun s r h hq => by
    simp only [link, Option.some.injEq] at h
    rw [← h]
    exact keeps_eth_read hQ (D i) s hq
  write_null := fun s r h hq => by
    simp only [link, Option.some.injEq] at h
    rw [← h]
    exact keeps_eth_write_null hQ (D i) s hq

/-! ## C27: the write buffer never holds more than a frame -/

theorem len_of_frame {a b : xq_device} (h : b.frame = a.frame) :
    b.write_buffer.len = a.write_buffer.len := by
  have e := congrArg xq_device.write_buffer h
  exact congrArg eth_packet.len e

theorem len_ok_stable (i : CtlrId) : Stable i len_ok where
  quiet := fun _ _ _ _ _ hl ha => hl ha
  csr := fun s sb cb _ h => by
    unfold len_ok at h ⊢
    rw [len_of_frame (xq_csr_set_clr_frame i sb cb s)]
    exact h
  clr := fun s a h => by
    unfold len_ok at h ⊢
    rw [len_of_frame (xq_clrint_frame i a s)]
    exact h
  turbo := fun s _ h => by
    unfold len_ok at h ⊢
    rw [len_of_frame (xq_setint_frame i s)]
    exact h

theorem len_ok_setint (i : CtlrId) (s : Sys) (h : len_ok (s.dev i)) :
    len_ok ((xq_setint i s).dev i) := by
  unfold len_ok at h ⊢
  rw [len_of_frame (xq_setint_frame i s)]
  exact h

theorem turbo_b_length_le (len tmd3 : Nat) (h : len ≤ 1518) :
    len + turbo_b_length len tmd3 ≤ 1518 := by
  have hF : ETH_FRAME_SIZE = 1518 := rfl
  unfold turbo_b_length
  split_ifs with h1
  · rw [sub16_frame len h]
    omega
  · rw [hF] at h1
    omega

theorem len_turbo_xbdl_read (i : CtlrId) (d : transmit_buffer_descriptor) (s : Sys)
    (h : len_ok (s.dev i)) : len_ok ((turbo_xbdl_read i d s).2.dev i) := by
  unfold turbo_xbdl_read
  simp only []
  split_ifs
  · rw [dev_setDev_same]
    exact h
  · rw [dev_setDev_same]
    exact turbo_b_length_le _ _ h

theorem len_turbo_xbdl_send (K : Collab) (i : CtlrId) (d : transmit_buffer_descriptor) (s : Sys)
    (x : transmit_buffer_descriptor × Sys) (h : turbo_xbdl_send K i d s = some x) :
    len_ok (x.2.dev i) := by
  revert h
  unfold turbo_xbdl_send
  lift_lets
  intro v q h
  obtain ⟨r, _, hx⟩ := Option.map_eq_some'.mp h
  rw [← hx]
  show len_ok ((r.2.setDev i _).dev i)
  rw [dev_setDev_same]
  exact Nat.zero_le _

theorem len_turbo_xbdl_step {K : Collab} {i : CtlrId} (s : Sys) (w : Ring)
    (h : turbo_xbdl_step K i s = some w) (hq : len_ok (s.dev i)) : len_ok (w.state.dev i) := by
  have hQ := len_ok_stable i
  revert h
  unfold turbo_xbdl_step
  lift_lets
  intro v tdra idx r d v1 nxt rd sent h
  have q1 : quiet (s.dev i) v1 := ⟨rfl, rfl, rfl, rfl⟩
  have h1 : len_ok ((s.setDev i v1).dev i) := by
    rw [dev_setDev_same]
    exact keep_quiet hQ hq q1
  have hrd : len_ok (rd.2.dev i) := by
    refine len_turbo_xbdl_read i d _ ?_
    rw [dev_setDev_same]
    exact keep_quiet hQ hq (quiet_trans q1 ⟨rfl, rfl, rfl, rfl⟩)
  have hsent : ∀ x, sent = some x → len_ok (x.2.dev i) := by
    intro x hx
    dsimp only [sent] at hx
    split_ifs at hx
    · exact len_turbo_xbdl_send K i d rd.2 x hx
    · simp only [Option.some.injEq] at hx
      rw [← hx]
      exact hrd
  split_ifs at h
  · simp only [Option.some.injEq] at h
    rw [← h]
    exact keeps_nxm hQ _ h1
  · simp only [Option.some.injEq] at h
    rw [← h]
    exact h1
  · simp only [Option.some.injEq] at h
    rw [← h]
    exact keeps_nxm hQ _ hrd
  · obtain ⟨x, hx, hw⟩ := Option.map_eq_some'.mp h
    have hx2 := hsent x hx
    rw [← hw]
    lift_lets
    intro v3 p dn dn1 src1 d1 ring2 u src2 s4
    have h4 : len_ok (s4.dev i) := by
      show len_ok ((Sys.setDev _ i _).dev i)
      rw [dev_setDev_same]
      exact hx2
    split_ifs
    · exact keeps_nxm hQ _ h4
    · exact h4
    · exact h4

theorem len_turbo_xbdl_end {K : Collab} {i : CtlrId} (hK : Respects K i len_ok) (fuel : Nat)
    (c : Bool) (s : Sys) (r : Nat × Sys) (h : turbo_xbdl_end K fuel i c s = some r)
    (hq : len_ok (s.dev i)) : len_ok (r.2.dev i) := by
  unfold turbo_xbdl_end at h
  simp only [] at h
  split_ifs at h
  · obtain ⟨r1, hr1, hx⟩ := Option.map_eq_some'.mp h
    rw [← hx]
    exact keeps_svc_ex (len_ok_stable i) hK fuel _ r1 hr1 (len_ok_setint i s hq)
  · simp only [Option.some.injEq] at h
    rw [← h]
    exact len_ok_setint i s hq
  · simp only [Option.some.injEq] at h
    rw [← h]
    exact hq

theorem len_turbo_xbdl_loop {K : Collab} {i : CtlrId} (hK : Respects K i len_ok) (fuel : Nat) :
    ∀ (n : Nat) (c : Bool) (s : Sys) (r : Nat × Sys), turbo_xbdl_loop K fuel n i c s = some r →
      len_ok (s.dev i) → len_ok (r.2.dev i) := by
  intro n
  induction n with
  | zero => intro c s r h; exact absurd h (by simp [turbo_xbdl_loop])
  | succ n ih =>
    intro c s r h hq
    unfold turbo_xbdl_loop at h
    cases hw : turbo_xbdl_step K i s with
    | none => rw [hw] at h; exact absurd h (by simp)
    | some w =>
      have hs := len_turbo_xbdl_step s w hw hq
      rw [hw] at h
      cases w with
      | ret st s1 =>
        simp only [Option.some.injEq] at h
        rw [← h]
        exact hs
      | brk c1 s1 => exact len_turbo_xbdl_end hK fuel _ s1 r h hs
      | next s1 => exact ih true s1 r h hs

theorem len_turbo_xbdl_run {K : Collab} {i : CtlrId} :
    ∀ (k : Nat) (s t : Sys), turbo_xbdl_run K i k s = some t → len_ok (s.dev i) →
      len_ok (t.dev i) := by
  intro k
  induction k with
  | zero =>
    intro s t h hq
    unfold turbo_xbdl_run at h
    simp only [Option.some.injEq] at h
    rw [← h]; exact hq
  | succ k ih =>
    intro s t h hq
    unfold turbo_xbdl_run at h
    cases hw : turbo_xbdl_step K i s with
    | none => rw [hw] at h; exact absurd h (by simp)
    | some w =>
      have hs := len_turbo_xbdl_step s w hw hq
      rw [hw] at h
      cases w with
      | ret st s1 => exact absurd h (by simp)
      | brk c1 s1 => exact absurd h (by simp)
      | next s1 => exact ih s1 t h hs

theorem len_ok_start (i : CtlrId) (s : Sys) : len_ok ((xbdl_start i s).dev i) := by
  unfold xbdl_start
  rw [dev_setDev_same]
  exact Nat.zero_le _

theorem len_ok_turbo_start (i : CtlrId) (s : Sys) : len_ok ((turbo_xbdl_start i s).dev i) := by
  unfold turbo_xbdl_start
  rw [dev_setDev_same]
  exact Nat.zero_le _

/-- C27 (transmit buffer bound): with the transports and callbacks as the sources have them,
whatever the descriptors in guest memory say, after any number of iterations of the loop of
`xq_process_xbdl` the write buffer holds at most 1518 bytes, the copy of the next iteration
stays below index 1518 for every flag word and word count (the byte count of `Map_ReadB` is
at most 1518 minus the bytes accumulated), and the write buffer holds at most 1518 bytes
after that copy and when the function returns; the same holds for the ring entries of
`xq_process_turbo_xbdl`, which returns with at most 1518 bytes in the write buffer when it
is entered so. -/
theorem transmit_buffer_bound (D : CtlrId → eth_device) (fuel : Nat) (i : CtlrId) (s : Sys) :
    (∀ (k : Nat) (t : Sys), xbdl_run (link D fuel) fuel i k (xbdl_start i s) = some t →
      len_ok (t.dev i) ∧
      (∀ f w : Nat, (t.dev i).write_buffer.len + xbdl_b_length (t.dev i).write_buffer.len f w
        ≤ ETH_FRAME_SIZE) ∧
      len_ok ((xbdl_read i (xbdl_entry i t)).2.dev i)) ∧
    (∀ r : Nat × Sys, xq_process_xbdl (link D fuel) fuel i s = some r → len_ok (r.2.dev i)) ∧
    (∀ (k : Nat) (t : Sys),
      turbo_xbdl_run (link D fuel) i k (turbo_xbdl_start i s) = some t →
      len_ok (t.dev i) ∧
      (∀ tmd3 : Nat, (t.dev i).write_buffer.len + turbo_b_length (t.dev i).write_buffer.len tmd3
        ≤ ETH_FRAME_SIZE) ∧
      ∀ (d : transmit_buffer_descriptor) (t1 : Sys),
        (t1.dev i).write_buffer = (t.dev i).write_buffer →
        len_ok ((turbo_xbdl_read i d t1).2.dev i)) ∧
    (∀ r : Nat × Sys, len_ok (s.dev i) →
      xq_process_turbo_xbdl (link D fuel) fuel i s = some r → len_ok (r.2.dev i)) := by
  have hQ := len_ok_stable i
  have hK : Respects (link D fuel) i len_ok := link_respects hQ D fuel
  refine ⟨?_, ?_, ?_, ?_⟩
  · intro k t h
    have ht := keeps_xbdl_run hQ hK fuel k _ t h (len_ok_start i s)
    refine ⟨ht, fun f w => (xbdl_b_length_le _ f w ht).2, ?_⟩
    refine keeps_xbdl_read hQ _ ?_
    rw [xbdl_entry_dev]
    exact ht
  · intro r h
    exact keeps_xbdl_loop hQ hK fuel fuel _ r h (len_ok_start i s)
  · intro k t h
    have ht := len_turbo_xbdl_run k _ t h (len_ok_turbo_start i s)
    refine ⟨ht, fun tmd3 => turbo_b_length_le _ tmd3 ht, ?_⟩
    intro d t1 h1
    refine len_turbo_xbdl_read i d t1 ?_
    unfold len_ok
    rw [h1]
    exact ht
  · intro r h0 h
    unfold xq_process_turbo_xbdl at h
    split_ifs at h
    · simp only [Option.some.injEq] at h
      rw [← h]
      exact h0
    · exact len_turbo_xbdl_loop hK fuel fuel false _ r h (len_ok_turbo_start i s)

theorem transmit_buffer_bound_witness :
    (∃ t : Sys, xbdl_run (link (fun _ => {}) 1) 1 .xqa 1 (xbdl_start .xqa tx_list) = some t ∧
      (t.dev .xqa).write_buffer.len = 60 ∧ len_ok (t.dev .xqa)) ∧
    len_ok (turbo_idle.dev .xqa) ∧
    xq_process_turbo_xbdl (link (fun _ => {}) 1) 1 .xqa turbo_idle = some (SCPE_OK, turbo_idle) ∧
    len_ok (((SCPE_OK, turbo_idle) : Nat × Sys).2.dev .xqa) :=
  ⟨⟨_, rfl, rfl,
      ((transmit_buffer_bound (fun _ => {}) 1 .xqa tx_list).1 1 _ rfl).1⟩,
    Nat.le_of_ble_eq_true rfl, rfl,
    (transmit_buffer_bound (fun _ => {}) 1 .xqa turbo_idle).2.2.2 (SCPE_OK, turbo_idle)
      (Nat.le_of_ble_eq_true rfl) rfl⟩

/-! ## C28: in classic mode the interrupt request flag has a cause in the CSR -/

theorem mode_of_frame {a b : xq_device} (h : b.frame = a.frame) : b.mode = a.mode := by
  have e := congrArg xq_device.mode h
  exact e

theorem irq_xq_clrint (i : CtlrId) (a : Bool) (s : Sys) :
    ((xq_clrint i a s).dev i).irq = if (s.dev i).irq = 1 then 0 else (s.dev i).irq := by
  cases i <;>
  · simp only [xq_clrint, Sys.dev, Sys.ctlr, Sys.setDev, Sys.setCtlr]
    split_ifs <;> rfl

theorem and_IE_ne_zero (x : Nat) : x &&& XQ_CSR_IE ≠ 0 ↔ x.testBit 6 = true :=
  and_two_pow_ne_zero_iff x 6

theorem testBit_XIRI (k : Nat) : XQ_CSR_XIRI.testBit k = (decide (7 = k) || decide (15 = k)) := by
  have e : XQ_CSR_XIRI = 2 ^ 7 ||| 2 ^ 15 := by decide
  rw [e, Nat.testBit_or, Nat.testBit_two_pow, Nat.testBit_two_pow]

theorem and_XIRI_eq_zero (x : Nat) :
    x &&& XQ_CSR_XIRI = 0 ↔ x.testBit 7 = false ∧ x.testBit 15 = false := by
  constructor
  · intro h
    have h7 := congrArg (fun y => y.testBit 7) h
    have h15 := congrArg (fun y => y.testBit 15) h
    simp only [Nat.testBit_and, testBit_XIRI, Nat.zero_testBit] at h7 h15
    simpa using And.intro h7 h15
  · intro h
    apply Nat.eq_of_testBit_eq
    intro k
    rw [Nat.testBit_and, testBit_XIRI, Nat.zero_testBit]
    by_cases h7 : 7 = k
    · subst h7; simp [h.1]
    · by_cases h15 : 15 = k
      · subst h15; simp [h.2]
      · simp [h7, h15]

theorem and_XIRI_ne_zero (x : Nat) :
    x &&& XQ_CSR_XIRI ≠ 0 ↔ x.testBit 7 = true ∨ x.testBit 15 = true := by
  rw [Ne, and_XIRI_eq_zero]
  cases x.testBit 7 <;> cases x.testBit 15 <;> simp

theorem and_and_XIRI_ne_zero (x y : Nat) :
    x &&& (y &&& XQ_CSR_XIRI) ≠ 0 ↔
      (x.testBit 7 = true ∧ y.testBit 7 = true) ∨ (x.testBit 15 = true ∧ y.testBit 15 = true) := by
  rw [← Nat.and_assoc, and_XIRI_ne_zero, Nat.testBit_and, Nat.testBit_and]
  simp

theorem and_cause_eq_zero (x : Nat) :
    x &&& (XQ_CSR_IE ||| XQ_CSR_XIRI) = 0 ↔
      x.testBit 6 = false ∧ x.testBit 7 = false ∧ x.testBit 15 = false := by
  have e : ∀ k, (XQ_CSR_IE ||| XQ_CSR_XIRI).testBit k =
      (decide (6 = k) || (decide (7 = k) || decide (15 = k))) := by
    intro k
    have e6 : XQ_CSR_IE = 2 ^ 6 := by decide
    rw [Nat.testBit_or, testBit_XIRI, e6, Nat.testBit_two_pow]
  constructor
  · intro h
    have h6 := congrArg (fun y => y.testBit 6) h
    have h7 := congrArg (fun y => y.testBit 7) h
    have h15 := congrArg (fun y => y.testBit 15) h
    simp only [Nat.testBit_and, e, Nat.zero_testBit] at h6 h7 h15
    simpa using And.intro h6 (And.intro h7 h15)
  · intro h
    apply Nat.eq_of_testBit_eq
    intro k
    rw [Nat.testBit_and, e, Nat.zero_testBit]
    by_cases h6 : 6 = k
    · subst h6; simp [h.1]
    · by_cases h7 : 7 = k
      · subst h7; simp [h.2.1]
      · by_cases h15 : 15 = k
        · subst h15; simp [h.2.2]
        · simp [h6, h7, h15]

theorem mode_xq_clrint (i : CtlrId) (a : Bool) (s : Sys) :
    ((xq_clrint i a s).dev i).mode = (s.dev i).mode := mode_of_frame (xq_clrint_frame i a s)

theorem irq_ok_csr (i : CtlrId) (s : Sys) (sb cb : Nat)
    (hd : (u16 sb &&& u16 cb) &&& (XQ_CSR_IE ||| XQ_CSR_XIRI) = 0)
    (h : irq_ok (s.dev i)) : irq_ok ((xq_csr_set_clr i sb cb s).dev i) := by
  obtain ⟨hmode, hirq⟩ := h
  have hm : ((xq_csr_set_clr i sb cb s).dev i).mode = (s.dev i).mode :=
    mode_of_frame (xq_csr_set_clr_frame i sb cb s)
  refine ⟨by rw [hm]; exact hmode, ?_⟩
  rw [csr_xq_csr_set_clr]
  rw [and_cause_eq_zero] at hd
  simp only [Nat.testBit_and, testBit_u16] at hd
  rw [and_IE_ne_zero, and_XIRI_ne_zero] at hirq ⊢
  unfold xq_csr_set_clr
  simp only []
  split_ifs with h1 h2 h3 h4 h5 h6 h7
  all_goals
    simp only [irq_xq_setint, irq_xq_clrint, dev_setDev_same, csr_xq_clrint, csr_xq_setint,
      mode_xq_clrint, and_IE_ne_zero, and_XIRI_ne_zero, and_XIRI_eq_zero, and_and_XIRI_ne_zero,
      Nat.testBit_and, Nat.testBit_or, Nat.testBit_xor, testBit_u16, testBit_not16] at *
  all_goals
    generalize (s.dev i).csr.testBit 6 = c6 at *
    generalize (s.dev i).csr.testBit 7 = c7 at *
    generalize (s.dev i).csr.testBit 15 = c15 at *
    generalize sb.testBit 6 = s6 at *
    generalize sb.testBit 7 = s7 at *
    generalize sb.testBit 15 = s15 at *
    generalize cb.testBit 6 = b6 at *
    generalize cb.testBit 7 = b7 at *
    generalize cb.testBit 15 = b15 at *
    generalize (s.dev i).irq = q at *
    clear hm
    cases c6 <;> cases s6 <;> cases b6 <;> simp_all
  all_goals
    cases c7 <;> cases s7 <;> cases b7 <;> cases c15 <;> cases s15 <;> cases b15 <;> simp_all
  all_goals first
    | omega
    | (intro hq
       split_ifs at hq
       omega)

theorem irq_ok_clrint (i : CtlrId) (a : Bool) (s : Sys) (h : irq_ok (s.dev i)) :
    irq_ok ((xq_clrint i a s).dev i) := by
  refine ⟨by rw [mode_xq_clrint]; exact h.1, ?_⟩
  rw [irq_xq_clrint, csr_xq_clrint]
  intro hq
  split_ifs at hq with h1
  omega

theorem irq_ok_stable (i : CtlrId) : Stable i irq_ok where
  quiet := fun a b hm hc hi _ ha => ⟨by rw [hm]; exact ha.1, by rw [hi, hc]; exact ha.2⟩
  csr := fun s sb cb hd h => irq_ok_csr i s sb cb hd h
  clr := fun s a h => irq_ok_clrint i a s h
  turbo := fun _ hm h => absurd hm h.1

/-- A device state whose flag `irq` is not 1 and which is in classic mode. -/
theorem irq_ok_of_ne {v : xq_device} (hm : v.mode ≠ XQ_T_DELQA_PLUS) (h : v.irq ≠ 1) : irq_ok v :=
  ⟨hm, fun h1 => absurd h1 h⟩

/-- A change of the mode within classic mode keeps the property. -/
theorem irq_ok_of_eq {a b : xq_device} (h : irq_ok a) (hm : b.mode ≠ XQ_T_DELQA_PLUS)
    (hc : b.csr = a.csr) (hi : b.irq = a.irq) : irq_ok b :=
  ⟨hm, by rw [hi, hc]; exact h.2⟩

theorem irq_ok_sw_reset (i : CtlrId) (s : Sys) (h : irq_ok (s.dev i)) :
    irq_ok ((xq_sw_reset i s).dev i) := by
  have hQ := irq_ok_stable i
  unfold xq_sw_reset
  lift_lets
  intro v src1 v1 v2 s2 s3 s4 s5 v5 src2 s6
  rw [dev_xq_stop_receiver]
  have h2 : irq_ok (s2.dev i) := by
    show irq_ok ((s.setDev i v2).dev i)
    rw [dev_setDev_same]
    dsimp only [v2]
    split_ifs
    · exact irq_ok_of_eq h (by show XQ_T_DELQA ≠ XQ_T_DELQA_PLUS; decide) rfl rfl
    · exact irq_ok_of_eq h h.1 rfl rfl
  have h3 : irq_ok (s3.dev i) := hQ.csr s2 _ _ (by decide) h2
  have h4 : irq_ok (s4.dev i) := by
    dsimp only [s4]
    split_ifs
    · exact hQ.csr s3 _ _ (by decide) h3
    · exact h3
  have h5 : irq_ok (s5.dev i) := hQ.clr s4 false h4
  show irq_ok ((s5.setDev i _).dev i)
  rw [dev_setDev_same]
  exact keep_quiet hQ h5 ⟨rfl, rfl, rfl, rfl⟩

theorem wr_csr_disjoint (d n : Nat) (hn : n.testBit 6 = false) :
    (u16 (d &&& XQ_CSR_RW) &&&
      u16 (((d ^^^ XQ_CSR_RW) &&& XQ_CSR_RW) ||| (d &&& XQ_CSR_W1) ||| n)) &&&
        (XQ_CSR_IE ||| XQ_CSR_XIRI) = 0 := by
  have r6 : XQ_CSR_RW.testBit 6 = true := by decide
  have r7 : XQ_CSR_RW.testBit 7 = false := by decide
  have r15 : XQ_CSR_RW.testBit 15 = false := by decide
  have w6 : XQ_CSR_W1.testBit 6 = false := by decide
  rw [and_cause_eq_zero]
  simp only [Nat.testBit_and, Nat.testBit_or, Nat.testBit_xor, testBit_u16, r6, r7, r15, w6, hn]
  cases d.testBit 6 <;> simp

theorem irq_ok_wr_csr (i : CtlrId) (data : Nat) (s : Sys) (h : irq_ok (s.dev i)) :
    irq_ok ((xq_wr_csr i data s).2.dev i) := by
  have hs : ∀ t : Sys, t.dev i = s.dev i → ∀ n : Nat, n.testBit 6 = false →
      irq_ok ((xq_csr_set_clr i (data &&& XQ_CSR_RW)
        (((data ^^^ XQ_CSR_RW) &&& XQ_CSR_RW) ||| (data &&& XQ_CSR_W1) ||| n) t).dev i) := by
    intro t ht n hn
    refine irq_ok_csr i t _ _ (wr_csr_disjoint data n hn) ?_
    rw [ht]
    exact h
  unfold xq_wr_csr
  simp only []
  split_ifs
  all_goals first
    | exact irq_ok_sw_reset i s h
    | exact hs _ (by simp only [dev_xq_start_receiver, dev_xq_stop_receiver]) XQ_CSR_NI
        (by decide)
    | exact hs _ (by simp only [dev_xq_start_receiver, dev_xq_stop_receiver]) 0 (by decide)

theorem irq_ok_wr_var (i : CtlrId) (data : Nat) (s : Sys) (h : irq_ok (s.dev i)) :
    irq_ok ((xq_wr_var i data s).2.dev i) := by
  unfold xq_wr_var
  simp only []
  rw [dev_setCtlr_same]
  split
  · exact irq_ok_of_eq h h.1 rfl rfl
  · refine irq_ok_of_eq h ?_ rfl rfl
    show (if _ then XQ_T_DEQNA else XQ_T_DELQA) ≠ XQ_T_DELQA_PLUS
    split_ifs <;> decide

theorem keeps_dispatch_rbdl {K : Collab} {i : CtlrId} {Q : xq_device → Prop} (hQ : Stable i Q)
    (hK : Respects K i Q) (fuel : Nat) (s : Sys) (r : Nat × Sys)
    (h : xq_dispatch_rbdl K fuel i s = some r) (hq : Q (s.dev i)) : Q (r.2.dev i) := by
  revert h
  unfold xq_dispatch_rbdl
  lift_lets
  intro s1 v ba e s2 h
  have h1 : Q (s1.dev i) := hQ.csr s 0 XQ_CSR_RL (by decide) hq
  have h2 : Q (s2.dev i) := by
    show Q ((Sys.setDev _ i _).dev i)
    rw [dev_setDev_same]
    exact keep_quiet hQ h1 ⟨rfl, rfl, rfl, rfl⟩
  split_ifs at h
  · simp only [Option.some.injEq] at h
    rw [← h]
    exact keeps_nxm hQ _ h2
  · simp only [Option.some.injEq] at h
    rw [← h]
    exact hQ.csr s2 XQ_CSR_RL 0 (by decide) h2
  · obtain ⟨r1, hr1, hx⟩ := Option.map_eq_some'.mp h
    rw [← hx]
    exact keeps_rbdl hQ hK fuel s2 r1 hr1 h2
  · simp only [Option.some.injEq] at h
    rw [← h]
    exact h2

theorem keeps_dispatch_xbdl {K : Collab} {i : CtlrId} {Q : xq_device → Prop} (hQ : Stable i Q)
    (hK : Respects K i Q) (fuel : Nat) (s : Sys) (r : Nat × Sys)
    (h : xq_dispatch_xbdl K fuel i s = some r) (hq : Q (s.dev i)) : Q (r.2.dev i) := by
  unfold xq_dispatch_xbdl at h
  refine keeps_xbdl hQ hK fuel _ r h ?_
  rw [dev_setDev_same]
  exact keep_len hQ (hQ.csr s 0 XQ_CSR_XL (by decide) hq) rfl rfl rfl (fun _ => Nat.zero_le _)

theorem irq_ok_reset (i : CtlrId) (s : Sys) : irq_ok ((xq_reset i s).2.dev i) := by
  have hQ := irq_ok_stable i
  unfold xq_reset
  lift_lets
  intro c v v1 s1 s2 s3 q src1 s4 s6 src2 s5 src3 c7 v7 src4 v8
  have m1 : (s1.dev i).mode ≠ XQ_T_DELQA_PLUS := by
    show ((s.setCtlr i _).dev i).mode ≠ XQ_T_DELQA_PLUS
    rw [dev_setCtlr_same]
    show v1.mode ≠ XQ_T_DELQA_PLUS
    dsimp only [v1]
    split
    · show XQ_T_DEQNA ≠ XQ_T_DELQA_PLUS
      decide
    · show XQ_T_DELQA ≠ XQ_T_DELQA_PLUS
      decide
  have m2 : (s2.dev i).mode ≠ XQ_T_DELQA_PLUS := by
    show ((xq_csr_set_clr i _ _ s1).dev i).mode ≠ XQ_T_DELQA_PLUS
    rw [mode_of_frame (xq_csr_set_clr_frame i _ _ s1)]
    exact m1
  have h3 : irq_ok (s3.dev i) := by
    refine irq_ok_of_ne ?_ ?_
    · show ((xq_clrint i false s2).dev i).mode ≠ XQ_T_DELQA_PLUS
      rw [mode_xq_clrint]
      exact m2
    · show ((xq_clrint i false s2).dev i).irq ≠ 1
      rw [irq_xq_clrint]
      split_ifs with h1
      · decide
      · exact h1
  have h4 : irq_ok (s4.dev i) := by
    show irq_ok ((s3.setDev i _).dev i)
    rw [dev_setDev_same]
    exact keep_quiet hQ h3 ⟨rfl, rfl, rfl, rfl⟩
  have h5 : irq_ok (s5.dev i) := by
    dsimp only [s5]
    split_ifs
    · show irq_ok ((s6.setCtlr i _).dev i)
      rw [dev_setCtlr_same]
      exact hQ.csr s4 XQ_CSR_OK 0 (by decide) h4
    · exact h4
  split_ifs
  · show irq_ok ((s3.setDev i _).dev i)
    rw [dev_setDev_same]
    exact keep_quiet hQ h3 ⟨rfl, rfl, rfl, rfl⟩
  · show irq_ok ((s5.setCtlr i _).dev i)
    rw [dev_setCtlr_same]
    show irq_ok v8
    dsimp only [v8]
    split_ifs
    · exact keep_quiet hQ h5 ⟨rfl, rfl, rfl, rfl⟩
    · exact h5

theorem irq_ok_tmrsvc (i : CtlrId) (s : Sys) (h : irq_ok (s.dev i)) :
    irq_ok ((xq_tmrsvc i s).2.dev i) := by
  have hQ := irq_ok_stable i
  unfold xq_tmrsvc
  lift_lets
  intro v src1 v1 v2 s3 s4 src2
  have h1 : irq_ok v1 := by
    dsimp only [v1]
    split_ifs
    · exact keep_quiet hQ h ⟨rfl, rfl, rfl, rfl⟩
    · exact h
  have h2 : irq_ok v2 := by
    dsimp only [v2]
    split_ifs
    · exact irq_ok_of_eq h1 (by show XQ_T_DELQA ≠ XQ_T_DELQA_PLUS; decide) rfl rfl
    · exact h1
  have h3 : irq_ok (s3.dev i) := by
    show irq_ok ((s.setDev i _).dev i)
    rw [dev_setDev_same]
    exact keep_quiet hQ h2 ⟨rfl, rfl, rfl, rfl⟩
  have h4 : irq_ok (s4.dev i) := by
    dsimp only [s4]
    split_ifs
    · unfold xq_system_id
      rw [dev_setDev_same]
      exact keep_quiet hQ h3 ⟨rfl, rfl, rfl, rfl⟩
    · exact h3
  split_ifs
  · show irq_ok ((s.setDev i _).dev i)
    rw [dev_setDev_same]
    exact h1
  · show irq_ok ((s4.setCtlr i _).dev i)
    rw [dev_setCtlr_same]
    exact h4

theorem dev_xq_clrint_other (i j : CtlrId) (a : Bool) (s : Sys) (h : i ≠ j) :
    (xq_clrint j a s).dev i = s.dev i := by
  cases i <;> cases j <;> first
    | exact absurd rfl h
    | (simp only [xq_clrint, Sys.dev, Sys.ctlr, Sys.setDev, Sys.setCtlr]
       split_ifs <;> rfl)

theorem keeps_clrint_any {i : CtlrId} {Q : xq_device → Prop} (hQ : Stable i Q) (j : CtlrId)
    (a : Bool) (s : Sys) (h : Q (s.dev i)) : Q ((xq_clrint j a s).dev i) := by
  by_cases hij : i = j
  · subst hij
    exact hQ.clr s a h
  · rw [dev_xq_clrint_other i j a s hij]
    exact h

theorem keeps_int_at {i : CtlrId} {Q : xq_device → Prop} (hQ : Stable i Q) (j : CtlrId) (s : Sys)
    (r : Nat × Sys) (hr : xq_int_at j s = some r) (h : Q (s.dev i)) : Q (r.2.dev i) := by
  unfold xq_int_at at hr
  split_ifs at hr
  simp only [Option.some.injEq] at hr
  rw [← hr]
  exact keeps_clrint_any hQ j true s h

theorem keeps_int {i : CtlrId} {Q : xq_device → Prop} (hQ : Stable i Q) (s : Sys)
    (h : Q (s.dev i)) : Q ((xq_int s).2.dev i) := by
  unfold xq_int
  cases ha : xq_int_at .xqa s with
  | some r => exact keeps_int_at hQ .xqa s r ha h
  | none =>
    cases hb : xq_int_at .xqb s with
    | some r => exact keeps_int_at hQ .xqb s r hb h
    | none => exact h

theorem irq_ok_wr (D : CtlrId → eth_device) (fuel : Nat) (i : CtlrId) (data PA : Nat) (s : Sys)
    (r : Nat × Sys) (h : xq_wr (link D fuel) fuel i data PA s = some r) (hq : irq_ok (s.dev i))
    (hm : (r.2.dev i).mode ≠ XQ_T_DELQA_PLUS) : irq_ok (r.2.dev i) := by
  have hQ := irq_ok_stable i
  have hK : Respects (link D fuel) i irq_ok := link_respects hQ D fuel
  have hm0 : ¬ (s.ctlr i).var.mode = XQ_T_DELQA_PLUS := hq.1
  unfold xq_wr at h
  simp only [if_neg hm0] at h
  obtain ⟨s1, hs1, hr⟩ := Option.map_eq_some'.mp h
  rw [← hr] at hm ⊢
  show irq_ok (s1.dev i)
  have hm1 : (s1.dev i).mode ≠ XQ_T_DELQA_PLUS := hm
  clear hm hr h
  split at hs1
  · split_ifs at hs1
    · simp only [Option.some.injEq] at hs1
      rw [← hs1, dev_setDev_same]
      exact keep_quiet hQ hq ⟨rfl, rfl, rfl, rfl⟩
    · simp only [Option.some.injEq] at hs1
      rw [← hs1]
      exact hq
  · split_ifs at hs1
    all_goals
      simp only [Option.some.injEq] at hs1
      rw [← hs1] at hm1 ⊢
    all_goals first
      | exact hq
      | (rw [dev_setCtlr_same] at hm1 ⊢
         exact irq_ok_of_eq hq hm1 rfl rfl)
  · simp only [Option.some.injEq] at hs1
    rw [← hs1, dev_setDev_same]
    exact keep_quiet hQ hq ⟨rfl, rfl, rfl, rfl⟩
  · obtain ⟨r1, hr1, hx⟩ := Option.map_eq_some'.mp hs1
    rw [← hx]
    refine keeps_dispatch_rbdl hQ hK fuel _ r1 hr1 ?_
    rw [dev_setDev_same]
    exact keep_quiet hQ hq ⟨rfl, rfl, rfl, rfl⟩
  · simp only [Option.some.injEq] at hs1
    rw [← hs1, dev_setDev_same]
    exact keep_quiet hQ hq ⟨rfl, rfl, rfl, rfl⟩
  · obtain ⟨r1, hr1, hx⟩ := Option.map_eq_some'.mp hs1
    rw [← hx]
    refine keeps_dispatch_xbdl hQ hK fuel _ r1 hr1 ?_
    rw [dev_setDev_same]
    exact keep_quiet hQ hq ⟨rfl, rfl, rfl, rfl⟩
  · simp only [Option.some.injEq] at hs1
    rw [← hs1]
    exact irq_ok_wr_var i data s hq
  · simp only [Option.some.injEq] at hs1
    rw [← hs1]
    exact irq_ok_wr_csr i data s hq
  · simp only [Option.some.injEq] at hs1
    rw [← hs1]
    exact hq

/-- Every state that the controller reaches while it stays in classic mode has the
property `irq_ok`. -/
theorem reach_irq_ok (i : CtlrId) (s : Sys) (h : classic_reach i s) : irq_ok (s.dev i) := by
  have hQ := irq_ok_stable i
  induction h with
  | reset s => exact irq_ok_reset i s
  | wr D fuel data PA s r _ hw hm ih => exact irq_ok_wr D fuel i data PA s r hw ih hm
  | rbdl D fuel s r _ hw ih => exact keeps_rbdl hQ (link_respects hQ D fuel) fuel s r hw ih
  | xbdl D fuel s r _ hw ih => exact keeps_xbdl hQ (link_respects hQ D fuel) fuel s r hw ih
  | svc D fuel s r _ hw ih => exact keeps_svc_ex hQ (link_respects hQ D fuel) fuel s r hw ih
  | write_callback status s _ ih => exact keeps_write_callback hQ status s ih
  | read D s _ ih => exact keeps_eth_read hQ D s ih
  | read_callback send s _ ih => exact keeps_read_callback hQ send s ih
  | tmr s _ ih => exact irq_ok_tmrsvc i s ih
  | int s _ ih => exact keeps_int hQ s ih
  | other s t _ ht ih => rw [ht]; exact ih

/-- C28 (classic interrupt flag implies its cause): in every state that a controller reaches
from `xq_reset` while it stays in classic mode, by register writes, descriptor processing,
the receive and timer services, transport callbacks and interrupt acknowledgment, the
controller is in classic mode, and its flag `irq` is 1 only if IE is set in the CSR and at
least one of XI and RI is set. -/
theorem classic_irq_has_cause (i : CtlrId) (s : Sys) (h : classic_reach i s) :
    (s.dev i).mode ≠ XQ_T_DELQA_PLUS ∧
    ((s.dev i).irq = 1 →
      (s.dev i).csr &&& XQ_CSR_IE ≠ 0 ∧
        ((s.dev i).csr &&& XQ_CSR_XI ≠ 0 ∨ (s.dev i).csr &&& XQ_CSR_RI ≠ 0)) := by
  have hi := reach_irq_ok i s h
  refine ⟨hi.1, fun h1 => ⟨(hi.2 h1).1, ?_⟩⟩
  have hx := (and_XIRI_ne_zero _).1 (hi.2 h1).2
  rcases hx with hx | hx
  · exact Or.inl ((and_two_pow_ne_zero_iff _ 7).2 hx)
  · exact Or.inr ((and_two_pow_ne_zero_iff _ 15).2 hx)

theorem classic_irq_has_cause_witness :
    classic_reach .xqa
      (xq_write_callback .xqa 0 (xq_wr_csr .xqa 0x40 (xq_reset .xqa delqa_t).2).2) ∧
    ((xq_write_callback .xqa 0 (xq_wr_csr .xqa 0x40 (xq_reset .xqa delqa_t).2).2).dev .xqa).irq
      = 1 ∧
    ((xq_write_callback .xqa 0 (xq_wr_csr .xqa 0x40 (xq_reset .xqa delqa_t).2).2).dev .xqa).csr
      &&& XQ_CSR_IE ≠ 0 :=
  ⟨classic_reach.write_callback 0 _
      (classic_reach.wr (fun _ => {}) 0 0x40 14 _
        (SCPE_OK, (xq_wr_csr .xqa 0x40 (xq_reset .xqa delqa_t).2).2)
        (classic_reach.reset delqa_t) rfl (by decide)),
    by decide,
    ((classic_irq_has_cause .xqa _
      (classic_reach.write_callback 0 _
        (classic_reach.wr (fun _ => {}) 0 0x40 14 _
          (SCPE_OK, (xq_wr_csr .xqa 0x40 (xq_reset .xqa delqa_t).2).2)
          (classic_reach.reset delqa_t) rfl (by decide)))).2 (by decide)).1⟩

/-! ## C9: instances, and a failing write inside setup processing -/

/-- C9 as stated does not hold.  In the state `tx_mop` controller XQA is a DELQA in classic
mode with CSR 0, and the transmit list at 0x1000 starts with a valid end of message that is
a setup packet with a MOP element block of type 1.  `xq_process_xbdl` passes the packet to
`xq_process_setup`, where `xq_process_mop` writes the station address to guest address 0;
the write fails, and `xq_nxm_error` sets NI, XI, XL and RL (CSR 0x00B4).  The walk does not
stop at that descriptor: the iteration writes its status words and goes on, the descriptor
at 0x100C is fetched, and the function returns from there with `xbdl_ba = 0x100C`. -/
theorem nxm_reporting_counterexample :
    (tx_mop.dev .xqa).mode ≠ XQ_T_DELQA_PLUS ∧ (tx_mop.dev .xqa).type ≠ XQ_T_DEQNA ∧
    (tx_mop.dev .xqa).csr = 0 ∧ (tx_mop.dev .xqa).xbdl_ba = 0x1000 ∧
    xbdl_reaches_eom .xqa (xbdl_start .xqa tx_mop) ∧
    (tx_mop_eom.dev .xqa).xbdl_buf.get 1 &&& XQ_DSC_S ≠ 0 ∧
    (tx_mop_eom.dev .xqa).write_buffer.msg.getD 0 0 ≠ 0 ∧
    (tx_mop_eom.dev .xqa).write_buffer.msg.getD 128 0 = 1 ∧
    (Map_WriteB tx_mop_eom.mem 0
      (bytes_at (((xq_process_setup .xqa tx_mop_eom).2.1.dev .xqa).setup.macs.getD 0 []) 0 6)).1
        ≠ 0 ∧
    ((xq_process_setup .xqa tx_mop_eom).2.1.dev .xqa).csr = 0x00B4 ∧
    (xbdl_run (link (fun _ => {}) 2) 2 .xqa 1 (xbdl_start .xqa tx_mop)).map
        (fun t => ((t.dev .xqa).xbdl_ba, (t.dev .xqa).csr, word_at t.mem 0x100A)) =
      some (0x100C, 0x00B4, some 1) ∧
    (xq_process_xbdl (link (fun _ => {}) 2) 2 .xqa tx_mop).map
        (fun r => (r.1, (r.2.dev .xqa).xbdl_ba, (r.2.dev .xqa).csr)) =
      some (SCPE_OK, 0x100C, 0x00B4) := by
  set_option maxRecDepth 100000 in
  refine ⟨by decide, by decide, by decide, by decide, ?_, by decide, by decide, by decide,
    by decide, by decide, by decide, by decide⟩
  unfold xbdl_reaches_eom
  decide

/-- Instances of the amended C9: in the state `rx_nxm` the write of the packet data fails and
the CSR goes from IE (0x0040) to 0x00F4; in the state `tx_nxm` the read of the transmit
buffer fails, with the same CSR; in the state `tx_mop_eom` the write of the first MOP element
block fails in `xq_process_mop`, and the CSR goes from 0 to 0x00B4; in the turbo state
`turbo_idle` the response register becomes 0x9000. -/
theorem nxm_reporting_witness :
    (rbdl_access_fails .xqa rx_nxm ∧
      ∃ s1, rbdl_step .xqa rx_nxm = .ret SCPE_OK s1 ∧ (s1.dev .xqa).csr = 0x00F4) ∧
    (xbdl_access_fails .xqa tx_nxm ∧
      ∀ K : Collab, ∃ s1, xbdl_loop K 0 1 .xqa tx_nxm = some (SCPE_OK, s1) ∧
        (s1.dev .xqa).csr = 0x00F4) ∧
    ((xq_process_mop .xqa tx_mop_eom).dev .xqa).csr = 0x00B4 ∧
    ((xq_nxm_error .xqa turbo_idle).2.dev .xqa).srr = 0x9000 ∧
    ((xq_nxm_error .xqa turbo_idle).2.dev .xqa).csr = XQ_CSR_IE := by
  have hr : rbdl_access_fails .xqa rx_nxm := by
    unfold rbdl_access_fails
    decide
  have hx : xbdl_access_fails .xqa tx_nxm := by
    unfold xbdl_access_fails
    decide
  have hc : (XQ_CSR_IE ||| (XQ_CSR_NI ||| XQ_CSR_XI ||| XQ_CSR_XL ||| XQ_CSR_RL)) &&& 65535 = 0x00F4 := by
    decide
  refine ⟨⟨hr, ?_⟩, ⟨hx, fun K => ?_⟩, ?_, ?_, ?_⟩
  · obtain ⟨s1, h1, _, h3, _⟩ := (nxm_reporting no_link 0 .xqa rx_nxm).1 (by decide) hr
    exact ⟨s1, h1, h3.trans hc⟩
  · obtain ⟨s1, _, h2, h3, _⟩ := (nxm_reporting K 0 .xqa tx_nxm).2.1 (by decide) hx
    exact ⟨s1, h2 0, h3.trans hc⟩
  · set_option maxRecDepth 100000 in
    exact ((nxm_reporting no_link 0 .xqa tx_mop_eom).2.2.2.1 (by decide) (by decide)
      (by decide) (by decide)).1.trans (by decide)
  · exact ((nxm_reporting no_link 0 .xqa turbo_idle).2.2.2.2.2.2.2 (by decide)).2.1.trans
      (by decide)
  · exact ((nxm_reporting no_link 0 .xqa turbo_idle).2.2.2.2.2.2.2 (by decide)).2.2.trans
      (by decide)

end XQ
